import Mathlib

/-! USB host hub application layer (`src/host/class/usb_host_hub_app.c`)

A shallow embedding of the hub state machines of the NXP USB host stack:
the hub-level machine (`USB_HostHubProcess`), the port attach and detach
sub-machines, the interrupt-IN dispatcher, the two transfer callbacks, the
device-event entry point, the look-up functions by hub address, port removal
and the suspend chain of the low-power configuration.

Conventions of the embedding.
* Pointers are `Option Nat` (`none` is `NULL`); a hub instance is named by
  the natural number that stands for its address.
* C integers are `Nat`; narrowing conversions are written `% 2 ^ w`.
* A function returns `none` when the C code would dereference `NULL` or
  index outside an array.
* Everything the code calls but does not define (transfer submission, the
  enumeration engine, allocation) is a field of `Env`, and every such call is
  appended to a chronological `log`.
-/

namespace UsbHostHub

/-! ## Constants of `usb_host_hub.h` and `usb_spec.h` -/

/-- Modelled from the spec: the USB 2.0 hub port status bit `PORT_CONNECTION`
(section 6 lists the selectors; the header defining them is not under src/). -/
def PORT_CONNECTION : Nat := 0
/-- Modelled from the spec: USB 2.0 selector `PORT_ENABLE`. -/
def PORT_ENABLE : Nat := 1
/-- Modelled from the spec: USB 2.0 selector `PORT_SUSPEND`. -/
def PORT_SUSPEND : Nat := 2
/-- Modelled from the spec: USB 2.0 selector `PORT_OVER_CURRENT`. -/
def PORT_OVER_CURRENT : Nat := 3
/-- Modelled from the spec: USB 2.0 selector `PORT_RESET`. -/
def PORT_RESET : Nat := 4
/-- Modelled from the spec: USB 2.0 selector `PORT_POWER`. -/
def PORT_POWER : Nat := 8
/-- Modelled from the spec: USB 2.0 selector `PORT_LOW_SPEED`. -/
def PORT_LOW_SPEED : Nat := 9
/-- Modelled from the spec: USB 2.0 selector `PORT_HIGH_SPEED`. -/
def PORT_HIGH_SPEED : Nat := 10
/-- Modelled from the spec: USB 2.0 selector `C_PORT_CONNECTION`. -/
def C_PORT_CONNECTION : Nat := 16
/-- Modelled from the spec: USB 2.0 selector `C_PORT_ENABLE`. -/
def C_PORT_ENABLE : Nat := 17
/-- Modelled from the spec: USB 2.0 selector `C_PORT_SUSPEND`. -/
def C_PORT_SUSPEND : Nat := 18
/-- Modelled from the spec: USB 2.0 selector `C_PORT_OVER_CURRENT`. -/
def C_PORT_OVER_CURRENT : Nat := 19
/-- Modelled from the spec: USB 2.0 selector `C_PORT_RESET`. -/
def C_PORT_RESET : Nat := 20
/-- Modelled from the spec: USB 2.0 hub selector `C_HUB_LOCAL_POWER`. -/
def C_HUB_LOCAL_POWER : Nat := 0
/-- Modelled from the spec: USB 2.0 hub selector `C_HUB_OVER_CURRENT`. -/
def C_HUB_OVER_CURRENT : Nat := 1
/-- Modelled from the spec: `RESET_TIMES = 4` (section 3 and section 6). -/
def USB_HOST_HUB_PORT_RESET_TIMES : Nat := 4
/-- Modelled from the spec: the hub class code `0x09` (section 6). -/
def USB_HOST_HUB_CLASS_CODE : Nat := 9
/-- Modelled from the spec: the hub subclass code `0` (section 6). -/
def USB_HOST_HUB_SUBCLASS_CODE_NONE : Nat := 0
/-- Modelled from the spec: speed code FULL of `usb_spec.h` (not under src/). -/
def USB_SPEED_FULL : Nat := 0
/-- Modelled from the spec: speed code LOW of `usb_spec.h` (not under src/). -/
def USB_SPEED_LOW : Nat := 1
/-- Modelled from the spec: speed code HIGH of `usb_spec.h` (not under src/). -/
def USB_SPEED_HIGH : Nat := 2
/-- Modelled from the spec: the think-time field of `wHubCharacteristics`
occupies bits 5 and 6 of its first byte (USB 2.0, table 11-13). -/
def USB_HOST_HUB_DESCRIPTOR_CHARACTERISTICS_THINK_TIME_MASK : Nat := 0x60
/-- Modelled from the spec: shift of the think-time field. -/
def USB_HOST_HUB_DESCRIPTOR_CHARACTERISTICS_THINK_TIME_SHIFT : Nat := 5

/-! ## Enumerations of `usb_host_hub_app.h` -/

/-- The enumeration `usb_host_hub_prime_status_t`. -/
inductive PrimeStatus
  | kPrimeNone
  | kPrimeHubControl
  | kPrimePortControl
  | kPrimeInterrupt
  deriving DecidableEq, Repr

/-- The enumeration `usb_host_hub_app_status_t`. -/
inductive HubAppStatus
  | kHubRunIdle
  | kHubRunInvalid
  | kHubRunWaitSetInterface
  | kHubRunGetDescriptor7
  | kHubRunGetDescriptor
  | kHubRunSetPortPower
  | kHubRunGetStatusDone
  | kHubRunClearDone
  deriving DecidableEq, Repr

/-- The enumeration `usb_host_port_app_status_t`; the last three values
exist in the low-power configuration only. -/
inductive PortAppStatus
  | kPortRunIdle
  | kPortRunInvalid
  | kPortRunWaitPortChange
  | kPortRunCheckCPortConnection
  | kPortRunGetPortConnection
  | kPortRunCheckPortConnection
  | kPortRunWaitPortResetDone
  | kPortRunWaitCPortReset
  | KPortRunCheckCPortReset
  | kPortRunResetAgain
  | kPortRunPortAttached
  | kPortRunCheckPortDetach
  | kPortRunGetConnectionBit
  | kPortRunCheckConnectionBit
  | kPortRunClearCPortSuspend
  | kPortRunCheckPortSuspend
  | kPortRunPortSuspended
  deriving DecidableEq, Repr

open PrimeStatus HubAppStatus PortAppStatus

/-- The codes of `USB_HostHelperGetPeripheralInformation` used by the file. -/
inductive InfoKind
  | kUSB_HostGetDeviceAddress
  | kUSB_HostGetDeviceLevel
  | kUSB_HostGetDeviceSpeed
  | kUSB_HostGetDeviceHSHubNumber
  | kUSB_HostGetHubThinkTime
  deriving DecidableEq, Repr

open InfoKind

/-! ## Data model -/

/-- The structure `usb_host_hub_port_instance_t`. -/
structure PortInstance where
  deviceHandle : Option Nat
  portStatus : PortAppStatus
  resetCount : Nat
  speed : Nat
  deriving DecidableEq, Repr

/-- The fields of `usb_host_hub_instance_t` that the application layer
reads or writes. `controlTransfer` is owned by the hub class driver: the
application layer only tests it against `NULL`. -/
structure HubInstance where
  hostHandle : Option Nat
  deviceHandle : Option Nat
  portList : Option (List PortInstance)
  portCount : Nat
  portIndex : Nat
  portProcess : Nat
  hubLevel : Nat
  totalThinktime : Nat
  hubStatus : HubAppStatus
  primeStatus : PrimeStatus
  invalid : Nat
  controlTransfer : Bool
  hubDescriptor : List Nat
  hubBitmapBuffer : List Nat
  hubStatusBuffer : List Nat
  portStatusBuffer : List Nat
  supportRemoteWakeup : Nat
  controlRetry : Nat
  deriving DecidableEq, Repr

/-- A hub class request or interrupt receive handed to the class driver. -/
inductive Request
  | setInterface (alternate : Nat)
  | getDescriptor (length : Nat)
  | getStatus
  | clearFeature (feature : Nat)
  | getPortStatus (port : Nat)
  | setPortFeature (port feature : Nat)
  | clearPortFeature (port feature : Nat)
  | interruptRecv (length : Nat)
  deriving DecidableEq, Repr

/-- The host events the application layer raises through the host's
device callback (low-power configuration). -/
inductive HostEvent
  | kUSB_HostEventSuspended
  | kUSB_HostEventResumed
  | kUSB_HostEventNotSuspended
  deriving DecidableEq, Repr

/-- A request handed to `USB_HostSendHubRequest` (low-power configuration),
named by its setup packet: SET_FEATURE(DEVICE_REMOTE_WAKEUP) to the hub device
with the instance `hub` as callback parameter, and SET_FEATURE or
CLEAR_FEATURE of PORT_SUSPEND with `wIndex = port`. -/
inductive HostRequest
  | setRemoteWakeup (hub : Nat)
  | setPortSuspend (port : Nat)
  | clearPortSuspend (port : Nat)
  deriving DecidableEq, Repr

/-- One call that leaves the application layer. -/
inductive Action
  | submit (hub : Nat) (request : Request) (accepted : Bool)
  | attachDevice (host : Option Nat) (speed hubNumber portNumber level : Nat)
  | detachDevice (host : Option Nat) (device : Option Nat)
  | mutexCreate (ok : Bool)
  | mutexDestroy
  | hubInit (device : Option Nat) (ok : Bool)
  | hubDeinit (device : Option Nat) (hub : Nat)
  | memoryFree (hub : Nat)
  | hostEvent (device : Option Nat) (event : HostEvent)
  | sendPortReset (hub port : Nat)
  | hubRequest (device : Nat) (request : HostRequest) (accepted : Bool)
  | busSuspend (host : Nat)
  deriving DecidableEq, Repr

/-- The collaborators of the application layer and its compile-time
configuration (`lowPower` is `USB_HOST_CONFIG_LOW_POWER_MODE`, `maxPort` is
`USB_HOST_HUB_MAX_PORT`, `remoteWakeupTimes` is
`USB_HOST_HUB_REMOTE_WAKEUP_TIMES`). The first argument of the oracles
`accept`, `attachDevice`, `allocOk`, `mutexOk` and `hubInitOk` is the number
of calls logged so far, so such an oracle may answer each call differently.
The oracles `info` and `deviceHost` read the fields of the device instance
behind a handle; they answer the same throughout one call of an entry point,
and a statement about several calls whose answers may differ takes the
collaborators of each call separately. `fuel` bounds the iterations followed
in the dispatcher loop. -/
structure Env where
  lowPower : Bool
  maxPort : Nat
  remoteWakeupTimes : Nat
  accept : Nat → Nat → Request → Bool
  info : Nat → InfoKind → Nat
  attachDevice : Nat → Option Nat
  allocOk : Nat → Bool
  mutexOk : Nat → Bool
  hubInitOk : Nat → Bool
  deviceHost : Nat → Option Nat
  fuel : Nat

/-- The state one callback works on: the registry's `hubProcess`, the hub
instance, the `suspendedDevice` field of the hub's host instance and the
log. -/
structure HubCtx where
  hubProcess : Option Nat
  hub : HubInstance
  suspendedDevice : Option Nat
  log : List Action
  deriving DecidableEq, Repr

/-! ## Helpers -/

/-- The test `0U != ((1UL << n) & w)`. -/
def bitSet (n w : Nat) : Bool := ((1 <<< n) &&& w) != 0

/-- The macro `USB_LONG_FROM_LITTLE_ENDIAN_ADDRESS` on a byte buffer. -/
def USB_LONG_FROM_LITTLE_ENDIAN_ADDRESS (b : List Nat) : Nat :=
  (b.getD 0 0 % 256) ||| ((b.getD 1 0 % 256) <<< 8) ||| ((b.getD 2 0 % 256) <<< 16)
    ||| ((b.getD 3 0 % 256) <<< 24)

/-- The macro `USB_SHORT_FROM_LITTLE_ENDIAN_ADDRESS` on a byte buffer. -/
def USB_SHORT_FROM_LITTLE_ENDIAN_ADDRESS (b : List Nat) : Nat :=
  (b.getD 0 0 % 256) ||| ((b.getD 1 0 % 256) <<< 8)

/-- The call `USB_HostHelperGetPeripheralInformation(device, kind, &v)` where
`v` held `old`: a `NULL` device leaves `v` untouched. -/
def getInfo (E : Env) (device : Option Nat) (kind : InfoKind) (old : Nat) : Nat :=
  match device with
  | none => old
  | some d => E.info d kind

/-- Whether a request travels on the control pipe. -/
def Request.isControl : Request → Bool
  | Request.interruptRecv _ => false
  | _ => true

/-- The status the class driver returns for request `r` of hub `self`. -/
def accepted (E : Env) (self : Nat) (r : Request) (c : HubCtx) : Bool :=
  E.accept c.log.length self r

/-- Modelled from the spec: the hub-class request wrappers of section 6
(`hub_get_port_status`, `hub_set_port_feature`, ..., whose file is not under
src/). The state after the call: the call is logged with its status, and an
accepted control request occupies `controlTransfer` until it completes. -/
def submitted (E : Env) (self : Nat) (r : Request) (c : HubCtx) : HubCtx :=
  { c with
    log := c.log ++ [Action.submit self r (accepted E self r c)],
    hub := { c.hub with
      controlTransfer := c.hub.controlTransfer || (accepted E self r c && r.isControl) } }

/-- Assignment to `hubInstance->primeStatus`. -/
def setPrime (c : HubCtx) (p : PrimeStatus) : HubCtx :=
  { c with hub := { c.hub with primeStatus := p } }

/-- The function `USB_HostHubGetInterruptStatus` (the instance is not
`NULL`): primes the interrupt-IN pipe unless a transfer is outstanding. -/
def USB_HostHubGetInterruptStatus (E : Env) (self : Nat) (c : HubCtx) : HubCtx :=
  if c.hub.primeStatus ≠ kPrimeNone then c
  else
    let r := Request.interruptRecv ((c.hub.portCount >>> 3) + 1)
    if accepted E self r c then setPrime (submitted E self r c) kPrimeInterrupt
    else submitted E self r c

/-! ## The port sub-machines -/

/-- The outcome of the `switch` of a port sub-machine: the port instance
(`portInstance` points into `portList`), the rest of the state and the
local flag `processSuccess`. -/
structure PortStep where
  port : PortInstance
  ctx : HubCtx
  processSuccess : Bool

/-- The recurring pattern: submit a port control request; on success set
`primeStatus = kPrimePortControl` and `processSuccess = 1`. -/
def portRequest (E : Env) (self : Nat) (r : Request) (port : PortInstance)
    (c : HubCtx) : PortStep :=
  if accepted E self r c then
    { port := port, ctx := setPrime (submitted E self r c) kPrimePortControl,
      processSuccess := true }
  else { port := port, ctx := submitted E self r c, processSuccess := false }

/-- The pattern of both `SET_FEATURE(PORT_RESET)` sites: as `portRequest`,
and on success `resetCount` is decremented when it is positive. -/
def portResetRequest (E : Env) (self : Nat) (port : PortInstance) (c : HubCtx) :
    PortStep :=
  let r := Request.setPortFeature c.hub.portProcess PORT_RESET
  if accepted E self r c then
    { port := { port with
        resetCount := if port.resetCount > 0 then port.resetCount - 1 else port.resetCount },
      ctx := setPrime (submitted E self r c) kPrimePortControl,
      processSuccess := true }
  else { port := port, ctx := submitted E self r c, processSuccess := false }

/-- The speed chosen in state `KPortRunCheckCPortReset`. -/
def portSpeedOf (specStatus : Nat) : Nat :=
  if bitSet PORT_HIGH_SPEED specStatus then USB_SPEED_HIGH
  else if bitSet PORT_LOW_SPEED specStatus then USB_SPEED_LOW
  else USB_SPEED_FULL

/-- The `switch` of `USB_HostHubProcessPortAttach`. -/
def attachSwitch (E : Env) (self : Nat) (port : PortInstance) (c : HubCtx) : PortStep :=
  let specStatus := USB_LONG_FROM_LITTLE_ENDIAN_ADDRESS c.hub.portStatusBuffer
  match port.portStatus with
  | kPortRunWaitPortChange =>
      portRequest E self (Request.getPortStatus c.hub.portProcess)
        { port with portStatus := kPortRunCheckCPortConnection } c
  | kPortRunCheckCPortConnection =>
      if bitSet C_PORT_CONNECTION specStatus then
        portRequest E self (Request.clearPortFeature c.hub.portProcess C_PORT_CONNECTION)
          { port with portStatus := kPortRunGetPortConnection } c
      else if bitSet PORT_CONNECTION specStatus then
        portResetRequest E self { port with portStatus := kPortRunWaitPortResetDone } c
      else
        let feature :=
          if bitSet C_PORT_RESET specStatus then C_PORT_RESET
          else if bitSet C_PORT_ENABLE specStatus then C_PORT_ENABLE
          else if bitSet C_PORT_OVER_CURRENT specStatus then C_PORT_OVER_CURRENT
          else 0
        if feature ≠ 0 then
          portRequest E self (Request.clearPortFeature c.hub.portProcess feature)
            { port with portStatus := kPortRunWaitPortChange } c
        else { port := port, ctx := c, processSuccess := false }
  | kPortRunGetPortConnection =>
      portRequest E self (Request.getPortStatus c.hub.portProcess)
        { port with portStatus := kPortRunCheckPortConnection } c
  | kPortRunCheckPortConnection =>
      if bitSet PORT_CONNECTION specStatus then
        portResetRequest E self { port with portStatus := kPortRunWaitPortResetDone } c
      else { port := port, ctx := c, processSuccess := false }
  | kPortRunWaitPortResetDone =>
      { port := { port with portStatus := kPortRunWaitCPortReset },
        ctx := USB_HostHubGetInterruptStatus E self c, processSuccess := true }
  | kPortRunWaitCPortReset =>
      portRequest E self (Request.getPortStatus c.hub.portProcess)
        { port with portStatus := KPortRunCheckCPortReset } c
  | KPortRunCheckCPortReset =>
      if bitSet C_PORT_RESET specStatus then
        portRequest E self (Request.clearPortFeature c.hub.portProcess C_PORT_RESET)
          (if port.resetCount = 0 then
            { port with portStatus := kPortRunPortAttached, speed := portSpeedOf specStatus }
           else { port with portStatus := kPortRunResetAgain }) c
      else { port := port, ctx := c, processSuccess := false }
  | kPortRunResetAgain =>
      portRequest E self (Request.getPortStatus c.hub.portProcess)
        { port with portStatus := kPortRunCheckPortConnection } c
  | kPortRunPortAttached =>
      let infoValue := getInfo E c.hub.deviceHandle kUSB_HostGetDeviceAddress 0
      let c1 : HubCtx := { c with
        log := c.log ++ [Action.attachDevice c.hub.hostHandle port.speed (infoValue % 256)
          c.hub.portProcess ((c.hub.hubLevel + 1) % 256)] }
      let port1 : PortInstance := { port with
        deviceHandle := (E.attachDevice c.log.length).orElse (fun _ => port.deviceHandle) }
      let c2 : HubCtx := { c1 with hub := { c1.hub with portProcess := 0 }, hubProcess := none }
      { port := { port1 with resetCount := USB_HOST_HUB_PORT_RESET_TIMES },
        ctx := USB_HostHubGetInterruptStatus E self c2, processSuccess := true }
  | _ => { port := port, ctx := c, processSuccess := false }

/-- The element `portList[portProcess - 1U]`; `none` when the list is `NULL`
or the index lies outside it (in particular when `portProcess = 0`). -/
def currentPort (hub : HubInstance) : Option PortInstance :=
  if hub.portProcess = 0 then none
  else hub.portList.bind (fun l => l[hub.portProcess - 1]?)

/-- The element `portList[idx]`, when there is one. -/
def portAt (hub : HubInstance) (idx : Nat) : Option PortInstance :=
  hub.portList.bind (fun l => l[idx]?)

/-- Write `port` back to `portList[idx]`. -/
def storePort (idx : Nat) (port : PortInstance) (c : HubCtx) : HubCtx :=
  { c with hub := { c.hub with portList := c.hub.portList.map (fun l => l.set idx port) } }

/-- The function `USB_HostHubProcessPortAttach`, given that the registry of
the hub's host exists: the `switch`, then the recover path when
`processSuccess` is still 0. -/
def USB_HostHubProcessPortAttach (E : Env) (self : Nat) (c : HubCtx) : Option HubCtx :=
  (currentPort c.hub).map (fun port =>
    let idx := c.hub.portProcess - 1
    let r := attachSwitch E self port c
    if r.processSuccess then storePort idx r.port r.ctx
    else
      let c1 : HubCtx := { r.ctx with
        hub := { r.ctx.hub with portProcess := 0 }, hubProcess := none }
      storePort idx
        { r.port with portStatus := kPortRunWaitPortChange,
                      resetCount := USB_HOST_HUB_PORT_RESET_TIMES }
        (USB_HostHubGetInterruptStatus E self c1))

/-- The body of case `kPortRunPortAttached` (and, in the low-power
configuration, `kPortRunPortSuspended`) of the detach sub-machine. -/
def detachStart (E : Env) (self : Nat) (port : PortInstance) (c : HubCtx) : PortStep :=
  portRequest E self (Request.getPortStatus c.hub.portProcess)
    { port with portStatus := kPortRunCheckPortDetach } c

/-- The `switch` of `USB_HostHubProcessPortDetach`; `none` when the
low-power branch dereferences a `NULL` host handle. -/
def detachSwitch (E : Env) (self : Nat) (port : PortInstance) (c : HubCtx) :
    Option PortStep :=
  let specStatus := USB_LONG_FROM_LITTLE_ENDIAN_ADDRESS c.hub.portStatusBuffer
  match port.portStatus with
  | kPortRunPortSuspended =>
      if E.lowPower then some (detachStart E self port c)
      else some { port := port, ctx := c, processSuccess := false }
  | kPortRunPortAttached => some (detachStart E self port c)
  | kPortRunCheckPortDetach =>
      let port1 : PortInstance := { port with portStatus := kPortRunGetConnectionBit }
      if bitSet C_PORT_CONNECTION specStatus then
        some (portRequest E self
          (Request.clearPortFeature c.hub.portProcess C_PORT_CONNECTION) port1 c)
      else if bitSet C_PORT_ENABLE specStatus then
        some (portRequest E self
          (Request.clearPortFeature c.hub.portProcess C_PORT_ENABLE) port1 c)
      else if E.lowPower && bitSet C_PORT_SUSPEND specStatus then
        let r := Request.clearPortFeature c.hub.portProcess C_PORT_SUSPEND
        if accepted E self r c then
          some { port := { port1 with portStatus := kPortRunClearCPortSuspend },
                 ctx := setPrime (submitted E self r c) kPrimePortControl,
                 processSuccess := true }
        else some { port := port1, ctx := submitted E self r c, processSuccess := false }
      else
        some (portRequest E self (Request.getPortStatus c.hub.portProcess)
          { port1 with portStatus := kPortRunCheckConnectionBit } c)
  | kPortRunGetConnectionBit =>
      some (portRequest E self (Request.getPortStatus c.hub.portProcess)
        { port with portStatus := kPortRunCheckConnectionBit } c)
  | kPortRunCheckConnectionBit =>
      if bitSet PORT_CONNECTION specStatus then
        some { port := { port with portStatus := kPortRunPortAttached }, ctx := c,
               processSuccess := false }
      else
        let c1 : HubCtx := { c with
          log := c.log ++ [Action.detachDevice c.hub.hostHandle port.deviceHandle] }
        let c2 : HubCtx := { c1 with hubProcess := none, hub := { c1.hub with portProcess := 0 } }
        some { port := { port with portStatus := kPortRunWaitPortChange, deviceHandle := none },
               ctx := USB_HostHubGetInterruptStatus E self c2, processSuccess := true }
  | kPortRunClearCPortSuspend =>
      if E.lowPower then
        some (portRequest E self (Request.getPortStatus c.hub.portProcess)
          { port with portStatus := kPortRunCheckPortSuspend } c)
      else some { port := port, ctx := c, processSuccess := false }
  | kPortRunCheckPortSuspend =>
      if E.lowPower then
        if c.hub.hostHandle.isNone then none
        else if bitSet PORT_SUSPEND specStatus then
          some { port := { port with portStatus := kPortRunPortSuspended },
                 ctx := { c with log := c.log ++
                   [Action.hostEvent c.suspendedDevice HostEvent.kUSB_HostEventSuspended] },
                 processSuccess := false }
        else
          some { port := { port with portStatus := kPortRunPortAttached },
                 ctx := { c with
                   log := c.log ++
                     [Action.hostEvent c.suspendedDevice HostEvent.kUSB_HostEventResumed],
                   suspendedDevice := none },
                 processSuccess := false }
      else some { port := port, ctx := c, processSuccess := false }
  | _ => some { port := port, ctx := c, processSuccess := false }

/-- The function `USB_HostHubProcessPortDetach`, given that the registry of
the hub's host exists: the `switch`, then the recover path when
`processSuccess` is still 0. -/
def USB_HostHubProcessPortDetach (E : Env) (self : Nat) (c : HubCtx) : Option HubCtx :=
  (currentPort c.hub).bind (fun port =>
    (detachSwitch E self port c).map (fun r =>
      let idx := c.hub.portProcess - 1
      if r.processSuccess then storePort idx r.port r.ctx
      else
        let c1 : HubCtx := { r.ctx with
          hubProcess := none, hub := { r.ctx.hub with portProcess := 0 } }
        storePort idx { r.port with portStatus := kPortRunPortAttached }
          (USB_HostHubGetInterruptStatus E self c1)))

/-- The function `USB_HostHubProcessPort`: a vacant port runs the attach
sub-machine, an occupied one the detach sub-machine. -/
def USB_HostHubProcessPort (E : Env) (self : Nat) (c : HubCtx) : Option HubCtx :=
  (currentPort c.hub).bind (fun port =>
    if port.deviceHandle = none then USB_HostHubProcessPortAttach E self c
    else USB_HostHubProcessPortDetach E self c)

/-! ## The hub-level machine -/

/-- The outcome of the `switch` of `USB_HostHubProcess`: the state and the
local flags `needPrimeInterrupt` and `processSuccess`; `returned` marks the
`return` taken inside the `switch`. -/
structure HubStep where
  ctx : HubCtx
  needPrimeInterrupt : Bool
  processSuccess : Bool
  returned : Bool

/-- The recurring pattern: submit a hub control request; on success set
`primeStatus = kPrimeHubControl` and `processSuccess = 1`, on failure raise
`needPrimeInterrupt` when `primeOnFail` is set. -/
def hubRequest (E : Env) (self : Nat) (r : Request) (primeOnFail : Bool) (c : HubCtx) :
    HubStep :=
  if accepted E self r c then
    { ctx := setPrime (submitted E self r c) kPrimeHubControl,
      needPrimeInterrupt := false, processSuccess := true, returned := false }
  else
    { ctx := submitted E self r c,
      needPrimeInterrupt := primeOnFail, processSuccess := false, returned := false }

/-- Assignment to `hubInstance->hubStatus`. -/
def setHubStatus (c : HubCtx) (st : HubAppStatus) : HubCtx :=
  { c with hub := { c.hub with hubStatus := st } }

/-- Modelled from the spec: memory allocation is an external collaborator
(section 1; `OSA_MemoryAllocate` is not under src/). The memory it hands out
is taken to be zero-filled, so a fresh port instance has every field 0. -/
def zeroPort : PortInstance :=
  { deviceHandle := none, portStatus := kPortRunIdle, resetCount := 0, speed := 0 }

/-- The loop that resets the port information as default. -/
def resetPort (p : PortInstance) : PortInstance :=
  { p with deviceHandle := none, resetCount := USB_HOST_HUB_PORT_RESET_TIMES,
           portStatus := kPortRunWaitPortChange }

/-- The `switch` of `USB_HostHubProcess`; `none` when the reset loop would
run past the end of `portList`. -/
def hubSwitch (E : Env) (self : Nat) (c : HubCtx) : Option HubStep :=
  match c.hub.hubStatus with
  | kHubRunWaitSetInterface =>
      some (hubRequest E self (Request.getDescriptor 7) false
        (setHubStatus c kHubRunGetDescriptor7))
  | kHubRunGetDescriptor7 =>
      let tmp0 := getInfo E c.hub.deviceHandle kUSB_HostGetHubThinkTime 0
      let tmp1 := ((c.hub.hubDescriptor.getD 3 0 % 256) &&&
          USB_HOST_HUB_DESCRIPTOR_CHARACTERISTICS_THINK_TIME_MASK) >>>
          USB_HOST_HUB_DESCRIPTOR_CHARACTERISTICS_THINK_TIME_SHIFT
      let tmp2 := ((tmp1 + 1) <<< 3) % 2 ^ 32
      let c1 : HubCtx := { c with hub := { c.hub with
        totalThinktime := (tmp0 % 2 ^ 16 + tmp2 % 2 ^ 16) % 2 ^ 16,
        portCount := c.hub.hubDescriptor.getD 2 0 % 256 } }
      if c1.hub.portCount > E.maxPort then
        some { ctx := c1, needPrimeInterrupt := false, processSuccess := false,
               returned := true }
      else
        some (hubRequest E self
          (Request.getDescriptor ((7 + (c1.hub.portCount >>> 3) + 1) % 2 ^ 16)) false
          (setHubStatus c1 kHubRunSetPortPower))
  | kHubRunSetPortPower =>
      let alloc : Option HubCtx :=
        if c.hub.portList = none then
          if E.allocOk c.log.length then
            some { c with hub := { c.hub with
              portList := some (List.replicate c.hub.portCount zeroPort), portIndex := 0 } }
          else none
        else some c
      match alloc with
      | none =>
          some { ctx := setHubStatus c kHubRunInvalid, needPrimeInterrupt := false,
                 processSuccess := false, returned := false }
      | some c1 =>
          if c1.hub.portIndex < c1.hub.portCount then
            let c2 : HubCtx := { c1 with hub := { c1.hub with
              portIndex := (c1.hub.portIndex + 1) % 256 } }
            some (hubRequest E self (Request.setPortFeature c2.hub.portIndex PORT_POWER)
              true c2)
          else
            match c1.hub.portList with
            | none => none
            | some l =>
                if l.length < c1.hub.portCount then none
                else
                  some { ctx := { c1 with hub := { c1.hub with
                           portProcess := 0,
                           portList := some ((l.take c1.hub.portCount).map resetPort
                             ++ l.drop c1.hub.portCount),
                           hubStatus := kHubRunIdle } },
                         needPrimeInterrupt := true, processSuccess := false,
                         returned := false }
  | kHubRunGetStatusDone =>
      let tmp := USB_SHORT_FROM_LITTLE_ENDIAN_ADDRESS (c.hub.hubStatusBuffer.drop 2)
      let c1 := setHubStatus c kHubRunIdle
      if bitSet C_HUB_LOCAL_POWER tmp then
        let r := hubRequest E self (Request.clearFeature C_HUB_LOCAL_POWER) true c1
        some (if r.processSuccess then { r with ctx := setHubStatus r.ctx kHubRunClearDone }
              else r)
      else if bitSet C_HUB_OVER_CURRENT tmp then
        let r := hubRequest E self (Request.clearFeature C_HUB_OVER_CURRENT) true c1
        some (if r.processSuccess then { r with ctx := setHubStatus r.ctx kHubRunClearDone }
              else r)
      else
        some { ctx := c1, needPrimeInterrupt := true, processSuccess := false,
               returned := false }
  | kHubRunClearDone =>
      some { ctx := setHubStatus c kHubRunIdle, needPrimeInterrupt := true,
             processSuccess := false, returned := false }
  | _ => some { ctx := c, needPrimeInterrupt := false, processSuccess := false,
                returned := false }

/-- The function `USB_HostHubProcess`: the `switch`, then either priming
the interrupt-IN pipe (in `kHubRunIdle`) or, when the step failed, moving to
`kHubRunInvalid`. -/
def USB_HostHubProcess (E : Env) (self : Nat) (c : HubCtx) : Option HubCtx :=
  (hubSwitch E self c).map (fun r =>
    if r.returned then r.ctx
    else if r.needPrimeInterrupt then
      USB_HostHubGetInterruptStatus E self (setHubStatus r.ctx kHubRunIdle)
    else if r.processSuccess then r.ctx
    else setHubStatus r.ctx kHubRunInvalid)

/-! ## The dispatcher and the transfer callbacks -/

/-- The test of bit `portIndex` of the interrupt-IN bitmap:
`(0x01U << (portIndex & 0x07U)) & hubBitmapBuffer[portIndex >> 3U]`. -/
def bitmapHas (bitmap : List Nat) (portIndex : Nat) : Bool :=
  ((1 <<< (portIndex &&& 7)) &&& (bitmap.getD (portIndex >>> 3) 0 % 256)) != 0

/-- Bit `portIndex` of the bitmap held in `hubBitmapBuffer`. -/
def bitmapBit (hub : HubInstance) (portIndex : Nat) : Bool :=
  bitmapHas hub.hubBitmapBuffer portIndex

/-- The condition under which the hub-status bit may be served. -/
def hubBitAllowed (self : Nat) (c : HubCtx) : Bool :=
  c.hubProcess = none || (c.hubProcess = some self && c.hub.portProcess = 0)

/-- The condition under which the bit of port `portIndex` may be served. -/
def portBitAllowed (self : Nat) (c : HubCtx) (portIndex : Nat) : Bool :=
  c.hubProcess = none || (c.hubProcess = some self && c.hub.portProcess = 0)
    || (c.hubProcess = some self && c.hub.portProcess = portIndex)

/-- The `for` loop of `USB_HostHubProcessData` from index `portIndex` on,
followed by the final conditional priming. The index is 8 bits wide and
wraps; `fuel` bounds the iterations followed, and `none` also stands for a
loop that has not ended when the fuel is spent. -/
def scanBits (E : Env) (self : Nat) : Nat → Nat → HubCtx → Option HubCtx
  | 0, _, _ => none
  | fuel + 1, portIndex, c =>
      if portIndex ≤ c.hub.portCount then
        if bitmapBit c.hub portIndex then
          if portIndex = 0 then
            if hubBitAllowed self c then
              let c1 := setHubStatus c kHubRunGetStatusDone
              if accepted E self Request.getStatus c1 then
                some (setPrime (submitted E self Request.getStatus c1) kPrimeHubControl)
              else
                scanBits E self fuel ((portIndex + 1) % 256)
                  (setHubStatus (submitted E self Request.getStatus c1) kHubRunIdle)
            else scanBits E self fuel ((portIndex + 1) % 256) c
          else if portBitAllowed self c portIndex then
            if c.hub.controlTransfer = false then
              USB_HostHubProcessPort E self
                { c with hubProcess := some self, hub := { c.hub with portProcess := portIndex } }
            else some (USB_HostHubGetInterruptStatus E self c)
          else scanBits E self fuel ((portIndex + 1) % 256) c
        else scanBits E self fuel ((portIndex + 1) % 256) c
      else some (USB_HostHubGetInterruptStatus E self c)

/-- The function `USB_HostHubProcessData`. -/
def USB_HostHubProcessData (E : Env) (self : Nat) (c : HubCtx) : Option HubCtx :=
  scanBits E self E.fuel 0 c

/-- The function `USB_HostHubControlCallback` after the registry lookup
succeeded; `status` is `true` for `kStatus_USB_Success`. -/
def USB_HostHubControlCallback (E : Env) (self : Nat) (status : Bool) (c : HubCtx) :
    Option HubCtx :=
  if c.hub.invalid = 1 then some c
  else if status = false then
    let c1 : HubCtx := { c with
      hub := { c.hub with primeStatus := kPrimeNone, portProcess := 0 }, hubProcess := none }
    some (USB_HostHubGetInterruptStatus E self c1)
  else if c.hub.primeStatus = kPrimeHubControl then
    USB_HostHubProcess E self (setPrime c kPrimeNone)
  else if c.hub.primeStatus = kPrimePortControl then
    USB_HostHubProcessPort E self (setPrime c kPrimeNone)
  else some c

/-- The function `USB_HostHubInterruptInCallback` after the registry lookup
succeeded; `status` is `true` for `kStatus_USB_Success`. -/
def USB_HostHubInterruptInCallback (E : Env) (self : Nat) (status : Bool) (c : HubCtx) :
    Option HubCtx :=
  if c.hub.invalid = 1 then some c
  else
    let c1 := setPrime c kPrimeNone
    if status = false then
      if c1.hub.controlTransfer = false then
        some (USB_HostHubGetInterruptStatus E self
          { c1 with hubProcess := none, hub := { c1.hub with portProcess := 0 } })
      else some c1
    else USB_HostHubProcessData E self c1

/-! ## Transfer completions seen from one hub -/

/-- The data a completed control transfer has left in the instance. -/
inductive Reply
  | noData
  | portStatus (bytes : List Nat)
  | hubStatus (bytes : List Nat)
  | descriptor (bytes : List Nat)
  deriving DecidableEq, Repr

/-- A transfer completion delivered to a hub instance; `status` is `true`
for `kStatus_USB_Success`. -/
inductive HubEvent
  | interruptIn (bitmap : List Nat) (status : Bool)
  | controlDone (reply : Reply) (status : Bool)
  deriving DecidableEq, Repr

/-- Modelled from the spec: what the host controller and the hub class
driver (both outside src/) have done to the instance when the application
callback is entered: the received bytes are in the buffer handed over at
submission, and a completed control transfer has left `controlTransfer`. -/
def HubEvent.arrive (ev : HubEvent) (hub : HubInstance) : HubInstance :=
  match ev with
  | HubEvent.interruptIn bitmap _ => { hub with hubBitmapBuffer := bitmap }
  | HubEvent.controlDone reply _ =>
      let hub1 := { hub with controlTransfer := false }
      match reply with
      | Reply.noData => hub1
      | Reply.portStatus b => { hub1 with portStatusBuffer := b }
      | Reply.hubStatus b => { hub1 with hubStatusBuffer := b }
      | Reply.descriptor b => { hub1 with hubDescriptor := b }

/-- One completion on hub `self`: the arrival, then the callback. -/
def hubStep (E : Env) (self : Nat) (c : HubCtx) (ev : HubEvent) : Option HubCtx :=
  let c1 : HubCtx := { c with hub := ev.arrive c.hub }
  match ev with
  | HubEvent.interruptIn _ status => USB_HostHubInterruptInCallback E self status c1
  | HubEvent.controlDone _ status => USB_HostHubControlCallback E self status c1

/-- A sequence of completions on hub `self`, oldest first. -/
def hubRun (E : Env) (self : Nat) : HubCtx → List HubEvent → Option HubCtx
  | c, [] => some c
  | c, ev :: rest => (hubStep E self c ev).bind (fun c1 => hubRun E self c1 rest)

/-! ## The registries and the device-event entry point -/

/-- The structure `usb_host_hub_global_t`; `hubList` is the chain of
instances reached from the head through `next`, and `hubMutex` tells whether
the mutex exists. -/
structure HubGlobal where
  hostHandle : Option Nat
  hubList : List Nat
  hubMutex : Bool
  hubProcess : Option Nat
  deriving DecidableEq, Repr

/-- The fields of `usb_host_interface_t` read by the file; `handle` stands
for the address of the interface. -/
structure Interface where
  handle : Nat
  bInterfaceClass : Nat
  bInterfaceSubClass : Nat
  deriving DecidableEq, Repr

/-- The fields of `usb_host_configuration_t` read by the file:
`interfaceList` holds the first `interfaceCount` interfaces. -/
structure Configuration where
  interfaceList : List Interface
  bmAttributes : Nat
  deriving DecidableEq, Repr

/-- The values of `usb_status_t` the file returns or receives from the class
driver. -/
inductive UsbStatus
  | kStatus_USB_Success
  | kStatus_USB_Error
  | kStatus_USB_NotSupported
  | kStatus_USB_InvalidHandle
  | kStatus_USB_AllocFail
  deriving DecidableEq, Repr

/-- The values of `usb_host_event_t`; `other` covers the codes without a
`case`. -/
inductive EventCode
  | kUSB_HostEventAttach
  | kUSB_HostEventEnumerationDone
  | kUSB_HostEventDetach
  | other (code : Nat)
  deriving DecidableEq, Repr

open UsbStatus EventCode

/-- The module state: the registry array, the two stash slots (three in the
low-power configuration), the hub instances by address, the next unused
address, `suspendedDevice` of each host instance, and the log. -/
structure World where
  s_HubGlobalArray : List HubGlobal
  s_HubDeviceHandle : Option Nat
  s_HubInterfaceHandle : Option Interface
  s_HubConfiguration : Option Configuration
  hubs : Nat → Option HubInstance
  nextHub : Nat
  suspendedDevice : Nat → Option Nat
  log : List Action

/-- The index of the first registry from position `i` on that satisfies `p`. -/
def findSlot (p : HubGlobal → Bool) : List HubGlobal → Nat → Option Nat
  | [], _ => none
  | g :: rest, i => if p g then some i else findSlot p rest (i + 1)

/-- Assignment `s_HubGlobalArray[i].hostHandle = hostHandle`. -/
def claimSlot : List HubGlobal → Nat → Option Nat → List HubGlobal
  | [], _, _ => []
  | g :: rest, 0, hostHandle => { g with hostHandle := hostHandle } :: rest
  | g :: rest, i + 1, hostHandle => g :: claimSlot rest i hostHandle

/-- The function `USB_HostHubGetHubList`: the index of the registry (or
`none` for `NULL`) and the array afterwards. `USB_HOST_CONFIG_MAX_HOST` is
the length of the array. Each of the three loops compares its 8-bit index
with `(uint8_t)USB_HOST_CONFIG_MAX_HOST`, so it visits the first
`gs.length % 256` slots: all of them when the array has fewer than 256. -/
def USB_HostHubGetHubList (gs : List HubGlobal) (hostHandle : Option Nat) :
    Option Nat × List HubGlobal :=
  if gs.length = 1 then (some 0, gs)
  else
    match findSlot (fun g => g.hostHandle = hostHandle) (gs.take (gs.length % 256)) 0 with
    | some i => (some i, gs)
    | none =>
      match findSlot (fun g => g.hostHandle = none) (gs.take (gs.length % 256)) 0 with
      | some i => (some i, claimSlot gs i hostHandle)
      | none =>
        match findSlot (fun g => g.hubList = []) (gs.take (gs.length % 256)) 0 with
        | some i => (some i, claimSlot gs i hostHandle)
        | none => (none, gs)

/-- Run a callback of hub `self` against the module state: look the
registry of the hub's host up with `USB_HostHubGetHubList`, return at once
when there is none, and otherwise run `f` on the registry's `hubProcess`,
the instance and the log. The nested functions repeat the lookup with the
same handle; it then returns the same registry and changes nothing. The
result is `none` when `self` is no instance. -/
def withRegistry (w : World) (self : Nat) (f : HubCtx → Option HubCtx) : Option World :=
  match w.hubs self with
  | none => none
  | some hub =>
    match USB_HostHubGetHubList w.s_HubGlobalArray hub.hostHandle with
    | (none, gs) => some { w with s_HubGlobalArray := gs }
    | (some i, gs) =>
      match gs[i]? with
      | none => none
      | some g =>
        (f { hubProcess := g.hubProcess, hub := hub,
             suspendedDevice := hub.hostHandle.bind w.suspendedDevice,
             log := w.log }).map (fun c =>
          { w with
            s_HubGlobalArray := gs.set i { g with hubProcess := c.hubProcess },
            hubs := Function.update w.hubs self (some c.hub),
            suspendedDevice :=
              match hub.hostHandle with
              | none => w.suspendedDevice
              | some h => Function.update w.suspendedDevice h c.suspendedDevice,
            log := c.log })

/-- The callback `USB_HostHubControlCallback` with parameter `self`. -/
def controlCallback (E : Env) (w : World) (self : Nat) (status : Bool) : Option World :=
  withRegistry w self (USB_HostHubControlCallback E self status)

/-- The callback `USB_HostHubInterruptInCallback` with parameter `self`. -/
def interruptInCallback (E : Env) (w : World) (self : Nat) (status : Bool) : Option World :=
  withRegistry w self (USB_HostHubInterruptInCallback E self status)

/-- The loop of case `kUSB_HostEventAttach`: the first interface of hub
class and subclass 0, provided the level of the device is at most 5. -/
def attachScan (E : Env) (deviceHandle : Option Nat) : List Interface → Option Interface
  | [] => none
  | itf :: rest =>
      if itf.bInterfaceClass ≠ USB_HOST_HUB_CLASS_CODE then
        attachScan E deviceHandle rest
      else if itf.bInterfaceSubClass ≠ USB_HOST_HUB_SUBCLASS_CODE_NONE then
        attachScan E deviceHandle rest
      else if getInfo E deviceHandle kUSB_HostGetDeviceLevel 0 > 5 then
        attachScan E deviceHandle rest
      else some itf

/-- Modelled from the spec: `hub_init(device)` of the hub class driver (not
under src/) returns a fresh zeroed instance bound to the device, with the
host handle and the level the enumeration engine reports for it. -/
def newHubInstance (E : Env) (deviceHandle : Option Nat) : HubInstance :=
  { hostHandle := deviceHandle.bind E.deviceHost,
    deviceHandle := deviceHandle,
    portList := none, portCount := 0, portIndex := 0, portProcess := 0,
    hubLevel := getInfo E deviceHandle kUSB_HostGetDeviceLevel 0 % 256,
    totalThinktime := 0, hubStatus := kHubRunIdle, primeStatus := kPrimeNone,
    invalid := 0, controlTransfer := false,
    hubDescriptor := [], hubBitmapBuffer := [], hubStatusBuffer := [],
    portStatusBuffer := [], supportRemoteWakeup := 0, controlRetry := 0 }

/-- Modelled from the spec: the remote-wakeup bit of `bmAttributes` in the
configuration descriptor (USB 2.0, table 9-10). -/
def USB_DESCRIPTOR_CONFIGURE_ATTRIBUTE_REMOTE_WAKEUP_MASK : Nat := 0x20

/-- The registry after the mutex step of case `kUSB_HostEventEnumerationDone`:
a missing mutex is created, and stays missing when the creation fails. -/
def enumRegistry (E : Env) (w : World) (g : HubGlobal) : HubGlobal :=
  if g.hubMutex then g else { g with hubMutex := E.mutexOk w.log.length }

/-- The log after the mutex step of case `kUSB_HostEventEnumerationDone`. -/
def enumMutexLog (E : Env) (w : World) (g : HubGlobal) : List Action :=
  if g.hubMutex then w.log else w.log ++ [Action.mutexCreate (E.mutexOk w.log.length)]

/-- The instance of case `kUSB_HostEventEnumerationDone` just before
`USB_HostHubSetInterface` is called: the instance of the class driver for the
stashed device, in the low-power configuration with its remote-wakeup fields
set, with `primeStatus` and `hubStatus` assigned. -/
def enumInstance (E : Env) (w : World) : HubInstance :=
  let hub0 := newHubInstance E w.s_HubDeviceHandle
  let hub1 : HubInstance :=
    if E.lowPower then
      { hub0 with
        supportRemoteWakeup :=
          if ((w.s_HubConfiguration.map (fun cfg => cfg.bmAttributes)).getD 0 &&&
              USB_DESCRIPTOR_CONFIGURE_ATTRIBUTE_REMOTE_WAKEUP_MASK) ≠ 0 then 1 else 0,
        controlRetry := E.remoteWakeupTimes }
    else hub0
  { hub1 with primeStatus := kPrimeHubControl, hubStatus := kHubRunWaitSetInterface }

/-- The new instance (at address `w.nextHub`) and the log once
`USB_HostHubSetInterface` has returned: a rejected request leaves the
instance in `kHubRunInvalid`. -/
def enumCtx (E : Env) (w : World) (g : HubGlobal) : HubCtx :=
  let c0 : HubCtx :=
    { hubProcess := g.hubProcess, hub := enumInstance E w, suspendedDevice := none,
      log := enumMutexLog E w g ++ [Action.hubInit w.s_HubDeviceHandle true] }
  if accepted E w.nextHub (Request.setInterface 0) c0 then
    submitted E w.nextHub (Request.setInterface 0) c0
  else setHubStatus (submitted E w.nextHub (Request.setInterface 0) c0) kHubRunInvalid

/-- Case `kUSB_HostEventEnumerationDone` for registry `g` at index `i`:
create the mutex if needed, initialise the class instance from the stashed
device, link it at the head of the list and request SET_INTERFACE. The
result is `none` when the instance returned by the class driver is `NULL`
(it is linked without a check) or, in the low-power configuration, when
`s_HubConfiguration` is `NULL`. -/
def enumerationDone (E : Env) (w : World) (i : Nat) (g : HubGlobal) : Option World :=
  if w.s_HubDeviceHandle ≠ none ∧ w.s_HubInterfaceHandle ≠ none then
    if E.hubInitOk (enumMutexLog E w g).length = false then none
    else if E.lowPower && w.s_HubConfiguration.isNone then none
    else
      some { w with
        s_HubGlobalArray :=
          w.s_HubGlobalArray.set i { enumRegistry E w g with hubList := w.nextHub :: g.hubList },
        hubs := Function.update w.hubs w.nextHub (some (enumCtx E w g).hub),
        nextHub := w.nextHub + 1,
        log := (enumCtx E w g).log }
  else some w

/-- The search of case `kUSB_HostEventDetach` behind the head of the list:
the first instance whose device is `deviceHandle` is unlinked. The result is
the instance found (or `none`) and the remaining chain; the outer `none`
stands for a list entry that is no instance. -/
def unlinkAfter (hubs : Nat → Option HubInstance) (deviceHandle : Option Nat) :
    List Nat → Option (Option Nat × List Nat)
  | [] => some (none, [])
  | h :: rest =>
      match hubs h with
      | none => none
      | some hub =>
          if hub.deviceHandle = deviceHandle then some (some h, rest)
          else (unlinkAfter hubs deviceHandle rest).map (fun r => (r.1, h :: r.2))

/-- The loop that detaches the devices of the ports of a hub: the ports
afterwards and the calls made, in port order. -/
def detachPorts (host : Option Nat) : List PortInstance → List PortInstance × List Action
  | [] => ([], [])
  | p :: rest =>
      let r := detachPorts host rest
      if p.deviceHandle ≠ none then
        ({ p with deviceHandle := none } :: r.1, Action.detachDevice host p.deviceHandle :: r.2)
      else (p :: r.1, r.2)

/-- The part of case `kUSB_HostEventDetach` that works on the instance
found, at address `self`: `invalid` is set, the devices of its ports are
detached and the port list is freed. The result is the instance and the
calls made; `none` when `portCount` exceeds the length of a non-`NULL`
`portList`. -/
def detachInstance (self : Nat) (hub : HubInstance) : Option (HubInstance × List Action) :=
  match hub.portList with
  | none => some ({ hub with invalid := 1 }, [])
  | some l =>
      if l.length < hub.portCount then none
      else
        let d := detachPorts hub.hostHandle (l.take hub.portCount)
        some ({ hub with invalid := 1, portList := some (d.1 ++ l.drop hub.portCount) },
          d.2 ++ [Action.memoryFree self])

/-- Case `kUSB_HostEventDetach` for registry `g` at index `i`. The result is
`none` when the list is empty (its head is dereferenced without a check),
when a list entry is no instance, or when `detachInstance` is. -/
def detachEvent (w : World) (i : Nat) (g : HubGlobal) (deviceHandle : Option Nat) :
    Option World :=
  match g.hubList with
  | [] => none
  | _ :: _ =>
    (unlinkAfter w.hubs deviceHandle g.hubList).bind (fun r =>
      let afterHub : Option ((Nat → Option HubInstance) × List Action × Option Nat) :=
        match r.1 with
        | none => some (w.hubs, w.log, g.hubProcess)
        | some self =>
            (w.hubs self).bind (fun hub =>
              (detachInstance self hub).map (fun d =>
                (Function.update w.hubs self (some d.1),
                 w.log ++ d.2 ++ [Action.hubDeinit deviceHandle self],
                 if g.hubProcess = some self then none else g.hubProcess)))
      afterHub.map (fun t =>
        let destroy : Bool := r.2 = [] && g.hubMutex
        { w with
          s_HubGlobalArray :=
            w.s_HubGlobalArray.set i
              { g with hubList := r.2, hubProcess := t.2.2,
                       hubMutex := if destroy then false else g.hubMutex },
          hubs := t.1,
          log := if destroy then t.2.1 ++ [Action.mutexDestroy] else t.2.1 }))

/-- The function `USB_HostHubDeviceEvent`: the returned status and the
module state afterwards. -/
def USB_HostHubDeviceEvent (E : Env) (w : World) (hostHandle deviceHandle : Option Nat)
    (configuration : Configuration) (eventCode : EventCode) : Option (UsbStatus × World) :=
  match USB_HostHubGetHubList w.s_HubGlobalArray hostHandle with
  | (none, gs) => some (kStatus_USB_Error, { w with s_HubGlobalArray := gs })
  | (some i, gs) =>
    let w1 : World := { w with s_HubGlobalArray := gs }
    match gs[i]? with
    | none => none
    | some g =>
      match eventCode with
      | kUSB_HostEventAttach =>
          match attachScan E deviceHandle configuration.interfaceList with
          | some itf =>
              some (kStatus_USB_Success,
                { w1 with
                  s_HubDeviceHandle := deviceHandle,
                  s_HubInterfaceHandle := some itf,
                  s_HubConfiguration :=
                    if E.lowPower then some configuration else w1.s_HubConfiguration })
          | none => some (kStatus_USB_NotSupported, w1)
      | kUSB_HostEventEnumerationDone =>
          (enumerationDone E w1 i g).map (fun w2 => (kStatus_USB_Success, w2))
      | kUSB_HostEventDetach =>
          (detachEvent w1 i g deviceHandle).map (fun w2 => (kStatus_USB_Success, w2))
      | other _ => some (kStatus_USB_Success, w1)

/-! ## Look-up by address, port removal and the low-power entry points -/

/-- The loop shared by `USB_HostHubRemovePort`, `USB_HostHubGetHsHubNumber`,
`USB_HostHubGetHsHubPort` and `USB_HostHubGetHubDeviceHandle`: walk the chain
and stop at the first instance whose device address, read with
`USB_HostHelperGetPeripheralInformation`, equals `address`. The local
variable that receives the address is declared outside the loop: `old` is
the value it holds when the iteration starts. The result is the instance the
loop stopped at (`none` for `NULL`); the outer `none` stands for a list entry
that is no instance. -/
def findHubByAddress (E : Env) (hubs : Nat → Option HubInstance) (address : Nat) :
    List Nat → Nat → Option (Option Nat)
  | [], _ => some none
  | h :: rest, old =>
      match hubs h with
      | none => none
      | some hub =>
          if getInfo E hub.deviceHandle kUSB_HostGetDeviceAddress old = address then
            some (some h)
          else
            findHubByAddress E hubs address rest
              (getInfo E hub.deviceHandle kUSB_HostGetDeviceAddress old)

/-- The function `USB_HostHubRemovePort`; `hubNumber` and `portNumber` are
8-bit values. The result is `none` when a list entry is no instance, when
`portList` is `NULL` or when `portNumber - 1U` is no index of it. The call of
`USB_HostHubSendPortReset` (hub class driver, its status is discarded) is
logged. -/
def USB_HostHubRemovePort (E : Env) (w : World) (hostHandle : Option Nat)
    (hubNumber portNumber : Nat) : Option (UsbStatus × World) :=
  match USB_HostHubGetHubList w.s_HubGlobalArray hostHandle with
  | (none, gs) => some (kStatus_USB_Error, { w with s_HubGlobalArray := gs })
  | (some i, gs) =>
    match gs[i]? with
    | none => none
    | some g =>
      match findHubByAddress E w.hubs hubNumber g.hubList 0 with
      | none => none
      | some none => some (kStatus_USB_Error, { w with s_HubGlobalArray := gs })
      | some (some self) =>
        match w.hubs self with
        | none => none
        | some hub =>
          match hub.portList with
          | none => none
          | some l =>
            if portNumber = 0 then none
            else
              match l[portNumber - 1]? with
              | none => none
              | some port =>
                some (kStatus_USB_Error,
                  { w with
                    s_HubGlobalArray := gs,
                    hubs := Function.update w.hubs self (some { hub with
                      portList := some (l.set (portNumber - 1)
                        { port with deviceHandle := none, portStatus := kPortRunInvalid }),
                      portProcess :=
                        if hub.portProcess = portNumber then 0 else hub.portProcess }),
                    log := w.log ++ [Action.sendPortReset self portNumber] })

/-- The function `USB_HostHubGetHsHubNumber`: the returned number and the
registry array afterwards; `parentHubNo` is an 8-bit value. The result is
`none` when a list entry is no instance. -/
def USB_HostHubGetHsHubNumber (E : Env) (w : World) (hostHandle : Option Nat)
    (parentHubNo : Nat) : Option (Nat × World) :=
  match USB_HostHubGetHubList w.s_HubGlobalArray hostHandle with
  | (none, gs) => some (0, { w with s_HubGlobalArray := gs })
  | (some i, gs) =>
    match gs[i]? with
    | none => none
    | some g =>
      match findHubByAddress E w.hubs parentHubNo g.hubList 0 with
      | none => none
      | some none => some (0, { w with s_HubGlobalArray := gs })
      | some (some self) =>
        match w.hubs self with
        | none => none
        | some hub =>
          if getInfo E hub.deviceHandle kUSB_HostGetDeviceSpeed parentHubNo = USB_SPEED_HIGH then
            some (parentHubNo, { w with s_HubGlobalArray := gs })
          else
            some (getInfo E hub.deviceHandle kUSB_HostGetDeviceHSHubNumber 0,
              { w with s_HubGlobalArray := gs })

/-- The function `USB_HostHubGetHsHubPort`: the returned number and the
registry array afterwards; `parentHubNo` and `parentPortNo` are 8-bit values.
The result is `none` when a list entry is no instance. -/
def USB_HostHubGetHsHubPort (E : Env) (w : World) (hostHandle : Option Nat)
    (parentHubNo parentPortNo : Nat) : Option (Nat × World) :=
  match USB_HostHubGetHubList w.s_HubGlobalArray hostHandle with
  | (none, gs) => some (0, { w with s_HubGlobalArray := gs })
  | (some i, gs) =>
    match gs[i]? with
    | none => none
    | some g =>
      match findHubByAddress E w.hubs parentHubNo g.hubList 0 with
      | none => none
      | some none => some (0, { w with s_HubGlobalArray := gs })
      | some (some self) =>
        match w.hubs self with
        | none => none
        | some hub =>
          if getInfo E hub.deviceHandle kUSB_HostGetDeviceSpeed parentHubNo = USB_SPEED_HIGH then
            some (parentPortNo, { w with s_HubGlobalArray := gs })
          else
            some (getInfo E hub.deviceHandle kUSB_HostGetDeviceHSHubNumber 0,
              { w with s_HubGlobalArray := gs })

/-- The function `USB_HostHubGetHubDeviceHandle`: the instance found (`none`
for `NULL`) and the registry array afterwards; `parentHubNo` is an 8-bit
value. The result is `none` when a list entry is no instance. -/
def USB_HostHubGetHubDeviceHandle (E : Env) (w : World) (hostHandle : Option Nat)
    (parentHubNo : Nat) : Option (Option Nat × World) :=
  match USB_HostHubGetHubList w.s_HubGlobalArray hostHandle with
  | (none, gs) => some (none, { w with s_HubGlobalArray := gs })
  | (some i, gs) =>
    match gs[i]? with
    | none => none
    | some g =>
      (findHubByAddress E w.hubs parentHubNo g.hubList 0).map (fun r =>
        (r, { w with s_HubGlobalArray := gs }))

/-- The collaborators of the low-power entry points that belong to the host
instance and the device instances (their files are not under src/):
`sendOk n` tells whether the transfer of `USB_HostSendHubRequest` is obtained
and sent when `n` calls have been logged, `busControl n` is the status of the
controller's `controllerIoctl`, and `hubNumber` and `portNumber` are the
fields of that name of a device instance. -/
structure HostEnv where
  sendOk : Nat → Bool
  busControl : Nat → UsbStatus
  hubNumber : Nat → Nat
  portNumber : Nat → Nat

/-- The function `USB_HostSendHubRequest`: the returned status and the log
afterwards; `none` when `deviceHandle` is `NULL` (it is dereferenced without
a check). -/
def USB_HostSendHubRequest (H : HostEnv) (deviceHandle : Option Nat) (r : HostRequest)
    (log : List Action) : Option (UsbStatus × List Action) :=
  match deviceHandle with
  | none => none
  | some d =>
      some (if H.sendOk log.length then kStatus_USB_Success else kStatus_USB_Error,
        log ++ [Action.hubRequest d r (H.sendOk log.length)])

/-- The call `hostInstance->deviceCallback(hostInstance->suspendedDevice,
NULL, event)`. -/
def deviceCallback (w : World) (host : Nat) (event : HostEvent) : World :=
  { w with log := w.log ++ [Action.hostEvent (w.suspendedDevice host) event] }

/-- The function `USB_HostSetHubRequestCallback` with parameter `host`;
`status` is `true` for `kStatus_USB_Success`. -/
def USB_HostSetHubRequestCallback (w : World) (host : Nat) (status : Bool) : World :=
  if status then deviceCallback w host HostEvent.kUSB_HostEventSuspended
  else deviceCallback w host HostEvent.kUSB_HostEventNotSuspended

/-- The loop of `USB_HostHubSuspendDevice`, which is also the loop of the
success branch of `USB_HostHubRemoteWakeupCallback`: every instance visited
has `controlRetry` reloaded, and the first one with `supportRemoteWakeup` set
is sent SET_FEATURE(DEVICE_REMOTE_WAKEUP) and ends the loop. The result is
the instance the loop stopped at with the status of its request (`none` when
the loop ran off the chain), the instances and the log; the outer `none`
stands for a list entry that is no instance or a `NULL` device handle. -/
def wakeupScan (E : Env) (H : HostEnv) :
    List Nat → (Nat → Option HubInstance) → List Action →
      Option (Option (Nat × UsbStatus) × (Nat → Option HubInstance) × List Action)
  | [], hubs, log => some (none, hubs, log)
  | h :: rest, hubs, log =>
      match hubs h with
      | none => none
      | some hub =>
          if hub.supportRemoteWakeup ≠ 0 then
            (USB_HostSendHubRequest H hub.deviceHandle (HostRequest.setRemoteWakeup h) log).map
              (fun r =>
                (some (h, r.1),
                 Function.update hubs h
                   (some { hub with controlRetry := E.remoteWakeupTimes % 256 }),
                 r.2))
          else
            wakeupScan E H rest
              (Function.update hubs h
                (some { hub with controlRetry := E.remoteWakeupTimes % 256 }))
              log

/-- The last stage of suspending, written out in `USB_HostHubSuspendDevice`
and again in `USB_HostHubRemoteWakeupCallback`, entered with `status` equal
to `kStatus_USB_Error`: without a suspended device the bus is suspended
through the controller; otherwise SET_FEATURE(PORT_SUSPEND) goes to the hub
found by `USB_HostHubGetHubDeviceHandle` for the device's `hubNumber`, and
`status` keeps its value when there is none. -/
def suspendTarget (E : Env) (H : HostEnv) (w : World) (host : Nat) :
    Option (UsbStatus × World) :=
  match w.suspendedDevice host with
  | none =>
      some (H.busControl w.log.length, { w with log := w.log ++ [Action.busSuspend host] })
  | some dev =>
      (USB_HostHubGetHubDeviceHandle E w (some host) (H.hubNumber dev % 256)).bind (fun r =>
        match r.1 with
        | none => some (kStatus_USB_Error, r.2)
        | some h4 =>
            (r.2.hubs h4).bind (fun hub4 =>
              (USB_HostSendHubRequest H hub4.deviceHandle
                (HostRequest.setPortSuspend (H.portNumber dev % 256)) r.2.log).map
                (fun q => (q.1, { r.2 with log := q.2 }))))

/-- The instances linked behind `self` in the chain `l`, when `self` is in
it. -/
def chainAfter (self : Nat) : List Nat → Option (List Nat)
  | [] => none
  | h :: rest => if h = self then some rest else chainAfter self rest

/-- The chain that starts at `hubInstance->next` for the instance `self`:
what follows it in the list that links it. An instance no list links has no
successor in the embedding. -/
def nextChain (gs : List HubGlobal) (self : Nat) : List Nat :=
  (gs.findSome? (fun g => chainAfter self g.hubList)).getD []

/-- The function `USB_HostHubSuspendDevice`: the returned status and the
module state afterwards. -/
def USB_HostHubSuspendDevice (E : Env) (H : HostEnv) (w : World) (hostHandle : Option Nat) :
    Option (UsbStatus × World) :=
  match USB_HostHubGetHubList w.s_HubGlobalArray hostHandle with
  | (none, gs) => some (kStatus_USB_Error, { w with s_HubGlobalArray := gs })
  | (some i, gs) =>
    match gs[i]? with
    | none => none
    | some g =>
      match hostHandle with
      | none => some (kStatus_USB_InvalidHandle, { w with s_HubGlobalArray := gs })
      | some host =>
        match g.hubList with
        | [] =>
            some (H.busControl w.log.length,
              { w with s_HubGlobalArray := gs, log := w.log ++ [Action.busSuspend host] })
        | h :: rest =>
            (wakeupScan E H (h :: rest) w.hubs w.log).bind (fun r =>
              match r.1 with
              | some sent =>
                  some (sent.2, { w with s_HubGlobalArray := gs, hubs := r.2.1, log := r.2.2 })
              | none =>
                  suspendTarget E H
                    { w with s_HubGlobalArray := gs, hubs := r.2.1, log := r.2.2 } host)

/-- The function `USB_HostHubRemoteWakeupCallback` with parameter `param`;
`status` is `true` for `kStatus_USB_Success`. The result is `none` when
`param` or a list entry is no instance or a device handle that is
dereferenced is `NULL`. -/
def USB_HostHubRemoteWakeupCallback (E : Env) (H : HostEnv) (w : World) (param : Option Nat)
    (status : Bool) : Option World :=
  match param with
  | none => some w
  | some self =>
    match w.hubs self with
    | none => none
    | some hub =>
      match hub.hostHandle with
      | none => some w
      | some host =>
        if status then
          (wakeupScan E H (nextChain w.s_HubGlobalArray self)
            (Function.update w.hubs self
              (some { hub with controlRetry := E.remoteWakeupTimes % 256 })) w.log).bind
            (fun r =>
              match r.1 with
              | some sent =>
                  if sent.2 ≠ kStatus_USB_Success then
                    some (deviceCallback { w with hubs := r.2.1, log := r.2.2 } host
                      HostEvent.kUSB_HostEventNotSuspended)
                  else some { w with hubs := r.2.1, log := r.2.2 }
              | none =>
                  (suspendTarget E H { w with hubs := r.2.1, log := r.2.2 } host).map
                    (fun t =>
                      if t.1 ≠ kStatus_USB_Success then
                        deviceCallback t.2 host HostEvent.kUSB_HostEventNotSuspended
                      else t.2))
        else if hub.controlRetry ≠ 0 then
          (USB_HostSendHubRequest H hub.deviceHandle (HostRequest.setRemoteWakeup self)
            w.log).map (fun q =>
              if q.1 ≠ kStatus_USB_Success then
                deviceCallback
                  { w with
                    hubs := Function.update w.hubs self
                      (some { hub with controlRetry := hub.controlRetry - 1 }),
                    log := q.2 } host HostEvent.kUSB_HostEventNotSuspended
              else
                { w with
                  hubs := Function.update w.hubs self
                    (some { hub with controlRetry := hub.controlRetry - 1 }),
                  log := q.2 })
        else some (deviceCallback w host HostEvent.kUSB_HostEventNotSuspended)

/-- The function `USB_HostHubResumeDevice`: the returned status and the
module state afterwards. -/
def USB_HostHubResumeDevice (E : Env) (H : HostEnv) (w : World) (hostHandle : Option Nat) :
    Option (UsbStatus × World) :=
  match hostHandle with
  | none => some (kStatus_USB_InvalidHandle, w)
  | some host =>
    match w.suspendedDevice host with
    | none => some (kStatus_USB_InvalidHandle, w)
    | some dev =>
      (USB_HostHubGetHubDeviceHandle E w (some host) (H.hubNumber dev % 256)).bind (fun r =>
        match r.1 with
        | none => some (kStatus_USB_Error, r.2)
        | some h =>
            (r.2.hubs h).bind (fun hub =>
              (USB_HostSendHubRequest H hub.deviceHandle
                (HostRequest.clearPortSuspend (H.portNumber dev % 256)) r.2.log).map
                (fun q => (q.1, { r.2 with log := q.2 }))))

/-! ## Definitions used by the statements -/

/-- The interfaces that case `kUSB_HostEventAttach` looks for. -/
def isHubInterface (itf : Interface) : Bool :=
  itf.bInterfaceClass = USB_HOST_HUB_CLASS_CODE &&
    itf.bInterfaceSubClass = USB_HOST_HUB_SUBCLASS_CODE_NONE

/-- Bit `j` of the bitmap is passed over by the dispatcher in state `c`. -/
def bitSkipped (self : Nat) (c : HubCtx) (j : Nat) : Prop :=
  bitmapBit c.hub j = false ∨ (j = 0 ∧ hubBitAllowed self c = false) ∨
    (j ≠ 0 ∧ portBitAllowed self c j = false)

/-- What the port sub-machines of a hub read and write while the hub works
on one port: the token, `portProcess`, `primeStatus`, `controlTransfer`, the
port instance and the log. -/
structure PortView where
  owner : Option Nat
  portProcess : Nat
  prime : PrimeStatus
  controlTransfer : Bool
  port : PortInstance
  log : List Action
  deriving DecidableEq, Repr

/-- The view of state `c` on the port stored at index `idx`. -/
def viewOf (c : HubCtx) (idx : Nat) : Option PortView :=
  (portAt c.hub idx).map (fun port =>
    { owner := c.hubProcess, portProcess := c.hub.portProcess, prime := c.hub.primeStatus,
      controlTransfer := c.hub.controlTransfer, port := port, log := c.log })

/-- The fields of the hub that no transfer completion changes. -/
def SameHub (c0 c : HubCtx) : Prop :=
  c.hub.invalid = c0.hub.invalid ∧ c.hub.portCount = c0.hub.portCount ∧
  c.hub.hostHandle = c0.hub.hostHandle ∧ c.hub.deviceHandle = c0.hub.deviceHandle ∧
  c.hub.hubLevel = c0.hub.hubLevel

/-- The completions that take a vacant port from the first change
notification to the first `SET_FEATURE(PORT_RESET)`: the notification, the
status read `b1`, the completion of the clear, the status read `b2`. -/
def attachStartEvents (bitmap b1 b2 : List Nat) : List HubEvent :=
  [HubEvent.interruptIn bitmap true, HubEvent.controlDone (Reply.portStatus b1) true,
   HubEvent.controlDone Reply.noData true, HubEvent.controlDone (Reply.portStatus b2) true]

/-- The requests logged during `attachStartEvents`. -/
def attachStartLog (self p : Nat) : List Action :=
  [Action.submit self (Request.getPortStatus p) true,
   Action.submit self (Request.clearPortFeature p C_PORT_CONNECTION) true,
   Action.submit self (Request.getPortStatus p) true,
   Action.submit self (Request.setPortFeature p PORT_RESET) true]

/-- The completions between one `SET_FEATURE(PORT_RESET)` and the next: the
completion of the reset, the notification `t.1`, the status read `t.2.1`,
the completion of the clear, and the status read `t.2.2`. -/
def resetCycleEvents (t : List Nat × List Nat × List Nat) : List HubEvent :=
  [HubEvent.controlDone Reply.noData true, HubEvent.interruptIn t.1 true,
   HubEvent.controlDone (Reply.portStatus t.2.1) true, HubEvent.controlDone Reply.noData true,
   HubEvent.controlDone (Reply.portStatus t.2.2) true]

/-- The requests logged during `resetCycleEvents`; `n` is the length of the
interrupt-IN receive. -/
def resetCycleLog (self p n : Nat) : List Action :=
  [Action.submit self (Request.interruptRecv n) true,
   Action.submit self (Request.getPortStatus p) true,
   Action.submit self (Request.clearPortFeature p C_PORT_RESET) true,
   Action.submit self (Request.getPortStatus p) true,
   Action.submit self (Request.setPortFeature p PORT_RESET) true]

/-- The completions after the last `SET_FEATURE(PORT_RESET)`: the
completion of the reset, the notification, the status read `b`, the
completion of the clear. -/
def attachFinalEvents (bitmap b : List Nat) : List HubEvent :=
  [HubEvent.controlDone Reply.noData true, HubEvent.interruptIn bitmap true,
   HubEvent.controlDone (Reply.portStatus b) true, HubEvent.controlDone Reply.noData true]

/-- The calls logged during `attachFinalEvents`. -/
def attachFinalLog (self p n : Nat) (host : Option Nat) (speed addr level : Nat) :
    List Action :=
  [Action.submit self (Request.interruptRecv n) true,
   Action.submit self (Request.getPortStatus p) true,
   Action.submit self (Request.clearPortFeature p C_PORT_RESET) true,
   Action.attachDevice host speed addr p level,
   Action.submit self (Request.interruptRecv n) true]

/-- The view of a hub that has just submitted `SET_FEATURE(PORT_RESET)` for
the port `port` with `k` resets left. -/
def resetPending (self p : Nat) (port : PortInstance) (k : Nat) (log : List Action) :
    PortView :=
  { owner := some self, portProcess := p, prime := kPrimePortControl, controlTransfer := true,
    port := { port with portStatus := kPortRunWaitPortResetDone, resetCount := k },
    log := log }

/-- Whether an action is `SET_FEATURE(PORT_RESET)` accepted for port `p`. -/
def isPortReset (p : Nat) : Action → Bool
  | Action.submit _ (Request.setPortFeature q f) true => q = p && f = PORT_RESET
  | _ => false

/-- Whether an action is a call of `USB_HostAttachDevice`. -/
def isAttachDevice : Action → Bool
  | Action.attachDevice _ _ _ _ _ => true
  | _ => false

/-- Whether an action is a call of `USB_HostDetachDeviceInternal`. -/
def isDetachDevice : Action → Bool
  | Action.detachDevice _ _ => true
  | _ => false

/-- An environment in which every submission is accepted, the enumeration
engine creates device 100 + n at its n-th logged call, a device has its
handle as address and level 1, and every allocation succeeds. -/
def envAccept : Env where
  lowPower := false
  maxPort := 7
  remoteWakeupTimes := 3
  accept := fun _ _ _ => true
  info := fun d k =>
    match k with
    | kUSB_HostGetDeviceAddress => d
    | kUSB_HostGetDeviceLevel => 1
    | _ => 0
  attachDevice := fun n => some (100 + n)
  allocOk := fun _ => true
  mutexOk := fun _ => true
  hubInitOk := fun _ => true
  deviceHost := fun _ => some 1
  fuel := 256

/-- A vacant port as the hub-level machine leaves it. -/
def portVacant (resetCount : Nat) : PortInstance :=
  { deviceHandle := none, portStatus := kPortRunWaitPortChange, resetCount := resetCount,
    speed := 0 }

/-- A four-port hub of level 1 with device address 5 on host 1, idle, with
the interrupt-IN pipe primed; `ports` is its port list. -/
def hubIdle4 (ports : List PortInstance) : HubInstance :=
  { hostHandle := some 1, deviceHandle := some 5, portList := some ports, portCount := 4,
    portIndex := 4, portProcess := 0, hubLevel := 1, totalThinktime := 8,
    hubStatus := kHubRunIdle, primeStatus := kPrimeInterrupt, invalid := 0,
    controlTransfer := false, hubDescriptor := [], hubBitmapBuffer := [0],
    hubStatusBuffer := [], portStatusBuffer := [], supportRemoteWakeup := 0,
    controlRetry := 0 }

/-- The state of `hubIdle4 ports` with the token free and an empty log. -/
def ctxIdle4 (ports : List PortInstance) : HubCtx :=
  { hubProcess := none, hub := hubIdle4 ports, suspendedDevice := none, log := [] }

/-- An occupied port as the attach sub-machine leaves it after the hand-off
of device `d`. -/
def portOccupied (d : Nat) : PortInstance :=
  { deviceHandle := some d, portStatus := kPortRunPortAttached,
    resetCount := USB_HOST_HUB_PORT_RESET_TIMES, speed := USB_SPEED_FULL }

/-- The invariant of a port instance behind the reset counter: an occupied
port has the full number of resets, and a port that may still be reset has
at least one reset left. -/
def PortInv (port : PortInstance) : Prop :=
  (port.deviceHandle ≠ none → port.resetCount = USB_HOST_HUB_PORT_RESET_TIMES) ∧
  ((port.portStatus = kPortRunWaitPortChange ∨ port.portStatus = kPortRunCheckCPortConnection ∨
      port.portStatus = kPortRunGetPortConnection ∨
      port.portStatus = kPortRunCheckPortConnection ∨ port.portStatus = kPortRunResetAgain) →
    0 < port.resetCount)

/-- The actions logged between state `c` and the later state `c1`. -/
def newActions (c c1 : HubCtx) : List Action := c1.log.drop c.log.length

/-- What one `switch` of a port sub-machine does to the reset counter of
the port `port` it started from, given the actions `L` it has logged: an
accepted reset of port `p` lowers the counter by one; without one the
counter is unchanged or, when the token is released, restored; a hand-off
restores it; and a successful step keeps `PortInv`. -/
def StepSpec (p : Nat) (port : PortInstance) (c : HubCtx) (r : PortStep) (L : List Action) :
    Prop :=
  r.ctx.log = c.log ++ L ∧ r.ctx.hub.portList = c.hub.portList ∧
  (L.any (isPortReset p) = true →
    r.processSuccess = true ∧ r.port.resetCount + 1 = port.resetCount) ∧
  (L.any (isPortReset p) = false →
    r.port.resetCount = port.resetCount ∨
    (r.port.resetCount = USB_HOST_HUB_PORT_RESET_TIMES ∧ r.ctx.hubProcess = none ∧
      r.ctx.hub.portProcess = 0)) ∧
  (L.any isAttachDevice = true →
    r.processSuccess = true ∧ r.port.resetCount = USB_HOST_HUB_PORT_RESET_TIMES) ∧
  (r.processSuccess = true → PortInv r.port)

/-- What one `switch` of the detach sub-machine does: it never touches the
reset counter, logs no reset and no hand-off, and keeps or clears the device
handle. -/
def DetachSpec (port : PortInstance) (c : HubCtx) (r : PortStep) (L : List Action) : Prop :=
  r.ctx.log = c.log ++ L ∧ r.ctx.hub.portList = c.hub.portList ∧
  r.port.resetCount = port.resetCount ∧
  (r.port.deviceHandle = port.deviceHandle ∨ r.port.deviceHandle = none) ∧
  (∀ p, L.any (isPortReset p) = false) ∧ L.any isAttachDevice = false

/-- A registry slot as the zero-initialised static array holds it. -/
def emptyGlobal : HubGlobal :=
  { hostHandle := none, hubList := [], hubMutex := false, hubProcess := none }

/-- The module state at start-up with `n` registry slots
(`USB_HOST_CONFIG_MAX_HOST = n`): everything zero, no instance. -/
def initWorld (n : Nat) : World :=
  { s_HubGlobalArray := List.replicate n emptyGlobal,
    s_HubDeviceHandle := none, s_HubInterfaceHandle := none, s_HubConfiguration := none,
    hubs := fun _ => none, nextHub := 1, suspendedDevice := fun _ => none, log := [] }

/-- The arguments of one call of `USB_HostHubDeviceEvent`. -/
structure DeviceEventArgs where
  hostHandle : Option Nat
  deviceHandle : Option Nat
  configuration : Configuration
  eventCode : EventCode
  deriving DecidableEq, Repr

/-- A sequence of calls of `USB_HostHubDeviceEvent`, oldest first; the
returned statuses are dropped. -/
def deviceRun (E : Env) : World → List DeviceEventArgs → Option World
  | w, [] => some w
  | w, e :: rest =>
      (USB_HostHubDeviceEvent E w e.hostHandle e.deviceHandle e.configuration e.eventCode).bind
        (fun r => deviceRun E r.2 rest)

/-- The tier bound on the stash and on every linked instance: the level the
enumeration engine reports for the stashed device and for the device of each
instance in a hub list is at most 5, and so is the `hubLevel` of the
instance. -/
def TierInv (E : Env) (w : World) : Prop :=
  getInfo E w.s_HubDeviceHandle kUSB_HostGetDeviceLevel 0 ≤ 5 ∧
  ∀ g ∈ w.s_HubGlobalArray, ∀ h ∈ g.hubList, ∃ hub, w.hubs h = some hub ∧
    getInfo E hub.deviceHandle kUSB_HostGetDeviceLevel 0 ≤ 5 ∧ hub.hubLevel ≤ 5

/-- The environment `envAccept`, except that the level of a device is its
handle. -/
def envTier : Env :=
  { envAccept with
    info := fun d k =>
      match k with
      | kUSB_HostGetDeviceLevel => d
      | _ => 0 }

/-- A configuration with one interface of the hub class. -/
def hubConfiguration : Configuration :=
  { interfaceList := [{ handle := 40, bInterfaceClass := 9, bInterfaceSubClass := 0 }],
    bmAttributes := 0 }

/-- The events of a hub of tier 3 that is attached and enumerated, followed
by the same two events for a hub of tier 6. -/
def tierEvents : List DeviceEventArgs :=
  [{ hostHandle := some 1, deviceHandle := some 3, configuration := hubConfiguration,
     eventCode := kUSB_HostEventAttach },
   { hostHandle := some 1, deviceHandle := some 3, configuration := hubConfiguration,
     eventCode := kUSB_HostEventEnumerationDone },
   { hostHandle := some 1, deviceHandle := some 6, configuration := hubConfiguration,
     eventCode := kUSB_HostEventAttach },
   { hostHandle := some 1, deviceHandle := some 6, configuration := hubConfiguration,
     eventCode := kUSB_HostEventEnumerationDone }]

/-- One transfer completion for hub `self` against the module state: the
arrival in the instance, then the callback run through `withRegistry`. -/
def worldStep (E : Env) (w : World) (self : Nat) (ev : HubEvent) : Option World :=
  match w.hubs self with
  | none => none
  | some hub =>
      withRegistry { w with hubs := Function.update w.hubs self (some (ev.arrive hub)) } self
        (fun c =>
          match ev with
          | HubEvent.interruptIn _ status => USB_HostHubInterruptInCallback E self status c
          | HubEvent.controlDone _ status => USB_HostHubControlCallback E self status c)

/-- An entry into the module: a device event or a transfer completion for
the hub instance at address `hub`. -/
inductive SysEvent
  | device (args : DeviceEventArgs)
  | transfer (hub : Nat) (ev : HubEvent)
  deriving DecidableEq, Repr

/-- A sequence of entries into the module, oldest first. -/
def sysRun (E : Env) : World → List SysEvent → Option World
  | w, [] => some w
  | w, SysEvent.device e :: rest =>
      (USB_HostHubDeviceEvent E w e.hostHandle e.deviceHandle e.configuration e.eventCode).bind
        (fun r => sysRun E r.2 rest)
  | w, SysEvent.transfer hub ev :: rest =>
      (worldStep E w hub ev).bind (fun w1 => sysRun E w1 rest)

/-- The arguments of a device event of device `dev` on host 1 with a
hub-class configuration. -/
def hubDeviceArgs (dev : Nat) (code : EventCode) : DeviceEventArgs :=
  { hostHandle := some 1, deviceHandle := some dev, configuration := hubConfiguration,
    eventCode := code }

/-- The entries that bring a four-port hub up on host 1: attach and
enumeration of device `dev`, whose instance gets address `hub`, then the
completions of SET_INTERFACE, of the two descriptor reads and of the four
PORT_POWER requests. Afterwards the hub is in `kHubRunIdle` with the
interrupt-IN pipe primed. -/
def bringUp (dev hub : Nat) : List SysEvent :=
  [SysEvent.device (hubDeviceArgs dev kUSB_HostEventAttach),
   SysEvent.device (hubDeviceArgs dev kUSB_HostEventEnumerationDone),
   SysEvent.transfer hub (HubEvent.controlDone Reply.noData true),
   SysEvent.transfer hub (HubEvent.controlDone (Reply.descriptor [9, 0x29, 4, 0, 0, 0, 0]) true),
   SysEvent.transfer hub
     (HubEvent.controlDone (Reply.descriptor [9, 0x29, 4, 0, 0, 0, 0, 0, 0xff]) true),
   SysEvent.transfer hub (HubEvent.controlDone Reply.noData true),
   SysEvent.transfer hub (HubEvent.controlDone Reply.noData true),
   SysEvent.transfer hub (HubEvent.controlDone Reply.noData true),
   SysEvent.transfer hub (HubEvent.controlDone Reply.noData true)]

/-- Two hubs on one host, then: hub 1 is notified of a change on its port 1
and starts the attach sub-machine; the interrupt-IN transfer of hub 2
completes with an error; hub 2 is notified of a change on its port 1. -/
def twoHubEvents : List SysEvent :=
  bringUp 5 1 ++ bringUp 6 2 ++
  [SysEvent.transfer 1 (HubEvent.interruptIn [2] true),
   SysEvent.transfer 2 (HubEvent.interruptIn [0] false),
   SysEvent.transfer 2 (HubEvent.interruptIn [2] true)]

/-- The registries' `hubProcess` and the `portProcess` of hubs 1 and 2. -/
def tokenView (w : World) : List (Option Nat) × Option Nat × Option Nat :=
  (w.s_HubGlobalArray.map (fun g => g.hubProcess),
   (w.hubs 1).map (fun hub => hub.portProcess), (w.hubs 2).map (fun hub => hub.portProcess))

/-- A vacant port in state `st` with `resetCount` resets left. -/
def portIn (st : PortAppStatus) (resetCount speed : Nat) : PortInstance :=
  { deviceHandle := none, portStatus := st, resetCount := resetCount, speed := speed }

/-- The hub `hubIdle4 ports` at address 7 while it holds the token and works
on port 2, entered from a callback (`primeStatus` is `kPrimeNone`), with
`status` in the port status buffer. -/
def ctxAtPort (ports : List PortInstance) (status : List Nat) : HubCtx :=
  { hubProcess := some 7,
    hub := { hubIdle4 ports with
      portProcess := 2, primeStatus := kPrimeNone, portStatusBuffer := status },
    suspendedDevice := none, log := [] }

/-- A module state whose only instance, at address 1 on host 1, has been
invalidated by a detach. -/
def invalidWorld : World :=
  { initWorld 1 with
    s_HubGlobalArray := [{ emptyGlobal with hostHandle := some 1 }],
    hubs := fun n => if n = 1 then some { hubIdle4 [] with invalid := 1 } else none }

/-- Slot `i` is the lowest-indexed slot of `gs` that satisfies `p`. -/
def lowestSlot (p : HubGlobal → Bool) (gs : List HubGlobal) (i : Nat) : Prop :=
  (∃ g, gs[i]? = some g ∧ p g = true) ∧ ∀ j g, j < i → gs[j]? = some g → p g = false

/-- The value case `kHubRunGetDescriptor7` stores in `totalThinktime`: the
think time of the parent plus the think time the descriptor encodes. -/
def thinkTimeOf (E : Env) (hub : HubInstance) : Nat :=
  (getInfo E hub.deviceHandle kUSB_HostGetHubThinkTime 0 % 2 ^ 16 +
    (((((hub.hubDescriptor.getD 3 0 % 256) &&&
      USB_HOST_HUB_DESCRIPTOR_CHARACTERISTICS_THINK_TIME_MASK) >>>
      USB_HOST_HUB_DESCRIPTOR_CHARACTERISTICS_THINK_TIME_SHIFT) + 1) <<< 3) % 2 ^ 32 % 2 ^ 16)
    % 2 ^ 16

/-- The field `bNbrPorts` of the descriptor held in `hubDescriptor`. -/
def bNbrPorts (hub : HubInstance) : Nat := hub.hubDescriptor.getD 2 0 % 256

/-- A hub instance at address 7 waiting in `kHubRunGetDescriptor7` with
`primeStatus = prime`, whose 7-byte descriptor reports `n` ports. -/
def ctxDescriptor7 (n : Nat) (prime : PrimeStatus) : HubCtx :=
  { hubProcess := none,
    hub := { hubIdle4 [] with
      portList := none, portCount := 0, portIndex := 0, totalThinktime := 0,
      hubStatus := kHubRunGetDescriptor7, primeStatus := prime,
      hubDescriptor := [9, 0x29, n, 0, 0, 0, 0] },
    suspendedDevice := none, log := [] }

/-- An environment like `envAccept` in which every control request is
rejected and every interrupt-IN receive accepted. -/
def envRejectControl : Env :=
  { envAccept with accept := fun _ _ r => !r.isControl }

/-- A four-port hub instance in hub state `st`, entered from the control
callback (`primeStatus` is `kPrimeNone`), with port list `ports` and
`portIndex = k`. -/
def ctxHubPhase (st : HubAppStatus) (ports : Option (List PortInstance)) (k : Nat) : HubCtx :=
  { hubProcess := none,
    hub := { hubIdle4 [] with
      portList := ports, portIndex := k, hubStatus := st, primeStatus := kPrimeNone,
      hubDescriptor := [9, 0x29, 4, 0, 0, 0, 0] },
    suspendedDevice := none, log := [] }

/-- The hub-level transitions of the bring-up that submit a control
transfer in state `c`: from `kHubRunWaitSetInterface` always, from
`kHubRunGetDescriptor7` when the port count is within the cap, and from
`kHubRunSetPortPower` when the port list exists or can be allocated and a port
is left to power. -/
def submitsHubControl (E : Env) (c : HubCtx) : Prop :=
  c.hub.hubStatus = kHubRunWaitSetInterface ∨
  (c.hub.hubStatus = kHubRunGetDescriptor7 ∧ bNbrPorts c.hub ≤ E.maxPort) ∨
  (c.hub.hubStatus = kHubRunSetPortPower ∧
    ((c.hub.portList = none ∧ E.allocOk c.log.length = true ∧ 0 < c.hub.portCount) ∨
     (c.hub.portList ≠ none ∧ c.hub.portIndex < c.hub.portCount)))

/-- The arguments of a device event of device `dev` on host `host` with a
hub-class configuration. -/
def hostDeviceArgs (host dev : Nat) (code : EventCode) : DeviceEventArgs :=
  { hostHandle := some host, deviceHandle := some dev, configuration := hubConfiguration,
    eventCode := code }

/-- Two hubs attached and enumerated, one on host 1 and one on host 2. -/
def twoHostEvents : List DeviceEventArgs :=
  [hostDeviceArgs 1 5 kUSB_HostEventAttach, hostDeviceArgs 1 5 kUSB_HostEventEnumerationDone,
   hostDeviceArgs 2 6 kUSB_HostEventAttach, hostDeviceArgs 2 6 kUSB_HostEventEnumerationDone]

/-- The status `USB_HostHubDeviceEvent` returns for the event `e` delivered
after the events `events`, from start-up with `n` registry slots. -/
def statusAfter (E : Env) (n : Nat) (events : List DeviceEventArgs) (e : DeviceEventArgs) :
    Option UsbStatus :=
  (deviceRun E (initWorld n) events).bind (fun w =>
    (USB_HostHubDeviceEvent E w e.hostHandle e.deviceHandle e.configuration e.eventCode).map
      (fun r => r.1))

/-- A module state with two registry slots, both taken by a host with a
linked hub. -/
def fullWorld : World :=
  { initWorld 2 with
    s_HubGlobalArray :=
      [{ emptyGlobal with hostHandle := some 1, hubList := [1] },
       { emptyGlobal with hostHandle := some 2, hubList := [2] }] }

/-- Whether `h` is the address of an instance whose device is `d`. -/
def hubOfDevice (hubs : Nat → Option HubInstance) (d : Option Nat) (h : Nat) : Bool :=
  match hubs h with
  | some hub => hub.deviceHandle = d
  | none => false

/-- Every entry of the hub list `l` is an instance, and a port list that
exists has at least `portCount` elements. -/
def listWellFormed (hubs : Nat → Option HubInstance) (l : List Nat) : Prop :=
  ∀ h ∈ l, ∃ hub, hubs h = some hub ∧ ∀ ports, hub.portList = some ports →
    hub.portCount ≤ ports.length

/-- The ports of an instance that the loops over `portCount` visit. -/
def portsOf (hub : HubInstance) : List PortInstance :=
  (hub.portList.getD []).take hub.portCount

/-- Assignment `deviceHandle = NULL` to a port. -/
def clearHandle (p : PortInstance) : PortInstance := { p with deviceHandle := none }

/-- The control requests the port sub-machines submit. -/
def isPortControl : Request → Bool
  | Request.getPortStatus _ => true
  | Request.clearPortFeature _ _ => true
  | Request.setPortFeature _ f => f = PORT_RESET
  | _ => false

/-- Whether an action is a control request of hub `self` that was rejected. -/
def isRejectedControl (self : Nat) : Action → Bool
  | Action.submit h r false => h = self && r.isControl
  | _ => false

/-- The actions a port sub-machine of hub `self` logs on a path without a
rejected control request: an accepted port control request, an interrupt-IN
receive, or a call of the enumeration engine or of the host's device
callback. -/
def isQuietPortAction (self : Nat) : Action → Bool
  | Action.submit h (Request.interruptRecv _) _ => h = self
  | Action.submit h r true => h = self && isPortControl r
  | Action.attachDevice _ _ _ _ _ => true
  | Action.detachDevice _ _ => true
  | Action.hostEvent _ _ => true
  | _ => false

/-- What the `switch` of a port sub-machine does to the log and the hub
state: either everything it logs is quiet, or it fails after exactly one
rejected port control request and nothing else. -/
def PortStepLog (E : Env) (self : Nat) (c : HubCtx) (r : PortStep) : Prop :=
  r.ctx.hub.hubStatus = c.hub.hubStatus ∧
  ((∃ L, r.ctx.log = c.log ++ L ∧ L.all (isQuietPortAction self) = true) ∨
   (r.processSuccess = false ∧ ∃ q, isPortControl q = true ∧ accepted E self q c = false ∧
      r.ctx = submitted E self q c))

/-- Whether an action is a submission of `SET_FEATURE(PORT_POWER)`. -/
def isPortPower : Action → Bool
  | Action.submit _ (Request.setPortFeature _ f) _ => f = PORT_POWER
  | _ => false

/-- The accepted `SET_FEATURE(PORT_POWER)` requests of hub `self` for the
ports `first`, `first + 1`, ... (`count` of them), in this order. -/
def powerLog (self first count : Nat) : List Action :=
  (List.range' first count).map
    (fun p => Action.submit self (Request.setPortFeature p PORT_POWER) true)

/-- Successful completions of control transfers with the replies `rs`. -/
def controlDones (rs : List Reply) : List HubEvent :=
  rs.map (fun r => HubEvent.controlDone r true)

/-- The hub-level machine of a hub with `n` ports is in the port-power phase
and has powered the ports up to `idx`: a control transfer is outstanding, and
the port list is either not yet allocated (`idx = 0`) or holds at least `n`
ports with `portIndex = idx`. -/
def PowerPhase (n idx : Nat) (c : HubCtx) : Prop :=
  c.hub.hubStatus = kHubRunSetPortPower ∧ c.hub.primeStatus = kPrimeHubControl ∧
  c.hub.invalid ≠ 1 ∧ c.hub.portCount = n ∧
  ((c.hub.portList = none ∧ idx = 0) ∨
   (∃ l, c.hub.portList = some l ∧ n ≤ l.length ∧ c.hub.portIndex = idx))

/-- The hub states other than the three of the bring-up that submit control
requests (`kHubRunWaitSetInterface`, `kHubRunGetDescriptor7`,
`kHubRunSetPortPower`). -/
def postBringUp (st : HubAppStatus) : Prop :=
  st ≠ kHubRunWaitSetInterface ∧ st ≠ kHubRunGetDescriptor7 ∧ st ≠ kHubRunSetPortPower

/-- Between state `c` and the later state `c1` the log has only grown, and by
no `SET_FEATURE(PORT_POWER)`. -/
def NoPower (c c1 : HubCtx) : Prop :=
  ∃ L, c1.log = c.log ++ L ∧ L.any isPortPower = false

/-- Four registry slots: host 1 with a hub, a free slot, host 2 without a
hub, and another free slot. -/
def fourSlots : List HubGlobal :=
  [{ emptyGlobal with hostHandle := some 1, hubList := [1] }, emptyGlobal,
   { emptyGlobal with hostHandle := some 2 }, emptyGlobal]

/-- The hub `hubIdle4 ports` bound to device `dev`. -/
def hubOn (dev : Nat) (ports : List PortInstance) : HubInstance :=
  { hubIdle4 ports with deviceHandle := some dev }

/-- A module state with three hubs linked on host 1, the instances 3, 2 and 1
of the devices 7, 6 and 5; instance 2 holds the token and has devices 9 and 8
on its ports 1 and 3. -/
def detachWorld : World :=
  { initWorld 1 with
    s_HubGlobalArray :=
      [{ hostHandle := some 1, hubList := [3, 2, 1], hubMutex := true, hubProcess := some 2 }],
    hubs := fun n =>
      if n = 1 then some (hubOn 5 (List.replicate 4 (portVacant 4)))
      else if n = 2 then
        some (hubOn 6 [portOccupied 9, portVacant 4, portOccupied 8, portVacant 4])
      else if n = 3 then some (hubOn 7 (List.replicate 4 (portVacant 4)))
      else none,
    nextHub := 4 }

/-- A hub instance at address 7 as case `kUSB_HostEventEnumerationDone`
leaves it when SET_INTERFACE was accepted: in `kHubRunWaitSetInterface` with a
hub control transfer outstanding and no port list. -/
def ctxCommitted : HubCtx :=
  { hubProcess := none,
    hub := { hubIdle4 [] with
      portList := none, portCount := 0, portIndex := 0, totalThinktime := 0,
      hubStatus := kHubRunWaitSetInterface, primeStatus := kPrimeHubControl,
      controlTransfer := true },
    suspendedDevice := none, log := [] }

/-- The change feature state `kHubRunGetStatusDone` clears. -/
def hubChangeFeature (hub : HubInstance) : Option Nat :=
  if bitSet C_HUB_LOCAL_POWER (USB_SHORT_FROM_LITTLE_ENDIAN_ADDRESS (hub.hubStatusBuffer.drop 2))
  then some C_HUB_LOCAL_POWER
  else if bitSet C_HUB_OVER_CURRENT
      (USB_SHORT_FROM_LITTLE_ENDIAN_ADDRESS (hub.hubStatusBuffer.drop 2))
  then some C_HUB_OVER_CURRENT
  else none

/-- The interrupt-IN receive of hub `self` with `portCount = n`. -/
def rearm (self n : Nat) (ok : Bool) : Action :=
  Action.submit self (Request.interruptRecv ((n >>> 3) + 1)) ok

/-- The state in which the dispatcher goes on to the port bits once bit 0 has
been dealt with: unchanged when bit 0 is clear or may not be served, after the
rejected hub-level GET_STATUS otherwise; `none` when the GET_STATUS was
accepted, which ends the arrival. -/
def afterHubBit (E : Env) (self : Nat) (c : HubCtx) : Option HubCtx :=
  if bitmapBit c.hub 0 && hubBitAllowed self c then
    if accepted E self Request.getStatus (setHubStatus c kHubRunGetStatusDone) then none
    else
      some (setHubStatus
        (submitted E self Request.getStatus (setHubStatus c kHubRunGetStatusDone)) kHubRunIdle)
  else some c

/-- The lowest port index from 1 to `portCount` whose bit is set and may be
served. -/
def lowestReady (self : Nat) (c : HubCtx) : Option Nat :=
  (List.range' 1 c.hub.portCount).find? (fun p => bitmapBit c.hub p && portBitAllowed self c p)

/-- Whether an action is a submission of the hub-level GET_STATUS. -/
def isHubGetStatus : Action → Bool
  | Action.submit _ Request.getStatus _ => true
  | _ => false

/-- Between state `c` and the later state `c1` the log has only grown, and by
no action that `bad` marks. -/
def LogAvoids (bad : Action → Bool) (c c1 : HubCtx) : Prop :=
  ∃ L, c1.log = c.log ++ L ∧ L.any bad = false

/-- Every entry of the hub list `l` is an instance bound to a device. -/
def devicesBound (hubs : Nat → Option HubInstance) (l : List Nat) : Prop :=
  ∀ h ∈ l, ∃ hub d, hubs h = some hub ∧ hub.deviceHandle = some d

/-- The device address of the instance `h`. -/
def hubAddress (E : Env) (hubs : Nat → Option HubInstance) (h : Nat) : Option Nat :=
  (hubs h).bind (fun hub => hub.deviceHandle.map (fun d => E.info d kUSB_HostGetDeviceAddress))

/-- The first instance in list order whose device has address `address`. -/
def firstByAddress (E : Env) (hubs : Nat → Option HubInstance) (address : Nat)
    (l : List Nat) : Option Nat :=
  l.find? (fun h => hubAddress E hubs h = some address)

/-- Whether the instance `h` advertises remote wakeup. -/
def capable (hubs : Nat → Option HubInstance) (h : Nat) : Bool :=
  match hubs h with
  | some hub => hub.supportRemoteWakeup != 0
  | none => false

/-- The device of the instance `h`. -/
def deviceOf (hubs : Nat → Option HubInstance) (h : Nat) : Option Nat :=
  (hubs h).bind (fun hub => hub.deviceHandle)

/-- The hub a SET_FEATURE(DEVICE_REMOTE_WAKEUP) request was handed over for. -/
def wakeupTarget : Action → Option Nat
  | Action.hubRequest _ (HostRequest.setRemoteWakeup h) _ => some h
  | _ => none

/-- The status `USB_HostSendHubRequest` returns. -/
def sendStatus (ok : Bool) : UsbStatus :=
  if ok then kStatus_USB_Success else kStatus_USB_Error

/-- The instances `hubs1` are the instances `hubs` except that some of them
have had `controlRetry` reloaded with `t`. -/
def Reloaded (t : Nat) (hubs hubs1 : Nat → Option HubInstance) : Prop :=
  ∀ n, hubs1 n = hubs n ∨ ∃ hub, hubs n = some hub ∧ hubs1 n = some { hub with controlRetry := t }

/-- The hub list `g.hubList` of host `host`, registry `i`, is ready for the
suspend chain in state `w`: the registry is the one the look-up returns
without claiming a slot, the list has no repetition, its entries are
instances of that host bound to a device, and a registry that lists one of
them lists them all in the same order. -/
structure ChainReady (w : World) (host i : Nat) (g : HubGlobal) : Prop where
  lookup : USB_HostHubGetHubList w.s_HubGlobalArray (some host) = (some i, w.s_HubGlobalArray)
  registry : w.s_HubGlobalArray[i]? = some g
  nodup : g.hubList.Nodup
  bound : ∀ h ∈ g.hubList, ∃ hub d, w.hubs h = some hub ∧ hub.deviceHandle = some d ∧
    hub.hostHandle = some host
  linked : ∀ g1 ∈ w.s_HubGlobalArray, ∀ h ∈ g.hubList, h ∈ g1.hubList →
    g1.hubList = g.hubList

/-- The last stage of suspending as the specification words it: the status
and the calls made when `n` calls have been logged, for the hub list `l` and
the suspended device `susp` of host `host`. -/
def targetOutcome (E : Env) (H : HostEnv) (hubs : Nat → Option HubInstance) (l : List Nat)
    (susp : Option Nat) (host n : Nat) : UsbStatus × List Action :=
  match susp with
  | none => (H.busControl n, [Action.busSuspend host])
  | some dev =>
      match (firstByAddress E hubs (H.hubNumber dev % 256) l).bind (deviceOf hubs) with
      | some d =>
          (sendStatus (H.sendOk n),
           [Action.hubRequest d (HostRequest.setPortSuspend (H.portNumber dev % 256))
             (H.sendOk n)])
      | none => (kStatus_USB_Error, [])

/-- The hub whose accepted remote-wakeup request is the last call of `log`. -/
def pendingWakeup (log : List Action) : Option Nat :=
  match log.getLast? with
  | some (Action.hubRequest _ (HostRequest.setRemoteWakeup h) true) => some h
  | _ => none

/-- Successful completions of the remote-wakeup requests for as long as the
last call logged since position `base` is an accepted one (at most `fuel`
completions). -/
def completeAll (E : Env) (H : HostEnv) (base : Nat) : Nat → World → Option World
  | 0, w => some w
  | fuel + 1, w =>
      match pendingWakeup (w.log.drop base) with
      | none => some w
      | some h =>
          (USB_HostHubRemoteWakeupCallback E H w (some h) true).bind (completeAll E H base fuel)

/-- The first `n` failed completions of the remote-wakeup request of hub
`self`. -/
def failedCompletions (E : Env) (H : HostEnv) (self : Nat) : Nat → World → Option World
  | 0, w => some w
  | n + 1, w =>
      (USB_HostHubRemoteWakeupCallback E H w (some self) false).bind
        (failedCompletions E H self n)

/-- A four-port idle hub instance in the state in which the interrupt-IN
callback hands it to the dispatcher (`primeStatus` is `kPrimeNone`), with the
received bitmap `bitmap`, four vacant ports and the token free. -/
def ctxBitmap (bitmap : List Nat) : HubCtx :=
  { hubProcess := none,
    hub := { hubIdle4 (List.replicate 4 (portVacant 4)) with
      primeStatus := kPrimeNone, hubBitmapBuffer := bitmap },
    suspendedDevice := none, log := [] }

/-- A four-port hub instance in `kHubRunGetStatusDone`, entered from the
control callback, with the hub status bytes `status`. -/
def ctxStatusDone (status : List Nat) : HubCtx :=
  { hubProcess := none,
    hub := { hubIdle4 (List.replicate 4 (portVacant 4)) with
      primeStatus := kPrimeNone, hubStatus := kHubRunGetStatusDone, hubStatusBuffer := status },
    suspendedDevice := none, log := [] }

/-- The collaborators `envAccept` in which device 7 runs at high speed, every
other device at full speed, and every device reports 7 as its high-speed hub
number. -/
def envSpeed : Env :=
  { envAccept with
    info := fun d k =>
      match k with
      | kUSB_HostGetDeviceAddress => d
      | kUSB_HostGetDeviceSpeed => if d = 7 then USB_SPEED_HIGH else USB_SPEED_FULL
      | kUSB_HostGetDeviceHSHubNumber => 7
      | _ => 1 }

/-- The collaborators `envAccept` in the low-power configuration. -/
def envLowPower : Env := { envAccept with lowPower := true }

/-- Host collaborators that accept every request: the controller suspends
the bus, and every device sits on port 1 of the hub with address 6. -/
def hostEnvOk : HostEnv :=
  { sendOk := fun _ => true, busControl := fun _ => kStatus_USB_Success,
    hubNumber := fun _ => 6, portNumber := fun _ => 1 }

/-- The registry of `detachWorld`. -/
def wakeRegistry : HubGlobal :=
  { hostHandle := some 1, hubList := [3, 2, 1], hubMutex := true, hubProcess := some 2 }

/-- The module state `detachWorld` in the low-power configuration: the
instances 3 and 1 advertise remote wakeup, instance 2 does not, every
`controlRetry` holds 3, and device 9 is the suspended device of host 1. -/
def wakeWorld : World :=
  { detachWorld with
    hubs := fun n => (detachWorld.hubs n).map (fun hub =>
      { hub with supportRemoteWakeup := if n = 2 then 0 else 1, controlRetry := 3 }),
    suspendedDevice := fun h => if h = 1 then some 9 else none }

/-- The think-time field of the descriptor held in `hubDescriptor`: the bits
masked and shifted out of the first byte of `wHubCharacteristics`. -/
def thinkField (hub : HubInstance) : Nat :=
  ((hub.hubDescriptor.getD 3 0 % 256) &&&
    USB_HOST_HUB_DESCRIPTOR_CHARACTERISTICS_THINK_TIME_MASK) >>>
    USB_HOST_HUB_DESCRIPTOR_CHARACTERISTICS_THINK_TIME_SHIFT

/-- The change feature that state `kPortRunCheckCPortConnection` clears when
neither `C_PORT_CONNECTION` nor `PORT_CONNECTION` is set in the status word:
the local variable `feature`, 0 for none. -/
def staleFeature (specStatus : Nat) : Nat :=
  if bitSet C_PORT_RESET specStatus then C_PORT_RESET
  else if bitSet C_PORT_ENABLE specStatus then C_PORT_ENABLE
  else if bitSet C_PORT_OVER_CURRENT specStatus then C_PORT_OVER_CURRENT
  else 0

/-- The property every step of the detach `switch` has: it keeps the port
list, and a successful step does not leave the port in
`kPortRunPortSuspended`. -/
def DetachKeeps (c : HubCtx) (r : PortStep) : Prop :=
  r.ctx.hub.portList = c.hub.portList ∧
  (r.processSuccess = true → r.port.portStatus ≠ kPortRunPortSuspended)

/-- The collaborators `envAccept` with an enumeration engine that creates no
device. -/
def envNoAttach : Env := { envAccept with attachDevice := fun _ => none }

/-- The hub of `ctxDescriptor7 4 kPrimeNone` with a descriptor whose think-time
field is 2. -/
def ctxThinkTime : HubCtx :=
  { ctxDescriptor7 4 kPrimeNone with
    hub := { (ctxDescriptor7 4 kPrimeNone).hub with
      hubDescriptor := [9, 0x29, 4, 0x40, 0, 0, 0] } }

/-- A four-port hub instance whose last SET_FEATURE(PORT_POWER) is outstanding:
in `kHubRunSetPortPower` with `portIndex = 4` and `primeStatus =
kPrimeHubControl`, its port list as the allocation zeroed it. -/
def ctxPowerLast : HubCtx :=
  { hubProcess := none,
    hub := { hubIdle4 (List.replicate 4 zeroPort) with
      hubStatus := kHubRunSetPortPower, primeStatus := kPrimeHubControl,
      controlTransfer := true },
    suspendedDevice := none, log := [] }

/-- The hub of `ctxAtPort` with device 9 on port 2 in
`kPortRunCheckPortSuspend` and `PORT_SUSPEND` set in the status word. -/
def ctxSuspendCheck : HubCtx :=
  ctxAtPort [portVacant 4, { portOccupied 9 with portStatus := kPortRunCheckPortSuspend }]
    [4, 0, 0, 0]

/-- The module state `detachWorld` in which instance 2, the holder of the
token, works on its port 1. -/
def removeWorld : World :=
  { detachWorld with
    hubs := fun n => (detachWorld.hubs n).map (fun hub =>
      if n = 2 then { hub with portProcess := 1 } else hub) }

/-- The module state `detachWorld` with device 8 and its hub interface in the
stash. -/
def stashWorld : World :=
  { detachWorld with
    s_HubDeviceHandle := some 8,
    s_HubInterfaceHandle := some { handle := 40, bInterfaceClass := 9, bInterfaceSubClass := 0 } }

/-- A sequence of calls of `USB_HostHubDeviceEvent`, oldest first, each with
the collaborators as they answer during that call: what the enumeration
engine reports for a device handle may differ from one call to the next. The
returned statuses are dropped. -/
def deviceRunIn : World → List (Env × DeviceEventArgs) → Option World
  | w, [] => some w
  | w, e :: rest =>
      (USB_HostHubDeviceEvent e.1 w e.2.hostHandle e.2.deviceHandle e.2.configuration
        e.2.eventCode).bind (fun r => deviceRunIn r.2 rest)

/-- The tier bound of `TierInv` for a tier assignment `tier` of the device
handles. -/
def TierCap (tier : Nat → Nat) (w : World) : Prop :=
  (∀ d, w.s_HubDeviceHandle = some d → tier d ≤ 5) ∧
  ∀ g ∈ w.s_HubGlobalArray, ∀ h ∈ g.hubList, ∃ hub, w.hubs h = some hub ∧
    (∀ d, hub.deviceHandle = some d → tier d ≤ 5) ∧ hub.hubLevel ≤ 5

/-- The collaborators `envTier` once every device handle names a device three
tiers deeper: the level of a device is its handle plus 3. -/
def envTierShift : Env :=
  { envAccept with
    info := fun d k =>
      match k with
      | kUSB_HostGetDeviceLevel => d + 3
      | _ => 0 }

/-- A hub of tier 3 with handle 3 is attached, enumerated and detached; then
handle 3 names a device of tier 6 and another enumeration-done event
arrives. -/
def reuseEvents : List (Env × DeviceEventArgs) :=
  [(envTier, hostDeviceArgs 1 3 kUSB_HostEventAttach),
   (envTier, hostDeviceArgs 1 3 kUSB_HostEventEnumerationDone),
   (envTier, hostDeviceArgs 1 3 kUSB_HostEventDetach),
   (envTierShift, hostDeviceArgs 1 3 kUSB_HostEventEnumerationDone)]

/-- A SET_FEATURE(DEVICE_REMOTE_WAKEUP) request as it was handed over: the
device it is addressed to, the instance passed as callback parameter, and
whether `USB_HostSendHubRequest` accepted it. Every other call gives `none`. -/
def wakeupSent : Action → Option (Option Nat × Nat × Bool)
  | Action.hubRequest d (HostRequest.setRemoteWakeup h) ok => some (some d, h, ok)
  | _ => none

/-- The remote-wakeup request of the instance `h`: addressed to the device of
`h`, with `h` as callback parameter and the acceptance `ok`. -/
def wakeupOf (hubs : Nat → Option HubInstance) (ok : Bool) (h : Nat) :
    Option Nat × Nat × Bool :=
  (deviceOf hubs h, h, ok)

/-- How `USB_HostHubProcessData` leaves the loop of its scan: `returned c1`
when the function returns in state `c1` (after the accepted request for the
hub status, after priming the interrupt pipe because a control transfer is
outstanding, or after the loop has run to its end and the pipe is primed),
and `portMachine c1` when it calls `USB_HostHubProcessPort` in state `c1` and
returns. -/
inductive ScanExit
  | returned (c1 : HubCtx)
  | portMachine (c1 : HubCtx)

/-- What `USB_HostHubProcessData` returns once its loop is left. -/
def exitResult (E : Env) (self : Nat) : ScanExit → Option HubCtx
  | ScanExit.returned c1 => some c1
  | ScanExit.portMachine c1 => USB_HostHubProcessPort E self c1

/-- One more iteration of the loop body. -/
def oneMore (r : ScanExit × Nat) : ScanExit × Nat := (r.1, r.2 + 1)

/-- The `for` loop of `USB_HostHubProcessData` from index `portIndex` on, with
its iterations counted: the way the loop is left and the number of times the
loop body has been entered. The result is `none` when the loop has not been
left after `fuel` evaluations of its condition. -/
def scanExit (E : Env) (self : Nat) : Nat → Nat → HubCtx → Option (ScanExit × Nat)
  | 0, _, _ => none
  | fuel + 1, portIndex, c =>
      if portIndex ≤ c.hub.portCount then
        if bitmapBit c.hub portIndex then
          if portIndex = 0 then
            if hubBitAllowed self c then
              let c1 := setHubStatus c kHubRunGetStatusDone
              if accepted E self Request.getStatus c1 then
                some (ScanExit.returned
                  (setPrime (submitted E self Request.getStatus c1) kPrimeHubControl), 1)
              else
                (scanExit E self fuel ((portIndex + 1) % 256)
                  (setHubStatus (submitted E self Request.getStatus c1) kHubRunIdle)).map oneMore
            else (scanExit E self fuel ((portIndex + 1) % 256) c).map oneMore
          else if portBitAllowed self c portIndex then
            if c.hub.controlTransfer = false then
              some (ScanExit.portMachine
                { c with hubProcess := some self, hub := { c.hub with portProcess := portIndex } },
                1)
            else some (ScanExit.returned (USB_HostHubGetInterruptStatus E self c), 1)
          else (scanExit E self fuel ((portIndex + 1) % 256) c).map oneMore
        else (scanExit E self fuel ((portIndex + 1) % 256) c).map oneMore
      else some (ScanExit.returned (USB_HostHubGetInterruptStatus E self c), 0)

/-- The scan of state `c` ends within `portCount + 1` iterations: with any
fuel of at least `portCount + 2` the loop is left in the same way `x` after
the same number `k ≤ portCount + 1` of iterations, and `scanBits` returns
what the function returns after that exit. -/
def ScanTerminates (E : Env) (self : Nat) (c : HubCtx) : Prop :=
  ∃ x k, k ≤ c.hub.portCount + 1 ∧
    ∀ fuel, c.hub.portCount + 2 ≤ fuel →
      scanExit E self fuel 0 c = some (x, k) ∧
      scanBits E self fuel 0 c = exitResult E self x

/-! ## Lemmas and theorems -/

@[simp] theorem submitted_portList (E : Env) (self : Nat) (r : Request) (c : HubCtx) :
    (submitted E self r c).hub.portList = c.hub.portList := rfl

@[simp] theorem setPrime_portList (c : HubCtx) (p : PrimeStatus) :
    (setPrime c p).hub.portList = c.hub.portList := rfl

@[simp] theorem getInterruptStatus_portList (E : Env) (self : Nat) (c : HubCtx) :
    (USB_HostHubGetInterruptStatus E self c).hub.portList = c.hub.portList := by
  unfold USB_HostHubGetInterruptStatus
  split
  · rfl
  · simp only []
    split <;> rfl

theorem attachSwitch_portList (E : Env) (self : Nat) (port : PortInstance) (c : HubCtx) :
    (attachSwitch E self port c).ctx.hub.portList = c.hub.portList := by
  unfold attachSwitch portRequest portResetRequest
  simp only []
  split <;> (repeat' split) <;> simp

theorem currentPort_some {hub : HubInstance} {port : PortInstance}
    (h : currentPort hub = some port) :
    hub.portProcess ≠ 0 ∧ portAt hub (hub.portProcess - 1) = some port := by
  unfold currentPort at h
  split at h
  · cases h
  · exact ⟨by assumption, h⟩

theorem portAt_storePort {idx : Nat} {q : PortInstance} {c : HubCtx}
    (h : ∃ l, c.hub.portList = some l ∧ idx < l.length) :
    portAt (storePort idx q c).hub idx = some q := by
  obtain ⟨l, hl, hlt⟩ := h
  simp [portAt, storePort, hl, hlt]

theorem portAt_lt {hub : HubInstance} {idx : Nat} {port : PortInstance}
    (h : portAt hub idx = some port) : ∃ l, hub.portList = some l ∧ idx < l.length := by
  unfold portAt at h
  cases hl : hub.portList with
  | none => simp [hl] at h
  | some l =>
    simp [hl] at h
    exact ⟨l, rfl, (List.getElem?_eq_some.mp h).1⟩

/-- C5: in state `KPortRunCheckCPortReset` with `C_PORT_RESET` set in the status
word and `resetCount = 0`, the speed recorded for the port is HIGH iff
`PORT_HIGH_SPEED` is set, LOW iff `PORT_HIGH_SPEED` is clear and
`PORT_LOW_SPEED` is set, and FULL iff both are clear; so HIGH wins when both
are set. This holds whether or not the following `CLEAR_FEATURE` is accepted. -/
theorem C5_speed_classification (E : Env) (self : Nat) (c : HubCtx) (port : PortInstance)
    (hport : currentPort c.hub = some port)
    (hst : port.portStatus = KPortRunCheckCPortReset)
    (hrc : port.resetCount = 0)
    (hbit : bitSet C_PORT_RESET (USB_LONG_FROM_LITTLE_ENDIAN_ADDRESS c.hub.portStatusBuffer) = true) :
    ∃ c1 port1, USB_HostHubProcessPortAttach E self c = some c1 ∧
      portAt c1.hub (c.hub.portProcess - 1) = some port1 ∧
      (port1.speed = USB_SPEED_HIGH ↔
        bitSet PORT_HIGH_SPEED (USB_LONG_FROM_LITTLE_ENDIAN_ADDRESS c.hub.portStatusBuffer) = true) ∧
      (port1.speed = USB_SPEED_LOW ↔
        (bitSet PORT_HIGH_SPEED (USB_LONG_FROM_LITTLE_ENDIAN_ADDRESS c.hub.portStatusBuffer) = false ∧
         bitSet PORT_LOW_SPEED (USB_LONG_FROM_LITTLE_ENDIAN_ADDRESS c.hub.portStatusBuffer) = true)) ∧
      (port1.speed = USB_SPEED_FULL ↔
        (bitSet PORT_HIGH_SPEED (USB_LONG_FROM_LITTLE_ENDIAN_ADDRESS c.hub.portStatusBuffer) = false ∧
         bitSet PORT_LOW_SPEED (USB_LONG_FROM_LITTLE_ENDIAN_ADDRESS c.hub.portStatusBuffer) = false)) := by
  obtain ⟨hne, hat⟩ := currentPort_some hport
  obtain ⟨l, hl, hlt⟩ := portAt_lt hat
  have hsw : (attachSwitch E self port c).port.speed
      = portSpeedOf (USB_LONG_FROM_LITTLE_ENDIAN_ADDRESS c.hub.portStatusBuffer) := by
    unfold attachSwitch portRequest
    simp only [hst, hbit, hrc, if_true]
    split <;> rfl
  have hpl := attachSwitch_portList E self port c
  unfold USB_HostHubProcessPortAttach
  rw [hport]
  simp only [Option.map_some']
  generalize hw : USB_LONG_FROM_LITTLE_ENDIAN_ADDRESS c.hub.portStatusBuffer = w at *
  have hspeed : (portSpeedOf w = USB_SPEED_HIGH ↔ bitSet PORT_HIGH_SPEED w = true) ∧
      (portSpeedOf w = USB_SPEED_LOW ↔ (bitSet PORT_HIGH_SPEED w = false ∧ bitSet PORT_LOW_SPEED w = true)) ∧
      (portSpeedOf w = USB_SPEED_FULL ↔ (bitSet PORT_HIGH_SPEED w = false ∧ bitSet PORT_LOW_SPEED w = false)) := by
    unfold portSpeedOf USB_SPEED_HIGH USB_SPEED_LOW USB_SPEED_FULL
    cases bitSet PORT_HIGH_SPEED w <;> cases bitSet PORT_LOW_SPEED w <;> simp
  split
  · refine ⟨_, _, rfl, portAt_storePort ⟨l, by rw [hpl]; exact hl, hlt⟩, ?_⟩
    rw [hsw]; exact hspeed
  · refine ⟨_, _, rfl, portAt_storePort ⟨l, by simp [hpl, hl], hlt⟩, ?_⟩
    simp only [hsw]; exact hspeed

theorem findSlot_bound (p : HubGlobal → Bool) :
    ∀ (gs : List HubGlobal) (k i : Nat), findSlot p gs k = some i → k ≤ i ∧ i < k + gs.length := by
  intro gs
  induction gs with
  | nil => intro k i h; simp [findSlot] at h
  | cons g rest ih =>
    intro k i h
    unfold findSlot at h
    split at h
    · cases h; simp
    · have := ih (k + 1) i h
      simp only [List.length_cons]
      omega

theorem claimSlot_length (h : Option Nat) :
    ∀ (gs : List HubGlobal) (i : Nat), (claimSlot gs i h).length = gs.length := by
  intro gs
  induction gs with
  | nil => intro i; simp [claimSlot]
  | cons g rest ih =>
    intro i
    cases i with
    | zero => simp [claimSlot]
    | succ j => simp [claimSlot, ih j]

/-- A slot found among the first `n` slots is a slot of the array. -/
theorem findSlot_take_lt (p : HubGlobal → Bool) (gs : List HubGlobal) (n i : Nat)
    (h : findSlot p (gs.take n) 0 = some i) : i < gs.length ∧ i < n := by
  have h1 := (findSlot_bound p _ 0 i h).2
  rw [List.length_take] at h1
  have h2 := Nat.min_le_left n gs.length
  have h3 := Nat.min_le_right n gs.length
  omega

/-- Writing the host handle to a slot commutes with taking a prefix. -/
theorem claimSlot_take (h : Option Nat) :
    ∀ (gs : List HubGlobal) (i n : Nat),
      (claimSlot gs i h).take n = claimSlot (gs.take n) i h := by
  intro gs
  induction gs with
  | nil => intro i n; simp [claimSlot]
  | cons g rest ih =>
    intro i n
    cases n with
    | zero => simp [claimSlot]
    | succ m =>
      cases i with
      | zero => simp [claimSlot]
      | succ j => simp [claimSlot, ih j m]

theorem getHubList_index_lt (gs : List HubGlobal) (h : Option Nat) (i : Nat)
    (hi : (USB_HostHubGetHubList gs h).1 = some i) :
    i < (USB_HostHubGetHubList gs h).2.length := by
  unfold USB_HostHubGetHubList at hi ⊢
  split
  · rename_i h1
    simp only [h1, if_true] at hi
    cases hi
    simp [h1]
  · rename_i h1
    simp only [h1, if_false] at hi
    split at hi
    · rename_i j hj
      simp at hi; subst hi
      have := findSlot_take_lt _ _ _ _ hj
      simp [hj]; omega
    · rename_i hj
      split at hi
      · rename_i j hj2
        simp at hi; subst hi
        have := findSlot_take_lt _ _ _ _ hj2
        simp [hj, hj2, claimSlot_length]; omega
      · rename_i hj2
        split at hi
        · rename_i j hj3
          simp at hi; subst hi
          have := findSlot_take_lt _ _ _ _ hj3
          simp [hj, hj2, hj3, claimSlot_length]; omega
        · simp at hi

theorem attachScan_eq (E : Env) (dev : Option Nat) (l : List Interface) :
    attachScan E dev l =
      if getInfo E dev kUSB_HostGetDeviceLevel 0 > 5 then none else l.find? isHubInterface := by
  induction l with
  | nil => simp [attachScan]
  | cons itf rest ih =>
    unfold attachScan
    rw [ih]
    simp only [List.find?_cons, isHubInterface]
    by_cases h1 : itf.bInterfaceClass = USB_HOST_HUB_CLASS_CODE <;>
    by_cases h2 : itf.bInterfaceSubClass = USB_HOST_HUB_SUBCLASS_CODE_NONE <;>
    by_cases h3 : getInfo E dev kUSB_HostGetDeviceLevel 0 > 5 <;> simp [h1, h2, h3]

/-- C10: with a registry available, `kUSB_HostEventAttach` returns
`kStatus_USB_Success` iff the interface list has an interface of class 9 and
subclass 0 and the level of the device is at most 5; then the stash holds the
device handle of the event and the first such interface in list order;
otherwise the event returns `kStatus_USB_NotSupported` and the stash is
unchanged. -/
theorem C10_attach_classification (E : Env) (w : World) (hostHandle deviceHandle : Option Nat)
    (configuration : Configuration) (i : Nat)
    (hreg : (USB_HostHubGetHubList w.s_HubGlobalArray hostHandle).1 = some i) :
    ∃ st w1, USB_HostHubDeviceEvent E w hostHandle deviceHandle configuration
        kUSB_HostEventAttach = some (st, w1) ∧
      (st = kStatus_USB_Success ↔
        ((∃ itf ∈ configuration.interfaceList,
            itf.bInterfaceClass = 9 ∧ itf.bInterfaceSubClass = 0) ∧
          getInfo E deviceHandle kUSB_HostGetDeviceLevel 0 ≤ 5)) ∧
      (st = kStatus_USB_Success →
        w1.s_HubDeviceHandle = deviceHandle ∧
        w1.s_HubInterfaceHandle = configuration.interfaceList.find? isHubInterface) ∧
      (st ≠ kStatus_USB_Success →
        st = kStatus_USB_NotSupported ∧
        w1.s_HubDeviceHandle = w.s_HubDeviceHandle ∧
        w1.s_HubInterfaceHandle = w.s_HubInterfaceHandle ∧
        w1.s_HubConfiguration = w.s_HubConfiguration) := by
  have hlt := getHubList_index_lt _ _ _ hreg
  obtain ⟨g, hg⟩ : ∃ g, (USB_HostHubGetHubList w.s_HubGlobalArray hostHandle).2[i]? = some g :=
    ⟨_, List.getElem?_eq_getElem hlt⟩
  have hfind : (∃ itf ∈ configuration.interfaceList,
      itf.bInterfaceClass = 9 ∧ itf.bInterfaceSubClass = 0) ↔
      (configuration.interfaceList.find? isHubInterface).isSome = true := by
    simp [List.find?_isSome, isHubInterface, USB_HOST_HUB_CLASS_CODE,
      USB_HOST_HUB_SUBCLASS_CODE_NONE]
  unfold USB_HostHubDeviceEvent
  generalize hres : USB_HostHubGetHubList w.s_HubGlobalArray hostHandle = res at *
  obtain ⟨ri, gs⟩ := res
  simp only at hreg hg
  subst hreg
  simp only [hg, attachScan_eq]
  by_cases hlev : getInfo E deviceHandle kUSB_HostGetDeviceLevel 0 > 5
  · simp only [hlev, if_true]
    refine ⟨_, _, rfl, ?_, ?_, ?_⟩
    · simp; intro _ _ _ _; omega
    · simp
    · simp
  · simp only [hlev, if_false]
    cases hf : configuration.interfaceList.find? isHubInterface with
    | none =>
      refine ⟨_, _, rfl, ?_, ?_, ?_⟩
      · rw [hfind, hf]; simp
      · simp
      · simp
    | some itf =>
      refine ⟨_, _, rfl, ?_, ?_, ?_⟩
      · rw [hfind, hf]; simp; omega
      · simp
      · simp

theorem findSlot_claimSlot (h : Option Nat) :
    ∀ (gs : List HubGlobal) (i k : Nat), i < gs.length →
      findSlot (fun g => g.hostHandle = h) gs k = none →
      findSlot (fun g => g.hostHandle = h) (claimSlot gs i h) k = some (k + i) := by
  intro gs
  induction gs with
  | nil => intro i k hi; simp at hi
  | cons g rest ih =>
    intro i k hi hnone
    unfold findSlot at hnone
    split at hnone
    · cases hnone
    · rename_i hg
      cases i with
      | zero => simp [claimSlot, findSlot]
      | succ j =>
        have := ih j (k + 1) (by simpa using hi) hnone
        simp only [claimSlot, findSlot, hg]
        rw [this]
        simp
        omega

/-- Looking a registry up a second time with the same host handle returns
the same registry and leaves the array as the first lookup left it. -/
theorem getHubList_idem (gs : List HubGlobal) (h : Option Nat) :
    USB_HostHubGetHubList (USB_HostHubGetHubList gs h).2 h = USB_HostHubGetHubList gs h := by
  unfold USB_HostHubGetHubList
  by_cases h1 : gs.length = 1
  · simp [h1]
  · simp only [h1, if_false]
    cases hf1 : findSlot (fun g => g.hostHandle = h) (gs.take (gs.length % 256)) 0 with
    | some i => simp [h1, hf1]
    | none =>
      simp only []
      cases hf2 : findSlot (fun g => g.hostHandle = none) (gs.take (gs.length % 256)) 0 with
      | some i =>
        have hi := (findSlot_bound _ _ _ _ hf2).2
        have := findSlot_claimSlot h (gs.take (gs.length % 256)) i 0 (by omega) hf1
        simp only [Nat.zero_add] at this
        simp only [claimSlot_length, claimSlot_take, h1, if_false, this]
      | none =>
        simp only []
        cases hf3 : findSlot (fun g => g.hubList = []) (gs.take (gs.length % 256)) 0 with
        | some i =>
          have hi := (findSlot_bound _ _ _ _ hf3).2
          have := findSlot_claimSlot h (gs.take (gs.length % 256)) i 0 (by omega) hf1
          simp only [Nat.zero_add] at this
          simp only [claimSlot_length, claimSlot_take, h1, if_false, this]
        | none => simp [h1, hf1, hf2, hf3]

theorem claimSlot_hubProcess (h : Option Nat) :
    ∀ (gs : List HubGlobal) (i : Nat),
      (claimSlot gs i h).map (fun g => g.hubProcess) = gs.map (fun g => g.hubProcess) := by
  intro gs
  induction gs with
  | nil => intro i; simp [claimSlot]
  | cons g rest ih =>
    intro i
    cases i with
    | zero => simp [claimSlot]
    | succ j => simp [claimSlot, ih j]

theorem list_set_self {α : Type} (l : List α) (i : Nat) (a : α) (h : l[i]? = some a) :
    l.set i a = l := by
  apply List.ext_getElem?
  intro n
  by_cases hn : i = n
  · subst hn
    rw [List.getElem?_set_self ((List.getElem?_eq_some.mp h).1), h]
  · rw [List.getElem?_set_ne hn]

theorem getHubList_hubProcess (gs : List HubGlobal) (h : Option Nat) :
    (USB_HostHubGetHubList gs h).2.map (fun g => g.hubProcess)
      = gs.map (fun g => g.hubProcess) := by
  unfold USB_HostHubGetHubList
  split
  · rfl
  · split
    · rfl
    · split
      · exact claimSlot_hubProcess _ _ _
      · split
        · exact claimSlot_hubProcess _ _ _
        · rfl

theorem withRegistry_id (w : World) (self : Nat) (hub : HubInstance)
    (f : HubCtx → Option HubCtx) (hhub : w.hubs self = some hub)
    (hf : ∀ c, c.hub = hub → f c = some c) :
    ∃ w1, withRegistry w self f = some w1 ∧ w1.hubs = w.hubs ∧ w1.log = w.log ∧
      w1.s_HubGlobalArray.map (fun g => g.hubProcess)
        = w.s_HubGlobalArray.map (fun g => g.hubProcess) ∧
      w1.suspendedDevice = w.suspendedDevice := by
  unfold withRegistry
  simp only [hhub]
  have hp := getHubList_hubProcess w.s_HubGlobalArray hub.hostHandle
  have hlt := getHubList_index_lt w.s_HubGlobalArray hub.hostHandle
  generalize USB_HostHubGetHubList w.s_HubGlobalArray hub.hostHandle = res at *
  obtain ⟨ri, gs⟩ := res
  cases ri with
  | none => exact ⟨_, rfl, rfl, rfl, hp, rfl⟩
  | some i =>
    have hi := hlt i rfl
    simp only at hi hp
    simp only [List.getElem?_eq_getElem hi]
    rw [hf _ rfl]
    refine ⟨_, rfl, ?_, rfl, ?_, ?_⟩
    · simp only []
      funext k
      by_cases hk : k = self
      · subst hk; simp [hhub]
      · simp [Function.update, hk]
    · simp only []
      rw [← hp]
      congr 1
      exact list_set_self _ _ _ (List.getElem?_eq_getElem hi)
    · simp only []
      cases hh : hub.hostHandle with
      | none => rfl
      | some x =>
        simp only []
        funext k
        by_cases hk : k = x
        · subst hk; simp
        · simp [Function.update, hk]

/-- C2: for a hub instance with `invalid = 1` and any completion status, the
control callback and the interrupt-IN callback both return with every hub
instance (its ports included) unchanged, the `hubProcess` of every registry
unchanged and nothing added to the log, that is, no transfer submitted and no
call of the enumeration engine. The callbacks never read their data argument,
which the embedding therefore omits. -/
theorem C2_invalid_callbacks_drop (E : Env) (w : World) (self : Nat) (hub : HubInstance) (status : Bool)
    (hhub : w.hubs self = some hub) (hinv : hub.invalid = 1) :
    (∃ w1, controlCallback E w self status = some w1 ∧ w1.hubs = w.hubs ∧ w1.log = w.log ∧
      w1.s_HubGlobalArray.map (fun g => g.hubProcess)
        = w.s_HubGlobalArray.map (fun g => g.hubProcess)) ∧
    (∃ w2, interruptInCallback E w self status = some w2 ∧ w2.hubs = w.hubs ∧ w2.log = w.log ∧
      w2.s_HubGlobalArray.map (fun g => g.hubProcess)
        = w.s_HubGlobalArray.map (fun g => g.hubProcess)) := by
  constructor
  · obtain ⟨w1, h1, h2, h3, h4, _⟩ := withRegistry_id w self hub
      (USB_HostHubControlCallback E self status) hhub
      (by intro c hc; simp [USB_HostHubControlCallback, hc, hinv])
    exact ⟨w1, h1, h2, h3, h4⟩
  · obtain ⟨w1, h1, h2, h3, h4, _⟩ := withRegistry_id w self hub
      (USB_HostHubInterruptInCallback E self status) hhub
      (by intro c hc; simp [USB_HostHubInterruptInCallback, hc, hinv])
    exact ⟨w1, h1, h2, h3, h4⟩

/-- C8: when the attach sub-machine runs for port `p` in `kPortRunPortAttached`,
it calls `USB_HostAttachDevice` exactly once with the hub's host handle, the
speed recorded for the port, the hub's device address, `p` and `hubLevel + 1`;
a device returned by the engine is stored in the port's `deviceHandle`; then
`hubProcess` is `NULL`, `portProcess` is 0 and the interrupt-IN receive is
submitted. The address and the level are assumed to fit the 8-bit parameters. -/
theorem C8_attach_handoff (E : Env) (self : Nat) (c : HubCtx) (port : PortInstance)
    (hport : currentPort c.hub = some port)
    (hst : port.portStatus = kPortRunPortAttached)
    (hprime : c.hub.primeStatus = kPrimeNone)
    (haddr : getInfo E c.hub.deviceHandle kUSB_HostGetDeviceAddress 0 < 256)
    (hlevel : c.hub.hubLevel < 255) :
    ∃ c1 port1, USB_HostHubProcessPortAttach E self c = some c1 ∧
      portAt c1.hub (c.hub.portProcess - 1) = some port1 ∧
      c1.log = c.log ++
        [Action.attachDevice c.hub.hostHandle port.speed
            (getInfo E c.hub.deviceHandle kUSB_HostGetDeviceAddress 0)
            c.hub.portProcess (c.hub.hubLevel + 1),
         Action.submit self (Request.interruptRecv ((c.hub.portCount >>> 3) + 1))
            (E.accept (c.log.length + 1) self
              (Request.interruptRecv ((c.hub.portCount >>> 3) + 1)))] ∧
      (∀ d, E.attachDevice c.log.length = some d → port1.deviceHandle = some d) ∧
      (E.attachDevice c.log.length = none → port1.deviceHandle = port.deviceHandle) ∧
      c1.hubProcess = none ∧ c1.hub.portProcess = 0 ∧
      port1.resetCount = USB_HOST_HUB_PORT_RESET_TIMES ∧
      port1.portStatus = kPortRunPortAttached ∧
      (c1.hub.primeStatus = kPrimeInterrupt ↔
        E.accept (c.log.length + 1) self
          (Request.interruptRecv ((c.hub.portCount >>> 3) + 1)) = true) := by
  obtain ⟨hne, hat⟩ := currentPort_some hport
  obtain ⟨l, hl, hlt⟩ := portAt_lt hat
  unfold USB_HostHubProcessPortAttach
  rw [hport]
  simp only [Option.map_some']
  have hm1 : getInfo E c.hub.deviceHandle kUSB_HostGetDeviceAddress 0 % 256
      = getInfo E c.hub.deviceHandle kUSB_HostGetDeviceAddress 0 := Nat.mod_eq_of_lt haddr
  have hm2 : (c.hub.hubLevel + 1) % 256 = c.hub.hubLevel + 1 := Nat.mod_eq_of_lt (by omega)
  simp only [attachSwitch, hst, USB_HostHubGetInterruptStatus, hprime, hm1, hm2, accepted,
    submitted, setPrime, ne_eq, not_true_eq_false, if_false, if_true, List.length_append,
    List.length_singleton]
  cases hacc : E.accept (c.log.length + 1) self
      (Request.interruptRecv ((c.hub.portCount >>> 3) + 1)) <;>
    cases hd : E.attachDevice c.log.length <;>
    simp [portAt, storePort, hl, hlt, hprime]

theorem scanBits_skip (E : Env) (self : Nat) (c : HubCtx) (p : Nat)
    (hpc : p ≤ c.hub.portCount) (hp8 : p < 256) :
    ∀ (n fuel idx : Nat), idx + n = p → n ≤ fuel →
      (∀ j, idx ≤ j → j < p → bitSkipped self c j) →
      scanBits E self fuel idx c = scanBits E self (fuel - n) p c := by
  intro n
  induction n with
  | zero =>
    intro fuel idx h _ _
    simp at h; subst h; simp
  | succ n ih =>
    intro fuel idx h hf hskip
    cases fuel with
    | zero => omega
    | succ fuel =>
      have hlt : idx < p := by omega
      have hmod : (idx + 1) % 256 = idx + 1 := Nat.mod_eq_of_lt (by omega)
      have hrec := ih fuel (idx + 1) (by omega) (by omega)
        (fun j h1 h2 => hskip j (by omega) h2)
      have hfu : fuel + 1 - (n + 1) = fuel - n := by omega
      rw [hfu, ← hrec]
      have hle : idx ≤ c.hub.portCount := by omega
      rcases hskip idx (le_refl _) hlt with h1 | ⟨h0, h1⟩ | ⟨h0, h1⟩
      · simp [scanBits, hle, h1, hmod]
      · subst h0
        simp [scanBits, h1]
      · simp [scanBits, hle, h0, h1, hmod]

theorem processData_port (E : Env) (self : Nat) (c : HubCtx) (p : Nat)
    (hp : p ≠ 0) (hpc : p ≤ c.hub.portCount) (hp8 : p < 256) (hfuel : p < E.fuel)
    (hbit : bitmapBit c.hub p = true)
    (hskip : ∀ j, j < p → bitSkipped self c j)
    (hallow : portBitAllowed self c p = true)
    (hct : c.hub.controlTransfer = false) :
    USB_HostHubProcessData E self c =
      USB_HostHubProcessPort E self
        { c with hubProcess := some self, hub := { c.hub with portProcess := p } } := by
  unfold USB_HostHubProcessData
  rw [scanBits_skip E self c p hpc hp8 p E.fuel 0 (by simp) (by omega)
    (fun j _ h => hskip j h)]
  obtain ⟨k, hk⟩ : ∃ k, E.fuel - p = k + 1 := ⟨E.fuel - p - 1, by omega⟩
  rw [hk]
  simp [scanBits, hpc, hbit, hp, hallow, hct]

theorem viewOf_some {c : HubCtx} {idx : Nat} {v : PortView} (h : viewOf c idx = some v) :
    c.hubProcess = v.owner ∧ c.hub.portProcess = v.portProcess ∧
    c.hub.primeStatus = v.prime ∧ c.hub.controlTransfer = v.controlTransfer ∧
    c.log = v.log ∧ ∃ l, c.hub.portList = some l ∧ idx < l.length ∧ l[idx]? = some v.port := by
  unfold viewOf at h
  cases hp : portAt c.hub idx with
  | none => simp [hp] at h
  | some port =>
    simp [hp] at h
    subst h
    obtain ⟨l, hl, hlt⟩ := portAt_lt hp
    refine ⟨rfl, rfl, rfl, rfl, rfl, l, hl, hlt, ?_⟩
    simpa [portAt, hl] using hp

/-- An interrupt-IN arrival whose bitmap has bit `p` set starts or resumes
the sub-machine of port `p`: the dispatcher hands the port to
`USB_HostHubProcessPort` when the hub may serve it. -/
theorem step_interrupt (E : Env) (self p : Nat) (c0 c : HubCtx) (v : PortView)
    (bitmap : List Nat)
    (hinv : c0.hub.invalid ≠ 1) (hfr : SameHub c0 c)
    (hv : viewOf c (p - 1) = some v)
    (hp : p ≠ 0) (hpc : p ≤ c0.hub.portCount) (hp8 : p < 256) (hfuel : p < E.fuel)
    (hbit : bitmapHas bitmap p = true)
    (hlow : (v.owner = none ∧ ∀ j, j < p → bitmapHas bitmap j = false) ∨
      (v.owner = some self ∧ v.portProcess = p))
    (hct : v.controlTransfer = false) :
    hubStep E self c (HubEvent.interruptIn bitmap true) =
      USB_HostHubProcessPort E self
        { c with hubProcess := some self,
                 hub := { c.hub with hubBitmapBuffer := bitmap, primeStatus := kPrimeNone,
                                     portProcess := p } } := by
  obtain ⟨h1, h2, h3, h4, h5, l, hl, hlt, hget⟩ := viewOf_some hv
  obtain ⟨f1, f2, f3, f4, f5⟩ := hfr
  have hinv1 : ¬ c.hub.invalid = 1 := by rw [f1]; exact hinv
  simp only [hubStep, HubEvent.arrive, USB_HostHubInterruptInCallback, hinv1, if_false]
  rw [processData_port E self _ p hp (by simp [setPrime, f2]; exact hpc) hp8 hfuel
    (by simpa [setPrime, bitmapBit] using hbit)
    (by
      intro j hj
      rcases hlow with ⟨_, hl1⟩ | ⟨ho, hpp⟩
      · left; simpa [setPrime, bitmapBit] using hl1 j hj
      · by_cases hj0 : j = 0
        · right; left
          refine ⟨hj0, ?_⟩
          simp [hubBitAllowed, setPrime, h1, ho, h2, hpp, hp]
        · right; right
          refine ⟨hj0, ?_⟩
          have : ¬ p = j := by omega
          simp [portBitAllowed, setPrime, h1, ho, h2, hpp, hp, this])
    (by
      rcases hlow with ⟨ho, _⟩ | ⟨ho, hpp⟩
      · simp [portBitAllowed, setPrime, h1, ho]
      · simp [portBitAllowed, setPrime, h1, ho, h2, hpp])
    (by simp [setPrime, h4, hct])]
  simp [setPrime]

/-- A successful control completion on a hub whose outstanding transfer is
a port request re-enters `USB_HostHubProcessPort`. -/
theorem step_control (E : Env) (self : Nat) (c0 c : HubCtx) (reply : Reply)
    (hinv : c0.hub.invalid ≠ 1) (hfr : SameHub c0 c)
    (hprime : c.hub.primeStatus = kPrimePortControl) :
    hubStep E self c (HubEvent.controlDone reply true) =
      USB_HostHubProcessPort E self
        (setPrime { c with hub := (HubEvent.controlDone reply true).arrive c.hub } kPrimeNone) := by
  obtain ⟨f1, f2, f3, f4, f5⟩ := hfr
  have hinv1 : ¬ c.hub.invalid = 1 := by rw [f1]; exact hinv
  have hp1 : ((HubEvent.controlDone reply true).arrive c.hub).primeStatus = kPrimePortControl := by
    cases reply <;> simpa [HubEvent.arrive] using hprime
  have hi1 : ¬ ((HubEvent.controlDone reply true).arrive c.hub).invalid = 1 := by
    cases reply <;> simpa [HubEvent.arrive] using hinv1
  simp [hubStep, USB_HostHubControlCallback, hp1, hi1]

/-- Attach step (2): the status read shows `C_PORT_CONNECTION`, which is cleared. -/
theorem phase_checkCPortConnection (E : Env) (self p : Nat) (c0 c : HubCtx) (v : PortView) (b : List Nat)
    (hacc : ∀ n h r, E.accept n h r = true)
    (hinv : c0.hub.invalid ≠ 1) (hfr : SameHub c0 c)
    (hv : viewOf c (p - 1) = some v) (hp : p ≠ 0)
    (hown : v.owner = some self) (hpp : v.portProcess = p)
    (hprime : v.prime = kPrimePortControl)
    (hvac : v.port.deviceHandle = none)
    (hst : v.port.portStatus = kPortRunCheckCPortConnection)
    (hb : bitSet C_PORT_CONNECTION (USB_LONG_FROM_LITTLE_ENDIAN_ADDRESS b) = true) :
    ∃ c1, hubStep E self c (HubEvent.controlDone (Reply.portStatus b) true) = some c1 ∧ SameHub c0 c1 ∧
      viewOf c1 (p - 1) = some
        { owner := some self, portProcess := p, prime := kPrimePortControl,
          controlTransfer := true,
          port := { v.port with portStatus := kPortRunGetPortConnection },
          log := v.log ++ [Action.submit self (Request.clearPortFeature p C_PORT_CONNECTION) true] } := by
  obtain ⟨h1, h2, h3, h4, h5, l, hl, hlt, hget⟩ := viewOf_some hv
  rw [step_control E self c0 c _ hinv hfr (by rw [h3]; exact hprime)]
  obtain ⟨f1, f2, f3, f4, f5⟩ := hfr
  simp [USB_HostHubProcessPort, USB_HostHubProcessPortAttach, currentPort, hp, hl, hget, hvac,
    setPrime, attachSwitch, hst, portRequest, portResetRequest, accepted, hacc, submitted,
    storePort, SameHub, viewOf, portAt, hlt, f1, f2, f3, f4, f5, h1, h2, h5, hpp, hown,
    Request.isControl, HubEvent.arrive, USB_HostHubGetInterruptStatus, hb]

/-- Attach step (3): the port status is read again. -/
theorem phase_getPortConnection (E : Env) (self p : Nat) (c0 c : HubCtx) (v : PortView)
    (hacc : ∀ n h r, E.accept n h r = true)
    (hinv : c0.hub.invalid ≠ 1) (hfr : SameHub c0 c)
    (hv : viewOf c (p - 1) = some v) (hp : p ≠ 0)
    (hown : v.owner = some self) (hpp : v.portProcess = p)
    (hprime : v.prime = kPrimePortControl)
    (hvac : v.port.deviceHandle = none)
    (hst : v.port.portStatus = kPortRunGetPortConnection) :
    ∃ c1, hubStep E self c (HubEvent.controlDone (Reply.noData) true) = some c1 ∧ SameHub c0 c1 ∧
      viewOf c1 (p - 1) = some
        { owner := some self, portProcess := p, prime := kPrimePortControl,
          controlTransfer := true,
          port := { v.port with portStatus := kPortRunCheckPortConnection },
          log := v.log ++ [Action.submit self (Request.getPortStatus p) true] } := by
  obtain ⟨h1, h2, h3, h4, h5, l, hl, hlt, hget⟩ := viewOf_some hv
  rw [step_control E self c0 c _ hinv hfr (by rw [h3]; exact hprime)]
  obtain ⟨f1, f2, f3, f4, f5⟩ := hfr
  simp [USB_HostHubProcessPort, USB_HostHubProcessPortAttach, currentPort, hp, hl, hget, hvac,
    setPrime, attachSwitch, hst, portRequest, portResetRequest, accepted, hacc, submitted,
    storePort, SameHub, viewOf, portAt, hlt, f1, f2, f3, f4, f5, h1, h2, h5, hpp, hown,
    Request.isControl, HubEvent.arrive, USB_HostHubGetInterruptStatus]

/-- Attach step (4): the status read shows `PORT_CONNECTION`; the port is reset and
`resetCount` is decremented when positive. -/
theorem phase_checkPortConnection (E : Env) (self p : Nat) (c0 c : HubCtx) (v : PortView) (b : List Nat)
    (hacc : ∀ n h r, E.accept n h r = true)
    (hinv : c0.hub.invalid ≠ 1) (hfr : SameHub c0 c)
    (hv : viewOf c (p - 1) = some v) (hp : p ≠ 0)
    (hown : v.owner = some self) (hpp : v.portProcess = p)
    (hprime : v.prime = kPrimePortControl)
    (hvac : v.port.deviceHandle = none)
    (hst : v.port.portStatus = kPortRunCheckPortConnection)
    (hb : bitSet PORT_CONNECTION (USB_LONG_FROM_LITTLE_ENDIAN_ADDRESS b) = true) :
    ∃ c1, hubStep E self c (HubEvent.controlDone (Reply.portStatus b) true) = some c1 ∧ SameHub c0 c1 ∧
      viewOf c1 (p - 1) = some
        { owner := some self, portProcess := p, prime := kPrimePortControl,
          controlTransfer := true,
          port := { v.port with portStatus := kPortRunWaitPortResetDone,
                                resetCount := v.port.resetCount - 1 },
          log := v.log ++ [Action.submit self (Request.setPortFeature p PORT_RESET) true] } := by
  obtain ⟨h1, h2, h3, h4, h5, l, hl, hlt, hget⟩ := viewOf_some hv
  rw [step_control E self c0 c _ hinv hfr (by rw [h3]; exact hprime)]
  obtain ⟨f1, f2, f3, f4, f5⟩ := hfr
  simp [USB_HostHubProcessPort, USB_HostHubProcessPortAttach, currentPort, hp, hl, hget, hvac,
    setPrime, attachSwitch, hst, portRequest, portResetRequest, accepted, hacc, submitted,
    storePort, SameHub, viewOf, portAt, hlt, f1, f2, f3, f4, f5, h1, h2, h5, hpp, hown,
    Request.isControl, HubEvent.arrive, USB_HostHubGetInterruptStatus, hb]
  intro h0
  omega

/-- Attach step (5): the reset request has completed; the interrupt-IN pipe is primed. -/
theorem phase_waitPortResetDone (E : Env) (self p : Nat) (c0 c : HubCtx) (v : PortView)
    (hacc : ∀ n h r, E.accept n h r = true)
    (hinv : c0.hub.invalid ≠ 1) (hfr : SameHub c0 c)
    (hv : viewOf c (p - 1) = some v) (hp : p ≠ 0)
    (hown : v.owner = some self) (hpp : v.portProcess = p)
    (hprime : v.prime = kPrimePortControl)
    (hvac : v.port.deviceHandle = none)
    (hst : v.port.portStatus = kPortRunWaitPortResetDone) :
    ∃ c1, hubStep E self c (HubEvent.controlDone (Reply.noData) true) = some c1 ∧ SameHub c0 c1 ∧
      viewOf c1 (p - 1) = some
        { owner := some self, portProcess := p, prime := kPrimeInterrupt,
          controlTransfer := false,
          port := { v.port with portStatus := kPortRunWaitCPortReset },
          log := v.log ++
            [Action.submit self (Request.interruptRecv ((c0.hub.portCount >>> 3) + 1)) true] } := by
  obtain ⟨h1, h2, h3, h4, h5, l, hl, hlt, hget⟩ := viewOf_some hv
  rw [step_control E self c0 c _ hinv hfr (by rw [h3]; exact hprime)]
  obtain ⟨f1, f2, f3, f4, f5⟩ := hfr
  simp [USB_HostHubProcessPort, USB_HostHubProcessPortAttach, currentPort, hp, hl, hget, hvac,
    setPrime, attachSwitch, hst, portRequest, portResetRequest, accepted, hacc, submitted,
    storePort, SameHub, viewOf, portAt, hlt, f1, f2, f3, f4, f5, h1, h2, h5, hpp, hown,
    Request.isControl, HubEvent.arrive, USB_HostHubGetInterruptStatus]

/-- Attach step (7) with resets left: `C_PORT_RESET` is cleared and the port goes to
`kPortRunResetAgain`. -/
theorem phase_checkCPortReset_again (E : Env) (self p : Nat) (c0 c : HubCtx) (v : PortView) (b : List Nat)
    (hacc : ∀ n h r, E.accept n h r = true)
    (hinv : c0.hub.invalid ≠ 1) (hfr : SameHub c0 c)
    (hv : viewOf c (p - 1) = some v) (hp : p ≠ 0)
    (hown : v.owner = some self) (hpp : v.portProcess = p)
    (hprime : v.prime = kPrimePortControl)
    (hvac : v.port.deviceHandle = none)
    (hst : v.port.portStatus = KPortRunCheckCPortReset)
    (hb : bitSet C_PORT_RESET (USB_LONG_FROM_LITTLE_ENDIAN_ADDRESS b) = true) (hrc : v.port.resetCount ≠ 0) :
    ∃ c1, hubStep E self c (HubEvent.controlDone (Reply.portStatus b) true) = some c1 ∧ SameHub c0 c1 ∧
      viewOf c1 (p - 1) = some
        { owner := some self, portProcess := p, prime := kPrimePortControl,
          controlTransfer := true,
          port := { v.port with portStatus := kPortRunResetAgain },
          log := v.log ++ [Action.submit self (Request.clearPortFeature p C_PORT_RESET) true] } := by
  obtain ⟨h1, h2, h3, h4, h5, l, hl, hlt, hget⟩ := viewOf_some hv
  rw [step_control E self c0 c _ hinv hfr (by rw [h3]; exact hprime)]
  obtain ⟨f1, f2, f3, f4, f5⟩ := hfr
  simp [USB_HostHubProcessPort, USB_HostHubProcessPortAttach, currentPort, hp, hl, hget, hvac,
    setPrime, attachSwitch, hst, portRequest, portResetRequest, accepted, hacc, submitted,
    storePort, SameHub, viewOf, portAt, hlt, f1, f2, f3, f4, f5, h1, h2, h5, hpp, hown,
    Request.isControl, HubEvent.arrive, USB_HostHubGetInterruptStatus, hb, hrc]

/-- Attach step (7) with no reset left: the speed is recorded, `C_PORT_RESET` is cleared
and the port goes to `kPortRunPortAttached`. -/
theorem phase_checkCPortReset_last (E : Env) (self p : Nat) (c0 c : HubCtx) (v : PortView) (b : List Nat)
    (hacc : ∀ n h r, E.accept n h r = true)
    (hinv : c0.hub.invalid ≠ 1) (hfr : SameHub c0 c)
    (hv : viewOf c (p - 1) = some v) (hp : p ≠ 0)
    (hown : v.owner = some self) (hpp : v.portProcess = p)
    (hprime : v.prime = kPrimePortControl)
    (hvac : v.port.deviceHandle = none)
    (hst : v.port.portStatus = KPortRunCheckCPortReset)
    (hb : bitSet C_PORT_RESET (USB_LONG_FROM_LITTLE_ENDIAN_ADDRESS b) = true) (hrc : v.port.resetCount = 0) :
    ∃ c1, hubStep E self c (HubEvent.controlDone (Reply.portStatus b) true) = some c1 ∧ SameHub c0 c1 ∧
      viewOf c1 (p - 1) = some
        { owner := some self, portProcess := p, prime := kPrimePortControl,
          controlTransfer := true,
          port := { v.port with portStatus := kPortRunPortAttached,
                                speed := portSpeedOf (USB_LONG_FROM_LITTLE_ENDIAN_ADDRESS b) },
          log := v.log ++ [Action.submit self (Request.clearPortFeature p C_PORT_RESET) true] } := by
  obtain ⟨h1, h2, h3, h4, h5, l, hl, hlt, hget⟩ := viewOf_some hv
  rw [step_control E self c0 c _ hinv hfr (by rw [h3]; exact hprime)]
  obtain ⟨f1, f2, f3, f4, f5⟩ := hfr
  simp [USB_HostHubProcessPort, USB_HostHubProcessPortAttach, currentPort, hp, hl, hget, hvac,
    setPrime, attachSwitch, hst, portRequest, portResetRequest, accepted, hacc, submitted,
    storePort, SameHub, viewOf, portAt, hlt, f1, f2, f3, f4, f5, h1, h2, h5, hpp, hown,
    Request.isControl, HubEvent.arrive, USB_HostHubGetInterruptStatus, hb, hrc]

/-- Attach step (8): the port status is read before the next reset. -/
theorem phase_resetAgain (E : Env) (self p : Nat) (c0 c : HubCtx) (v : PortView)
    (hacc : ∀ n h r, E.accept n h r = true)
    (hinv : c0.hub.invalid ≠ 1) (hfr : SameHub c0 c)
    (hv : viewOf c (p - 1) = some v) (hp : p ≠ 0)
    (hown : v.owner = some self) (hpp : v.portProcess = p)
    (hprime : v.prime = kPrimePortControl)
    (hvac : v.port.deviceHandle = none)
    (hst : v.port.portStatus = kPortRunResetAgain) :
    ∃ c1, hubStep E self c (HubEvent.controlDone (Reply.noData) true) = some c1 ∧ SameHub c0 c1 ∧
      viewOf c1 (p - 1) = some
        { owner := some self, portProcess := p, prime := kPrimePortControl,
          controlTransfer := true,
          port := { v.port with portStatus := kPortRunCheckPortConnection },
          log := v.log ++ [Action.submit self (Request.getPortStatus p) true] } := by
  obtain ⟨h1, h2, h3, h4, h5, l, hl, hlt, hget⟩ := viewOf_some hv
  rw [step_control E self c0 c _ hinv hfr (by rw [h3]; exact hprime)]
  obtain ⟨f1, f2, f3, f4, f5⟩ := hfr
  simp [USB_HostHubProcessPort, USB_HostHubProcessPortAttach, currentPort, hp, hl, hget, hvac,
    setPrime, attachSwitch, hst, portRequest, portResetRequest, accepted, hacc, submitted,
    storePort, SameHub, viewOf, portAt, hlt, f1, f2, f3, f4, f5, h1, h2, h5, hpp, hown,
    Request.isControl, HubEvent.arrive, USB_HostHubGetInterruptStatus]

/-- Attach step (9): the device is handed to the enumeration engine, the token is
released and the interrupt-IN pipe is primed. -/
theorem phase_portAttached (E : Env) (self p : Nat) (c0 c : HubCtx) (v : PortView)
    (hacc : ∀ n h r, E.accept n h r = true)
    (hinv : c0.hub.invalid ≠ 1) (hfr : SameHub c0 c)
    (hv : viewOf c (p - 1) = some v) (hp : p ≠ 0)
    (hown : v.owner = some self) (hpp : v.portProcess = p)
    (hprime : v.prime = kPrimePortControl)
    (hvac : v.port.deviceHandle = none)
    (hst : v.port.portStatus = kPortRunPortAttached) :
    ∃ c1, hubStep E self c (HubEvent.controlDone (Reply.noData) true) = some c1 ∧ SameHub c0 c1 ∧
      viewOf c1 (p - 1) = some
        { owner := none, portProcess := 0, prime := kPrimeInterrupt,
          controlTransfer := false,
          port := { v.port with
            deviceHandle := E.attachDevice v.log.length,
            resetCount := USB_HOST_HUB_PORT_RESET_TIMES },
          log := v.log ++
            [Action.attachDevice c0.hub.hostHandle v.port.speed
               (getInfo E c0.hub.deviceHandle kUSB_HostGetDeviceAddress 0 % 256) p
               ((c0.hub.hubLevel + 1) % 256),
             Action.submit self (Request.interruptRecv ((c0.hub.portCount >>> 3) + 1)) true] } := by
  obtain ⟨h1, h2, h3, h4, h5, l, hl, hlt, hget⟩ := viewOf_some hv
  rw [step_control E self c0 c _ hinv hfr (by rw [h3]; exact hprime)]
  obtain ⟨f1, f2, f3, f4, f5⟩ := hfr
  simp [USB_HostHubProcessPort, USB_HostHubProcessPortAttach, currentPort, hp, hl, hget, hvac,
    setPrime, attachSwitch, hst, portRequest, portResetRequest, accepted, hacc, submitted,
    storePort, SameHub, viewOf, portAt, hlt, f1, f2, f3, f4, f5, h1, h2, h5, hpp, hown,
    Request.isControl, HubEvent.arrive, USB_HostHubGetInterruptStatus]

theorem hubRun_append (E : Env) (self : Nat) :
    ∀ (xs ys : List HubEvent) (c : HubCtx),
      hubRun E self c (xs ++ ys) = (hubRun E self c xs).bind (fun c1 => hubRun E self c1 ys) := by
  intro xs
  induction xs with
  | nil => intro ys c; simp [hubRun]
  | cons x rest ih =>
    intro ys c
    simp only [List.cons_append, hubRun]
    cases hubStep E self c x with
    | none => simp
    | some c1 => simp [ih]

/-- Attach step (1): the first notification of a vacant idle port. -/
theorem phase_waitPortChange (E : Env) (self p : Nat) (c0 c : HubCtx) (v : PortView)
    (bitmap : List Nat)
    (hacc : ∀ n h r, E.accept n h r = true)
    (hinv : c0.hub.invalid ≠ 1) (hfr : SameHub c0 c)
    (hv : viewOf c (p - 1) = some v)
    (hp : p ≠ 0) (hpc : p ≤ c0.hub.portCount) (hp8 : p < 256) (hfuel : p < E.fuel)
    (hbit : bitmapHas bitmap p = true)
    (hlow : ∀ j, j < p → bitmapHas bitmap j = false)
    (hown : v.owner = none) (hct : v.controlTransfer = false)
    (hvac : v.port.deviceHandle = none)
    (hst : v.port.portStatus = kPortRunWaitPortChange) :
    ∃ c1, hubStep E self c (HubEvent.interruptIn bitmap true) = some c1 ∧ SameHub c0 c1 ∧
      viewOf c1 (p - 1) = some
        { owner := some self, portProcess := p, prime := kPrimePortControl,
          controlTransfer := true,
          port := { v.port with portStatus := kPortRunCheckCPortConnection },
          log := v.log ++ [Action.submit self (Request.getPortStatus p) true] } := by
  rw [step_interrupt E self p c0 c v bitmap hinv hfr hv hp hpc hp8 hfuel hbit
    (Or.inl ⟨hown, hlow⟩) hct]
  obtain ⟨h1, h2, h3, h4, h5, l, hl, hlt, hget⟩ := viewOf_some hv
  obtain ⟨f1, f2, f3, f4, f5⟩ := hfr
  simp [USB_HostHubProcessPort, USB_HostHubProcessPortAttach, currentPort, hp, hl, hget, hvac,
    setPrime, attachSwitch, hst, portRequest, accepted, hacc, submitted, storePort, SameHub,
    viewOf, portAt, hlt, f1, f2, f3, f4, f5, h5, h4, hct, Request.isControl]

/-- Attach step (6): the notification after a reset makes the hub read the
port status. -/
theorem phase_waitCPortReset (E : Env) (self p : Nat) (c0 c : HubCtx) (v : PortView)
    (bitmap : List Nat)
    (hacc : ∀ n h r, E.accept n h r = true)
    (hinv : c0.hub.invalid ≠ 1) (hfr : SameHub c0 c)
    (hv : viewOf c (p - 1) = some v)
    (hp : p ≠ 0) (hpc : p ≤ c0.hub.portCount) (hp8 : p < 256) (hfuel : p < E.fuel)
    (hbit : bitmapHas bitmap p = true)
    (hown : v.owner = some self) (hpp : v.portProcess = p) (hct : v.controlTransfer = false)
    (hvac : v.port.deviceHandle = none)
    (hst : v.port.portStatus = kPortRunWaitCPortReset) :
    ∃ c1, hubStep E self c (HubEvent.interruptIn bitmap true) = some c1 ∧ SameHub c0 c1 ∧
      viewOf c1 (p - 1) = some
        { owner := some self, portProcess := p, prime := kPrimePortControl,
          controlTransfer := true,
          port := { v.port with portStatus := KPortRunCheckCPortReset },
          log := v.log ++ [Action.submit self (Request.getPortStatus p) true] } := by
  rw [step_interrupt E self p c0 c v bitmap hinv hfr hv hp hpc hp8 hfuel hbit
    (Or.inr ⟨hown, hpp⟩) hct]
  obtain ⟨h1, h2, h3, h4, h5, l, hl, hlt, hget⟩ := viewOf_some hv
  obtain ⟨f1, f2, f3, f4, f5⟩ := hfr
  simp [USB_HostHubProcessPort, USB_HostHubProcessPortAttach, currentPort, hp, hl, hget, hvac,
    setPrime, attachSwitch, hst, portRequest, accepted, hacc, submitted, storePort, SameHub,
    viewOf, portAt, hlt, f1, f2, f3, f4, f5, h5, h4, hct, Request.isControl]

theorem sameHub_refl (c : HubCtx) : SameHub c c := ⟨rfl, rfl, rfl, rfl, rfl⟩

theorem viewOf_of_portAt {c : HubCtx} {idx : Nat} {port : PortInstance}
    (h : portAt c.hub idx = some port) :
    viewOf c idx = some
      { owner := c.hubProcess, portProcess := c.hub.portProcess, prime := c.hub.primeStatus,
        controlTransfer := c.hub.controlTransfer, port := port, log := c.log } := by
  simp [viewOf, h]

/-- From the first notification to the first reset request. -/
theorem run_attachStart (E : Env) (self p : Nat) (c0 : HubCtx) (port : PortInstance)
    (bitmap b1 b2 : List Nat)
    (hacc : ∀ n h r, E.accept n h r = true)
    (hinv : c0.hub.invalid ≠ 1)
    (hport : portAt c0.hub (p - 1) = some port)
    (hp : p ≠ 0) (hpc : p ≤ c0.hub.portCount) (hp8 : p < 256) (hfuel : p < E.fuel)
    (hbit : bitmapHas bitmap p = true)
    (hlow : ∀ j, j < p → bitmapHas bitmap j = false)
    (hown : c0.hubProcess = none) (hct : c0.hub.controlTransfer = false)
    (hvac : port.deviceHandle = none)
    (hst : port.portStatus = kPortRunWaitPortChange)
    (hb1 : bitSet C_PORT_CONNECTION (USB_LONG_FROM_LITTLE_ENDIAN_ADDRESS b1) = true)
    (hb2 : bitSet PORT_CONNECTION (USB_LONG_FROM_LITTLE_ENDIAN_ADDRESS b2) = true) :
    ∃ c1, hubRun E self c0 (attachStartEvents bitmap b1 b2) = some c1 ∧ SameHub c0 c1 ∧
      viewOf c1 (p - 1) = some
        (resetPending self p port (port.resetCount - 1) (c0.log ++ attachStartLog self p)) := by
  obtain ⟨c1, e1, fr1, v1⟩ := phase_waitPortChange E self p c0 c0 _ bitmap hacc hinv
    (sameHub_refl c0) (viewOf_of_portAt hport) hp hpc hp8 hfuel hbit hlow hown hct hvac hst
  obtain ⟨c2, e2, fr2, v2⟩ := phase_checkCPortConnection E self p c0 c1 _ b1 hacc hinv fr1 v1
    hp rfl rfl rfl hvac rfl hb1
  obtain ⟨c3, e3, fr3, v3⟩ := phase_getPortConnection E self p c0 c2 _ hacc hinv fr2 v2
    hp rfl rfl rfl hvac rfl
  obtain ⟨c4, e4, fr4, v4⟩ := phase_checkPortConnection E self p c0 c3 _ b2 hacc hinv fr3 v3
    hp rfl rfl rfl hvac rfl hb2
  refine ⟨c4, ?_, fr4, ?_⟩
  · simp [attachStartEvents, hubRun, e1, e2, e3, e4]
  · rw [v4]
    simp [resetPending, attachStartLog]

/-- From one reset request to the next, while resets are left. -/
theorem run_resetCycle (E : Env) (self p : Nat) (c0 c : HubCtx) (port : PortInstance)
    (k : Nat) (log : List Action) (t : List Nat × List Nat × List Nat)
    (hacc : ∀ n h r, E.accept n h r = true)
    (hinv : c0.hub.invalid ≠ 1) (hfr : SameHub c0 c)
    (hv : viewOf c (p - 1) = some (resetPending self p port (k + 1) log))
    (hp : p ≠ 0) (hpc : p ≤ c0.hub.portCount) (hp8 : p < 256) (hfuel : p < E.fuel)
    (hvac : port.deviceHandle = none)
    (hbit : bitmapHas t.1 p = true)
    (hs1 : bitSet C_PORT_RESET (USB_LONG_FROM_LITTLE_ENDIAN_ADDRESS t.2.1) = true)
    (hs2 : bitSet PORT_CONNECTION (USB_LONG_FROM_LITTLE_ENDIAN_ADDRESS t.2.2) = true) :
    ∃ c1, hubRun E self c (resetCycleEvents t) = some c1 ∧ SameHub c0 c1 ∧
      viewOf c1 (p - 1) = some
        (resetPending self p port k
          (log ++ resetCycleLog self p ((c0.hub.portCount >>> 3) + 1))) := by
  obtain ⟨c1, e1, fr1, v1⟩ := phase_waitPortResetDone E self p c0 c _ hacc hinv hfr hv
    hp rfl rfl rfl hvac rfl
  obtain ⟨c2, e2, fr2, v2⟩ := phase_waitCPortReset E self p c0 c1 _ t.1 hacc hinv fr1 v1
    hp hpc hp8 hfuel hbit rfl rfl rfl hvac rfl
  obtain ⟨c3, e3, fr3, v3⟩ := phase_checkCPortReset_again E self p c0 c2 _ t.2.1 hacc hinv fr2 v2
    hp rfl rfl rfl hvac rfl hs1 (Nat.succ_ne_zero k)
  obtain ⟨c4, e4, fr4, v4⟩ := phase_resetAgain E self p c0 c3 _ hacc hinv fr3 v3
    hp rfl rfl rfl hvac rfl
  obtain ⟨c5, e5, fr5, v5⟩ := phase_checkPortConnection E self p c0 c4 _ t.2.2 hacc hinv fr4 v4
    hp rfl rfl rfl hvac rfl hs2
  refine ⟨c5, ?_, fr5, ?_⟩
  · simp [resetCycleEvents, hubRun, e1, e2, e3, e4, e5]
  · rw [v5]
    simp [resetPending, resetCycleLog]

/-- A sequence of reset cycles lowers the number of resets left by its
length. -/
theorem run_resetCycles (E : Env) (self p : Nat) (c0 : HubCtx) (port : PortInstance)
    (hacc : ∀ n h r, E.accept n h r = true)
    (hinv : c0.hub.invalid ≠ 1)
    (hp : p ≠ 0) (hpc : p ≤ c0.hub.portCount) (hp8 : p < 256) (hfuel : p < E.fuel)
    (hvac : port.deviceHandle = none) :
    ∀ (cycles : List (List Nat × List Nat × List Nat)) (c : HubCtx) (k : Nat)
      (log : List Action),
      SameHub c0 c →
      viewOf c (p - 1) = some (resetPending self p port (k + cycles.length) log) →
      (∀ t ∈ cycles, bitmapHas t.1 p = true ∧
        bitSet C_PORT_RESET (USB_LONG_FROM_LITTLE_ENDIAN_ADDRESS t.2.1) = true ∧
        bitSet PORT_CONNECTION (USB_LONG_FROM_LITTLE_ENDIAN_ADDRESS t.2.2) = true) →
      ∃ c1, hubRun E self c (cycles.flatMap resetCycleEvents) = some c1 ∧ SameHub c0 c1 ∧
        viewOf c1 (p - 1) = some
          (resetPending self p port k
            (log ++ (List.replicate cycles.length
              (resetCycleLog self p ((c0.hub.portCount >>> 3) + 1))).flatten)) := by
  intro cycles
  induction cycles with
  | nil =>
    intro c k log hfr hv _
    exact ⟨c, by simp [hubRun], hfr, by simpa using hv⟩
  | cons t rest ih =>
    intro c k log hfr hv hall
    have ht := hall t (List.mem_cons_self _ _)
    have hv1 : viewOf c (p - 1) = some (resetPending self p port ((k + rest.length) + 1) log) := by
      rw [hv]; simp only [List.length_cons]; rfl
    obtain ⟨c1, e1, fr1, v1⟩ := run_resetCycle E self p c0 c port (k + rest.length) log t
      hacc hinv hfr hv1 hp hpc hp8 hfuel hvac ht.1 ht.2.1 ht.2.2
    obtain ⟨c2, e2, fr2, v2⟩ := ih c1 k _ fr1 v1
      (fun t1 h1 => hall t1 (List.mem_cons_of_mem _ h1))
    refine ⟨c2, ?_, fr2, ?_⟩
    · simp only [List.flatMap_cons, hubRun_append, e1, Option.some_bind, e2]
    · rw [v2]
      simp [List.replicate_succ, List.append_assoc]

/-- From the last reset request to the hand-off. -/
theorem run_attachFinal (E : Env) (self p : Nat) (c0 c : HubCtx) (port : PortInstance)
    (log : List Action) (bitmap b : List Nat)
    (hacc : ∀ n h r, E.accept n h r = true)
    (hinv : c0.hub.invalid ≠ 1) (hfr : SameHub c0 c)
    (hv : viewOf c (p - 1) = some (resetPending self p port 0 log))
    (hp : p ≠ 0) (hpc : p ≤ c0.hub.portCount) (hp8 : p < 256) (hfuel : p < E.fuel)
    (hvac : port.deviceHandle = none)
    (hbit : bitmapHas bitmap p = true)
    (hs : bitSet C_PORT_RESET (USB_LONG_FROM_LITTLE_ENDIAN_ADDRESS b) = true) :
    ∃ c1, hubRun E self c (attachFinalEvents bitmap b) = some c1 ∧ SameHub c0 c1 ∧
      viewOf c1 (p - 1) = some
        { owner := none, portProcess := 0, prime := kPrimeInterrupt, controlTransfer := false,
          port := { port with
            deviceHandle := E.attachDevice (log.length + 3),
            portStatus := kPortRunPortAttached,
            resetCount := USB_HOST_HUB_PORT_RESET_TIMES,
            speed := portSpeedOf (USB_LONG_FROM_LITTLE_ENDIAN_ADDRESS b) },
          log := log ++ attachFinalLog self p ((c0.hub.portCount >>> 3) + 1) c0.hub.hostHandle
            (portSpeedOf (USB_LONG_FROM_LITTLE_ENDIAN_ADDRESS b))
            (getInfo E c0.hub.deviceHandle kUSB_HostGetDeviceAddress 0 % 256)
            ((c0.hub.hubLevel + 1) % 256) } := by
  obtain ⟨c1, e1, fr1, v1⟩ := phase_waitPortResetDone E self p c0 c _ hacc hinv hfr hv
    hp rfl rfl rfl hvac rfl
  obtain ⟨c2, e2, fr2, v2⟩ := phase_waitCPortReset E self p c0 c1 _ bitmap hacc hinv fr1 v1
    hp hpc hp8 hfuel hbit rfl rfl rfl hvac rfl
  obtain ⟨c3, e3, fr3, v3⟩ := phase_checkCPortReset_last E self p c0 c2 _ b hacc hinv fr2 v2
    hp rfl rfl rfl hvac rfl hs rfl
  obtain ⟨c4, e4, fr4, v4⟩ := phase_portAttached E self p c0 c3 _ hacc hinv fr3 v3
    hp rfl rfl rfl hvac rfl
  refine ⟨c4, ?_, fr4, ?_⟩
  · simp [attachFinalEvents, hubRun, e1, e2, e3, e4]
  · rw [v4]
    simp [resetPending, attachFinalLog]

/-- C3: a vacant port in `kPortRunWaitPortChange` with `resetCount = 4` is
notified; every submission is accepted and every transfer succeeds; the first
status read shows `C_PORT_CONNECTION`, the second `PORT_CONNECTION`, and after
each reset the status reads show `C_PORT_RESET` and `PORT_CONNECTION` where
the code tests them. Then after the first reset and each of the three reset
cycles the counter is 3, 2, 1, 0 with 1, 2, 3, 4 resets and no hand-off
logged, and the whole run logs exactly four accepted `SET_FEATURE(PORT_RESET)`
followed by exactly one `USB_HostAttachDevice`, leaves the port in
`kPortRunPortAttached` with the counter restored and releases the token. -/
theorem C3_reset_storm (E : Env) (self p : Nat) (c0 : HubCtx) (port : PortInstance)
    (bitmap b1 b2 : List Nat) (cycles : List (List Nat × List Nat × List Nat))
    (bitmapF bF : List Nat)
    (hacc : ∀ n h r, E.accept n h r = true)
    (hinv : c0.hub.invalid ≠ 1)
    (hport : portAt c0.hub (p - 1) = some port)
    (hp : p ≠ 0) (hpc : p ≤ c0.hub.portCount) (hp8 : p < 256) (hfuel : p < E.fuel)
    (hown : c0.hubProcess = none) (hct : c0.hub.controlTransfer = false)
    (hvac : port.deviceHandle = none)
    (hst : port.portStatus = kPortRunWaitPortChange)
    (hrc : port.resetCount = USB_HOST_HUB_PORT_RESET_TIMES)
    (hbit : bitmapHas bitmap p = true)
    (hlow : ∀ j, j < p → bitmapHas bitmap j = false)
    (hb1 : bitSet C_PORT_CONNECTION (USB_LONG_FROM_LITTLE_ENDIAN_ADDRESS b1) = true)
    (hb2 : bitSet PORT_CONNECTION (USB_LONG_FROM_LITTLE_ENDIAN_ADDRESS b2) = true)
    (hlen : cycles.length = 3)
    (hcyc : ∀ t ∈ cycles, bitmapHas t.1 p = true ∧
      bitSet C_PORT_RESET (USB_LONG_FROM_LITTLE_ENDIAN_ADDRESS t.2.1) = true ∧
      bitSet PORT_CONNECTION (USB_LONG_FROM_LITTLE_ENDIAN_ADDRESS t.2.2) = true)
    (hbitF : bitmapHas bitmapF p = true)
    (hbF : bitSet C_PORT_RESET (USB_LONG_FROM_LITTLE_ENDIAN_ADDRESS bF) = true) :
    (∀ j, j ≤ 3 → ∃ cj portj,
      hubRun E self c0 (attachStartEvents bitmap b1 b2 ++
        (cycles.take j).flatMap resetCycleEvents) = some cj ∧
      portAt cj.hub (p - 1) = some portj ∧ portj.resetCount = 3 - j ∧
      (List.drop c0.log.length cj.log).countP (isPortReset p) = j + 1 ∧
      (List.drop c0.log.length cj.log).countP isAttachDevice = 0) ∧
    ∃ c1 port1 extra,
      hubRun E self c0 (attachStartEvents bitmap b1 b2 ++ cycles.flatMap resetCycleEvents ++
        attachFinalEvents bitmapF bF) = some c1 ∧
      c1.log = c0.log ++ extra ++
        [Action.attachDevice c0.hub.hostHandle
            (portSpeedOf (USB_LONG_FROM_LITTLE_ENDIAN_ADDRESS bF))
            (getInfo E c0.hub.deviceHandle kUSB_HostGetDeviceAddress 0 % 256) p
            ((c0.hub.hubLevel + 1) % 256),
         Action.submit self (Request.interruptRecv ((c0.hub.portCount >>> 3) + 1)) true] ∧
      extra.countP (isPortReset p) = 4 ∧ extra.countP isAttachDevice = 0 ∧
      portAt c1.hub (p - 1) = some port1 ∧
      port1.portStatus = kPortRunPortAttached ∧
      port1.deviceHandle = E.attachDevice (c0.log.length + extra.length) ∧
      port1.resetCount = USB_HOST_HUB_PORT_RESET_TIMES ∧
      c1.hubProcess = none ∧ c1.hub.portProcess = 0 := by
  have hrc4 : port.resetCount - 1 = 3 := by rw [hrc]; rfl
  obtain ⟨ca, ea, fra, va⟩ := run_attachStart E self p c0 port bitmap b1 b2 hacc hinv hport
    hp hpc hp8 hfuel hbit hlow hown hct hvac hst hb1 hb2
  rw [hrc4] at va
  constructor
  · intro j hj
    have hlenj : (cycles.take j).length = j := by
      rw [List.length_take, hlen]; omega
    have va1 : viewOf ca (p - 1) = some (resetPending self p port
        ((3 - j) + (cycles.take j).length) (c0.log ++ attachStartLog self p)) := by
      rw [va, hlenj]
      have : 3 - j + j = 3 := by omega
      rw [this]
    obtain ⟨cb, eb, frb, vb⟩ := run_resetCycles E self p c0 port hacc hinv hp hpc hp8 hfuel
      hvac (cycles.take j) ca (3 - j) _ fra va1
      (fun t ht => hcyc t (List.mem_of_mem_take ht))
    obtain ⟨h1, h2, h3, h4, h5, l, hl, hlt, hget⟩ := viewOf_some vb
    refine ⟨cb, (resetPending self p port (3 - j) []).port, ?_, ?_, rfl, ?_, ?_⟩
    · rw [hubRun_append, ea]; exact eb
    · simp [portAt, hl, hget, resetPending]
    · rw [h5]
      simp only [resetPending, hlenj, List.append_assoc, List.drop_left]
      have hj4 : j = 0 ∨ j = 1 ∨ j = 2 ∨ j = 3 := by omega
      rcases hj4 with h | h | h | h <;> subst h <;>
        simp [attachStartLog, resetCycleLog, isPortReset, List.countP_cons, List.replicate]
    · rw [h5]
      simp only [resetPending, hlenj, List.append_assoc, List.drop_left]
      have hj4 : j = 0 ∨ j = 1 ∨ j = 2 ∨ j = 3 := by omega
      rcases hj4 with h | h | h | h <;> subst h <;>
        simp [attachStartLog, resetCycleLog, isAttachDevice, List.countP_cons, List.replicate]
  · have va1 : viewOf ca (p - 1) = some (resetPending self p port
        (0 + cycles.length) (c0.log ++ attachStartLog self p)) := by
      rw [va, hlen]
    obtain ⟨cb, eb, frb, vb⟩ := run_resetCycles E self p c0 port hacc hinv hp hpc hp8 hfuel
      hvac cycles ca 0 _ fra va1 hcyc
    obtain ⟨cc, ec, frc, vc⟩ := run_attachFinal E self p c0 cb port _ bitmapF bF hacc hinv
      frb vb hp hpc hp8 hfuel hvac hbitF hbF
    obtain ⟨h1, h2, h3, h4, h5, l, hl, hlt, hget⟩ := viewOf_some vc
    refine ⟨cc, { port with
        deviceHandle := E.attachDevice
          ((c0.log ++ attachStartLog self p ++ (List.replicate cycles.length
            (resetCycleLog self p ((c0.hub.portCount >>> 3) + 1))).flatten).length + 3),
        portStatus := kPortRunPortAttached,
        resetCount := USB_HOST_HUB_PORT_RESET_TIMES,
        speed := portSpeedOf (USB_LONG_FROM_LITTLE_ENDIAN_ADDRESS bF) },
      attachStartLog self p ++
      (List.replicate 3 (resetCycleLog self p ((c0.hub.portCount >>> 3) + 1))).flatten ++
      [Action.submit self (Request.interruptRecv ((c0.hub.portCount >>> 3) + 1)) true,
       Action.submit self (Request.getPortStatus p) true,
       Action.submit self (Request.clearPortFeature p C_PORT_RESET) true], ?_, ?_, ?_, ?_, ?_,
      rfl, ?_, rfl, ?_, ?_⟩
    · rw [hubRun_append, hubRun_append, ea]
      simp only [Option.some_bind, eb, ec]
    · rw [h5, hlen]
      simp [attachFinalLog, List.append_assoc]
    · simp [attachStartLog, resetCycleLog, isPortReset, List.countP_cons, List.replicate]
    · simp [attachStartLog, resetCycleLog, isAttachDevice, List.countP_cons, List.replicate]
    · simp [portAt, hl, hget]
    · simp [hlen, attachStartLog, resetCycleLog, List.replicate]
    · exact h1
    · exact h2

/-- Instance of C3: port 2 of a four-port hub, with the same status after every
reset. -/
theorem C3_reset_storm_witness :
    ∃ c1, hubRun envAccept 7 (ctxIdle4 (List.replicate 4 (portVacant 4)))
        (attachStartEvents [4] [1, 0, 1, 0] [1, 0, 0, 0] ++
          (List.replicate 3 ([4], [1, 0, 0x10, 0], [1, 0, 0x10, 0])).flatMap resetCycleEvents ++
          attachFinalEvents [4] [1, 0, 0x10, 0]) = some c1 ∧
      c1.log.countP (isPortReset 2) = 4 ∧ c1.log.countP isAttachDevice = 1 := by
  obtain ⟨_, c1, port1, extra, h1, h2, h3, h4, _⟩ :=
    C3_reset_storm envAccept 7 2 (ctxIdle4 (List.replicate 4 (portVacant 4))) (portVacant 4)
      [4] [1, 0, 1, 0] [1, 0, 0, 0] (List.replicate 3 ([4], [1, 0, 0x10, 0], [1, 0, 0x10, 0]))
      [4] [1, 0, 0x10, 0] (fun _ _ _ => rfl) (by decide) rfl (by decide) (by decide)
      (by decide) (by decide) rfl rfl rfl rfl rfl (by decide) (by decide) (by decide)
      (by decide) rfl (by decide) (by decide) (by decide)
  refine ⟨c1, h1, ?_, ?_⟩
  · rw [h2]
    simp [List.countP_append, h3, ctxIdle4, isPortReset, List.countP_cons]
  · rw [h2]
    simp [List.countP_append, h4, ctxIdle4, isAttachDevice, List.countP_cons]

/-- C4 (counterexample): on a four-port hub whose port 2 is vacant with
`resetCount = 4`, after the bitmap `0b100`, the status
`C_PORT_CONNECTION|PORT_CONNECTION`, the clear, the status `PORT_CONNECTION`,
one `SET_FEATURE(PORT_RESET)`, a notification with bit 2 and the status
`C_PORT_RESET|PORT_ENABLE`, the completion of `CLEAR_FEATURE(C_PORT_RESET)`
does not hand the device off: no `USB_HostAttachDevice` is logged, the port is
in `kPortRunCheckPortConnection` and the last request is another `GET_STATUS`. -/
theorem C4_single_reset_counterexample :
    (hubRun envAccept 7 (ctxIdle4 (List.replicate 4 (portVacant 4)))
        (attachStartEvents [4] [1, 0, 1, 0] [1, 0, 0, 0] ++
          attachFinalEvents [4] [2, 0, 0x10, 0])).map
      (fun c => (c.log.countP isAttachDevice, (portAt c.hub 1).map (fun q => q.portStatus),
        c.log.getLast?))
      = some (0, some kPortRunCheckPortConnection,
          some (Action.submit 7 (Request.getPortStatus 2) true)) := by
  decide

/-- After a reset that was not the last one: the hub clears `C_PORT_RESET`
and reads the port status again. -/
theorem run_attachFinal_again (E : Env) (self p : Nat) (c0 c : HubCtx) (port : PortInstance)
    (k : Nat) (log : List Action) (bitmap b : List Nat)
    (hacc : ∀ n h r, E.accept n h r = true)
    (hinv : c0.hub.invalid ≠ 1) (hfr : SameHub c0 c)
    (hv : viewOf c (p - 1) = some (resetPending self p port (k + 1) log))
    (hp : p ≠ 0) (hpc : p ≤ c0.hub.portCount) (hp8 : p < 256) (hfuel : p < E.fuel)
    (hvac : port.deviceHandle = none)
    (hbit : bitmapHas bitmap p = true)
    (hs : bitSet C_PORT_RESET (USB_LONG_FROM_LITTLE_ENDIAN_ADDRESS b) = true) :
    ∃ c1, hubRun E self c (attachFinalEvents bitmap b) = some c1 ∧ SameHub c0 c1 ∧
      viewOf c1 (p - 1) = some
        { owner := some self, portProcess := p, prime := kPrimePortControl,
          controlTransfer := true,
          port := { port with portStatus := kPortRunCheckPortConnection, resetCount := k + 1 },
          log := log ++
            [Action.submit self (Request.interruptRecv ((c0.hub.portCount >>> 3) + 1)) true,
             Action.submit self (Request.getPortStatus p) true,
             Action.submit self (Request.clearPortFeature p C_PORT_RESET) true,
             Action.submit self (Request.getPortStatus p) true] } := by
  obtain ⟨c1, e1, fr1, v1⟩ := phase_waitPortResetDone E self p c0 c _ hacc hinv hfr hv
    hp rfl rfl rfl hvac rfl
  obtain ⟨c2, e2, fr2, v2⟩ := phase_waitCPortReset E self p c0 c1 _ bitmap hacc hinv fr1 v1
    hp hpc hp8 hfuel hbit rfl rfl rfl hvac rfl
  obtain ⟨c3, e3, fr3, v3⟩ := phase_checkCPortReset_again E self p c0 c2 _ b hacc hinv fr2 v2
    hp rfl rfl rfl hvac rfl hs (Nat.succ_ne_zero k)
  obtain ⟨c4, e4, fr4, v4⟩ := phase_resetAgain E self p c0 c3 _ hacc hinv fr3 v3
    hp rfl rfl rfl hvac rfl
  refine ⟨c4, ?_, fr4, ?_⟩
  · simp [attachFinalEvents, hubRun, e1, e2, e3, e4]
  · rw [v4]
    simp [resetPending]

/-- C4 (amended): after the notification, the status showing `C_PORT_CONNECTION`,
the clear, the status showing `PORT_CONNECTION`, one
`SET_FEATURE(PORT_RESET)`, a notification with the port's bit and a status
showing `C_PORT_RESET` without the two speed bits,
`CLEAR_FEATURE(C_PORT_RESET)` is issued; when that reset was the last one
allowed (`resetCount` was 1) the speed FULL is recorded and
`USB_HostAttachDevice(host, FULL, hub address, port, level + 1)` is called
exactly once with no second reset; when resets are left (`resetCount` was
greater, as with 4) neither happens: the port goes through
`kPortRunResetAgain` and the status is read again. -/
theorem C4_attach_after_last_reset (E : Env) (self p : Nat) (c0 : HubCtx) (port : PortInstance)
    (bitmap b1 b2 bitmapF bF : List Nat) (k : Nat)
    (hacc : ∀ n h r, E.accept n h r = true)
    (hinv : c0.hub.invalid ≠ 1)
    (hport : portAt c0.hub (p - 1) = some port)
    (hp : p ≠ 0) (hpc : p ≤ c0.hub.portCount) (hp8 : p < 256) (hfuel : p < E.fuel)
    (hown : c0.hubProcess = none) (hct : c0.hub.controlTransfer = false)
    (hvac : port.deviceHandle = none)
    (hst : port.portStatus = kPortRunWaitPortChange)
    (hrc : port.resetCount = k + 1)
    (hbit : bitmapHas bitmap p = true)
    (hlow : ∀ j, j < p → bitmapHas bitmap j = false)
    (hb1 : bitSet C_PORT_CONNECTION (USB_LONG_FROM_LITTLE_ENDIAN_ADDRESS b1) = true)
    (hb2 : bitSet PORT_CONNECTION (USB_LONG_FROM_LITTLE_ENDIAN_ADDRESS b2) = true)
    (hbitF : bitmapHas bitmapF p = true)
    (hbF : bitSet C_PORT_RESET (USB_LONG_FROM_LITTLE_ENDIAN_ADDRESS bF) = true)
    (hhigh : bitSet PORT_HIGH_SPEED (USB_LONG_FROM_LITTLE_ENDIAN_ADDRESS bF) = false)
    (hlowsp : bitSet PORT_LOW_SPEED (USB_LONG_FROM_LITTLE_ENDIAN_ADDRESS bF) = false)
    (haddr : getInfo E c0.hub.deviceHandle kUSB_HostGetDeviceAddress 0 < 256)
    (hlevel : c0.hub.hubLevel < 255) :
    ∃ c1 port1,
      hubRun E self c0 (attachStartEvents bitmap b1 b2 ++ attachFinalEvents bitmapF bF)
        = some c1 ∧
      portAt c1.hub (p - 1) = some port1 ∧
      (k = 0 →
        c1.log = c0.log ++ attachStartLog self p ++
          attachFinalLog self p ((c0.hub.portCount >>> 3) + 1) c0.hub.hostHandle USB_SPEED_FULL
            (getInfo E c0.hub.deviceHandle kUSB_HostGetDeviceAddress 0) (c0.hub.hubLevel + 1) ∧
        port1.speed = USB_SPEED_FULL ∧ port1.portStatus = kPortRunPortAttached ∧
        port1.deviceHandle = E.attachDevice (c0.log.length + 7) ∧
        c1.hubProcess = none ∧ c1.hub.portProcess = 0) ∧
      (k ≠ 0 →
        c1.log = c0.log ++ attachStartLog self p ++
          [Action.submit self (Request.interruptRecv ((c0.hub.portCount >>> 3) + 1)) true,
           Action.submit self (Request.getPortStatus p) true,
           Action.submit self (Request.clearPortFeature p C_PORT_RESET) true,
           Action.submit self (Request.getPortStatus p) true] ∧
        port1.speed = port.speed ∧ port1.portStatus = kPortRunCheckPortConnection ∧
        port1.resetCount = k ∧ port1.deviceHandle = none ∧
        c1.hubProcess = some self ∧ c1.hub.portProcess = p) := by
  have hrc1 : port.resetCount - 1 = k := by rw [hrc]; rfl
  obtain ⟨ca, ea, fra, va⟩ := run_attachStart E self p c0 port bitmap b1 b2 hacc hinv hport
    hp hpc hp8 hfuel hbit hlow hown hct hvac hst hb1 hb2
  rw [hrc1] at va
  have hm1 : getInfo E c0.hub.deviceHandle kUSB_HostGetDeviceAddress 0 % 256
      = getInfo E c0.hub.deviceHandle kUSB_HostGetDeviceAddress 0 := Nat.mod_eq_of_lt haddr
  have hm2 : (c0.hub.hubLevel + 1) % 256 = c0.hub.hubLevel + 1 := Nat.mod_eq_of_lt (by omega)
  have hsp : portSpeedOf (USB_LONG_FROM_LITTLE_ENDIAN_ADDRESS bF) = USB_SPEED_FULL := by
    simp [portSpeedOf, hhigh, hlowsp]
  cases k with
  | zero =>
    obtain ⟨cc, ec, frc, vc⟩ := run_attachFinal E self p c0 ca port _ bitmapF bF hacc hinv
      fra va hp hpc hp8 hfuel hvac hbitF hbF
    obtain ⟨h1, h2, h3, h4, h5, l, hl, hlt, hget⟩ := viewOf_some vc
    refine ⟨cc, _, ?_, by simp [portAt, hl]; exact hget, ?_, ?_⟩
    · rw [hubRun_append, ea]; exact ec
    · intro _
      refine ⟨?_, hsp, rfl, ?_, h1, h2⟩
      · rw [h5, hsp, hm1, hm2]
      · simp [attachStartLog]
    · intro h; exact absurd rfl h
  | succ k =>
    obtain ⟨cc, ec, frc, vc⟩ := run_attachFinal_again E self p c0 ca port k _ bitmapF bF hacc
      hinv fra va hp hpc hp8 hfuel hvac hbitF hbF
    obtain ⟨h1, h2, h3, h4, h5, l, hl, hlt, hget⟩ := viewOf_some vc
    refine ⟨cc, _, ?_, by simp [portAt, hl]; exact hget, ?_, ?_⟩
    · rw [hubRun_append, ea]; exact ec
    · intro h; exact absurd h (Nat.succ_ne_zero k)
    · intro _
      exact ⟨h5, rfl, rfl, rfl, hvac, h1, h2⟩

/-- Instance of the amended C4: port 2 of a four-port hub with one reset left. -/
theorem C4_attach_after_last_reset_witness :
    ∃ c1 port1,
      hubRun envAccept 7 (ctxIdle4 (List.replicate 4 (portVacant 1)))
        (attachStartEvents [4] [1, 0, 1, 0] [1, 0, 0, 0] ++
          attachFinalEvents [4] [2, 0, 0x10, 0]) = some c1 ∧
      portAt c1.hub 1 = some port1 ∧
      c1.log = attachStartLog 7 2 ++ attachFinalLog 7 2 1 (some 1) USB_SPEED_FULL 5 2 ∧
      port1.speed = USB_SPEED_FULL ∧ port1.portStatus = kPortRunPortAttached := by
  obtain ⟨c1, port1, h1, h2, h3, _⟩ :=
    C4_attach_after_last_reset envAccept 7 2 (ctxIdle4 (List.replicate 4 (portVacant 1))) (portVacant 1)
      [4] [1, 0, 1, 0] [1, 0, 0, 0] [4] [2, 0, 0x10, 0] 0 (fun _ _ _ => rfl) (by decide) rfl
      (by decide) (by decide) (by decide) (by decide) rfl rfl rfl rfl rfl (by decide)
      (by decide) (by decide) (by decide) (by decide) (by decide) (by decide) (by decide)
      (by decide) (by decide)
  obtain ⟨h4, h5, h6, _⟩ := h3 rfl
  exact ⟨c1, port1, h1, h2, by simpa [ctxIdle4] using h4, h5, h6⟩

theorem spec_portRequest (E : Env) (self p : Nat) (req : Request) (port port1 : PortInstance)
    (c : HubCtx)
    (hreq : ∀ ok, isPortReset p (Action.submit self req ok) = false)
    (hrc : port1.resetCount = port.resetCount) (hinv : PortInv port1) :
    ∃ L, StepSpec p port c (portRequest E self req port1 c) L ∧
      L.any isAttachDevice = false ∧ L.any isDetachDevice = false := by
  refine ⟨[Action.submit self req (accepted E self req c)], ?_, ?_, ?_⟩
  · unfold portRequest
    split
    · rename_i h
      simp [StepSpec, submitted, setPrime, h, hreq, hrc, hinv, isAttachDevice]
    · rename_i h
      simp [StepSpec, submitted, h, hreq, hrc, isAttachDevice]
  · simp [isAttachDevice]
  · simp [isDetachDevice]

theorem spec_portResetRequest (E : Env) (self : Nat) (port port1 : PortInstance) (c : HubCtx)
    (hrc : port1.resetCount = port.resetCount) (hpos : 0 < port.resetCount)
    (hvac : port1.deviceHandle = none) (hst : port1.portStatus = kPortRunWaitPortResetDone) :
    ∃ L, StepSpec c.hub.portProcess port c (portResetRequest E self port1 c) L ∧
      L.any isAttachDevice = false ∧ L.any isDetachDevice = false := by
  refine ⟨[Action.submit self (Request.setPortFeature c.hub.portProcess PORT_RESET)
    (accepted E self (Request.setPortFeature c.hub.portProcess PORT_RESET) c)], ?_, ?_, ?_⟩
  · unfold portResetRequest
    simp only []
    split
    · rename_i h
      have hpos1 : 0 < port1.resetCount := by rw [hrc]; exact hpos
      simp [StepSpec, submitted, setPrime, h, hrc, isAttachDevice, isPortReset, PortInv, hvac,
        hst, hpos]
      omega
    · rename_i h
      simp [StepSpec, submitted, h, hrc, isAttachDevice, isPortReset]
  · simp [isAttachDevice]
  · simp [isDetachDevice]

theorem spec_fail (p : Nat) (port port1 : PortInstance) (c : HubCtx)
    (hrc : port1.resetCount = port.resetCount) :
    ∃ L, StepSpec p port c { port := port1, ctx := c, processSuccess := false } L ∧
      L.any isAttachDevice = false ∧ L.any isDetachDevice = false :=
  ⟨[], by simp [StepSpec, hrc], rfl, rfl⟩

theorem getInterruptStatus_spec (E : Env) (self : Nat) (c : HubCtx) :
    ∃ L, (USB_HostHubGetInterruptStatus E self c).log = c.log ++ L ∧
      (USB_HostHubGetInterruptStatus E self c).hubProcess = c.hubProcess ∧
      (USB_HostHubGetInterruptStatus E self c).hub.portProcess = c.hub.portProcess ∧
      (∀ p, L.any (isPortReset p) = false) ∧ L.any isAttachDevice = false ∧
      L.any isDetachDevice = false := by
  unfold USB_HostHubGetInterruptStatus
  split
  · exact ⟨[], by simp, rfl, rfl, fun _ => rfl, rfl, rfl⟩
  · simp only []
    split
    · exact ⟨[_], rfl, rfl, rfl, fun _ => by simp [isPortReset], by simp [isAttachDevice],
        by simp [isDetachDevice]⟩
    · exact ⟨[_], rfl, rfl, rfl, fun _ => by simp [isPortReset], by simp [isAttachDevice],
        by simp [isDetachDevice]⟩

theorem portInv_status (port : PortInstance) (st : PortAppStatus)
    (hvac : port.deviceHandle = none)
    (h : (st = kPortRunWaitPortChange ∨ st = kPortRunCheckCPortConnection ∨
      st = kPortRunGetPortConnection ∨ st = kPortRunCheckPortConnection ∨
      st = kPortRunResetAgain) → 0 < port.resetCount) :
    PortInv { port with portStatus := st } := by
  constructor
  · intro h1; exact absurd hvac h1
  · exact h

set_option maxHeartbeats 1000000 in
theorem attachSwitch_spec (E : Env) (self : Nat) (c : HubCtx) (port : PortInstance)
    (hinv : PortInv port) (hvac : port.deviceHandle = none) :
    ∃ L, StepSpec c.hub.portProcess port c (attachSwitch E self port c) L ∧
      L.any isDetachDevice = false := by
  have weaken : ∀ {r : PortStep}, (∃ L, StepSpec c.hub.portProcess port c r L ∧
      L.any isAttachDevice = false ∧ L.any isDetachDevice = false) →
      ∃ L, StepSpec c.hub.portProcess port c r L ∧ L.any isDetachDevice = false :=
    fun ⟨L, h1, _, h3⟩ => ⟨L, h1, h3⟩
  obtain ⟨i1, i2⟩ := hinv
  have nr : ∀ (q f : Nat) (ok : Bool),
      isPortReset c.hub.portProcess (Action.submit self (Request.clearPortFeature q f) ok)
        = false := by intro q f ok; cases ok <;> rfl
  have ng : ∀ (q : Nat) (ok : Bool),
      isPortReset c.hub.portProcess (Action.submit self (Request.getPortStatus q) ok)
        = false := by intro q ok; cases ok <;> rfl
  unfold attachSwitch
  simp only []
  split
  · -- kPortRunWaitPortChange
    rename_i hst
    exact weaken (spec_portRequest E self _ _ port _ c (ng _) rfl
      (portInv_status port _ hvac (fun _ => i2 (Or.inl hst))))
  · -- kPortRunCheckCPortConnection
    rename_i hst
    have hpos := i2 (Or.inr (Or.inl hst))
    split
    · exact weaken (spec_portRequest E self _ _ port _ c (nr _ _) rfl
        (portInv_status port _ hvac (fun _ => hpos)))
    · split
      · exact weaken (spec_portResetRequest E self port _ c rfl hpos hvac rfl)
      · have hfeat : ∀ feature : Nat, ∃ L, StepSpec c.hub.portProcess port c
            (if feature ≠ 0 then
              portRequest E self (Request.clearPortFeature c.hub.portProcess feature)
                { port with portStatus := kPortRunWaitPortChange } c
             else { port := port, ctx := c, processSuccess := false }) L ∧
            L.any isDetachDevice = false := by
          intro feature
          split
          · exact weaken (spec_portRequest E self _ _ port _ c (nr _ _) rfl
              (portInv_status port _ hvac (fun _ => hpos)))
          · exact weaken (spec_fail _ port port c rfl)
        exact hfeat _
  · -- kPortRunGetPortConnection
    rename_i hst
    exact weaken (spec_portRequest E self _ _ port _ c (ng _) rfl
      (portInv_status port _ hvac (fun _ => i2 (Or.inr (Or.inr (Or.inl hst))))))
  · -- kPortRunCheckPortConnection
    rename_i hst
    have hpos := i2 (Or.inr (Or.inr (Or.inr (Or.inl hst))))
    split
    · exact weaken (spec_portResetRequest E self port _ c rfl hpos hvac rfl)
    · exact weaken (spec_fail _ port port c rfl)
  · -- kPortRunWaitPortResetDone
    obtain ⟨L, h1, h2, h3, h4, h5, h6⟩ := getInterruptStatus_spec E self c
    refine ⟨L, ⟨h1, by simp, ?_, ?_, ?_, ?_⟩, h6⟩
    · intro h; rw [h4] at h; cases h
    · intro _; left; rfl
    · intro h; rw [h5] at h; cases h
    · intro _; exact portInv_status port _ hvac (by simp)
  · -- kPortRunWaitCPortReset
    exact weaken (spec_portRequest E self _ _ port _ c (ng _) rfl
      (portInv_status port _ hvac (by simp)))
  · -- KPortRunCheckCPortReset
    split
    · split
      · exact weaken (spec_portRequest E self _ _ port _ c (nr _ _) rfl
          ⟨fun h1 => absurd hvac h1, by simp⟩)
      · rename_i hrc
        exact weaken (spec_portRequest E self _ _ port _ c (nr _ _) rfl
          (portInv_status port _ hvac (fun _ => Nat.pos_of_ne_zero hrc)))
    · exact weaken (spec_fail _ port port c rfl)
  · -- kPortRunResetAgain
    rename_i hst
    exact weaken (spec_portRequest E self _ _ port _ c (ng _) rfl
      (portInv_status port _ hvac
        (fun _ => i2 (Or.inr (Or.inr (Or.inr (Or.inr hst)))))))
  · -- kPortRunPortAttached
    rename_i hst
    obtain ⟨L, h1, h2, h3, h4, h5, h6⟩ := getInterruptStatus_spec E self
      { hubProcess := none,
        hub := { c.hub with portProcess := 0 },
        suspendedDevice := c.suspendedDevice,
        log := c.log ++ [Action.attachDevice c.hub.hostHandle port.speed
          (getInfo E c.hub.deviceHandle kUSB_HostGetDeviceAddress 0 % 256) c.hub.portProcess
          ((c.hub.hubLevel + 1) % 256)] }
    refine ⟨Action.attachDevice c.hub.hostHandle port.speed
        (getInfo E c.hub.deviceHandle kUSB_HostGetDeviceAddress 0 % 256) c.hub.portProcess
        ((c.hub.hubLevel + 1) % 256) :: L, ⟨?_, by simp, ?_, ?_, ?_, ?_⟩, ?_⟩
    · rw [h1]; simp
    · intro h
      simp only [List.any_cons, isPortReset, Bool.false_or] at h
      rw [h4] at h; cases h
    · intro _; right
      exact ⟨rfl, h2, h3⟩
    · intro _; exact ⟨rfl, rfl⟩
    · intro _
      refine ⟨fun _ => rfl, ?_⟩
      simp [hst, USB_HOST_HUB_PORT_RESET_TIMES]
    · simp only [List.any_cons, isDetachDevice, Bool.false_or]; exact h6
  · -- every other state
    exact weaken (spec_fail _ port port c rfl)

theorem dspec_portRequest (E : Env) (self : Nat) (req : Request) (port port1 : PortInstance)
    (c : HubCtx)
    (hreq : ∀ p ok, isPortReset p (Action.submit self req ok) = false)
    (hrc : port1.resetCount = port.resetCount)
    (hdev : port1.deviceHandle = port.deviceHandle) :
    ∃ L, DetachSpec port c (portRequest E self req port1 c) L := by
  refine ⟨[Action.submit self req (accepted E self req c)], ?_⟩
  unfold portRequest
  split <;> simp [DetachSpec, submitted, setPrime, hreq, hrc, hdev, isAttachDevice]

theorem detachSwitch_spec (E : Env) (self : Nat) (c : HubCtx) (port : PortInstance)
    (hhost : c.hub.hostHandle ≠ none) :
    ∃ r L, detachSwitch E self port c = some r ∧ DetachSpec port c r L := by
  have nr : ∀ (q f : Nat) (p : Nat) (ok : Bool),
      isPortReset p (Action.submit self (Request.clearPortFeature q f) ok)
        = false := by intro q f p ok; cases ok <;> rfl
  have ng : ∀ (q : Nat) (p : Nat) (ok : Bool),
      isPortReset p (Action.submit self (Request.getPortStatus q) ok)
        = false := by intro q p ok; cases ok <;> rfl
  have fail : ∀ port1 : PortInstance, port1.resetCount = port.resetCount →
      port1.deviceHandle = port.deviceHandle →
      ∃ L, DetachSpec port c { port := port1, ctx := c, processSuccess := false } L :=
    fun port1 h1 h2 => ⟨[], by simp [DetachSpec, h1, h2]⟩
  have wrap : ∀ {r : PortStep}, (∃ L, DetachSpec port c r L) →
      ∃ r1 L, some r = some r1 ∧ DetachSpec port c r1 L :=
    fun ⟨L, h⟩ => ⟨_, L, rfl, h⟩
  have hh : c.hub.hostHandle.isNone = false := by
    cases h : c.hub.hostHandle with
    | none => exact absurd h hhost
    | some x => rfl
  unfold detachSwitch
  simp only []
  split
  · split
    · exact wrap (dspec_portRequest E self _ port _ c (ng _) rfl rfl)
    · exact wrap (fail port rfl rfl)
  · exact wrap (dspec_portRequest E self _ port _ c (ng _) rfl rfl)
  · split
    · exact wrap (dspec_portRequest E self _ port _ c (nr _ _) rfl rfl)
    · split
      · exact wrap (dspec_portRequest E self _ port _ c (nr _ _) rfl rfl)
      · split
        · split
          · refine ⟨_, [Action.submit self
              (Request.clearPortFeature c.hub.portProcess C_PORT_SUSPEND)
              (accepted E self (Request.clearPortFeature c.hub.portProcess C_PORT_SUSPEND) c)],
              rfl, ?_⟩
            simp [DetachSpec, submitted, setPrime, nr, isAttachDevice]
          · refine ⟨_, [Action.submit self
              (Request.clearPortFeature c.hub.portProcess C_PORT_SUSPEND)
              (accepted E self (Request.clearPortFeature c.hub.portProcess C_PORT_SUSPEND) c)],
              rfl, ?_⟩
            simp [DetachSpec, submitted, nr, isAttachDevice]
        · exact wrap (dspec_portRequest E self _ port _ c (ng _) rfl rfl)
  · exact wrap (dspec_portRequest E self _ port _ c (ng _) rfl rfl)
  · split
    · exact wrap (fail _ rfl rfl)
    · obtain ⟨L, h1, h2, h3, h4, h5, h6⟩ := getInterruptStatus_spec E self
        { hubProcess := none,
          hub := { c.hub with portProcess := 0 },
          suspendedDevice := c.suspendedDevice,
          log := c.log ++ [Action.detachDevice c.hub.hostHandle port.deviceHandle] }
      refine ⟨_, Action.detachDevice c.hub.hostHandle port.deviceHandle :: L, rfl, ?_, by simp,
        rfl, Or.inr rfl, ?_, ?_⟩
      · rw [h1]; simp
      · intro p
        simp only [List.any_cons, isPortReset, Bool.false_or]; exact h4 p
      · simp only [List.any_cons, isAttachDevice, Bool.false_or]; exact h5
  · split
    · exact wrap (dspec_portRequest E self _ port _ c (ng _) rfl rfl)
    · exact wrap (fail port rfl rfl)
  · split
    · simp only [hh, Bool.false_eq_true, if_false]
      split
      · refine ⟨_, [Action.hostEvent c.suspendedDevice HostEvent.kUSB_HostEventSuspended],
          rfl, ?_⟩
        simp [DetachSpec, isPortReset, isAttachDevice]
      · refine ⟨_, [Action.hostEvent c.suspendedDevice HostEvent.kUSB_HostEventResumed],
          rfl, ?_⟩
        simp [DetachSpec, isPortReset, isAttachDevice]
    · exact wrap (fail port rfl rfl)
  · exact wrap (fail port rfl rfl)

theorem portInv_resetPort (q : PortInstance) :
    PortInv (resetPort q) ∧ (resetPort q).resetCount = USB_HOST_HUB_PORT_RESET_TIMES := by
  refine ⟨⟨fun _ => rfl, fun _ => ?_⟩, rfl⟩
  simp [resetPort, USB_HOST_HUB_PORT_RESET_TIMES]

theorem any_append_false {α : Type} (f : α → Bool) (l1 l2 : List α)
    (h1 : l1.any f = false) (h2 : l2.any f = false) : (l1 ++ l2).any f = false := by
  rw [List.any_append, h1, h2]; rfl

theorem recover_actions (E : Env) (self : Nat) (c cx : HubCtx) (idx : Nat) (q : PortInstance)
    (L : List Action) (h : cx.log = c.log ++ L) :
    ∃ L2, newActions c (storePort idx q (USB_HostHubGetInterruptStatus E self cx)) = L ++ L2 ∧
      (∀ p, L2.any (isPortReset p) = false) ∧ L2.any isAttachDevice = false ∧
      L2.any isDetachDevice = false ∧
      (storePort idx q (USB_HostHubGetInterruptStatus E self cx)).hubProcess = cx.hubProcess ∧
      (storePort idx q (USB_HostHubGetInterruptStatus E self cx)).hub.portProcess
        = cx.hub.portProcess := by
  obtain ⟨L2, g1, g2, g3, g4, g5, g6⟩ := getInterruptStatus_spec E self cx
  refine ⟨L2, ?_, g4, g5, g6, g2, g3⟩
  simp [newActions, storePort, g1, h, List.append_assoc]

/-- C6: for a port that satisfies `PortInv` (as every port does once the hub-level
machine has initialised it, last conjunct) one step of
`USB_HostHubProcessPort` with any answers of the environment keeps `PortInv`;
it lowers `resetCount` by exactly one when it logs an accepted
`SET_FEATURE(PORT_RESET)` for the port; without one the counter stays as it is
or, when the token is released, is back at `RESET_TIMES`; and after a step
that calls `USB_HostAttachDevice` or `USB_HostDetachDeviceInternal` the
counter equals `RESET_TIMES`. -/
theorem C6_reset_count (E : Env) (self : Nat) (c : HubCtx) (port : PortInstance)
    (hport : currentPort c.hub = some port) (hinv : PortInv port)
    (hhost : c.hub.hostHandle ≠ none) :
    ∃ c1 port1, USB_HostHubProcessPort E self c = some c1 ∧
      portAt c1.hub (c.hub.portProcess - 1) = some port1 ∧ PortInv port1 ∧
      ((newActions c c1).any (isPortReset c.hub.portProcess) = true →
        port1.resetCount + 1 = port.resetCount) ∧
      ((newActions c c1).any (isPortReset c.hub.portProcess) = false →
        port1.resetCount = port.resetCount ∨
        (port1.resetCount = USB_HOST_HUB_PORT_RESET_TIMES ∧ c1.hubProcess = none ∧
          c1.hub.portProcess = 0)) ∧
      ((newActions c c1).any isAttachDevice = true →
        port1.resetCount = USB_HOST_HUB_PORT_RESET_TIMES) ∧
      ((newActions c c1).any isDetachDevice = true →
        port1.resetCount = USB_HOST_HUB_PORT_RESET_TIMES) ∧
      (∀ q, PortInv (resetPort q) ∧
        (resetPort q).resetCount = USB_HOST_HUB_PORT_RESET_TIMES) := by
  obtain ⟨hne, hat⟩ := currentPort_some hport
  obtain ⟨l, hl, hlt⟩ := portAt_lt hat
  unfold USB_HostHubProcessPort
  rw [hport]
  simp only [Option.some_bind]
  by_cases hvac : port.deviceHandle = none
  · simp only [hvac, if_true]
    unfold USB_HostHubProcessPortAttach
    rw [hport]
    simp only [Option.map_some']
    obtain ⟨L, ⟨s1, s2, s3, s4, s5, s6⟩, s7⟩ := attachSwitch_spec E self c port hinv hvac
    generalize attachSwitch E self port c = r at *
    cases hps : r.processSuccess with
    | true =>
      simp only [if_true]
      have hnew : newActions c (storePort (c.hub.portProcess - 1) r.port r.ctx) = L := by
        simp [newActions, storePort, s1]
      refine ⟨_, r.port, rfl, portAt_storePort ⟨l, by rw [s2]; exact hl, hlt⟩,
        s6 hps, ?_, ?_, ?_, ?_, portInv_resetPort⟩
      · rw [hnew]; intro h; exact (s3 h).2
      · rw [hnew]; intro h
        rcases s4 h with h1 | ⟨h1, h2, h3⟩
        · exact Or.inl h1
        · exact Or.inr ⟨h1, h2, h3⟩
      · rw [hnew]; intro h; exact (s5 h).2
      · rw [hnew, s7]; intro h; cases h
    | false =>
      simp only [Bool.false_eq_true, if_false]
      obtain ⟨L2, g1, g4, g5, g6, g2, g3⟩ := recover_actions E self c
        { r.ctx with hub := { r.ctx.hub with portProcess := 0 }, hubProcess := none }
        (c.hub.portProcess - 1)
        { r.port with
          portStatus := kPortRunWaitPortChange,
          resetCount := USB_HOST_HUB_PORT_RESET_TIMES } L s1
      have hr : L.any (isPortReset c.hub.portProcess) = false := by
        cases h : L.any (isPortReset c.hub.portProcess) with
        | false => rfl
        | true => have := (s3 h).1; rw [hps] at this; cases this
      refine ⟨_,
        { r.port with
          portStatus := kPortRunWaitPortChange,
          resetCount := USB_HOST_HUB_PORT_RESET_TIMES }, rfl,
        portAt_storePort ⟨l, by simp [s2, hl], hlt⟩, ?_, ?_, ?_, ?_, ?_,
        portInv_resetPort⟩
      · exact ⟨fun _ => rfl, fun _ => by simp [USB_HOST_HUB_PORT_RESET_TIMES]⟩
      · intro h
        have h1 : (L ++ L2).any (isPortReset c.hub.portProcess) = true := g1 ▸ h
        rw [any_append_false _ _ _ hr (g4 _)] at h1; cases h1
      · intro _; right
        exact ⟨rfl, g2, g3⟩
      · intro _; rfl
      · intro _; rfl
  · simp only [hvac, if_false]
    unfold USB_HostHubProcessPortDetach
    rw [hport]
    simp only [Option.some_bind]
    obtain ⟨r, L, hr, d1, d2, d3, d4, d5, d6⟩ := detachSwitch_spec E self c port hhost
    rw [hr]
    simp only [Option.map_some']
    have hrt : port.resetCount = USB_HOST_HUB_PORT_RESET_TIMES := hinv.1 hvac
    cases hps : r.processSuccess with
    | true =>
      simp only [if_true]
      have hnew : newActions c (storePort (c.hub.portProcess - 1) r.port r.ctx) = L := by
        simp [newActions, storePort, d1]
      refine ⟨_, r.port, rfl, portAt_storePort ⟨l, by rw [d2]; exact hl, hlt⟩,
        ?_, ?_, ?_, ?_, ?_, portInv_resetPort⟩
      · refine ⟨fun _ => by rw [d3]; exact hrt, fun _ => ?_⟩
        rw [d3, hrt]; simp [USB_HOST_HUB_PORT_RESET_TIMES]
      · rw [hnew, d5]; intro h; cases h
      · intro _; exact Or.inl d3
      · intro _; rw [d3]; exact hrt
      · intro _; rw [d3]; exact hrt
    | false =>
      simp only [Bool.false_eq_true, if_false]
      obtain ⟨L2, g1, g4, g5, g6, g2, g3⟩ := recover_actions E self c
        { r.ctx with hubProcess := none, hub := { r.ctx.hub with portProcess := 0 } }
        (c.hub.portProcess - 1) { r.port with portStatus := kPortRunPortAttached } L d1
      refine ⟨_, { r.port with portStatus := kPortRunPortAttached }, rfl,
        portAt_storePort ⟨l, by simp [d2, hl], hlt⟩, ?_, ?_, ?_, ?_, ?_,
        portInv_resetPort⟩
      · refine ⟨fun _ => by simp only []; rw [d3]; exact hrt, fun h => ?_⟩
        simp at h
      · intro h
        have h1 : (L ++ L2).any (isPortReset c.hub.portProcess) = true := g1 ▸ h
        rw [any_append_false _ _ _ (d5 _) (g4 _)] at h1; cases h1
      · intro _; exact Or.inl d3
      · intro _; simp only []; rw [d3]; exact hrt
      · intro _; simp only []; rw [d3]; exact hrt

theorem claimSlot_mem (h : Option Nat) :
    ∀ (gs : List HubGlobal) (i : Nat) (g : HubGlobal), g ∈ claimSlot gs i h →
      ∃ g0 ∈ gs, g.hubList = g0.hubList := by
  intro gs
  induction gs with
  | nil => intro i g hg; simp [claimSlot] at hg
  | cons a rest ih =>
    intro i g hg
    cases i with
    | zero =>
      simp only [claimSlot, List.mem_cons] at hg
      rcases hg with hg | hg
      · exact ⟨a, List.mem_cons_self _ _, by rw [hg]⟩
      · exact ⟨g, List.mem_cons_of_mem _ hg, rfl⟩
    | succ j =>
      simp only [claimSlot, List.mem_cons] at hg
      rcases hg with hg | hg
      · exact ⟨a, List.mem_cons_self _ _, by rw [hg]⟩
      · obtain ⟨g0, h0, h1⟩ := ih j g hg
        exact ⟨g0, List.mem_cons_of_mem _ h0, h1⟩

theorem getHubList_mem (gs : List HubGlobal) (h : Option Nat) (g : HubGlobal)
    (hg : g ∈ (USB_HostHubGetHubList gs h).2) : ∃ g0 ∈ gs, g.hubList = g0.hubList := by
  unfold USB_HostHubGetHubList at hg
  split at hg
  · exact ⟨g, hg, rfl⟩
  · split at hg
    · exact ⟨g, hg, rfl⟩
    · split at hg
      · exact claimSlot_mem _ _ _ _ hg
      · split at hg
        · exact claimSlot_mem _ _ _ _ hg
        · exact ⟨g, hg, rfl⟩

theorem unlinkAfter_subset (hubs : Nat → Option HubInstance) (dev : Option Nat) :
    ∀ (l : List Nat) (r : Option Nat × List Nat), unlinkAfter hubs dev l = some r →
      ∀ h ∈ r.2, h ∈ l := by
  intro l
  induction l with
  | nil =>
    intro r hr h hh
    simp [unlinkAfter] at hr
    subst hr
    simp at hh
  | cons a rest ih =>
    intro r hr h hh
    unfold unlinkAfter at hr
    cases ha : hubs a with
    | none => simp [ha] at hr
    | some hub =>
      simp only [ha] at hr
      split at hr
      · simp at hr; subst hr
        exact List.mem_cons_of_mem _ hh
      · cases hu : unlinkAfter hubs dev rest with
        | none => simp [hu] at hr
        | some r1 =>
          simp [hu] at hr
          subst hr
          simp only [List.mem_cons] at hh
          rcases hh with hh | hh
          · subst hh; exact List.mem_cons_self _ _
          · exact List.mem_cons_of_mem _ (ih r1 hu h hh)

theorem tierInv_getHubList (E : Env) (w : World) (h : Option Nat) (hinv : TierInv E w) :
    TierInv E { w with s_HubGlobalArray := (USB_HostHubGetHubList w.s_HubGlobalArray h).2 } := by
  refine ⟨hinv.1, ?_⟩
  intro g hg x hx
  obtain ⟨g0, h0, h1⟩ := getHubList_mem _ _ g hg
  exact hinv.2 g0 h0 x (h1 ▸ hx)

theorem enumInstance_hub (E : Env) (w : World) :
    (enumInstance E w).deviceHandle = w.s_HubDeviceHandle ∧
    (enumInstance E w).hubLevel
      = getInfo E w.s_HubDeviceHandle kUSB_HostGetDeviceLevel 0 % 256 := by
  unfold enumInstance
  simp only []
  split <;> exact ⟨rfl, rfl⟩

theorem enumCtx_hub (E : Env) (w : World) (g : HubGlobal) :
    (enumCtx E w g).hub.deviceHandle = w.s_HubDeviceHandle ∧
    (enumCtx E w g).hub.hubLevel
      = getInfo E w.s_HubDeviceHandle kUSB_HostGetDeviceLevel 0 % 256 := by
  obtain ⟨h1, h2⟩ := enumInstance_hub E w
  unfold enumCtx
  simp only []
  split
  · exact ⟨h1, h2⟩
  · exact ⟨h1, h2⟩

theorem tierInv_enumerationDone (E : Env) (w w2 : World) (i : Nat) (g : HubGlobal)
    (hinv : TierInv E w) (hg : g ∈ w.s_HubGlobalArray)
    (h : enumerationDone E w i g = some w2) : TierInv E w2 := by
  unfold enumerationDone at h
  split at h
  · split at h
    · cases h
    · split at h
      · cases h
      · simp only [Option.some.injEq] at h
        subst h
        refine ⟨hinv.1, ?_⟩
        intro g1 hg1 x hx
        simp only [] at hg1 hx ⊢
        obtain ⟨e1, e2⟩ := enumCtx_hub E w g
        by_cases hxs : x = w.nextHub
        · subst hxs
          refine ⟨(enumCtx E w g).hub, by simp, ?_, ?_⟩
          · rw [e1]; exact hinv.1
          · rw [e2]; exact le_trans (Nat.mod_le _ _) hinv.1
        · rw [Function.update_noteq hxs]
          rcases List.mem_or_eq_of_mem_set hg1 with hm | hm
          · exact hinv.2 g1 hm x hx
          · subst hm
            simp only [List.mem_cons] at hx
            rcases hx with hx | hx
            · exact absurd hx hxs
            · exact hinv.2 g hg x hx
  · cases h
    exact hinv

theorem detachInstance_hub (self : Nat) (hub hub1 : HubInstance) (L : List Action)
    (h : detachInstance self hub = some (hub1, L)) :
    hub1.deviceHandle = hub.deviceHandle ∧ hub1.hubLevel = hub.hubLevel := by
  unfold detachInstance at h
  split at h
  · simp at h; obtain ⟨h1, _⟩ := h; subst h1; exact ⟨rfl, rfl⟩
  · split at h
    · cases h
    · simp at h; obtain ⟨h1, _⟩ := h; subst h1; exact ⟨rfl, rfl⟩

theorem tierInv_detach (E : Env) (w w2 : World) (i : Nat) (g : HubGlobal)
    (dev : Option Nat) (hinv : TierInv E w) (hg : g ∈ w.s_HubGlobalArray)
    (h : detachEvent w i g dev = some w2) : TierInv E w2 := by
  unfold detachEvent at h
  split at h
  · cases h
  · rename_i a rest hlist
    cases hu : unlinkAfter w.hubs dev g.hubList with
    | none => simp [hu] at h
    | some r =>
      simp only [hu, Option.some_bind] at h
      have hsub : ∀ y ∈ r.2, y ∈ g.hubList := unlinkAfter_subset _ _ _ _ hu
      -- the heap afterwards keeps the device and the level of every instance
      have key : ∀ (hubs2 : Nat → Option HubInstance),
          (∀ y hub, w.hubs y = some hub → ∃ hub2, hubs2 y = some hub2 ∧
            hub2.deviceHandle = hub.deviceHandle ∧ hub2.hubLevel = hub.hubLevel) →
          ∀ (gs2 : List HubGlobal) (gnew : HubGlobal), gnew.hubList = r.2 →
            gs2 = w.s_HubGlobalArray.set i gnew →
            ∀ g1 ∈ gs2, ∀ x ∈ g1.hubList, ∃ hub, hubs2 x = some hub ∧
              getInfo E hub.deviceHandle kUSB_HostGetDeviceLevel 0 ≤ 5 ∧ hub.hubLevel ≤ 5 := by
        intro hubs2 hh gs2 gnew hgn hgs g1 hg1 x hx
        subst hgs
        have hxold : ∃ g0 ∈ w.s_HubGlobalArray, x ∈ g0.hubList := by
          rcases List.mem_or_eq_of_mem_set hg1 with hm | hm
          · exact ⟨g1, hm, hx⟩
          · subst hm
            rw [hgn] at hx
            exact ⟨g, hg, hsub x hx⟩
        obtain ⟨g0, h0, hx0⟩ := hxold
        obtain ⟨hub, e1, e2, e3⟩ := hinv.2 g0 h0 x hx0
        obtain ⟨hub2, f1, f2, f3⟩ := hh x hub e1
        exact ⟨hub2, f1, by rw [f2]; exact e2, by rw [f3]; exact e3⟩
      cases hr1 : r.1 with
      | none =>
        simp only [hr1, Option.map_some', Option.some.injEq] at h
        subst h
        exact ⟨hinv.1, key _ (fun y hub hy => ⟨hub, hy, rfl, rfl⟩) _ _ rfl rfl⟩
      | some self =>
        simp only [hr1] at h
        cases hs : w.hubs self with
        | none => simp [hs] at h
        | some hub =>
          simp only [hs, Option.some_bind] at h
          cases hd : detachInstance self hub with
          | none => simp [hd] at h
          | some d =>
            simp only [hd, Option.map_some', Option.some.injEq] at h
            subst h
            obtain ⟨d1, d2⟩ := detachInstance_hub self hub d.1 d.2 hd
            refine ⟨hinv.1, key _ ?_ _ _ rfl rfl⟩
            intro y hub0 hy
            by_cases hys : y = self
            · subst hys
              rw [hs] at hy
              cases hy
              exact ⟨d.1, by simp, d1, d2⟩
            · exact ⟨hub0, by simp [Function.update_noteq hys, hy], rfl, rfl⟩

theorem tierInv_event (E : Env) (w w2 : World) (host dev : Option Nat) (cfg : Configuration)
    (code : EventCode) (st : UsbStatus) (hinv : TierInv E w)
    (h : USB_HostHubDeviceEvent E w host dev cfg code = some (st, w2)) : TierInv E w2 := by
  have hinv1 := tierInv_getHubList E w host hinv
  unfold USB_HostHubDeviceEvent at h
  generalize hres : USB_HostHubGetHubList w.s_HubGlobalArray host = res at *
  obtain ⟨ri, gs⟩ := res
  cases ri with
  | none =>
    simp only [Option.some.injEq, Prod.mk.injEq] at h
    rw [← h.2]; exact hinv1
  | some i =>
    simp only [] at h hinv1
    cases hgi : gs[i]? with
    | none => simp [hgi] at h
    | some g =>
      simp only [hgi] at h
      have hg : g ∈ gs := List.getElem?_mem hgi
      cases code with
      | kUSB_HostEventAttach =>
        simp only [] at h
        cases hscan : attachScan E dev cfg.interfaceList with
        | none =>
          simp only [hscan, Option.some.injEq, Prod.mk.injEq] at h
          rw [← h.2]; exact hinv1
        | some itf =>
          simp only [hscan, Option.some.injEq, Prod.mk.injEq] at h
          rw [← h.2]
          refine ⟨?_, hinv1.2⟩
          simp only []
          rw [attachScan_eq] at hscan
          by_cases hl : getInfo E dev kUSB_HostGetDeviceLevel 0 > 5
          · simp [hl] at hscan
          · omega
      | kUSB_HostEventEnumerationDone =>
        simp only [] at h
        cases he : enumerationDone E
            { w with s_HubGlobalArray := gs } i g with
        | none => simp [he] at h
        | some w3 =>
          simp only [he, Option.map_some', Option.some.injEq, Prod.mk.injEq] at h
          rw [← h.2]
          exact tierInv_enumerationDone E _ w3 i g hinv1 hg he
      | kUSB_HostEventDetach =>
        simp only [] at h
        cases he : detachEvent { w with s_HubGlobalArray := gs } i g dev with
        | none => simp [he] at h
        | some w3 =>
          simp only [he, Option.map_some', Option.some.injEq, Prod.mk.injEq] at h
          rw [← h.2]
          exact tierInv_detach E _ w3 i g dev hinv1 hg he
      | other c =>
        simp only [Option.some.injEq, Prod.mk.injEq] at h
        rw [← h.2]; exact hinv1

theorem tierInv_run (E : Env) :
    ∀ (events : List DeviceEventArgs) (w w2 : World), TierInv E w →
      deviceRun E w events = some w2 → TierInv E w2 := by
  intro events
  induction events with
  | nil =>
    intro w w2 hinv h
    simp [deviceRun] at h
    rw [← h]; exact hinv
  | cons e rest ih =>
    intro w w2 hinv h
    unfold deviceRun at h
    cases he : USB_HostHubDeviceEvent E w e.hostHandle e.deviceHandle e.configuration
        e.eventCode with
    | none => simp [he] at h
    | some r =>
      simp only [he, Option.some_bind] at h
      exact ih r.2 w2 (tierInv_event E w r.2 _ _ _ _ r.1 hinv he) h

theorem tierInv_init (E : Env) (n : Nat) : TierInv E (initWorld n) := by
  refine ⟨by simp [initWorld, getInfo], ?_⟩
  intro g hg x hx
  simp only [initWorld, List.mem_replicate] at hg
  rw [hg.2] at hx
  simp [emptyGlobal] at hx

/-- C1 (evaluation at the failing input): two four-port hubs are brought up on one
host; hub 1 is notified of a change on its port 1 and takes the token; an
interrupt-IN completion with an error status on hub 2 then clears the
registry's `hubProcess` although hub 1 still has `portProcess = 1`; the next
notification lets hub 2 take the token too, so that both hubs have a port
operation in flight. -/
theorem C1_token_violation :
    (sysRun envAccept (initWorld 1) (twoHubEvents.take 20)).map tokenView
      = some ([none], some 1, some 0) ∧
    (sysRun envAccept (initWorld 1) twoHubEvents).map tokenView
      = some ([some 2], some 1, some 1) := by
  constructor <;> decide

/-- Instance of C2: the invalidated instance of `invalidWorld` and a failed
completion. -/
theorem C2_invalid_callbacks_drop_witness :
    (∃ w1, controlCallback envAccept invalidWorld 1 false = some w1 ∧
      w1.hubs = invalidWorld.hubs ∧ w1.log = invalidWorld.log ∧
      w1.s_HubGlobalArray.map (fun g => g.hubProcess)
        = invalidWorld.s_HubGlobalArray.map (fun g => g.hubProcess)) ∧
    (∃ w2, interruptInCallback envAccept invalidWorld 1 false = some w2 ∧
      w2.hubs = invalidWorld.hubs ∧ w2.log = invalidWorld.log ∧
      w2.s_HubGlobalArray.map (fun g => g.hubProcess)
        = invalidWorld.s_HubGlobalArray.map (fun g => g.hubProcess)) :=
  C2_invalid_callbacks_drop envAccept invalidWorld 1 { hubIdle4 [] with invalid := 1 } false
    rfl rfl

/-- Instance of C5: a status word with `C_PORT_RESET` and `PORT_HIGH_SPEED`
records HIGH. -/
theorem C5_speed_classification_witness :
    ∃ c1 port1,
      USB_HostHubProcessPortAttach envAccept 7
        (ctxAtPort [portVacant 4, portIn KPortRunCheckCPortReset 0 0] [0, 4, 0x10, 0]) = some c1 ∧
      portAt c1.hub 1 = some port1 ∧ port1.speed = USB_SPEED_HIGH := by
  obtain ⟨c1, port1, h1, h2, h3, _⟩ := C5_speed_classification envAccept 7
    (ctxAtPort [portVacant 4, portIn KPortRunCheckCPortReset 0 0] [0, 4, 0x10, 0])
    (portIn KPortRunCheckCPortReset 0 0) rfl rfl rfl (by decide)
  exact ⟨c1, port1, h1, h2, h3.mpr (by decide)⟩

/-- Instance of C6: an accepted reset of port 2 takes the counter from 4 to 3. -/
theorem C6_reset_count_witness :
    ∃ c1 port1,
      USB_HostHubProcessPort envAccept 7
        (ctxAtPort [portVacant 4, portIn kPortRunCheckPortConnection 4 0] [1, 0, 0, 0])
        = some c1 ∧
      portAt c1.hub 1 = some port1 ∧ port1.resetCount + 1 = 4 := by
  obtain ⟨c1, port1, h1, h2, _, h4, _⟩ := C6_reset_count envAccept 7
    (ctxAtPort [portVacant 4, portIn kPortRunCheckPortConnection 4 0] [1, 0, 0, 0])
    (portIn kPortRunCheckPortConnection 4 0) rfl
    ⟨fun h => absurd rfl h, fun _ => by decide⟩ (by decide)
  refine ⟨c1, port1, h1, h2, h4 ?_⟩
  have hc : c1 = _ := Option.some.inj (h1.symm.trans (by decide :
    USB_HostHubProcessPort envAccept 7
      (ctxAtPort [portVacant 4, portIn kPortRunCheckPortConnection 4 0] [1, 0, 0, 0])
      = some (storePort 1 (portIn kPortRunWaitPortResetDone 3 0)
          (setPrime (submitted envAccept 7 (Request.setPortFeature 2 PORT_RESET)
            (ctxAtPort [portVacant 4, portIn kPortRunCheckPortConnection 4 0] [1, 0, 0, 0]))
            kPrimePortControl))))
  subst hc
  decide

/-- Instance of C8: port 2 of hub 5 at level 1 hands a high-speed device off. -/
theorem C8_attach_handoff_witness :
    ∃ c1 port1,
      USB_HostHubProcessPortAttach envAccept 7
        (ctxAtPort [portVacant 4, portIn kPortRunPortAttached 0 2] []) = some c1 ∧
      portAt c1.hub 1 = some port1 ∧
      c1.log = [Action.attachDevice (some 1) 2 5 2 2,
        Action.submit 7 (Request.interruptRecv 1) true] ∧
      port1.deviceHandle = some 100 := by
  obtain ⟨c1, port1, h1, h2, h3, h4, _⟩ := C8_attach_handoff envAccept 7
    (ctxAtPort [portVacant 4, portIn kPortRunPortAttached 0 2] [])
    (portIn kPortRunPortAttached 0 2) rfl rfl rfl (by decide) (by decide)
  exact ⟨c1, port1, h1, h2, h3, h4 100 rfl⟩

/-- Instance of C10: a device of tier 3 with a hub interface is accepted and
stashed. -/
theorem C10_attach_classification_witness :
    ∃ st w1, USB_HostHubDeviceEvent envTier (initWorld 1) (some 1) (some 3) hubConfiguration
        kUSB_HostEventAttach = some (st, w1) ∧
      st = kStatus_USB_Success ∧ w1.s_HubDeviceHandle = some 3 := by
  obtain ⟨st, w1, h1, h2, h3, _⟩ := C10_attach_classification envTier (initWorld 1) (some 1)
    (some 3) hubConfiguration 0 rfl
  have hs : st = kStatus_USB_Success :=
    h2.mpr ⟨⟨_, List.mem_singleton.mpr rfl, rfl, rfl⟩, by decide⟩
  exact ⟨st, w1, h1, hs, (h3 hs).1⟩

theorem findSlot_some (p : HubGlobal → Bool) :
    ∀ (gs : List HubGlobal) (k i : Nat), findSlot p gs k = some (k + i) ↔ lowestSlot p gs i := by
  intro gs
  induction gs with
  | nil => intro k i; simp [findSlot, lowestSlot]
  | cons g rest ih =>
    intro k i
    unfold findSlot
    by_cases hg : p g = true
    · simp only [hg, if_true]
      constructor
      · intro h
        have : i = 0 := by simpa using h
        subst this
        exact ⟨⟨g, by simp, hg⟩, by intro j g' hj; omega⟩
      · rintro ⟨_, hlow⟩
        cases i with
        | zero => rfl
        | succ n =>
          have := hlow 0 g (by omega) (by simp)
          rw [hg] at this; cases this
    · have hg' : p g = false := by simpa using hg
      simp only [hg', Bool.false_eq_true, if_false]
      cases i with
      | zero =>
        constructor
        · intro h
          have := (findSlot_bound p rest (k + 1) (k + 0) h).1
          omega
        · rintro ⟨⟨g', hg', hp⟩, _⟩
          simp at hg'; subst hg'
          exact absurd hp hg
      | succ n =>
        have e : k + (n + 1) = (k + 1) + n := by omega
        rw [e, ih (k + 1) n]
        constructor
        · rintro ⟨⟨g', hg', hp⟩, hlow⟩
          refine ⟨⟨g', by simpa using hg', hp⟩, ?_⟩
          intro j g2 hj hg2
          cases j with
          | zero => simp at hg2; subst hg2; simpa using hg
          | succ m => exact hlow m g2 (by omega) (by simpa using hg2)
        · rintro ⟨⟨g', hg', hp⟩, hlow⟩
          refine ⟨⟨g', by simpa using hg', hp⟩, ?_⟩
          intro j g2 hj hg2
          exact hlow (j + 1) g2 (by omega) (by simpa using hg2)

theorem findSlot_none (p : HubGlobal → Bool) :
    ∀ (gs : List HubGlobal) (k : Nat), findSlot p gs k = none ↔ ∀ g ∈ gs, p g = false := by
  intro gs
  induction gs with
  | nil => intro k; simp [findSlot]
  | cons g rest ih =>
    intro k
    unfold findSlot
    by_cases hg : p g = true
    · simp [hg]
    · have hg' : p g = false := by simpa using hg
      simp [hg', ih (k + 1)]

theorem claimSlot_eq_set (h : Option Nat) :
    ∀ (gs : List HubGlobal) (i : Nat) (g : HubGlobal), gs[i]? = some g →
      claimSlot gs i h = gs.set i { g with hostHandle := h } := by
  intro gs
  induction gs with
  | nil => intro i g hg; simp at hg
  | cons g0 rest ih =>
    intro i g hg
    cases i with
    | zero => simp at hg; subst hg; simp [claimSlot]
    | succ n => simp at hg; simp [claimSlot, ih n g hg]

theorem lowestSlot_unique (p : HubGlobal → Bool) (gs : List HubGlobal) (i j : Nat)
    (hi : lowestSlot p gs i) (hj : lowestSlot p gs j) : i = j := by
  obtain ⟨⟨g, hg, hp⟩, hlow⟩ := hi
  obtain ⟨⟨g', hg', hp'⟩, hlow'⟩ := hj
  rcases Nat.lt_trichotomy i j with h | h | h
  · have := hlow' i g h hg; rw [hp] at this; cases this
  · exact h
  · have := hlow j g' h hg'; rw [hp'] at this; cases this

/-- C20 (evaluation at a counterexample): in an array of 256 slots that are
all free, slot 0 is the lowest-indexed slot with a `NULL` host handle and no
slot matches host 1, yet `USB_HostHubGetHubList` returns `NULL` and claims
nothing: the 8-bit loop bound `(uint8_t)USB_HOST_CONFIG_MAX_HOST` is 0 and no
slot is visited. -/
theorem C20_slot_count_counterexample :
    1 < (List.replicate 256 emptyGlobal).length ∧
    lowestSlot (fun g => g.hostHandle = none) (List.replicate 256 emptyGlobal) 0 ∧
    (∀ g ∈ List.replicate 256 emptyGlobal, g.hostHandle ≠ some 1) ∧
    USB_HostHubGetHubList (List.replicate 256 emptyGlobal) (some 1)
      = (none, List.replicate 256 emptyGlobal) := by
  refine ⟨by rw [List.length_replicate]; decide,
    ⟨⟨emptyGlobal, by rw [List.getElem?_replicate]; rfl, by decide⟩,
      fun j g hj => absurd hj (Nat.not_lt_zero j)⟩, ?_, ?_⟩
  · intro g hg
    rw [(List.mem_replicate.1 hg).2]
    decide
  · unfold USB_HostHubGetHubList
    rw [List.length_replicate]
    rfl

/-- C20 (as the code has it): with more than one and fewer than 256 registry
slots, `USB_HostHubGetHubList` returns the lowest-indexed slot whose
`hostHandle` equals the argument when there is one, and leaves the array as it
is; when no slot matches, it returns the lowest-indexed slot whose `hostHandle`
is `NULL` and writes the handle to it; when no slot matches and none is free,
it returns the lowest-indexed slot whose `hubList` is empty and overwrites its
`hostHandle`; and it returns `NULL` iff no slot matches, no slot is free and
every slot has a non-empty `hubList`. -/
theorem C20_get_or_create (gs : List HubGlobal) (hostHandle : Option Nat)
    (hmany : 1 < gs.length) (hfit : gs.length < 256) :
    (∀ i, lowestSlot (fun g => g.hostHandle = hostHandle) gs i →
      USB_HostHubGetHubList gs hostHandle = (some i, gs)) ∧
    ((∀ g ∈ gs, g.hostHandle ≠ hostHandle) →
      ∀ i g, lowestSlot (fun g => g.hostHandle = none) gs i → gs[i]? = some g →
        USB_HostHubGetHubList gs hostHandle
          = (some i, gs.set i { g with hostHandle := hostHandle })) ∧
    ((∀ g ∈ gs, g.hostHandle ≠ hostHandle ∧ g.hostHandle ≠ none) →
      ∀ i g, lowestSlot (fun g => g.hubList = []) gs i → gs[i]? = some g →
        USB_HostHubGetHubList gs hostHandle
          = (some i, gs.set i { g with hostHandle := hostHandle })) ∧
    ((USB_HostHubGetHubList gs hostHandle).1 = none ↔
      ∀ g ∈ gs, g.hostHandle ≠ hostHandle ∧ g.hostHandle ≠ none ∧ g.hubList ≠ []) := by
  have h1 : ¬ gs.length = 1 := by omega
  have ht : gs.take (gs.length % 256) = gs := by
    rw [Nat.mod_eq_of_lt hfit]; exact List.take_length _
  have e1 : (findSlot (fun g => g.hostHandle = hostHandle) gs 0 = none) ↔
      ∀ g ∈ gs, g.hostHandle ≠ hostHandle := by
    rw [findSlot_none]; simp
  have e2 : (findSlot (fun g => g.hostHandle = none) gs 0 = none) ↔
      ∀ g ∈ gs, g.hostHandle ≠ none := by
    rw [findSlot_none]; simp
  have e3 : (findSlot (fun g => g.hubList = []) gs 0 = none) ↔
      ∀ g ∈ gs, g.hubList ≠ [] := by
    rw [findSlot_none]; simp
  refine ⟨?_, ?_, ?_, ?_⟩
  · intro i hi
    have := (findSlot_some _ gs 0 i).mpr hi
    simp only [Nat.zero_add] at this
    simp [USB_HostHubGetHubList, h1, ht, this]
  · intro hno i g hi hg
    have := (findSlot_some _ gs 0 i).mpr hi
    simp only [Nat.zero_add] at this
    simp [USB_HostHubGetHubList, h1, ht, this, e1.mpr hno, claimSlot_eq_set hostHandle gs i g hg]
  · intro hno i g hi hg
    have := (findSlot_some _ gs 0 i).mpr hi
    simp only [Nat.zero_add] at this
    simp [USB_HostHubGetHubList, h1, ht, this, e1.mpr (fun g hg => (hno g hg).1),
      e2.mpr (fun g hg => (hno g hg).2), claimSlot_eq_set hostHandle gs i g hg]
  · unfold USB_HostHubGetHubList
    simp only [h1, if_false, ht]
    cases hf1 : findSlot (fun g => g.hostHandle = hostHandle) gs 0 with
    | some i =>
      simp only []
      constructor
      · intro h; cases h
      · intro h
        have := e1.mpr (fun g hg => (h g hg).1)
        rw [hf1] at this; cases this
    | none =>
      simp only []
      cases hf2 : findSlot (fun g => g.hostHandle = none) gs 0 with
      | some i =>
        simp only []
        constructor
        · intro h; cases h
        · intro h
          have := e2.mpr (fun g hg => (h g hg).2.1)
          rw [hf2] at this; cases this
      | none =>
        simp only []
        cases hf3 : findSlot (fun g => g.hubList = []) gs 0 with
        | some i =>
          simp only []
          constructor
          · intro h; cases h
          · intro h
            have := e3.mpr (fun g hg => (h g hg).2.2)
            rw [hf3] at this; cases this
        | none =>
          simp only []
          constructor
          · intro _ g hg
            exact ⟨e1.mp hf1 g hg, e2.mp hf2 g hg, e3.mp hf3 g hg⟩
          · intro _; trivial

/-- C14 (counterexample): with `USB_HOST_HUB_MAX_PORT = 7` and a descriptor that
reports 8 ports, the step from `kHubRunGetDescriptor7` returns with `portCount`
8 and `totalThinktime` 8, although both were 0 on entry; the hub state and the
log are as on entry. -/
theorem C14_cap_counterexample :
    (USB_HostHubProcess envAccept 7 (ctxDescriptor7 8 kPrimeNone)).map
        (fun c1 => (c1.hub.portCount, c1.hub.totalThinktime, c1.hub.hubStatus, c1.log))
      = some (8, 8, kHubRunGetDescriptor7, []) ∧
    (ctxDescriptor7 8 kPrimeNone).hub.portCount = 0 ∧ (ctxDescriptor7 8 kPrimeNone).hub.totalThinktime = 0 ∧
    bNbrPorts (ctxDescriptor7 8 kPrimeNone).hub > envAccept.maxPort := by
  decide

/-- C14 (amended): when the 7-byte descriptor reports more ports than
`USB_HOST_HUB_MAX_PORT`, the step from `kHubRunGetDescriptor7` returns with
`totalThinktime` and `portCount` already written (the think time of the parent
plus that of the descriptor, and `bNbrPorts`) and everything else as on entry:
the hub state is still `kHubRunGetDescriptor7`, `primeStatus` is unchanged and
the log has gained nothing, so no transfer is submitted and the interrupt-IN
pipe is not primed. Entered from the control callback, the instance is left with
`primeStatus = kPrimeNone`, that is, with no transfer outstanding whose
completion could run the machine again. -/
theorem C14_port_count_cap (E : Env) (self : Nat) (c : HubCtx)
    (hst : c.hub.hubStatus = kHubRunGetDescriptor7)
    (hcap : bNbrPorts c.hub > E.maxPort) :
    USB_HostHubProcess E self c = some { c with hub := { c.hub with
        totalThinktime := thinkTimeOf E c.hub, portCount := bNbrPorts c.hub } } ∧
    (c.hub.invalid ≠ 1 → c.hub.primeStatus = kPrimeHubControl →
      USB_HostHubControlCallback E self true c = some { c with hub := { c.hub with
        primeStatus := kPrimeNone,
        totalThinktime := thinkTimeOf E c.hub, portCount := bNbrPorts c.hub } }) := by
  have h1 : ∀ c : HubCtx, c.hub.hubStatus = kHubRunGetDescriptor7 → bNbrPorts c.hub > E.maxPort →
      USB_HostHubProcess E self c = some { c with hub := { c.hub with
        totalThinktime := thinkTimeOf E c.hub, portCount := bNbrPorts c.hub } } := by
    intro c hst hcap
    unfold bNbrPorts at hcap
    unfold USB_HostHubProcess hubSwitch
    simp only [hst]
    rw [if_pos hcap]
    rfl
  refine ⟨h1 c hst hcap, ?_⟩
  intro hinv hprime
  unfold USB_HostHubControlCallback
  simp only [hinv, if_false, hprime, if_true, Bool.true_eq_false]
  rw [h1 _ (by simpa [setPrime] using hst) (by simpa [setPrime, bNbrPorts] using hcap)]
  simp [setPrime, thinkTimeOf, bNbrPorts]

/-- C16 (counterexample): in `kHubRunSetPortPower` with no port list yet, a
rejected `SET_FEATURE(PORT_POWER)` for port 1 leaves the hub in `kHubRunIdle`,
not in `kHubRunInvalid`, and the interrupt-IN receive is submitted and
accepted. -/
theorem C16_port_power_counterexample :
    (USB_HostHubProcess envRejectControl 7 (ctxHubPhase kHubRunSetPortPower none 0)).map
        (fun c1 => (c1.hub.hubStatus, c1.hub.primeStatus, c1.log))
      = some (kHubRunIdle, kPrimeInterrupt,
          [Action.submit 7 (Request.setPortFeature 1 PORT_POWER) false,
           Action.submit 7 (Request.interruptRecv 1) true]) := by
  decide

theorem hubRequest_rejected (E : Env) (self : Nat) (r : Request) (b : Bool) (c : HubCtx)
    (h : E.accept c.log.length self r = false) :
    hubRequest E self r b c =
      { ctx := submitted E self r c, needPrimeInterrupt := b, processSuccess := false,
        returned := false } := by
  unfold hubRequest accepted
  simp [h]

/-- C16 (amended): a hub-level transition of the bring-up whose control request
is rejected logs that one rejected request; from `kHubRunWaitSetInterface` and
`kHubRunGetDescriptor7` the hub state becomes `kHubRunInvalid`, nothing else is
submitted and `primeStatus` stays `kPrimeNone`; from `kHubRunSetPortPower` the
hub state becomes `kHubRunIdle` and the interrupt-IN receive is submitted, which
primes the pipe when it is accepted. -/
theorem C16_hub_submit_rejected (E : Env) (self : Nat) (c : HubCtx)
    (hprime : c.hub.primeStatus = kPrimeNone)
    (hsub : submitsHubControl E c)
    (hrej : ∀ r : Request, r.isControl = true → E.accept c.log.length self r = false) :
    ∃ c1 r, USB_HostHubProcess E self c = some c1 ∧ r.isControl = true ∧
      (c.hub.hubStatus ≠ kHubRunSetPortPower →
        c1.hub.hubStatus = kHubRunInvalid ∧ c1.hub.primeStatus = kPrimeNone ∧
        c1.log = c.log ++ [Action.submit self r false]) ∧
      (c.hub.hubStatus = kHubRunSetPortPower →
        c1.hub.hubStatus = kHubRunIdle ∧
        c1.log = c.log ++ [Action.submit self r false,
          Action.submit self (Request.interruptRecv ((c.hub.portCount >>> 3) + 1))
            (E.accept (c.log.length + 1) self
              (Request.interruptRecv ((c.hub.portCount >>> 3) + 1)))] ∧
        (c1.hub.primeStatus = kPrimeInterrupt ↔
          E.accept (c.log.length + 1) self
            (Request.interruptRecv ((c.hub.portCount >>> 3) + 1)) = true)) := by
  rcases hsub with hst | ⟨hst, hcap⟩ | ⟨hst, hpl⟩
  · have h : USB_HostHubProcess E self c = some (setHubStatus (submitted E self
        (Request.getDescriptor 7) (setHubStatus c kHubRunGetDescriptor7)) kHubRunInvalid) := by
      unfold USB_HostHubProcess hubSwitch hubRequest
      simp only [hst, accepted, setHubStatus, hrej (Request.getDescriptor _) rfl,
        Bool.false_eq_true, if_false, Option.map_some']
    refine ⟨_, Request.getDescriptor 7, h, rfl, ?_, ?_⟩
    · intro _
      simp [submitted, accepted, setHubStatus, hrej, hprime, Request.isControl]
    · intro h; rw [hst] at h; cases h
  · have h : USB_HostHubProcess E self c = some (setHubStatus (submitted E self
        (Request.getDescriptor ((7 + (bNbrPorts c.hub >>> 3) + 1) % 2 ^ 16))
        (setHubStatus { c with hub := { c.hub with
          totalThinktime := thinkTimeOf E c.hub, portCount := bNbrPorts c.hub } }
          kHubRunSetPortPower)) kHubRunInvalid) := by
      unfold bNbrPorts at hcap
      unfold USB_HostHubProcess hubSwitch
      simp only [hst]
      rw [if_neg (by omega)]
      unfold hubRequest
      simp only [accepted, setHubStatus, hrej (Request.getDescriptor _) rfl,
        Bool.false_eq_true, if_false, Option.map_some']
      rfl
    refine ⟨_, Request.getDescriptor ((7 + (bNbrPorts c.hub >>> 3) + 1) % 2 ^ 16), h, rfl, ?_, ?_⟩
    · intro _
      simp [submitted, accepted, setHubStatus, hrej, hprime, Request.isControl]
    · intro h; rw [hst] at h; cases h
  · have hfin : ∀ c2 : HubCtx, c2.log = c.log → c2.hub.primeStatus = kPrimeNone →
        c2.hub.portCount = c.hub.portCount → ∀ r : Request, r.isControl = true →
        (USB_HostHubGetInterruptStatus E self
            (setHubStatus (submitted E self r c2) kHubRunIdle)).hub.hubStatus = kHubRunIdle ∧
        (USB_HostHubGetInterruptStatus E self
            (setHubStatus (submitted E self r c2) kHubRunIdle)).log =
          c.log ++ [Action.submit self r false,
            Action.submit self (Request.interruptRecv ((c.hub.portCount >>> 3) + 1))
              (E.accept (c.log.length + 1) self
                (Request.interruptRecv ((c.hub.portCount >>> 3) + 1)))] ∧
        ((USB_HostHubGetInterruptStatus E self
            (setHubStatus (submitted E self r c2) kHubRunIdle)).hub.primeStatus = kPrimeInterrupt ↔
          E.accept (c.log.length + 1) self
            (Request.interruptRecv ((c.hub.portCount >>> 3) + 1)) = true) := by
      intro c2 hlog hp hpc r hr
      simp only [USB_HostHubGetInterruptStatus, submitted, accepted, setHubStatus, setPrime, hlog,
        hp, hpc, hrej r hr, ne_eq, not_true_eq_false, if_false, List.length_append,
        List.length_singleton]
      cases E.accept (c.log.length + 1) self
        (Request.interruptRecv ((c.hub.portCount >>> 3) + 1)) <;> simp [hp]
    rcases hpl with ⟨hnone, halloc, hpos⟩ | ⟨hsome, hlt⟩
    · have h : USB_HostHubProcess E self c = some (USB_HostHubGetInterruptStatus E self
          (setHubStatus (submitted E self (Request.setPortFeature 1 PORT_POWER)
            { c with hub := { c.hub with
                portList := some (List.replicate c.hub.portCount zeroPort), portIndex := 1 } })
            kHubRunIdle)) := by
        unfold USB_HostHubProcess hubSwitch
        unfold hubRequest
        simp only [hst, hnone, halloc, if_true, hpos, Nat.zero_add, Nat.reduceMod, accepted,
          setHubStatus, hrej (Request.setPortFeature _ _) rfl,
          Bool.false_eq_true, if_false, Option.map_some']
      refine ⟨_, Request.setPortFeature 1 PORT_POWER, h, rfl, ?_, ?_⟩
      · intro h; exact absurd hst h
      · intro _
        exact hfin { c with hub := { c.hub with
                portList := some (List.replicate c.hub.portCount zeroPort), portIndex := 1 } }
          rfl hprime rfl (Request.setPortFeature 1 PORT_POWER) rfl
    · obtain ⟨l, hl⟩ : ∃ l, c.hub.portList = some l := by
        cases hpl : c.hub.portList with
        | none => exact absurd hpl hsome
        | some l => exact ⟨l, rfl⟩
      have h : USB_HostHubProcess E self c = some (USB_HostHubGetInterruptStatus E self
          (setHubStatus (submitted E self
            (Request.setPortFeature ((c.hub.portIndex + 1) % 256) PORT_POWER)
            { c with hub := { c.hub with portIndex := (c.hub.portIndex + 1) % 256 } })
            kHubRunIdle)) := by
        unfold USB_HostHubProcess hubSwitch
        unfold hubRequest
        simp only [hst, hl, if_true, hlt, reduceCtorEq, if_false, accepted,
          setHubStatus, hrej (Request.setPortFeature _ _) rfl,
          Bool.false_eq_true, if_false, Option.map_some']
      refine ⟨_, Request.setPortFeature ((c.hub.portIndex + 1) % 256) PORT_POWER, h, rfl, ?_, ?_⟩
      · intro h; exact absurd hst h
      · intro _
        exact hfin { c with hub := { c.hub with portIndex := (c.hub.portIndex + 1) % 256 } }
          rfl hprime rfl (Request.setPortFeature ((c.hub.portIndex + 1) % 256) PORT_POWER) rfl

/-- C17: for an instance with `invalid` not 1, in any hub and port state, the
control callback with a non-success status clears `hubProcess` and
`portProcess`, then submits the interrupt-IN receive with `primeStatus` cleared,
so that `primeStatus` ends as `kPrimeInterrupt` when the receive is accepted and
as `kPrimeNone` otherwise. Every other field of the instance, the hub state and
the port list among them, is as on entry, and the receive is the only action
logged: no step of the hub-level or of a port-level machine is run.
(`USB_HostHubControlCallback` is the callback from the point where the registry
of the instance's host has been found.) -/
theorem C17_control_error (E : Env) (self : Nat) (c : HubCtx) (hinv : c.hub.invalid ≠ 1) :
    ∃ c1, USB_HostHubControlCallback E self false c = some c1 ∧
      c1.hubProcess = none ∧
      c1.log = c.log ++ [Action.submit self (Request.interruptRecv ((c.hub.portCount >>> 3) + 1))
        (E.accept c.log.length self (Request.interruptRecv ((c.hub.portCount >>> 3) + 1)))] ∧
      c1.hub = { c.hub with
        portProcess := 0,
        primeStatus :=
          if E.accept c.log.length self (Request.interruptRecv ((c.hub.portCount >>> 3) + 1))
          then kPrimeInterrupt else kPrimeNone } ∧
      c1.suspendedDevice = c.suspendedDevice := by
  unfold USB_HostHubControlCallback
  simp only [hinv, if_false, if_true]
  refine ⟨_, rfl, ?_⟩
  simp only [USB_HostHubGetInterruptStatus, accepted, submitted, setPrime, ne_eq,
    not_true_eq_false, if_false]
  cases E.accept c.log.length self (Request.interruptRecv ((c.hub.portCount >>> 3) + 1)) <;>
    simp [Request.isControl]

/-- C11 (counterexample): with two registry slots, after hubs have been attached
and enumerated on host 1 and on host 2, an attach event for host 3 returns
`kStatus_USB_Error`, which is neither `kStatus_USB_NotSupported` nor
`kStatus_USB_AllocFail`. -/
theorem C11_registry_error :
    statusAfter envAccept 2 twoHostEvents (hostDeviceArgs 3 7 kUSB_HostEventAttach)
      = some kStatus_USB_Error ∧
    kStatus_USB_Error ≠ kStatus_USB_Success ∧ kStatus_USB_Error ≠ kStatus_USB_NotSupported ∧
    kStatus_USB_Error ≠ kStatus_USB_AllocFail := by
  decide

/-- C11 (amended): every status `USB_HostHubDeviceEvent` returns is
`kStatus_USB_Success`, `kStatus_USB_NotSupported` or `kStatus_USB_Error`; it is
`kStatus_USB_Error` exactly when `USB_HostHubGetHubList` returns `NULL` for the
host handle, and `kStatus_USB_NotSupported` exactly when a registry is found, the
event is `kUSB_HostEventAttach` and the configuration has no hub interface the
tier limit admits. -/
theorem C11_event_statuses (E : Env) (w w1 : World) (hostHandle deviceHandle : Option Nat)
    (configuration : Configuration) (eventCode : EventCode) (st : UsbStatus)
    (h : USB_HostHubDeviceEvent E w hostHandle deviceHandle configuration eventCode
      = some (st, w1)) :
    (st = kStatus_USB_Success ∨ st = kStatus_USB_NotSupported ∨ st = kStatus_USB_Error) ∧
    (st = kStatus_USB_Error ↔ (USB_HostHubGetHubList w.s_HubGlobalArray hostHandle).1 = none) ∧
    (st = kStatus_USB_NotSupported ↔
      ((USB_HostHubGetHubList w.s_HubGlobalArray hostHandle).1 ≠ none ∧
        eventCode = kUSB_HostEventAttach ∧
        attachScan E deviceHandle configuration.interfaceList = none)) := by
  unfold USB_HostHubDeviceEvent at h
  generalize USB_HostHubGetHubList w.s_HubGlobalArray hostHandle = res at *
  obtain ⟨ri, gs⟩ := res
  cases ri with
  | none =>
    simp only [Option.some.injEq, Prod.mk.injEq] at h
    obtain ⟨h1, _⟩ := h
    subst h1
    simp
  | some i =>
    simp only at h
    cases hg : gs[i]? with
    | none => simp [hg] at h
    | some g =>
      simp only [hg] at h
      cases eventCode with
      | kUSB_HostEventAttach =>
        simp only at h
        cases hs : attachScan E deviceHandle configuration.interfaceList with
        | none =>
          simp only [hs, Option.some.injEq, Prod.mk.injEq] at h
          obtain ⟨h1, _⟩ := h
          subst h1
          simp
        | some itf =>
          simp only [hs, Option.some.injEq, Prod.mk.injEq] at h
          obtain ⟨h1, _⟩ := h
          subst h1
          simp
      | kUSB_HostEventEnumerationDone =>
        simp only [Option.map_eq_some', Prod.mk.injEq] at h
        obtain ⟨_, _, h1, _⟩ := h
        subst h1
        simp
      | kUSB_HostEventDetach =>
        simp only [Option.map_eq_some', Prod.mk.injEq] at h
        obtain ⟨_, _, h1, _⟩ := h
        subst h1
        simp
      | other code =>
        simp only [Option.some.injEq, Prod.mk.injEq] at h
        obtain ⟨h1, _⟩ := h
        subst h1
        simp

/-- C12 (evaluation at the failing input): a hub is attached and enumerated while
the class driver rejects every control request. After
`kUSB_HostEventEnumerationDone` the new instance has
`primeStatus = kPrimeHubControl` in hub state `kHubRunInvalid`, although the only
request logged for it, SET_INTERFACE, was rejected and `controlTransfer` is
free: no transfer is outstanding. -/
theorem C12_rejected_set_interface :
    (deviceRun envRejectControl (initWorld 1)
        [hubDeviceArgs 5 kUSB_HostEventAttach, hubDeviceArgs 5 kUSB_HostEventEnumerationDone]).map
      (fun w => ((w.hubs 1).map (fun hub => (hub.primeStatus, hub.hubStatus, hub.controlTransfer)),
        w.log))
    = some (some (kPrimeHubControl, kHubRunInvalid, false),
        [Action.mutexCreate true, Action.hubInit (some 5) true,
         Action.submit 1 (Request.setInterface 0) false]) := by
  decide

theorem unlinkAfter_eq (hubs : Nat → Option HubInstance) (d : Option Nat) :
    ∀ l : List Nat, (∀ h ∈ l, ∃ hub, hubs h = some hub) →
      unlinkAfter hubs d l = some (l.find? (hubOfDevice hubs d), l.eraseP (hubOfDevice hubs d)) := by
  intro l
  induction l with
  | nil => intro _; simp [unlinkAfter]
  | cons a rest ih =>
    intro hall
    obtain ⟨hub, ha⟩ := hall a (List.mem_cons_self _ _)
    have hrest := ih (fun h hh => hall h (List.mem_cons_of_mem _ hh))
    unfold unlinkAfter
    simp only [ha]
    by_cases hd : hub.deviceHandle = d
    · have : hubOfDevice hubs d a = true := by simp [hubOfDevice, ha, hd]
      simp [hd, this]
    · have : hubOfDevice hubs d a = false := by simp [hubOfDevice, ha, hd]
      simp [hd, this, hrest]

theorem detachPorts_eq (host : Option Nat) :
    ∀ l : List PortInstance, detachPorts host l =
      (l.map clearHandle,
       (l.filter (fun p => p.deviceHandle ≠ none)).map
         (fun p => Action.detachDevice host p.deviceHandle)) := by
  intro l
  induction l with
  | nil => simp [detachPorts]
  | cons p rest ih =>
    unfold detachPorts
    simp only [ih]
    by_cases hp : p.deviceHandle = none
    · have : clearHandle p = p := by
        cases p with
        | mk dh st rc sp => simp only at hp; subst hp; rfl
      simp [hp, this]
    · simp [hp, clearHandle]

/-- The instance `detachInstance` leaves and the calls it logs. -/
theorem detachInstance_eq (self : Nat) (hub : HubInstance)
    (hwf : ∀ ports, hub.portList = some ports → hub.portCount ≤ ports.length) :
    detachInstance self hub = some
      ({ hub with
          invalid := 1,
          portList := hub.portList.map (fun l =>
            (l.take hub.portCount).map clearHandle ++ l.drop hub.portCount) },
       ((portsOf hub).filter (fun p => p.deviceHandle ≠ none)).map
          (fun p => Action.detachDevice hub.hostHandle p.deviceHandle) ++
        (if hub.portList = none then [] else [Action.memoryFree self])) := by
  unfold detachInstance portsOf
  cases hpl : hub.portList with
  | none => simp
  | some l =>
    have := hwf l hpl
    simp only [detachPorts_eq, Option.map_some', Option.getD_some]
    rw [if_neg (by omega)]
    simp

theorem detachEvent_nomatch (w : World) (i : Nat) (g : HubGlobal) (d : Option Nat)
    (hne : g.hubList ≠ []) (hwf : listWellFormed w.hubs g.hubList)
    (hno : g.hubList.find? (hubOfDevice w.hubs d) = none) :
    detachEvent w i g d = some { w with s_HubGlobalArray := w.s_HubGlobalArray.set i g } := by
  unfold detachEvent
  cases hl : g.hubList with
  | nil => exact absurd hl hne
  | cons a rest =>
    simp only []
    have hu := unlinkAfter_eq w.hubs d g.hubList
      (fun h hh => (hwf h hh).imp (fun _ hx => hx.1))
    rw [hl] at hu hno
    have herase : (a :: rest).eraseP (hubOfDevice w.hubs d) = a :: rest := by
      apply List.eraseP_of_forall_not
      intro x hx
      have := List.find?_eq_none.mp hno x hx
      simpa using this
    rw [hu, hno, herase]
    simp only [Option.some_bind, Option.map_some', List.cons_ne_nil, reduceCtorEq,
      Bool.false_and, Bool.false_eq_true, if_false, decide_False]
    congr 2
    cases g
    simp only at hl
    subst hl
    rfl

theorem detachEvent_match (w : World) (i : Nat) (g : HubGlobal) (d : Option Nat) (self : Nat)
    (hub : HubInstance)
    (hwf : listWellFormed w.hubs g.hubList)
    (hfind : g.hubList.find? (hubOfDevice w.hubs d) = some self)
    (hhub : w.hubs self = some hub) :
    detachEvent w i g d = some { w with
      s_HubGlobalArray := w.s_HubGlobalArray.set i
        { g with
          hubList := g.hubList.eraseP (hubOfDevice w.hubs d),
          hubProcess := if g.hubProcess = some self then none else g.hubProcess,
          hubMutex :=
            if (g.hubList.eraseP (hubOfDevice w.hubs d) = [] && g.hubMutex) = true then false
            else g.hubMutex },
      hubs := Function.update w.hubs self (some { hub with
        invalid := 1,
        portList := hub.portList.map (fun l =>
          (l.take hub.portCount).map clearHandle ++ l.drop hub.portCount) }),
      log := w.log ++
        ((portsOf hub).filter (fun p => p.deviceHandle ≠ none)).map
          (fun p => Action.detachDevice hub.hostHandle p.deviceHandle) ++
        (if hub.portList = none then [] else [Action.memoryFree self]) ++
        [Action.hubDeinit d self] ++
        (if (g.hubList.eraseP (hubOfDevice w.hubs d) = [] && g.hubMutex) = true
          then [Action.mutexDestroy] else []) } := by
  unfold detachEvent
  cases hl : g.hubList with
  | nil => rw [hl] at hfind; simp at hfind
  | cons a rest =>
    simp only []
    have hu := unlinkAfter_eq w.hubs d g.hubList
      (fun h hh => (hwf h hh).imp (fun _ hx => hx.1))
    have hmem : self ∈ g.hubList := List.mem_of_find?_eq_some hfind
    obtain ⟨hub', hh', hwf'⟩ := hwf self hmem
    rw [hhub] at hh'
    cases hh'
    rw [hl] at hu hfind
    rw [hu]
    simp only [Option.some_bind, hfind, hhub, detachInstance_eq self hub hwf', Option.map_some']
    congr 2
    by_cases hdes : ((a :: rest).eraseP (hubOfDevice w.hubs d) = [] && g.hubMutex) = true
    · simp [hdes]
    · simp [hdes]

theorem deviceEvent_detach (E : Env) (w : World) (hostHandle d : Option Nat)
    (configuration : Configuration) (i : Nat) (g : HubGlobal)
    (hreg : (USB_HostHubGetHubList w.s_HubGlobalArray hostHandle).1 = some i)
    (hg : (USB_HostHubGetHubList w.s_HubGlobalArray hostHandle).2[i]? = some g) :
    USB_HostHubDeviceEvent E w hostHandle d configuration kUSB_HostEventDetach =
      (detachEvent { w with
          s_HubGlobalArray := (USB_HostHubGetHubList w.s_HubGlobalArray hostHandle).2 } i g d).map
        (fun w2 => (kStatus_USB_Success, w2)) := by
  unfold USB_HostHubDeviceEvent
  generalize USB_HostHubGetHubList w.s_HubGlobalArray hostHandle = res at *
  obtain ⟨ri, gs⟩ := res
  simp only at hreg hg
  subst hreg
  simp only [hg]

/-- C18: `kUSB_HostEventDetach` for device `d` on a registry with a non-empty,
well-formed hub list returns `kStatus_USB_Success`; the hub list afterwards is
the list before without the first instance whose `deviceHandle` is `d`, that is,
`l1 ++ l2` when the list was `l1 ++ self :: l2` with `self` the first match, so
the other instances keep their order; and when no instance matches, the
registry, every instance and the log are unchanged. -/
theorem C18_detach_unlinks (E : Env) (w : World) (hostHandle d : Option Nat)
    (configuration : Configuration) (i : Nat) (g : HubGlobal)
    (hreg : (USB_HostHubGetHubList w.s_HubGlobalArray hostHandle).1 = some i)
    (hg : (USB_HostHubGetHubList w.s_HubGlobalArray hostHandle).2[i]? = some g)
    (hne : g.hubList ≠ [])
    (hwf : listWellFormed w.hubs g.hubList) :
    ∃ w1 g1, USB_HostHubDeviceEvent E w hostHandle d configuration kUSB_HostEventDetach
        = some (kStatus_USB_Success, w1) ∧
      w1.s_HubGlobalArray[i]? = some g1 ∧
      g1.hubList = g.hubList.eraseP (hubOfDevice w.hubs d) ∧
      (∀ self, g.hubList.find? (hubOfDevice w.hubs d) = some self →
        ∃ l1 l2, g.hubList = l1 ++ self :: l2 ∧ (∀ h ∈ l1, hubOfDevice w.hubs d h = false) ∧
          hubOfDevice w.hubs d self = true ∧ g1.hubList = l1 ++ l2) ∧
      ((∀ h ∈ g.hubList, hubOfDevice w.hubs d h = false) →
        g1 = g ∧ w1.hubs = w.hubs ∧ w1.log = w.log) := by
  have hlt := getHubList_index_lt _ _ _ hreg
  rw [deviceEvent_detach E w hostHandle d configuration i g hreg hg]
  have hdecomp : ∀ self, g.hubList.find? (hubOfDevice w.hubs d) = some self →
      ∃ l1 l2, g.hubList = l1 ++ self :: l2 ∧ (∀ h ∈ l1, hubOfDevice w.hubs d h = false) ∧
        hubOfDevice w.hubs d self = true ∧
        g.hubList.eraseP (hubOfDevice w.hubs d) = l1 ++ l2 := by
    intro self hself
    obtain ⟨hp, l1, l2, hl, hno⟩ := List.find?_eq_some.mp hself
    refine ⟨l1, l2, hl, ?_, hp, ?_⟩
    · intro h hh
      simpa using hno h hh
    · rw [hl]
      rw [List.eraseP_append_right]
      · simp [hp]
      · intro b hb
        have := hno b hb
        simpa using this
  cases hf : g.hubList.find? (hubOfDevice w.hubs d) with
  | none =>
    rw [detachEvent_nomatch
      { w with s_HubGlobalArray := (USB_HostHubGetHubList w.s_HubGlobalArray hostHandle).2 }
      i g d hne hwf hf]
    have hall : ∀ h ∈ g.hubList, hubOfDevice w.hubs d h = false := by
      intro h hh
      simpa using List.find?_eq_none.mp hf h hh
    refine ⟨_, g, rfl, ?_, ?_, ?_, ?_⟩
    · simp [hlt]
    · rw [List.eraseP_of_forall_not]
      intro h hh
      simp [hall h hh]
    · intro self hself; cases hself
    · intro _; exact ⟨rfl, rfl, rfl⟩
  | some self =>
    obtain ⟨hub, hhub, _⟩ := hwf self (List.mem_of_find?_eq_some hf)
    rw [detachEvent_match
      { w with s_HubGlobalArray := (USB_HostHubGetHubList w.s_HubGlobalArray hostHandle).2 }
      i g d self hub hwf hf hhub]
    refine ⟨_,
        { g with
          hubList := g.hubList.eraseP (hubOfDevice w.hubs d),
          hubProcess := if g.hubProcess = some self then none else g.hubProcess,
          hubMutex :=
            if (g.hubList.eraseP (hubOfDevice w.hubs d) = [] && g.hubMutex) = true then false
            else g.hubMutex },
      rfl, ?_, rfl, ?_, ?_⟩
    · simp [hlt]
    · intro self' hself'
      cases hself'
      exact hdecomp self hf
    · intro hall
      have := List.find?_some hf
      rw [hall self (List.mem_of_find?_eq_some hf)] at this
      cases this

theorem filter_detach_map (host : Option Nat) (l : List PortInstance) :
    (l.map (fun p => Action.detachDevice host p.deviceHandle)).filter isDetachDevice
      = l.map (fun p => Action.detachDevice host p.deviceHandle) := by
  induction l with
  | nil => rfl
  | cons p rest ih => simp [isDetachDevice, ih]

/-- C19: `kUSB_HostEventDetach` for the device of the linked instance `self` sets
`invalid` to 1, calls `USB_HostDetachDeviceInternal` once for each of the first
`portCount` ports whose `deviceHandle` is not `NULL`, in port order and with that
handle, and for no other port, clears the handle of each of these ports, and
sets the registry's `hubProcess` to `NULL` iff it was `self`, leaving it as it
was otherwise. -/
theorem C19_detach_instance (E : Env) (w : World) (hostHandle d : Option Nat)
    (configuration : Configuration) (i : Nat) (g : HubGlobal) (self : Nat) (hub : HubInstance)
    (hreg : (USB_HostHubGetHubList w.s_HubGlobalArray hostHandle).1 = some i)
    (hg : (USB_HostHubGetHubList w.s_HubGlobalArray hostHandle).2[i]? = some g)
    (hwf : listWellFormed w.hubs g.hubList)
    (hfind : g.hubList.find? (hubOfDevice w.hubs d) = some self)
    (hhub : w.hubs self = some hub) :
    ∃ w1 g1 hub1, USB_HostHubDeviceEvent E w hostHandle d configuration kUSB_HostEventDetach
        = some (kStatus_USB_Success, w1) ∧
      w1.hubs self = some hub1 ∧ hub1.invalid = 1 ∧
      (w1.log.drop w.log.length).filter isDetachDevice =
        ((portsOf hub).filter (fun p => p.deviceHandle ≠ none)).map
          (fun p => Action.detachDevice hub.hostHandle p.deviceHandle) ∧
      hub1.portCount = hub.portCount ∧
      hub1.portList = hub.portList.map (fun l =>
        (l.take hub.portCount).map clearHandle ++ l.drop hub.portCount) ∧
      (∀ p ∈ portsOf hub1, p.deviceHandle = none) ∧
      w1.s_HubGlobalArray[i]? = some g1 ∧
      g1.hubProcess = (if g.hubProcess = some self then none else g.hubProcess) := by
  have hlt := getHubList_index_lt _ _ _ hreg
  rw [deviceEvent_detach E w hostHandle d configuration i g hreg hg]
  rw [detachEvent_match
    { w with s_HubGlobalArray := (USB_HostHubGetHubList w.s_HubGlobalArray hostHandle).2 }
    i g d self hub hwf hfind hhub]
  refine ⟨_,
      { g with
          hubList := g.hubList.eraseP (hubOfDevice w.hubs d),
          hubProcess := if g.hubProcess = some self then none else g.hubProcess,
          hubMutex :=
            if (g.hubList.eraseP (hubOfDevice w.hubs d) = [] && g.hubMutex) = true then false
            else g.hubMutex },
      { hub with
        invalid := 1,
        portList := hub.portList.map (fun l =>
          (l.take hub.portCount).map clearHandle ++ l.drop hub.portCount) },
    rfl, ?_, rfl, ?_, rfl, rfl, ?_, ?_, rfl⟩
  · simp
  · simp only [List.append_assoc, List.drop_left, List.filter_append, filter_detach_map]
    have h1 : (if hub.portList = none then [] else [Action.memoryFree self]).filter
        isDetachDevice = [] := by split <;> simp [isDetachDevice]
    have h2 : (if (g.hubList.eraseP (hubOfDevice w.hubs d) = [] && g.hubMutex) = true
        then [Action.mutexDestroy] else []).filter isDetachDevice = [] := by
      split <;> simp [isDetachDevice]
    rw [h1, h2]
    simp [isDetachDevice]
  · intro p hp
    unfold portsOf at hp
    cases hpl : hub.portList with
    | none => simp [hpl] at hp
    | some l =>
      simp only [hpl, Option.map_some', Option.getD_some] at hp
      have hlen : hub.portCount ≤ l.length := by
        obtain ⟨hub', hh', hwf'⟩ := hwf self (List.mem_of_find?_eq_some hfind)
        rw [hhub] at hh'; cases hh'
        exact hwf' l hpl
      rw [List.take_append_of_le_length (by simp; omega)] at hp
      have hp2 := List.mem_of_mem_take hp
      simp only [List.mem_map] at hp2
      obtain ⟨q, _, hq⟩ := hp2
      rw [← hq]; rfl
  · simp [hlt]

theorem isPortControl_isControl (q : Request) (h : isPortControl q = true) :
    q.isControl = true := by
  cases q <;> simp [isPortControl] at h <;> rfl

theorem log_portRequest (E : Env) (self : Nat) (q : Request) (port1 : PortInstance)
    (c : HubCtx) (hq : isPortControl q = true) :
    PortStepLog E self c (portRequest E self q port1 c) := by
  unfold portRequest
  split
  · rename_i h
    refine ⟨rfl, Or.inl ⟨[Action.submit self q true], ?_, ?_⟩⟩
    · simp [setPrime, submitted, h]
    · cases q <;> simp [isPortControl] at hq <;> simp [isQuietPortAction, isPortControl, hq]
  · rename_i h
    exact ⟨rfl, Or.inr ⟨rfl, q, hq, by simpa using h, rfl⟩⟩

theorem log_portResetRequest (E : Env) (self : Nat) (port1 : PortInstance) (c : HubCtx) :
    PortStepLog E self c (portResetRequest E self port1 c) := by
  unfold portResetRequest
  simp only []
  split
  · rename_i h
    refine ⟨rfl, Or.inl ⟨[Action.submit self
      (Request.setPortFeature c.hub.portProcess PORT_RESET) true], ?_, ?_⟩⟩
    · simp [setPrime, submitted, h]
    · simp [isQuietPortAction, isPortControl]
  · rename_i h
    exact ⟨rfl, Or.inr ⟨rfl, Request.setPortFeature c.hub.portProcess PORT_RESET, rfl,
      by simpa using h, rfl⟩⟩

theorem log_fail (E : Env) (self : Nat) (port1 : PortInstance) (c : HubCtx) (b : Bool) :
    PortStepLog E self c { port := port1, ctx := c, processSuccess := b } :=
  ⟨rfl, Or.inl ⟨[], by simp, rfl⟩⟩

theorem getInterruptStatus_quiet (E : Env) (self : Nat) (c : HubCtx) :
    (USB_HostHubGetInterruptStatus E self c).hub.hubStatus = c.hub.hubStatus ∧
    ∃ L, (USB_HostHubGetInterruptStatus E self c).log = c.log ++ L ∧
      L.all (isQuietPortAction self) = true := by
  unfold USB_HostHubGetInterruptStatus
  split
  · exact ⟨rfl, [], by simp, rfl⟩
  · simp only []
    split
    · exact ⟨rfl, [_], rfl, by simp [isQuietPortAction]⟩
    · exact ⟨rfl, [_], rfl, by simp [isQuietPortAction]⟩

theorem quiet_after (E : Env) (self : Nat) (c cx : HubCtx) (a : Action)
    (hlog : cx.log = c.log ++ [a]) (hst : cx.hub.hubStatus = c.hub.hubStatus)
    (ha : isQuietPortAction self a = true) (port1 : PortInstance) (b : Bool) :
    PortStepLog E self c
      { port := port1, ctx := USB_HostHubGetInterruptStatus E self cx, processSuccess := b } := by
  obtain ⟨h1, L, h2, h3⟩ := getInterruptStatus_quiet E self cx
  refine ⟨h1.trans hst, Or.inl ⟨a :: L, ?_, ?_⟩⟩
  · simp only []; rw [h2, hlog]; simp
  · simp only [List.all_cons, ha, Bool.true_and]; exact h3

theorem attachSwitch_log (E : Env) (self : Nat) (c : HubCtx) (port : PortInstance) :
    PortStepLog E self c (attachSwitch E self port c) := by
  unfold attachSwitch
  simp only []
  split
  · exact log_portRequest E self _ _ c rfl
  · split
    · exact log_portRequest E self _ _ c rfl
    · split
      · exact log_portResetRequest E self _ c
      · have hfeat : ∀ feature : Nat, PortStepLog E self c
            (if feature ≠ 0 then
              portRequest E self (Request.clearPortFeature c.hub.portProcess feature)
                { port with portStatus := kPortRunWaitPortChange } c
             else { port := port, ctx := c, processSuccess := false }) := by
          intro feature
          split
          · exact log_portRequest E self _ _ c rfl
          · exact log_fail E self _ c _
        exact hfeat _
  · exact log_portRequest E self _ _ c rfl
  · split
    · exact log_portResetRequest E self _ c
    · exact log_fail E self _ c _
  · obtain ⟨h1, L, h2, h3⟩ := getInterruptStatus_quiet E self c
    exact ⟨h1, Or.inl ⟨L, h2, h3⟩⟩
  · exact log_portRequest E self _ _ c rfl
  · split
    · exact log_portRequest E self _ _ c rfl
    · exact log_fail E self _ c _
  · exact log_portRequest E self _ _ c rfl
  · exact quiet_after E self c
      { hubProcess := none,
        hub := { c.hub with portProcess := 0 },
        suspendedDevice := c.suspendedDevice,
        log := c.log ++ [Action.attachDevice c.hub.hostHandle port.speed
          (getInfo E c.hub.deviceHandle kUSB_HostGetDeviceAddress 0 % 256) c.hub.portProcess
          ((c.hub.hubLevel + 1) % 256)] }
      (Action.attachDevice c.hub.hostHandle port.speed
          (getInfo E c.hub.deviceHandle kUSB_HostGetDeviceAddress 0 % 256) c.hub.portProcess
          ((c.hub.hubLevel + 1) % 256)) rfl rfl rfl _ _
  · exact log_fail E self _ c _

theorem detachSwitch_log (E : Env) (self : Nat) (c : HubCtx) (port : PortInstance)
    (r : PortStep) (hr : detachSwitch E self port c = some r) : PortStepLog E self c r := by
  have wrap : ∀ {r0 : PortStep}, some r0 = some r → PortStepLog E self c r0 →
      PortStepLog E self c r := by
    intro r0 h h0; cases h; exact h0
  unfold detachSwitch at hr
  simp only [] at hr
  split at hr
  · split at hr
    · exact wrap hr (log_portRequest E self _ _ c rfl)
    · exact wrap hr (log_fail E self _ c _)
  · exact wrap hr (log_portRequest E self _ _ c rfl)
  · split at hr
    · exact wrap hr (log_portRequest E self _ _ c rfl)
    · split at hr
      · exact wrap hr (log_portRequest E self _ _ c rfl)
      · split at hr
        · split at hr
          · rename_i h
            refine wrap hr ⟨rfl, Or.inl ⟨[Action.submit self
              (Request.clearPortFeature c.hub.portProcess C_PORT_SUSPEND) true], ?_, ?_⟩⟩
            · simp [setPrime, submitted, h]
            · simp [isQuietPortAction, isPortControl]
          · rename_i h
            exact wrap hr ⟨rfl, Or.inr ⟨rfl,
              Request.clearPortFeature c.hub.portProcess C_PORT_SUSPEND, rfl,
              by simpa using h, rfl⟩⟩
        · exact wrap hr (log_portRequest E self _ _ c rfl)
  · exact wrap hr (log_portRequest E self _ _ c rfl)
  · split at hr
    · exact wrap hr (log_fail E self _ c _)
    · exact wrap hr (quiet_after E self c
        { hubProcess := none,
          hub := { c.hub with portProcess := 0 },
          suspendedDevice := c.suspendedDevice,
          log := c.log ++ [Action.detachDevice c.hub.hostHandle port.deviceHandle] }
        (Action.detachDevice c.hub.hostHandle port.deviceHandle) rfl rfl rfl _ _)
  · split at hr
    · exact wrap hr (log_portRequest E self _ _ c rfl)
    · exact wrap hr (log_fail E self _ c _)
  · split at hr
    · split at hr
      · cases hr
      · split at hr
        · exact wrap hr ⟨rfl, Or.inl
            ⟨[Action.hostEvent c.suspendedDevice HostEvent.kUSB_HostEventSuspended], rfl,
              by simp [isQuietPortAction]⟩⟩
        · exact wrap hr ⟨rfl, Or.inl
            ⟨[Action.hostEvent c.suspendedDevice HostEvent.kUSB_HostEventResumed], rfl,
              by simp [isQuietPortAction]⟩⟩
    · exact wrap hr (log_fail E self _ c _)
  · exact wrap hr (log_fail E self _ c _)

theorem quiet_not_rejected (self : Nat) (L : List Action)
    (h : L.all (isQuietPortAction self) = true) : L.any (isRejectedControl self) = false := by
  induction L with
  | nil => rfl
  | cons a rest ih =>
    simp only [List.all_cons, Bool.and_eq_true] at h
    simp only [List.any_cons, ih h.2, Bool.or_false]
    cases a with
    | submit hh r ok =>
      cases ok with
      | true => rfl
      | false =>
        cases r <;> simp [isQuietPortAction] at h
        simp [isRejectedControl, Request.isControl]
    | _ => rfl

/-- The state after the recover path that follows a rejected control
request `q`, entered with no transfer outstanding. -/
theorem recover_rejected (E : Env) (self : Nat) (c : HubCtx) (q : Request)
    (hprime : c.hub.primeStatus = kPrimeNone) (hrej : accepted E self q c = false) :
    (USB_HostHubGetInterruptStatus E self
      { submitted E self q c with
        hub := { (submitted E self q c).hub with portProcess := 0 }, hubProcess := none }).log
      = c.log ++ [Action.submit self q false,
          Action.submit self (Request.interruptRecv ((c.hub.portCount >>> 3) + 1))
            (E.accept (c.log.length + 1) self
              (Request.interruptRecv ((c.hub.portCount >>> 3) + 1)))] ∧
    (USB_HostHubGetInterruptStatus E self
      { submitted E self q c with
        hub := { (submitted E self q c).hub with portProcess := 0 }, hubProcess := none }).hubProcess
      = none ∧
    (USB_HostHubGetInterruptStatus E self
      { submitted E self q c with
        hub := { (submitted E self q c).hub with portProcess := 0 },
        hubProcess := none }).hub.portProcess = 0 ∧
    ((USB_HostHubGetInterruptStatus E self
      { submitted E self q c with
        hub := { (submitted E self q c).hub with portProcess := 0 },
        hubProcess := none }).hub.primeStatus = kPrimeInterrupt ↔
      E.accept (c.log.length + 1) self
        (Request.interruptRecv ((c.hub.portCount >>> 3) + 1)) = true) := by
  simp only [USB_HostHubGetInterruptStatus, submitted, accepted, setPrime, hprime, ne_eq,
    not_true_eq_false, if_false, List.length_append, List.length_singleton]
  unfold accepted at hrej
  rw [hrej]
  cases E.accept (c.log.length + 1) self
    (Request.interruptRecv ((c.hub.portCount >>> 3) + 1)) <;> simp [hprime]

/-- C15: a step of `USB_HostHubProcessPort` entered from a callback
(`primeStatus` is `kPrimeNone`) always returns, and when it has logged a
rejected control request, then on return the port is in the recover state
(`kPortRunWaitPortChange` for a vacant port, which runs the attach sub-machine,
`kPortRunPortAttached` for an occupied one, which runs the detach sub-machine),
`hubProcess` is `NULL`, `portProcess` is 0, `resetCount` is
`USB_HOST_HUB_PORT_RESET_TIMES`, and the step has logged exactly the rejected
request followed by the interrupt-IN receive, which primes the pipe when it is
accepted. The detach recover path does not write `resetCount`; it has the full
value there by `PortInv`, which every port step keeps. -/
theorem C15_submit_rejected (E : Env) (self : Nat) (c : HubCtx) (port : PortInstance)
    (hport : currentPort c.hub = some port) (hinv : PortInv port)
    (hhost : c.hub.hostHandle ≠ none) (hprime : c.hub.primeStatus = kPrimeNone) :
    ∃ c1 port1, USB_HostHubProcessPort E self c = some c1 ∧
      portAt c1.hub (c.hub.portProcess - 1) = some port1 ∧
      ((newActions c c1).any (isRejectedControl self) = true →
        port1.portStatus =
          (if port.deviceHandle = none then kPortRunWaitPortChange else kPortRunPortAttached) ∧
        c1.hubProcess = none ∧ c1.hub.portProcess = 0 ∧
        port1.resetCount = USB_HOST_HUB_PORT_RESET_TIMES ∧
        (∃ q, q.isControl = true ∧
          newActions c c1 =
            [Action.submit self q false,
             Action.submit self (Request.interruptRecv ((c.hub.portCount >>> 3) + 1))
              (E.accept (c.log.length + 1) self
                (Request.interruptRecv ((c.hub.portCount >>> 3) + 1)))]) ∧
        (c1.hub.primeStatus = kPrimeInterrupt ↔
          E.accept (c.log.length + 1) self
            (Request.interruptRecv ((c.hub.portCount >>> 3) + 1)) = true)) := by
  obtain ⟨hne, hat⟩ := currentPort_some hport
  obtain ⟨l, hl, hlt⟩ := portAt_lt hat
  -- a switch whose log is quiet leaves no rejected control request behind
  have quiet : ∀ (r : PortStep) (L : List Action) (q1 q2 : PortInstance) (cx : HubCtx),
      r.ctx.log = c.log ++ L → L.all (isQuietPortAction self) = true →
      cx.log = r.ctx.log →
      (newActions c (if r.processSuccess = true then storePort (c.hub.portProcess - 1) q1 r.ctx
        else storePort (c.hub.portProcess - 1) q2
          (USB_HostHubGetInterruptStatus E self cx))).any (isRejectedControl self) = false := by
    intro r L q1 q2 cx hL hq hcx
    split
    · simp only [newActions, storePort, hL, List.drop_left]
      exact quiet_not_rejected self L hq
    · obtain ⟨_, L2, g1, g2⟩ := getInterruptStatus_quiet E self cx
      simp only [newActions, storePort, g1, hcx, hL, List.append_assoc, List.drop_left]
      exact any_append_false _ _ _ (quiet_not_rejected self L hq) (quiet_not_rejected self L2 g2)
  unfold USB_HostHubProcessPort
  rw [hport]
  simp only [Option.some_bind]
  by_cases hvac : port.deviceHandle = none
  · simp only [hvac, if_true]
    unfold USB_HostHubProcessPortAttach
    rw [hport]
    simp only [Option.map_some']
    have hpl := attachSwitch_portList E self port c
    obtain ⟨_, hlog⟩ := attachSwitch_log E self c port
    generalize attachSwitch E self port c = r at *
    rcases hlog with ⟨L, hL, hq⟩ | ⟨hps, q, hq, hrej, hctx⟩
    · have hno := quiet r L r.port
        { r.port with
          portStatus := kPortRunWaitPortChange,
          resetCount := USB_HOST_HUB_PORT_RESET_TIMES }
        { r.ctx with hub := { r.ctx.hub with portProcess := 0 }, hubProcess := none }
        hL hq rfl
      cases hps : r.processSuccess with
      | true =>
        simp only [hps, if_true] at hno ⊢
        refine ⟨_, r.port, rfl, portAt_storePort ⟨l, by rw [hpl]; exact hl, hlt⟩, ?_⟩
        intro h; rw [hno] at h; cases h
      | false =>
        simp only [hps, Bool.false_eq_true, if_false] at hno ⊢
        refine ⟨_, _, rfl, portAt_storePort ⟨l, by simp [hpl, hl], hlt⟩, ?_⟩
        intro h; rw [hno] at h; cases h
    · simp only [hps, Bool.false_eq_true, if_false]
      obtain ⟨g1, g2, g3, g4⟩ := recover_rejected E self c q hprime hrej
      rw [hctx] at hpl ⊢
      refine ⟨_, _, rfl, portAt_storePort ⟨l, by simp [hl], hlt⟩, ?_⟩
      intro _
      refine ⟨rfl, g2, g3, rfl, ⟨q, isPortControl_isControl q hq, ?_⟩, g4⟩
      simp only [newActions, storePort, g1, List.drop_left]
  · simp only [hvac, if_false]
    unfold USB_HostHubProcessPortDetach
    rw [hport]
    simp only [Option.some_bind]
    obtain ⟨r, L0, hr, d1, d2, d3, d4, d5, d6⟩ := detachSwitch_spec E self c port hhost
    obtain ⟨_, hlog⟩ := detachSwitch_log E self c port r hr
    rw [hr]
    simp only [Option.map_some']
    have hrt : port.resetCount = USB_HOST_HUB_PORT_RESET_TIMES := hinv.1 hvac
    rcases hlog with ⟨L, hL, hq⟩ | ⟨hps, q, hq, hrej, hctx⟩
    · have hno := quiet r L r.port { r.port with portStatus := kPortRunPortAttached }
        { r.ctx with hubProcess := none, hub := { r.ctx.hub with portProcess := 0 } }
        hL hq rfl
      cases hps : r.processSuccess with
      | true =>
        simp only [hps, if_true] at hno ⊢
        refine ⟨_, r.port, rfl, portAt_storePort ⟨l, by rw [d2]; exact hl, hlt⟩, ?_⟩
        intro h; rw [hno] at h; cases h
      | false =>
        simp only [hps, Bool.false_eq_true, if_false] at hno ⊢
        refine ⟨_, _, rfl, portAt_storePort ⟨l, by simp [d2, hl], hlt⟩, ?_⟩
        intro h; rw [hno] at h; cases h
    · simp only [hps, Bool.false_eq_true, if_false]
      obtain ⟨g1, g2, g3, g4⟩ := recover_rejected E self c q hprime hrej
      rw [hctx] at d2 ⊢
      refine ⟨_, _, rfl, portAt_storePort ⟨l, by simp [hl], hlt⟩, ?_⟩
      intro _
      refine ⟨rfl, g2, g3, ?_, ⟨q, isPortControl_isControl q hq, ?_⟩, g4⟩
      · simp only []; rw [d3]; exact hrt
      · simp only [newActions, storePort, g1, List.drop_left]

theorem arrive_control (reply : Reply) (hub : HubInstance) :
    ((HubEvent.controlDone reply true).arrive hub).hubStatus = hub.hubStatus ∧
    ((HubEvent.controlDone reply true).arrive hub).primeStatus = hub.primeStatus ∧
    ((HubEvent.controlDone reply true).arrive hub).invalid = hub.invalid ∧
    ((HubEvent.controlDone reply true).arrive hub).portCount = hub.portCount ∧
    ((HubEvent.controlDone reply true).arrive hub).portList = hub.portList ∧
    ((HubEvent.controlDone reply true).arrive hub).portIndex = hub.portIndex ∧
    ((HubEvent.controlDone reply true).arrive hub).deviceHandle = hub.deviceHandle := by
  cases reply <;> exact ⟨rfl, rfl, rfl, rfl, rfl, rfl, rfl⟩

/-- A successful completion of a hub control transfer runs the hub-level
machine on the instance as the completion has left it. -/
theorem hubStep_hubControl (E : Env) (self : Nat) (c : HubCtx) (reply : Reply)
    (hinv : c.hub.invalid ≠ 1) (hprime : c.hub.primeStatus = kPrimeHubControl) :
    hubStep E self c (HubEvent.controlDone reply true) =
      USB_HostHubProcess E self
        (setPrime { c with hub := (HubEvent.controlDone reply true).arrive c.hub } kPrimeNone) := by
  obtain ⟨_, a2, a3, _⟩ := arrive_control reply c.hub
  simp only [hubStep, USB_HostHubControlCallback, a3, hinv, if_false, Bool.true_eq_false, a2,
    hprime, if_true]

theorem process_power_alloc (E : Env) (self : Nat) (c : HubCtx)
    (hst : c.hub.hubStatus = kHubRunSetPortPower) (hnone : c.hub.portList = none)
    (halloc : E.allocOk c.log.length = true) (hpos : 0 < c.hub.portCount)
    (hacc : E.accept c.log.length self (Request.setPortFeature 1 PORT_POWER) = true) :
    USB_HostHubProcess E self c = some (setPrime (submitted E self
      (Request.setPortFeature 1 PORT_POWER)
      { c with hub := { c.hub with
          portList := some (List.replicate c.hub.portCount zeroPort), portIndex := 1 } })
      kPrimeHubControl) := by
  unfold USB_HostHubProcess hubSwitch hubRequest
  simp only [hst, hnone, halloc, if_true, hpos, accepted, Nat.zero_add, Nat.reduceMod, hacc,
    Option.map_some', Bool.false_eq_true, if_false]

theorem process_power_next (E : Env) (self : Nat) (c : HubCtx) (l : List PortInstance)
    (hst : c.hub.hubStatus = kHubRunSetPortPower) (hl : c.hub.portList = some l)
    (hlt : c.hub.portIndex < c.hub.portCount)
    (hacc : E.accept c.log.length self
      (Request.setPortFeature ((c.hub.portIndex + 1) % 256) PORT_POWER) = true) :
    USB_HostHubProcess E self c = some (setPrime (submitted E self
      (Request.setPortFeature ((c.hub.portIndex + 1) % 256) PORT_POWER)
      { c with hub := { c.hub with portIndex := (c.hub.portIndex + 1) % 256 } })
      kPrimeHubControl) := by
  unfold USB_HostHubProcess hubSwitch hubRequest
  simp only [hst, hl, reduceCtorEq, if_false, hlt, if_true, accepted, hacc,
    Option.map_some', Bool.false_eq_true]

theorem power_step (E : Env) (self n idx : Nat) (c : HubCtx) (reply : Reply)
    (hacc : ∀ k r, E.accept k self r = true) (halloc : ∀ k, E.allocOk k = true)
    (hph : PowerPhase n idx c) (hlt : idx < n) (hn : n < 256) :
    ∃ c1, hubStep E self c (HubEvent.controlDone reply true) = some c1 ∧
      PowerPhase n (idx + 1) c1 ∧
      c1.log = c.log ++ [Action.submit self (Request.setPortFeature (idx + 1) PORT_POWER) true] := by
  obtain ⟨h1, h2, h3, h4, h5⟩ := hph
  have hmod : (idx + 1) % 256 = idx + 1 := Nat.mod_eq_of_lt (by omega)
  obtain ⟨a1, a2, a3, a4, a5, a6, _⟩ := arrive_control reply c.hub
  rw [hubStep_hubControl E self c reply h3 h2]
  rcases h5 with ⟨hnone, hidx⟩ | ⟨l, hl, hlen, hidx⟩
  · subst hidx
    rw [process_power_alloc E self _ (a1.trans h1) (a5.trans hnone) (halloc _)
      (by simp only [setPrime]; rw [a4, h4]; exact hlt) (hacc _ _)]
    refine ⟨_, rfl, ⟨?_, rfl, ?_, ?_, Or.inr ⟨List.replicate n zeroPort, ?_, by simp, rfl⟩⟩, ?_⟩
    · simp [submitted, setPrime, a1, h1]
    · simpa [submitted, setPrime] using (a3 ▸ h3)
    · simp [submitted, setPrime, a4, h4]
    · simp [submitted, setPrime, a4, h4]
    · simp [submitted, setPrime, accepted, hacc]
  · subst hidx
    rw [process_power_next E self _ l (a1.trans h1) (a5.trans hl)
      (by simp only [setPrime]; rw [a6, a4, h4]; exact hlt) (hacc _ _)]
    refine ⟨_, rfl, ⟨?_, rfl, ?_, ?_, Or.inr ⟨l, ?_, hlen, ?_⟩⟩, ?_⟩
    · simp [submitted, setPrime, a1, h1]
    · simpa [submitted, setPrime] using (a3 ▸ h3)
    · simp [submitted, setPrime, a4, h4]
    · simp [submitted, setPrime, a5, hl]
    · simp [submitted, setPrime, a6, hmod]
    · simp [submitted, setPrime, accepted, hacc, a6, hmod]

theorem process_power_done (E : Env) (self : Nat) (c : HubCtx) (l : List PortInstance)
    (hst : c.hub.hubStatus = kHubRunSetPortPower) (hl : c.hub.portList = some l)
    (hge : ¬ c.hub.portIndex < c.hub.portCount) (hlen : c.hub.portCount ≤ l.length) :
    USB_HostHubProcess E self c = some (USB_HostHubGetInterruptStatus E self
      (setHubStatus { c with hub := { c.hub with
          portProcess := 0,
          portList := some ((l.take c.hub.portCount).map resetPort ++ l.drop c.hub.portCount),
          hubStatus := kHubRunIdle } } kHubRunIdle)) := by
  unfold USB_HostHubProcess hubSwitch
  simp only [hst, hl, reduceCtorEq, if_false, hge]
  rw [if_neg (by omega)]
  rfl

theorem power_last (E : Env) (self n : Nat) (c : HubCtx) (reply : Reply)
    (hacc : ∀ k r, E.accept k self r = true) (halloc : ∀ k, E.allocOk k = true)
    (hph : PowerPhase n n c) :
    ∃ c1, hubStep E self c (HubEvent.controlDone reply true) = some c1 ∧
      c1.hub.hubStatus = kHubRunIdle ∧ c1.hub.primeStatus = kPrimeInterrupt ∧
      c1.hub.portCount = n ∧ c1.hub.invalid ≠ 1 ∧
      c1.log = c.log ++ [Action.submit self (Request.interruptRecv ((n >>> 3) + 1)) true] := by
  obtain ⟨h1, h2, h3, h4, h5⟩ := hph
  obtain ⟨a1, a2, a3, a4, a5, a6, _⟩ := arrive_control reply c.hub
  rw [hubStep_hubControl E self c reply h3 h2]
  have hfin : ∀ cx : HubCtx, cx.hub.primeStatus = kPrimeNone → cx.hub.portCount = n →
      cx.hub.invalid ≠ 1 → cx.log = c.log →
      (USB_HostHubGetInterruptStatus E self (setHubStatus cx kHubRunIdle)).hub.hubStatus
        = kHubRunIdle ∧
      (USB_HostHubGetInterruptStatus E self (setHubStatus cx kHubRunIdle)).hub.primeStatus
        = kPrimeInterrupt ∧
      (USB_HostHubGetInterruptStatus E self (setHubStatus cx kHubRunIdle)).hub.portCount = n ∧
      (USB_HostHubGetInterruptStatus E self (setHubStatus cx kHubRunIdle)).hub.invalid ≠ 1 ∧
      (USB_HostHubGetInterruptStatus E self (setHubStatus cx kHubRunIdle)).log =
        c.log ++ [Action.submit self (Request.interruptRecv ((n >>> 3) + 1)) true] := by
    intro cx hp hpc hv hlog
    simp only [USB_HostHubGetInterruptStatus, setHubStatus, hp, ne_eq, not_true_eq_false,
      if_false, accepted, hacc, if_true, setPrime, submitted, hpc, hlog]
    exact ⟨trivial, trivial, trivial, hv, trivial⟩
  rcases h5 with ⟨hnone, hidx⟩ | ⟨l, hl, hlen, hidx⟩
  · subst hidx
    have hpc0 : ((HubEvent.controlDone reply true).arrive c.hub).portCount = 0 := a4.trans h4
    have : USB_HostHubProcess E self
        (setPrime { c with hub := (HubEvent.controlDone reply true).arrive c.hub } kPrimeNone) =
        some (USB_HostHubGetInterruptStatus E self (setHubStatus
          { c with hub := { (HubEvent.controlDone reply true).arrive c.hub with
              primeStatus := kPrimeNone, portProcess := 0, portIndex := 0, portList := some [],
              hubStatus := kHubRunIdle } } kHubRunIdle)) := by
      unfold USB_HostHubProcess hubSwitch
      simp only [setPrime, a1, h1, a5, hnone, halloc, if_true, hpc0, Nat.lt_irrefl, if_false,
        List.replicate_zero, List.length_nil, List.take_nil, List.map_nil, List.drop_nil,
        List.append_nil, Option.map_some', Bool.false_eq_true]
    rw [this]
    exact ⟨_, rfl, hfin _ rfl hpc0 (a3 ▸ h3) rfl⟩
  · rw [process_power_done E self _ l (a1.trans h1) (a5.trans hl)
      (by simp only [setPrime]; rw [a6, a4, h4, hidx]; exact Nat.lt_irrefl _)
      (by simp only [setPrime]; rw [a4, h4]; exact hlen)]
    exact ⟨_, rfl, hfin _ rfl (a4.trans h4) (a3 ▸ h3) rfl⟩

theorem power_run (E : Env) (self n : Nat)
    (hacc : ∀ k r, E.accept k self r = true) (halloc : ∀ k, E.allocOk k = true) (hn : n < 256) :
    ∀ (m idx : Nat) (c : HubCtx) (rs : List Reply), idx + m = n → rs.length = m + 1 →
      PowerPhase n idx c →
      ∃ c1, hubRun E self c (controlDones rs) = some c1 ∧
        c1.hub.hubStatus = kHubRunIdle ∧ c1.hub.primeStatus = kPrimeInterrupt ∧
        c1.hub.portCount = n ∧ c1.hub.invalid ≠ 1 ∧
        c1.log = c.log ++ powerLog self (idx + 1) m ++
          [Action.submit self (Request.interruptRecv ((n >>> 3) + 1)) true] := by
  intro m
  induction m with
  | zero =>
    intro idx c rs hidx hrs hph
    have hidx' : idx = n := by omega
    subst hidx'
    match rs, hrs with
    | [reply], _ =>
      obtain ⟨c1, g1, g2, g3, g4, g5, g6⟩ := power_last E self idx c reply hacc halloc hph
      refine ⟨c1, ?_, g2, g3, g4, g5, ?_⟩
      · simp [controlDones, hubRun, g1]
      · simp [powerLog, g6]
  | succ k ih =>
    intro idx c rs hidx hrs hph
    match rs, hrs with
    | reply :: rest, hrs =>
      obtain ⟨c1, g1, g2, g3⟩ := power_step E self n idx c reply hacc halloc hph (by omega) hn
      obtain ⟨c2, f1, f2, f3, f4, f5, f6⟩ := ih (idx + 1) c1 rest (by omega)
        (by simpa using hrs) g2
      refine ⟨c2, ?_, f2, f3, f4, f5, ?_⟩
      · simp only [controlDones, List.map_cons, hubRun, g1, Option.some_bind]
        exact f1
      · rw [f6, g3]
        simp [powerLog, List.range'_succ]

theorem noPower_refl (c : HubCtx) : NoPower c c := ⟨[], by simp, rfl⟩

theorem noPower_trans {c c1 c2 : HubCtx} (h1 : NoPower c c1) (h2 : NoPower c1 c2) :
    NoPower c c2 := by
  obtain ⟨L1, e1, p1⟩ := h1
  obtain ⟨L2, e2, p2⟩ := h2
  exact ⟨L1 ++ L2, by rw [e2, e1, List.append_assoc], any_append_false _ _ _ p1 p2⟩

theorem noPower_of_log {c c1 c2 : HubCtx} (h : c2.log = c1.log) (h1 : NoPower c c1) :
    NoPower c c2 := by
  obtain ⟨L1, e1, p1⟩ := h1
  exact ⟨L1, h.trans e1, p1⟩

theorem quiet_noPower (self : Nat) (L : List Action)
    (h : L.all (isQuietPortAction self) = true) : L.any isPortPower = false := by
  induction L with
  | nil => rfl
  | cons a rest ih =>
    simp only [List.all_cons, Bool.and_eq_true] at h
    simp only [List.any_cons, ih h.2, Bool.or_false]
    cases a with
    | submit hh r ok =>
      cases r with
      | setPortFeature p f =>
        cases ok with
        | true =>
          have := h.1
          simp only [isQuietPortAction, isPortControl, Bool.and_eq_true,
            decide_eq_true_eq] at this
          simp [isPortPower, this.2, PORT_RESET, PORT_POWER]
        | false => simp [isQuietPortAction] at h
      | _ => rfl
    | _ => rfl

theorem portControl_noPower (self : Nat) (q : Request) (ok : Bool)
    (h : isPortControl q = true) : isPortPower (Action.submit self q ok) = false := by
  cases q with
  | setPortFeature p f =>
    simp only [isPortControl, decide_eq_true_eq] at h
    simp [isPortPower, h, PORT_RESET, PORT_POWER]
  | _ => rfl

theorem getInterruptStatus_steady (E : Env) (self : Nat) (c : HubCtx) :
    (USB_HostHubGetInterruptStatus E self c).hub.hubStatus = c.hub.hubStatus ∧
    NoPower c (USB_HostHubGetInterruptStatus E self c) := by
  obtain ⟨h1, L, h2, h3⟩ := getInterruptStatus_quiet E self c
  exact ⟨h1, L, h2, quiet_noPower self L h3⟩

/-- The end of a port sub-machine after its `switch`: the result is stored,
directly or after the recover path. -/
theorem portStep_steady (E : Env) (self : Nat) (c cx : HubCtx) (r : PortStep) (idx : Nat)
    (q1 q2 : PortInstance) (hlog : PortStepLog E self c r)
    (hcx1 : cx.log = r.ctx.log) (hcx2 : cx.hub.hubStatus = r.ctx.hub.hubStatus) :
    (if r.processSuccess = true then storePort idx q1 r.ctx
      else storePort idx q2 (USB_HostHubGetInterruptStatus E self cx)).hub.hubStatus
        = c.hub.hubStatus ∧
    NoPower c (if r.processSuccess = true then storePort idx q1 r.ctx
      else storePort idx q2 (USB_HostHubGetInterruptStatus E self cx)) := by
  obtain ⟨hst, hcases⟩ := hlog
  have hr : NoPower c r.ctx := by
    rcases hcases with ⟨L, hL, hq⟩ | ⟨_, q, hq, _, hctx⟩
    · exact ⟨L, hL, quiet_noPower self L hq⟩
    · refine ⟨[Action.submit self q (accepted E self q c)], by rw [hctx]; rfl, ?_⟩
      simp [portControl_noPower self q _ hq]
  obtain ⟨g1, g2⟩ := getInterruptStatus_steady E self cx
  split
  · exact ⟨hst, noPower_of_log rfl hr⟩
  · refine ⟨?_, ?_⟩
    · simp only [storePort]; rw [g1, hcx2, hst]
    · have : NoPower c cx := noPower_of_log hcx1 hr
      exact noPower_of_log rfl (noPower_trans this g2)

theorem processPort_steady (E : Env) (self : Nat) (c c1 : HubCtx)
    (h : USB_HostHubProcessPort E self c = some c1) :
    c1.hub.hubStatus = c.hub.hubStatus ∧ NoPower c c1 := by
  unfold USB_HostHubProcessPort at h
  cases hport : currentPort c.hub with
  | none => simp [hport] at h
  | some port =>
    simp only [hport, Option.some_bind] at h
    split at h
    · unfold USB_HostHubProcessPortAttach at h
      simp only [hport, Option.map_some', Option.some.injEq] at h
      subst h
      exact portStep_steady E self c _ _ _ _ _ (attachSwitch_log E self c port) rfl rfl
    · unfold USB_HostHubProcessPortDetach at h
      simp only [hport, Option.some_bind] at h
      cases hr : detachSwitch E self port c with
      | none => simp [hr] at h
      | some r =>
        simp only [hr, Option.map_some', Option.some.injEq] at h
        subst h
        exact portStep_steady E self c _ _ _ _ _ (detachSwitch_log E self c port r hr) rfl rfl

theorem submitted_noPower (E : Env) (self : Nat) (q : Request) (c : HubCtx)
    (hq : ∀ ok, isPortPower (Action.submit self q ok) = false) :
    NoPower c (submitted E self q c) :=
  ⟨[Action.submit self q (accepted E self q c)], rfl, by simp [hq]⟩

theorem hubRequest_steady (E : Env) (self : Nat) (q : Request) (b : Bool) (c : HubCtx)
    (hq : ∀ ok, isPortPower (Action.submit self q ok) = false) :
    (hubRequest E self q b c).ctx.hub.hubStatus = c.hub.hubStatus ∧
    NoPower c (hubRequest E self q b c).ctx ∧ (hubRequest E self q b c).returned = false := by
  unfold hubRequest
  split
  · exact ⟨rfl, noPower_of_log rfl (submitted_noPower E self q c hq), rfl⟩
  · exact ⟨rfl, submitted_noPower E self q c hq, rfl⟩

/-- The end of `USB_HostHubProcess` after its `switch` when no `return` was
taken: the state is `kHubRunIdle`, `kHubRunInvalid` or what the `switch` left. -/
theorem hubFinish_steady (E : Env) (self : Nat) (c : HubCtx) (r : HubStep)
    (hret : r.returned = false) (hpost : postBringUp r.ctx.hub.hubStatus)
    (hlog : NoPower c r.ctx) :
    postBringUp (if r.returned = true then r.ctx
      else if r.needPrimeInterrupt = true then
        USB_HostHubGetInterruptStatus E self (setHubStatus r.ctx kHubRunIdle)
      else if r.processSuccess = true then r.ctx
      else setHubStatus r.ctx kHubRunInvalid).hub.hubStatus ∧
    NoPower c (if r.returned = true then r.ctx
      else if r.needPrimeInterrupt = true then
        USB_HostHubGetInterruptStatus E self (setHubStatus r.ctx kHubRunIdle)
      else if r.processSuccess = true then r.ctx
      else setHubStatus r.ctx kHubRunInvalid) := by
  simp only [hret, Bool.false_eq_true, if_false]
  split
  · obtain ⟨g1, g2⟩ := getInterruptStatus_steady E self (setHubStatus r.ctx kHubRunIdle)
    refine ⟨?_, noPower_trans (noPower_of_log rfl hlog) g2⟩
    rw [g1]
    simp [setHubStatus, postBringUp]
  · split
    · exact ⟨hpost, hlog⟩
    · exact ⟨by simp [setHubStatus, postBringUp], noPower_of_log rfl hlog⟩

theorem process_steady (E : Env) (self : Nat) (c c1 : HubCtx)
    (hpost : postBringUp c.hub.hubStatus) (h : USB_HostHubProcess E self c = some c1) :
    postBringUp c1.hub.hubStatus ∧ NoPower c c1 := by
  have key : ∀ r : HubStep, hubSwitch E self c = some r →
      r.returned = false ∧ postBringUp r.ctx.hub.hubStatus ∧ NoPower c r.ctx := by
    intro r hr
    have clear : ∀ f : Nat, ∀ r0 : HubStep,
        r0 = (if (hubRequest E self (Request.clearFeature f) true
                (setHubStatus c kHubRunIdle)).processSuccess = true then
              { hubRequest E self (Request.clearFeature f) true (setHubStatus c kHubRunIdle) with
                ctx := setHubStatus (hubRequest E self (Request.clearFeature f) true
                  (setHubStatus c kHubRunIdle)).ctx kHubRunClearDone }
            else hubRequest E self (Request.clearFeature f) true (setHubStatus c kHubRunIdle)) →
        r0.returned = false ∧ postBringUp r0.ctx.hub.hubStatus ∧ NoPower c r0.ctx := by
      intro f r0 hr0
      obtain ⟨g1, g2, g3⟩ := hubRequest_steady E self (Request.clearFeature f) true
        (setHubStatus c kHubRunIdle) (fun _ => rfl)
      subst hr0
      split
      · exact ⟨g3, by simp [setHubStatus, postBringUp], noPower_of_log rfl (noPower_of_log rfl g2 : NoPower c _)⟩
      · refine ⟨g3, ?_, noPower_of_log rfl g2⟩
        rw [g1]; simp [setHubStatus, postBringUp]
    unfold hubSwitch at hr
    split at hr
    · rename_i hst; exact absurd hst hpost.1
    · rename_i hst; exact absurd hst hpost.2.1
    · rename_i hst; exact absurd hst hpost.2.2
    · simp only [] at hr
      split at hr
      · exact clear _ r (Option.some.inj hr).symm
      · split at hr
        · exact clear _ r (Option.some.inj hr).symm
        · cases hr
          exact ⟨rfl, by simp [setHubStatus, postBringUp], noPower_refl c⟩
    · cases hr
      exact ⟨rfl, by simp [setHubStatus, postBringUp], noPower_refl c⟩
    · cases hr
      exact ⟨rfl, hpost, noPower_refl c⟩
  unfold USB_HostHubProcess at h
  cases hsw : hubSwitch E self c with
  | none => simp [hsw] at h
  | some r =>
    simp only [hsw, Option.map_some', Option.some.injEq] at h
    subst h
    obtain ⟨k1, k2, k3⟩ := key r hsw
    exact hubFinish_steady E self c r k1 k2 k3

theorem scanBits_steady (E : Env) (self : Nat) :
    ∀ (fuel idx : Nat) (c c1 : HubCtx), postBringUp c.hub.hubStatus →
      scanBits E self fuel idx c = some c1 →
      postBringUp c1.hub.hubStatus ∧ NoPower c c1 := by
  intro fuel
  induction fuel with
  | zero => intro idx c c1 _ h; simp [scanBits] at h
  | succ n ih =>
    intro idx c c1 hpost h
    unfold scanBits at h
    split at h
    · split at h
      · split at h
        · split at h
          · simp only [] at h
            split at h
            · cases h
              refine ⟨by simp [setPrime, submitted, setHubStatus, postBringUp], ?_⟩
              exact noPower_of_log rfl (noPower_of_log rfl
                (submitted_noPower E self Request.getStatus c (fun _ => rfl)) :
                  NoPower c (submitted E self Request.getStatus
                    (setHubStatus c kHubRunGetStatusDone)))
            · obtain ⟨g1, g2⟩ := ih _ _ c1 (by simp [setHubStatus, postBringUp]) h
              refine ⟨g1, noPower_trans ?_ g2⟩
              exact noPower_of_log rfl (noPower_of_log rfl
                (submitted_noPower E self Request.getStatus c (fun _ => rfl)) :
                  NoPower c (submitted E self Request.getStatus
                    (setHubStatus c kHubRunGetStatusDone)))
          · exact ih _ _ c1 hpost h
        · split at h
          · split at h
            · obtain ⟨g1, g2⟩ := processPort_steady E self _ c1 h
              refine ⟨?_, noPower_of_log rfl g2⟩
              rw [g1]; exact hpost
            · cases h
              obtain ⟨g1, g2⟩ := getInterruptStatus_steady E self c
              refine ⟨?_, g2⟩
              rw [g1]; exact hpost
          · exact ih _ _ c1 hpost h
      · exact ih _ _ c1 hpost h
    · cases h
      obtain ⟨g1, g2⟩ := getInterruptStatus_steady E self c
      refine ⟨?_, g2⟩
      rw [g1]; exact hpost

theorem arrive_steady (ev : HubEvent) (hub : HubInstance) :
    (ev.arrive hub).hubStatus = hub.hubStatus := by
  cases ev with
  | interruptIn b s => rfl
  | controlDone reply s => cases reply <;> rfl

theorem interruptCallback_steady (E : Env) (self : Nat) (c c1 : HubCtx) (status : Bool)
    (hpost : postBringUp c.hub.hubStatus)
    (h : USB_HostHubInterruptInCallback E self status c = some c1) :
    postBringUp c1.hub.hubStatus ∧ NoPower c c1 := by
  simp only [USB_HostHubInterruptInCallback] at h
  split at h
  · cases h; exact ⟨hpost, noPower_refl _⟩
  · split at h
    · split at h
      · cases h
        obtain ⟨g1, g2⟩ := getInterruptStatus_steady E self
          { setPrime c kPrimeNone with
            hubProcess := none, hub := { (setPrime c kPrimeNone).hub with portProcess := 0 } }
        refine ⟨?_, g2⟩
        rw [g1]; exact hpost
      · cases h; exact ⟨hpost, noPower_refl _⟩
    · exact scanBits_steady E self _ _ (setPrime c kPrimeNone) c1 hpost h

theorem controlCallback_steady (E : Env) (self : Nat) (c c1 : HubCtx) (status : Bool)
    (hpost : postBringUp c.hub.hubStatus)
    (h : USB_HostHubControlCallback E self status c = some c1) :
    postBringUp c1.hub.hubStatus ∧ NoPower c c1 := by
  simp only [USB_HostHubControlCallback] at h
  split at h
  · cases h; exact ⟨hpost, noPower_refl _⟩
  · split at h
    · cases h
      obtain ⟨g1, g2⟩ := getInterruptStatus_steady E self
        { c with
          hub := { c.hub with primeStatus := kPrimeNone, portProcess := 0 },
          hubProcess := none }
      refine ⟨?_, g2⟩
      rw [g1]; exact hpost
    · split at h
      · exact process_steady E self (setPrime c kPrimeNone) c1 hpost h
      · split at h
        · obtain ⟨g1, g2⟩ := processPort_steady E self (setPrime c kPrimeNone) c1 h
          refine ⟨?_, g2⟩
          rw [g1]; exact hpost
        · cases h; exact ⟨hpost, noPower_refl _⟩

theorem hubStep_steady (E : Env) (self : Nat) (c c1 : HubCtx) (ev : HubEvent)
    (hpost : postBringUp c.hub.hubStatus) (h : hubStep E self c ev = some c1) :
    postBringUp c1.hub.hubStatus ∧ NoPower c c1 := by
  have hpost1 : postBringUp (ev.arrive c.hub).hubStatus := by
    rw [arrive_steady]; exact hpost
  cases ev with
  | interruptIn b status =>
    exact interruptCallback_steady E self
      { c with hub := (HubEvent.interruptIn b status).arrive c.hub } c1 status hpost1 h
  | controlDone reply status =>
    exact controlCallback_steady E self
      { c with hub := (HubEvent.controlDone reply status).arrive c.hub } c1 status hpost1 h

theorem hubRun_steady (E : Env) (self : Nat) :
    ∀ (events : List HubEvent) (c c1 : HubCtx), postBringUp c.hub.hubStatus →
      hubRun E self c events = some c1 → postBringUp c1.hub.hubStatus ∧ NoPower c c1 := by
  intro events
  induction events with
  | nil =>
    intro c c1 hpost h
    simp only [hubRun, Option.some.injEq] at h
    subst h
    exact ⟨hpost, noPower_refl c⟩
  | cons ev rest ih =>
    intro c c1 hpost h
    simp only [hubRun] at h
    cases hs : hubStep E self c ev with
    | none => simp [hs] at h
    | some c2 =>
      simp only [hs, Option.some_bind] at h
      obtain ⟨g1, g2⟩ := hubStep_steady E self c c2 ev hpost hs
      obtain ⟨f1, f2⟩ := ih c2 c1 g1 h
      exact ⟨f1, noPower_trans g2 f2⟩

theorem process_waitSetInterface (E : Env) (self : Nat) (c : HubCtx)
    (hst : c.hub.hubStatus = kHubRunWaitSetInterface)
    (hacc : E.accept c.log.length self (Request.getDescriptor 7) = true) :
    USB_HostHubProcess E self c = some (setPrime (submitted E self (Request.getDescriptor 7)
      (setHubStatus c kHubRunGetDescriptor7)) kPrimeHubControl) := by
  unfold USB_HostHubProcess hubSwitch hubRequest
  simp only [hst, accepted, setHubStatus, hacc, if_true, Option.map_some', Bool.false_eq_true,
    if_false]

theorem process_descriptor7 (E : Env) (self : Nat) (c : HubCtx)
    (hst : c.hub.hubStatus = kHubRunGetDescriptor7) (hcap : bNbrPorts c.hub ≤ E.maxPort)
    (hacc : E.accept c.log.length self
      (Request.getDescriptor ((7 + (bNbrPorts c.hub >>> 3) + 1) % 2 ^ 16)) = true) :
    USB_HostHubProcess E self c = some (setPrime (submitted E self
      (Request.getDescriptor ((7 + (bNbrPorts c.hub >>> 3) + 1) % 2 ^ 16))
      (setHubStatus { c with hub := { c.hub with
          totalThinktime := thinkTimeOf E c.hub, portCount := bNbrPorts c.hub } }
        kHubRunSetPortPower)) kPrimeHubControl) := by
  unfold bNbrPorts at hcap hacc
  unfold USB_HostHubProcess hubSwitch
  simp only [hst]
  rw [if_neg (by omega)]
  unfold hubRequest
  simp only [accepted, setHubStatus, hacc, if_true, Option.map_some', Bool.false_eq_true,
    if_false]
  rfl

theorem powerLog_filter (self a m : Nat) :
    (powerLog self a m).filter isPortPower = powerLog self a m := by
  unfold powerLog
  induction m generalizing a with
  | zero => rfl
  | succ k ih =>
    simp only [List.range'_succ, List.map_cons, List.filter_cons, isPortPower, decide_True,
      if_true]
    rw [ih]

/-- C13: a hub committed in `kHubRunWaitSetInterface` whose 7-byte descriptor
reports `n` ports, `n` within `USB_HOST_HUB_MAX_PORT`, with every submission
accepted, every allocation successful and every control transfer completing
with success, reaches `kHubRunIdle` with the interrupt-IN pipe primed after the
completions of SET_INTERFACE, of the two descriptor reads and of the `n`
`SET_FEATURE(PORT_POWER)` requests. On the way it has logged the two descriptor
reads, then `SET_FEATURE(PORT_POWER)` for the ports 1, 2, ..., `n` in this
order, once each and for no other port, then the interrupt-IN receive. From
then on, whatever completions arrive and whatever the class driver answers, no
`SET_FEATURE(PORT_POWER)` is logged again. -/
theorem C13_port_power_once (E : Env) (self n : Nat) (c0 : HubCtx) (r0 : Reply)
    (d7 : List Nat) (rs : List Reply)
    (hacc : ∀ k r, E.accept k self r = true) (halloc : ∀ k, E.allocOk k = true)
    (hst : c0.hub.hubStatus = kHubRunWaitSetInterface)
    (hprime : c0.hub.primeStatus = kPrimeHubControl) (hinv : c0.hub.invalid ≠ 1)
    (hpl : c0.hub.portList = none)
    (hn : d7.getD 2 0 % 256 = n) (hmax : n ≤ E.maxPort)
    (hrs : rs.length = n + 1) :
    ∃ c1, hubRun E self c0 (HubEvent.controlDone r0 true ::
        HubEvent.controlDone (Reply.descriptor d7) true :: controlDones rs) = some c1 ∧
      c1.hub.hubStatus = kHubRunIdle ∧ c1.hub.primeStatus = kPrimeInterrupt ∧
      c1.hub.portCount = n ∧
      newActions c0 c1 =
        [Action.submit self (Request.getDescriptor 7) true,
         Action.submit self (Request.getDescriptor ((7 + (n >>> 3) + 1) % 2 ^ 16)) true] ++
        powerLog self 1 n ++
        [Action.submit self (Request.interruptRecv ((n >>> 3) + 1)) true] ∧
      (newActions c0 c1).filter isPortPower = powerLog self 1 n ∧
      ∀ (E2 : Env) (events : List HubEvent) (c2 : HubCtx),
        hubRun E2 self c1 events = some c2 → (newActions c1 c2).any isPortPower = false := by
  have hn256 : n < 256 := by rw [← hn]; exact Nat.mod_lt _ (by decide)
  -- completion of SET_INTERFACE
  obtain ⟨a1, a2, a3, a4, a5, a6, _⟩ := arrive_control r0 c0.hub
  have s1 := hubStep_hubControl E self c0 r0 hinv hprime
  rw [process_waitSetInterface E self
    (setPrime { c0 with hub := (HubEvent.controlDone r0 true).arrive c0.hub } kPrimeNone)
    (a1.trans hst) (hacc _ _)] at s1
  generalize hc1 : setPrime (submitted E self (Request.getDescriptor 7)
      (setHubStatus (setPrime { c0 with hub := (HubEvent.controlDone r0 true).arrive c0.hub }
        kPrimeNone) kHubRunGetDescriptor7)) kPrimeHubControl = c1 at s1
  have c1_st : c1.hub.hubStatus = kHubRunGetDescriptor7 := by rw [← hc1]; rfl
  have c1_prime : c1.hub.primeStatus = kPrimeHubControl := by rw [← hc1]; rfl
  have c1_inv : c1.hub.invalid ≠ 1 := by
    rw [← hc1]; simpa [setPrime, submitted, setHubStatus, a3] using hinv
  have c1_pl : c1.hub.portList = none := by
    rw [← hc1]; simpa [setPrime, submitted, setHubStatus, a5] using hpl
  have c1_log : c1.log = c0.log ++ [Action.submit self (Request.getDescriptor 7) true] := by
    rw [← hc1]; simp [setPrime, submitted, setHubStatus, accepted, hacc]
  -- completion of the 7-byte descriptor read
  obtain ⟨b1, b2, b3, b4, b5, b6, _⟩ := arrive_control (Reply.descriptor d7) c1.hub
  have hdesc : ((HubEvent.controlDone (Reply.descriptor d7) true).arrive c1.hub).hubDescriptor
      = d7 := rfl
  have hnb : bNbrPorts (setPrime
      { c1 with hub := (HubEvent.controlDone (Reply.descriptor d7) true).arrive c1.hub }
      kPrimeNone).hub = n := by
    simp only [bNbrPorts, setPrime, hdesc]; exact hn
  have s2 := hubStep_hubControl E self c1 (Reply.descriptor d7) c1_inv c1_prime
  rw [process_descriptor7 E self
    (setPrime { c1 with hub := (HubEvent.controlDone (Reply.descriptor d7) true).arrive c1.hub }
      kPrimeNone)
    (b1.trans c1_st) (by rw [hnb]; exact hmax) (hacc _ _)] at s2
  rw [hnb] at s2
  generalize hc2 : setPrime (submitted E self
      (Request.getDescriptor ((7 + (n >>> 3) + 1) % 2 ^ 16))
      (setHubStatus
        { setPrime { c1 with hub := (HubEvent.controlDone (Reply.descriptor d7) true).arrive c1.hub }
            kPrimeNone with
          hub := { (setPrime
              { c1 with hub := (HubEvent.controlDone (Reply.descriptor d7) true).arrive c1.hub }
              kPrimeNone).hub with
            totalThinktime := thinkTimeOf E (setPrime
              { c1 with hub := (HubEvent.controlDone (Reply.descriptor d7) true).arrive c1.hub }
              kPrimeNone).hub,
            portCount := n } }
        kHubRunSetPortPower)) kPrimeHubControl = c2 at s2
  have c2_phase : PowerPhase n 0 c2 := by
    rw [← hc2]
    refine ⟨rfl, rfl, ?_, rfl, Or.inl ⟨?_, rfl⟩⟩
    · simpa [setPrime, submitted, setHubStatus, b3] using c1_inv
    · simpa [setPrime, submitted, setHubStatus, b5] using c1_pl
  have c2_log : c2.log = c1.log ++
      [Action.submit self (Request.getDescriptor ((7 + (n >>> 3) + 1) % 2 ^ 16)) true] := by
    rw [← hc2]; simp [setPrime, submitted, setHubStatus, accepted, hacc]
  -- the port-power phase
  obtain ⟨c3, r1, r2, r3, r4, _, r6⟩ := power_run E self n hacc halloc hn256 n 0 c2 rs
    (by omega) hrs c2_phase
  have hlog : c3.log = c0.log ++
      ([Action.submit self (Request.getDescriptor 7) true,
        Action.submit self (Request.getDescriptor ((7 + (n >>> 3) + 1) % 2 ^ 16)) true] ++
       powerLog self 1 n ++
       [Action.submit self (Request.interruptRecv ((n >>> 3) + 1)) true]) := by
    rw [r6, c2_log, c1_log]; simp
  have hnew : newActions c0 c3 =
      [Action.submit self (Request.getDescriptor 7) true,
        Action.submit self (Request.getDescriptor ((7 + (n >>> 3) + 1) % 2 ^ 16)) true] ++
       powerLog self 1 n ++
       [Action.submit self (Request.interruptRecv ((n >>> 3) + 1)) true] := by
    simp only [newActions, hlog, List.drop_left]
  refine ⟨c3, ?_, r2, r3, r4, hnew, ?_, ?_⟩
  · simp only [hubRun, s1, Option.some_bind, s2]
    exact r1
  · rw [hnew]
    simp only [List.filter_append, powerLog_filter]
    simp [isPortPower]
  · intro E2 events c4 hrun
    obtain ⟨_, L, hL, hp⟩ := hubRun_steady E2 self events c3 c4
      (by rw [r2]; simp [postBringUp]) hrun
    simp only [newActions, hL, List.drop_left]
    exact hp

/-- Instance of the amended C11: in `fullWorld` the event of host 3 returns
`kStatus_USB_Error`, and the registry lookup for host 3 returns `NULL`. -/
theorem C11_event_statuses_witness :
    kStatus_USB_Error = kStatus_USB_Error ↔
      (USB_HostHubGetHubList fullWorld.s_HubGlobalArray (some 3)).1 = none :=
  (C11_event_statuses envAccept fullWorld fullWorld (some 3) (some 7) hubConfiguration
    kUSB_HostEventAttach kStatus_USB_Error rfl).2.1

/-- Instance of the amended C14: a descriptor reporting 8 ports with
`USB_HOST_HUB_MAX_PORT = 7`, for the step itself and for the control callback. -/
theorem C14_port_count_cap_witness :
    USB_HostHubProcess envAccept 7 (ctxDescriptor7 8 kPrimeNone) =
      some { ctxDescriptor7 8 kPrimeNone with
        hub := { (ctxDescriptor7 8 kPrimeNone).hub with
          totalThinktime := thinkTimeOf envAccept (ctxDescriptor7 8 kPrimeNone).hub,
          portCount := bNbrPorts (ctxDescriptor7 8 kPrimeNone).hub } } ∧
    USB_HostHubControlCallback envAccept 7 true (ctxDescriptor7 8 kPrimeHubControl) =
      some { ctxDescriptor7 8 kPrimeHubControl with
        hub := { (ctxDescriptor7 8 kPrimeHubControl).hub with
          primeStatus := kPrimeNone,
          totalThinktime := thinkTimeOf envAccept (ctxDescriptor7 8 kPrimeHubControl).hub,
          portCount := bNbrPorts (ctxDescriptor7 8 kPrimeHubControl).hub } } :=
  ⟨(C14_port_count_cap envAccept 7 (ctxDescriptor7 8 kPrimeNone) rfl (by decide)).1,
   (C14_port_count_cap envAccept 7 (ctxDescriptor7 8 kPrimeHubControl) rfl (by decide)).2
     (by decide) rfl⟩

/-- Instance of C15: the first request of the detach sub-machine is rejected
for port 2, occupied by device 9. -/
theorem C15_submit_rejected_witness :
    ∃ c1 port1,
      USB_HostHubProcessPort envRejectControl 7
        (ctxAtPort [portVacant 4, portOccupied 9] []) = some c1 ∧
      portAt c1.hub 1 = some port1 ∧ port1.portStatus = kPortRunPortAttached ∧
      c1.hubProcess = none ∧ c1.hub.portProcess = 0 ∧
      port1.resetCount = USB_HOST_HUB_PORT_RESET_TIMES ∧
      c1.hub.primeStatus = kPrimeInterrupt := by
  obtain ⟨c1, port1, h1, h2, h3⟩ := C15_submit_rejected envRejectControl 7
    (ctxAtPort [portVacant 4, portOccupied 9] []) (portOccupied 9) rfl
    ⟨fun _ => rfl, fun h => by simp [portOccupied] at h⟩ (by decide) rfl
  have hrej : (USB_HostHubProcessPort envRejectControl 7
      (ctxAtPort [portVacant 4, portOccupied 9] [])).map
      (fun c1 => (newActions (ctxAtPort [portVacant 4, portOccupied 9] []) c1).any
        (isRejectedControl 7)) = some true := by decide
  rw [h1] at hrej
  obtain ⟨g1, g2, g3, g4, _, g6⟩ := h3 (by simpa using hrej)
  exact ⟨c1, port1, h1, h2, g1, g2, g3, g4, g6.mpr rfl⟩

/-- Instance of the amended C16: a rejected `GET_DESCRIPTOR` in
`kHubRunWaitSetInterface`. -/
theorem C16_hub_submit_rejected_witness :
    ∃ c1, USB_HostHubProcess envRejectControl 7 (ctxHubPhase kHubRunWaitSetInterface none 0)
        = some c1 ∧
      c1.hub.hubStatus = kHubRunInvalid ∧ c1.hub.primeStatus = kPrimeNone := by
  obtain ⟨c1, r, h1, _, h3, _⟩ := C16_hub_submit_rejected envRejectControl 7
    (ctxHubPhase kHubRunWaitSetInterface none 0) rfl (Or.inl rfl)
    (fun r hr => by simp [envRejectControl, hr])
  exact ⟨c1, h1, (h3 (by decide)).1, (h3 (by decide)).2.1⟩

/-- Instance of C17: a failed control completion while the hub works on port 2. -/
theorem C17_control_error_witness :
    ∃ c1, USB_HostHubControlCallback envAccept 7 false (ctxAtPort [portVacant 4, portVacant 2] [])
        = some c1 ∧
      c1.hubProcess = none ∧
      c1.log = [Action.submit 7 (Request.interruptRecv 1) true] ∧
      c1.hub = { (ctxAtPort [portVacant 4, portVacant 2] []).hub with
        portProcess := 0, primeStatus := kPrimeInterrupt } ∧
      c1.suspendedDevice = none :=
  C17_control_error envAccept 7 (ctxAtPort [portVacant 4, portVacant 2] []) (by decide)

theorem detachWorld_wf : listWellFormed detachWorld.hubs [3, 2, 1] := by
  intro h hh
  simp only [List.mem_cons, List.mem_singleton, List.not_mem_nil, or_false] at hh
  rcases hh with rfl | rfl | rfl
  · exact ⟨_, rfl, by intro ports hp; cases hp; decide⟩
  · exact ⟨_, rfl, by intro ports hp; cases hp; decide⟩
  · exact ⟨_, rfl, by intro ports hp; cases hp; decide⟩

/-- Instance of C18: detaching device 6 from `detachWorld` unlinks instance 2
from the list `[3, 2, 1]`. -/
theorem C18_detach_unlinks_witness :
    ∃ w1 g1, USB_HostHubDeviceEvent envAccept detachWorld (some 1) (some 6) hubConfiguration
        kUSB_HostEventDetach = some (kStatus_USB_Success, w1) ∧
      w1.s_HubGlobalArray[0]? = some g1 ∧ g1.hubList = [3, 1] := by
  obtain ⟨w1, g1, h1, h2, h3, _⟩ := C18_detach_unlinks envAccept detachWorld (some 1) (some 6)
    hubConfiguration 0
    { hostHandle := some 1, hubList := [3, 2, 1], hubMutex := true, hubProcess := some 2 }
    rfl rfl (by decide) detachWorld_wf
  exact ⟨w1, g1, h1, h2, h3.trans (by decide)⟩

/-- Instance of C19: detaching device 6 from `detachWorld` detaches the
devices 9 and 8 of instance 2 and releases the token that instance 2 held. -/
theorem C19_detach_instance_witness :
    ∃ w1 g1 hub1, USB_HostHubDeviceEvent envAccept detachWorld (some 1) (some 6) hubConfiguration
        kUSB_HostEventDetach = some (kStatus_USB_Success, w1) ∧
      w1.hubs 2 = some hub1 ∧ hub1.invalid = 1 ∧
      (w1.log.drop detachWorld.log.length).filter isDetachDevice =
        [Action.detachDevice (some 1) (some 9), Action.detachDevice (some 1) (some 8)] ∧
      w1.s_HubGlobalArray[0]? = some g1 ∧ g1.hubProcess = none := by
  obtain ⟨w1, g1, hub1, h1, h2, h3, h4, _, _, _, h8, h9⟩ := C19_detach_instance envAccept
    detachWorld (some 1) (some 6) hubConfiguration 0
    { hostHandle := some 1, hubList := [3, 2, 1], hubMutex := true, hubProcess := some 2 } 2
    (hubOn 6 [portOccupied 9, portVacant 4, portOccupied 8, portVacant 4])
    rfl rfl detachWorld_wf (by decide) rfl
  exact ⟨w1, g1, hub1, h1, h2, h3, h4.trans (by decide), h8, h9.trans (by decide)⟩

/-- Instance of C20: in `fourSlots` host 2 finds its own slot 2 although slot 1
is free, and the unknown host 3 claims the free slot 1. -/
theorem C20_get_or_create_witness :
    USB_HostHubGetHubList fourSlots (some 2) = (some 2, fourSlots) ∧
    USB_HostHubGetHubList fourSlots (some 3)
      = (some 1, fourSlots.set 1 { emptyGlobal with hostHandle := some 3 }) := by
  obtain ⟨h1, h2, _, _⟩ := C20_get_or_create fourSlots (some 2) (by decide) (by decide)
  obtain ⟨_, k2, _, _⟩ := C20_get_or_create fourSlots (some 3) (by decide) (by decide)
  refine ⟨h1 2 ⟨⟨_, rfl, by decide⟩, ?_⟩, k2 (by decide) 1 emptyGlobal ⟨⟨_, rfl, by decide⟩, ?_⟩ rfl⟩
  · intro j g hj hg
    interval_cases j <;> simp [fourSlots] at hg <;> subst hg <;> decide
  · intro j g hj hg
    have hj0 : j = 0 := by omega
    subst hj0
    simp only [fourSlots, List.getElem?_cons_zero, Option.some.injEq] at hg
    subst hg
    decide

/-- Instance of C13: a four-port hub powers the ports 1 to 4, once each. -/
theorem C13_port_power_once_witness :
    ∃ c1, hubRun envAccept 7 ctxCommitted
        (HubEvent.controlDone Reply.noData true ::
          HubEvent.controlDone (Reply.descriptor [9, 0x29, 4, 0, 0, 0, 0]) true ::
          controlDones (List.replicate 5 Reply.noData)) = some c1 ∧
      c1.hub.hubStatus = kHubRunIdle ∧
      (newActions ctxCommitted c1).filter isPortPower =
        [Action.submit 7 (Request.setPortFeature 1 PORT_POWER) true,
         Action.submit 7 (Request.setPortFeature 2 PORT_POWER) true,
         Action.submit 7 (Request.setPortFeature 3 PORT_POWER) true,
         Action.submit 7 (Request.setPortFeature 4 PORT_POWER) true] := by
  obtain ⟨c1, h1, h2, _, _, _, h6, _⟩ := C13_port_power_once envAccept 7 4 ctxCommitted
    Reply.noData [9, 0x29, 4, 0, 0, 0, 0] (List.replicate 5 Reply.noData)
    (fun _ _ => rfl) (fun _ => rfl) rfl rfl (by decide) rfl (by decide) (by decide) rfl
  exact ⟨c1, h1, h2, h6.trans (by decide)⟩

/-! ## The dispatcher, the look-up functions and the suspend chain -/

/-- C29: for a hub with `portCount = n` the interrupt-IN receive that
`USB_HostHubGetInterruptStatus` submits asks for `(n >>> 3) + 1` bytes, which is
`(n + 1 + 7) / 8`, the ceiling of `(n + 1) / 8`. In a bitmap of that length every
bit `i` with `i <= n` is read from the byte at index `i >>> 3`, which lies
below the length, and the loop of the dispatcher reads no bit of an index
above `n`: there it ends with the final priming. -/
theorem C29_receive_length (E : Env) (self : Nat) (c : HubCtx) (n : Nat)
    (hn : c.hub.portCount = n) (hprime : c.hub.primeStatus = kPrimeNone) :
    (n >>> 3) + 1 = (n + 1 + 7) / 8 ∧
    (USB_HostHubGetInterruptStatus E self c).log =
      c.log ++ [Action.submit self (Request.interruptRecv ((n + 1 + 7) / 8))
        (E.accept c.log.length self (Request.interruptRecv ((n + 1 + 7) / 8)))] ∧
    (∀ bitmap : List Nat, bitmap.length = (n + 1 + 7) / 8 → ∀ i, i ≤ n →
      i >>> 3 < bitmap.length ∧
      ∃ b, bitmap[i >>> 3]? = some b ∧ bitmapHas bitmap i = bitSet (i &&& 7) (b % 256)) ∧
    (∀ fuel i, n < i →
      scanBits E self (fuel + 1) i c = some (USB_HostHubGetInterruptStatus E self c)) := by
  have hlen : (n >>> 3) + 1 = (n + 1 + 7) / 8 := by
    rw [Nat.shiftRight_eq_div_pow]; omega
  refine ⟨hlen, ?_, ?_, ?_⟩
  · rw [← hlen]
    unfold USB_HostHubGetInterruptStatus
    simp only [hprime, ne_eq, not_true_eq_false, if_false, hn]
    split <;> rfl
  · intro bitmap hb i hi
    have hlt : i >>> 3 < bitmap.length := by
      rw [hb, Nat.shiftRight_eq_div_pow]; omega
    refine ⟨hlt, bitmap[i >>> 3], by simp [hlt], ?_⟩
    unfold bitmapHas bitSet
    simp [List.getD, hlt]
  · intro fuel i hi
    have : ¬ i ≤ c.hub.portCount := by omega
    simp [scanBits, this]

/-- Instance of C29: with 255 ports the receive asks for 32 bytes. -/
theorem C29_receive_length_witness :
    (255 >>> 3) + 1 = (255 + 1 + 7) / 8 ∧
    (USB_HostHubGetInterruptStatus envAccept 0
      { ctxIdle4 [] with hub := { hubIdle4 [] with portCount := 255, primeStatus := kPrimeNone } }).log =
      [Action.submit 0 (Request.interruptRecv 32) true] :=
  ⟨(C29_receive_length envAccept 0
      { ctxIdle4 [] with hub := { hubIdle4 [] with portCount := 255, primeStatus := kPrimeNone } }
      255 rfl rfl).1,
   (C29_receive_length envAccept 0
      { ctxIdle4 [] with hub := { hubIdle4 [] with portCount := 255, primeStatus := kPrimeNone } }
      255 rfl rfl).2.1⟩

/-- With no transfer outstanding `USB_HostHubGetInterruptStatus` logs exactly one
receive and leaves the hub state alone. -/
theorem gis_idle (E : Env) (self : Nat) (c : HubCtx) (hprime : c.hub.primeStatus = kPrimeNone) :
    (USB_HostHubGetInterruptStatus E self c).hub.hubStatus = c.hub.hubStatus ∧
    (USB_HostHubGetInterruptStatus E self c).log =
      c.log ++ [rearm self c.hub.portCount
        (E.accept c.log.length self (Request.interruptRecv ((c.hub.portCount >>> 3) + 1)))] := by
  unfold USB_HostHubGetInterruptStatus
  simp only [hprime, ne_eq, not_true_eq_false, if_false]
  split
  · exact ⟨rfl, rfl⟩
  · exact ⟨rfl, rfl⟩

/-- State `kHubRunGetStatusDone` with an accepted CLEAR_FEATURE. -/
theorem process_clear_accepted (E : Env) (self : Nat) (c : HubCtx) (f : Nat)
    (hst : c.hub.hubStatus = kHubRunGetStatusDone)
    (hf : hubChangeFeature c.hub = some f)
    (hacc : E.accept c.log.length self (Request.clearFeature f) = true) :
    USB_HostHubProcess E self c =
      some (setHubStatus (setPrime (submitted E self (Request.clearFeature f)
        (setHubStatus c kHubRunIdle)) kPrimeHubControl) kHubRunClearDone) := by
  have ha : accepted E self (Request.clearFeature f) (setHubStatus c kHubRunIdle) = true := hacc
  unfold hubChangeFeature at hf
  split at hf
  · rename_i h1
    cases hf
    unfold USB_HostHubProcess hubSwitch
    simp [hst, h1, hubRequest, ha]
  · rename_i h1
    split at hf
    · rename_i h2
      cases hf
      unfold USB_HostHubProcess hubSwitch
      simp [hst, h1, h2, hubRequest, ha]
    · cases hf

/-- State `kHubRunGetStatusDone` with a rejected CLEAR_FEATURE. -/
theorem process_clear_rejected (E : Env) (self : Nat) (c : HubCtx) (f : Nat)
    (hst : c.hub.hubStatus = kHubRunGetStatusDone)
    (hf : hubChangeFeature c.hub = some f)
    (hacc : E.accept c.log.length self (Request.clearFeature f) = false) :
    USB_HostHubProcess E self c =
      some (USB_HostHubGetInterruptStatus E self (setHubStatus (submitted E self
        (Request.clearFeature f) (setHubStatus c kHubRunIdle)) kHubRunIdle)) := by
  have ha : accepted E self (Request.clearFeature f) (setHubStatus c kHubRunIdle) = false := hacc
  unfold hubChangeFeature at hf
  split at hf
  · rename_i h1
    cases hf
    unfold USB_HostHubProcess hubSwitch
    simp [hst, h1, hubRequest, ha]
  · rename_i h1
    split at hf
    · rename_i h2
      cases hf
      unfold USB_HostHubProcess hubSwitch
      simp [hst, h1, h2, hubRequest, ha]
    · cases hf

theorem gis_frame (E : Env) (self : Nat) (c : HubCtx) :
    (USB_HostHubGetInterruptStatus E self c).hub.portCount = c.hub.portCount ∧
    (USB_HostHubGetInterruptStatus E self c).hub.invalid = c.hub.invalid := by
  unfold USB_HostHubGetInterruptStatus
  split
  · exact ⟨rfl, rfl⟩
  · simp only []
    split
    · exact ⟨rfl, rfl⟩
    · exact ⟨rfl, rfl⟩

theorem process_getStatusDone_clear (E : Env) (self : Nat) (c : HubCtx) (f : Nat)
    (hst : c.hub.hubStatus = kHubRunGetStatusDone)
    (hprime : c.hub.primeStatus = kPrimeNone)
    (hf : hubChangeFeature c.hub = some f) :
    ∃ c1, USB_HostHubProcess E self c = some c1 ∧ c1.hub.portCount = c.hub.portCount ∧
      c1.hub.invalid = c.hub.invalid ∧
      (E.accept c.log.length self (Request.clearFeature f) = true →
        c1.log = c.log ++ [Action.submit self (Request.clearFeature f) true] ∧
        c1.hub.hubStatus = kHubRunClearDone ∧ c1.hub.primeStatus = kPrimeHubControl) ∧
      (E.accept c.log.length self (Request.clearFeature f) = false →
        c1.hub.hubStatus = kHubRunIdle ∧
        c1.log = c.log ++ [Action.submit self (Request.clearFeature f) false,
          rearm self c.hub.portCount
            (E.accept (c.log.length + 1) self
              (Request.interruptRecv ((c.hub.portCount >>> 3) + 1)))]) := by
  cases hacc : E.accept c.log.length self (Request.clearFeature f) with
  | true =>
    rw [process_clear_accepted E self c f hst hf hacc]
    refine ⟨_, rfl, rfl, rfl, fun _ => ⟨?_, rfl, rfl⟩, fun h => by cases h⟩
    simp [setHubStatus, setPrime, submitted, accepted, hacc]
  | false =>
    rw [process_clear_rejected E self c f hst hf hacc]
    have hp : (setHubStatus (submitted E self (Request.clearFeature f)
        (setHubStatus c kHubRunIdle)) kHubRunIdle).hub.primeStatus = kPrimeNone := hprime
    obtain ⟨g1, g2⟩ := gis_idle E self _ hp
    obtain ⟨g3, g4⟩ := gis_frame E self (setHubStatus (submitted E self (Request.clearFeature f)
        (setHubStatus c kHubRunIdle)) kHubRunIdle)
    refine ⟨_, rfl, g3, g4, (fun h => by cases h), fun _ => ⟨?_, ?_⟩⟩
    · rw [g1]; rfl
    · rw [g2]
      simp [setHubStatus, submitted, accepted, hacc]

theorem process_getStatusDone_none (E : Env) (self : Nat) (c : HubCtx)
    (hst : c.hub.hubStatus = kHubRunGetStatusDone)
    (hprime : c.hub.primeStatus = kPrimeNone)
    (hf : hubChangeFeature c.hub = none) :
    ∃ c1, USB_HostHubProcess E self c = some c1 ∧ c1.hub.hubStatus = kHubRunIdle ∧
      c1.log = c.log ++ [rearm self c.hub.portCount
        (E.accept c.log.length self (Request.interruptRecv ((c.hub.portCount >>> 3) + 1)))] := by
  have hp : (setHubStatus (setHubStatus c kHubRunIdle) kHubRunIdle).hub.primeStatus
      = kPrimeNone := hprime
  obtain ⟨g1, g2⟩ := gis_idle E self _ hp
  have hres : USB_HostHubProcess E self c = some (USB_HostHubGetInterruptStatus E self
      (setHubStatus (setHubStatus c kHubRunIdle) kHubRunIdle)) := by
    unfold hubChangeFeature at hf
    split at hf
    · cases hf
    · rename_i h1
      split at hf
      · cases hf
      · rename_i h2
        unfold USB_HostHubProcess hubSwitch
        simp [hst, h1, h2]
  rw [hres]
  exact ⟨_, rfl, by rw [g1]; rfl, by rw [g2]; rfl⟩

/-- The successful completion of the CLEAR_FEATURE in `kHubRunClearDone`. -/
theorem step_clearDone (E : Env) (self : Nat) (c : HubCtx) (reply : Reply)
    (hst : c.hub.hubStatus = kHubRunClearDone)
    (hprime : c.hub.primeStatus = kPrimeHubControl)
    (hinv : c.hub.invalid ≠ 1) :
    ∃ c2, hubStep E self c (HubEvent.controlDone reply true) = some c2 ∧
      c2.hub.hubStatus = kHubRunIdle ∧
      c2.log = c.log ++ [rearm self c.hub.portCount
        (E.accept c.log.length self (Request.interruptRecv ((c.hub.portCount >>> 3) + 1)))] := by
  have hp1 : ((HubEvent.controlDone reply true).arrive c.hub).primeStatus = kPrimeHubControl := by
    cases reply <;> simpa [HubEvent.arrive] using hprime
  have hi1 : ¬ ((HubEvent.controlDone reply true).arrive c.hub).invalid = 1 := by
    cases reply <;> simpa [HubEvent.arrive] using hinv
  have hs1 : ((HubEvent.controlDone reply true).arrive c.hub).hubStatus = kHubRunClearDone := by
    cases reply <;> simpa [HubEvent.arrive] using hst
  have hc1 : ((HubEvent.controlDone reply true).arrive c.hub).portCount = c.hub.portCount := by
    cases reply <;> simp [HubEvent.arrive]
  simp only [hubStep, USB_HostHubControlCallback, hi1, if_false, Bool.true_eq_false, hp1, if_true]
  have hsw : hubSwitch E self
      (setPrime { c with hub := (HubEvent.controlDone reply true).arrive c.hub } kPrimeNone) =
      some {
        ctx := setHubStatus
          (setPrime { c with hub := (HubEvent.controlDone reply true).arrive c.hub } kPrimeNone)
          kHubRunIdle,
        needPrimeInterrupt := true, processSuccess := false, returned := false } := by
    unfold hubSwitch
    simp [setPrime, hs1]
  unfold USB_HostHubProcess
  rw [hsw]
  simp only [Option.map_some', Bool.false_eq_true, if_false, if_true]
  obtain ⟨g1, g2⟩ := gis_idle E self (setHubStatus (setHubStatus
    (setPrime { c with hub := (HubEvent.controlDone reply true).arrive c.hub } kPrimeNone)
      kHubRunIdle) kHubRunIdle) rfl
  refine ⟨_, rfl, by rw [g1]; rfl, ?_⟩
  rw [g2]
  simp only [setHubStatus, setPrime, hc1]

/-- C30: in `kHubRunGetStatusDone` the change word (bytes 2 and 3 of the status
buffer, little-endian) selects `C_HUB_LOCAL_POWER` if its bit is set, else
`C_HUB_OVER_CURRENT` if its bit is set, else nothing. With a feature selected
exactly one CLEAR_FEATURE of it is logged; when it is accepted the hub is in
`kHubRunClearDone` with a hub control transfer outstanding, and the successful
completion of that transfer leaves it in `kHubRunIdle` after exactly one
receive on the interrupt-IN pipe; when it is rejected, or when no feature is
selected, the hub is in `kHubRunIdle` after exactly one such receive. -/
theorem C30_get_status_done (E : Env) (self : Nat) (c : HubCtx)
    (hst : c.hub.hubStatus = kHubRunGetStatusDone)
    (hprime : c.hub.primeStatus = kPrimeNone)
    (hinv : c.hub.invalid ≠ 1) :
    (hubChangeFeature c.hub =
      (if bitSet C_HUB_LOCAL_POWER
          (USB_SHORT_FROM_LITTLE_ENDIAN_ADDRESS (c.hub.hubStatusBuffer.drop 2))
       then some C_HUB_LOCAL_POWER
       else if bitSet C_HUB_OVER_CURRENT
          (USB_SHORT_FROM_LITTLE_ENDIAN_ADDRESS (c.hub.hubStatusBuffer.drop 2))
       then some C_HUB_OVER_CURRENT
       else none)) ∧
    ∃ c1, USB_HostHubProcess E self c = some c1 ∧
      (∀ f, hubChangeFeature c.hub = some f →
        E.accept c.log.length self (Request.clearFeature f) = true →
        c1.log = c.log ++ [Action.submit self (Request.clearFeature f) true] ∧
        c1.hub.hubStatus = kHubRunClearDone ∧ c1.hub.primeStatus = kPrimeHubControl ∧
        ∀ (E2 : Env) (reply : Reply),
          ∃ c2, hubStep E2 self c1 (HubEvent.controlDone reply true) = some c2 ∧
            c2.hub.hubStatus = kHubRunIdle ∧
            c2.log = c1.log ++ [rearm self c.hub.portCount
              (E2.accept c1.log.length self
                (Request.interruptRecv ((c.hub.portCount >>> 3) + 1)))]) ∧
      (∀ f, hubChangeFeature c.hub = some f →
        E.accept c.log.length self (Request.clearFeature f) = false →
        c1.hub.hubStatus = kHubRunIdle ∧
        c1.log = c.log ++ [Action.submit self (Request.clearFeature f) false,
          rearm self c.hub.portCount
            (E.accept (c.log.length + 1) self
              (Request.interruptRecv ((c.hub.portCount >>> 3) + 1)))]) ∧
      (hubChangeFeature c.hub = none →
        c1.hub.hubStatus = kHubRunIdle ∧
        c1.log = c.log ++ [rearm self c.hub.portCount
          (E.accept c.log.length self
            (Request.interruptRecv ((c.hub.portCount >>> 3) + 1)))]) := by
  refine ⟨rfl, ?_⟩
  cases hf : hubChangeFeature c.hub with
  | none =>
    obtain ⟨c1, h1, h2, h3⟩ := process_getStatusDone_none E self c hst hprime hf
    exact ⟨c1, h1, (fun f h => by cases h), (fun f h => by cases h), fun _ => ⟨h2, h3⟩⟩
  | some f =>
    obtain ⟨c1, h1, hpc, hi, hacc, hrej⟩ := process_getStatusDone_clear E self c f hst hprime hf
    refine ⟨c1, h1, ?_, ?_, fun h => by cases h⟩
    · intro f1 hf1 ha
      cases hf1
      obtain ⟨a1, a2, a3⟩ := hacc ha
      refine ⟨a1, a2, a3, ?_⟩
      intro E2 reply
      obtain ⟨c2, b1, b2, b3⟩ := step_clearDone E2 self c1 reply a2 a3 (by rw [hi]; exact hinv)
      exact ⟨c2, b1, b2, by rw [b3, hpc]⟩
    · intro f1 hf1 ha
      cases hf1
      exact hrej ha

/-- The first index of a range that satisfies a test. -/
theorem find_range_some (q : Nat → Bool) :
    ∀ (n s p : Nat), (List.range' s n).find? q = some p ↔
      (s ≤ p ∧ p < s + n ∧ q p = true ∧ ∀ j, s ≤ j → j < p → q j = false) := by
  intro n
  induction n with
  | zero =>
    intro s p
    simp only [List.range'_zero, List.find?_nil]
    constructor
    · intro h; cases h
    · intro ⟨h1, h2, _, _⟩; omega
  | succ n ih =>
    intro s p
    rw [List.range'_succ, List.find?_cons]
    cases hq : q s with
    | true =>
      simp only [Option.some.injEq]
      constructor
      · intro h
        subst h
        exact ⟨le_refl _, by omega, hq, fun j h1 h2 => by omega⟩
      · intro ⟨h1, _, _, h4⟩
        by_cases hsp : s = p
        · exact hsp
        · have := h4 s (le_refl _) (by omega)
          rw [hq] at this; cases this
    | false =>
      simp only []
      rw [ih (s + 1) p]
      constructor
      · intro ⟨h1, h2, h3, h4⟩
        refine ⟨by omega, by omega, h3, ?_⟩
        intro j hj1 hj2
        by_cases hjs : j = s
        · rw [hjs]; exact hq
        · exact h4 j (by omega) hj2
      · intro ⟨h1, h2, h3, h4⟩
        have hne : s ≠ p := by
          intro h; rw [h] at hq; rw [hq] at h3; cases h3
        exact ⟨by omega, by omega, h3, fun j hj1 hj2 => h4 j (by omega) hj2⟩

theorem find_range_none (q : Nat → Bool) (n s : Nat) :
    (List.range' s n).find? q = none ↔ ∀ j, s ≤ j → j < s + n → q j = false := by
  rw [List.find?_eq_none]
  constructor
  · intro h j h1 h2
    have := h j (by rw [List.mem_range'_1]; exact ⟨h1, h2⟩)
    simpa using this
  · intro h j hj
    rw [List.mem_range'_1] at hj
    simp [h j hj.1 hj.2]

theorem afterHubBit_frame (E : Env) (self : Nat) (c c1 : HubCtx)
    (h : afterHubBit E self c = some c1) :
    c1.hubProcess = c.hubProcess ∧ c1.hub.portProcess = c.hub.portProcess ∧
    c1.hub.hubBitmapBuffer = c.hub.hubBitmapBuffer ∧ c1.hub.portCount = c.hub.portCount ∧
    c1.hub.controlTransfer = c.hub.controlTransfer ∧ c1.hub.portList = c.hub.portList ∧
    c1.hub.primeStatus = c.hub.primeStatus := by
  unfold afterHubBit at h
  split at h
  · split at h
    · cases h
    · rename_i hacc
      cases h
      have hacc1 : accepted E self Request.getStatus (setHubStatus c kHubRunGetStatusDone)
          = false := by simpa using hacc
      refine ⟨rfl, rfl, rfl, rfl, ?_, rfl, rfl⟩
      show (c.hub.controlTransfer ||
        (accepted E self Request.getStatus (setHubStatus c kHubRunGetStatusDone) &&
          Request.getStatus.isControl)) = c.hub.controlTransfer
      rw [hacc1]
      simp
  · cases h
    exact ⟨rfl, rfl, rfl, rfl, rfl, rfl, rfl⟩

/-- The first iteration of the dispatcher loop when it does not end the arrival. -/
theorem scan_hubBit (E : Env) (self : Nat) (c c1 : HubCtx) (k : Nat)
    (h : afterHubBit E self c = some c1) :
    scanBits E self (k + 1) 0 c = scanBits E self k 1 c1 := by
  unfold afterHubBit at h
  cases hbit : bitmapBit c.hub 0 with
  | false =>
    simp only [hbit, Bool.false_and, Bool.false_eq_true, if_false, Option.some.injEq] at h
    subst h
    simp [scanBits, hbit]
  | true =>
    cases hal : hubBitAllowed self c with
    | false =>
      simp only [hbit, hal, Bool.and_false, Bool.false_eq_true, if_false,
        Option.some.injEq] at h
      subst h
      simp [scanBits, hbit, hal]
    | true =>
      simp only [hbit, hal, Bool.and_self, if_true] at h
      split at h
      · cases h
      · rename_i hacc
        cases h
        simp [scanBits, hbit, hal, hacc]

/-- A scan that passes every remaining bit ends with the final priming. -/
theorem scan_end (E : Env) (self : Nat) (c : HubCtx) (h255 : c.hub.portCount < 255) :
    ∀ (n fuel idx : Nat), idx + n = c.hub.portCount + 1 → n < fuel →
      (∀ j, idx ≤ j → j ≤ c.hub.portCount → bitSkipped self c j) →
      scanBits E self fuel idx c = some (USB_HostHubGetInterruptStatus E self c) := by
  intro n
  induction n with
  | zero =>
    intro fuel idx h hf _
    cases fuel with
    | zero => omega
    | succ fuel =>
      have : ¬ idx ≤ c.hub.portCount := by omega
      simp [scanBits, this]
  | succ n ih =>
    intro fuel idx h hf hskip
    cases fuel with
    | zero => omega
    | succ fuel =>
      have hle : idx ≤ c.hub.portCount := by omega
      have hmod : (idx + 1) % 256 = idx + 1 := Nat.mod_eq_of_lt (by omega)
      have hrec := ih fuel (idx + 1) (by omega) (by omega)
        (fun j h1 h2 => hskip j (by omega) h2)
      rw [← hrec]
      rcases hskip idx (le_refl _) hle with h1 | ⟨h0, h1⟩ | ⟨h0, h1⟩
      · simp [scanBits, hle, h1, hmod]
      · subst h0
        simp [scanBits, h1]
      · simp [scanBits, hle, h0, h1, hmod]

theorem ready_skipped (self : Nat) (c c1 : HubCtx) (j : Nat) (hj : j ≠ 0)
    (h1 : c1.hubProcess = c.hubProcess) (h2 : c1.hub.portProcess = c.hub.portProcess)
    (h3 : c1.hub.hubBitmapBuffer = c.hub.hubBitmapBuffer)
    (h : (bitmapBit c.hub j && portBitAllowed self c j) = false) : bitSkipped self c1 j := by
  have e1 : bitmapBit c1.hub j = bitmapBit c.hub j := by simp [bitmapBit, h3]
  have e2 : portBitAllowed self c1 j = portBitAllowed self c j := by
    simp [portBitAllowed, h1, h2]
  cases hb : bitmapBit c.hub j with
  | false => left; rw [e1]; exact hb
  | true =>
    right; right
    rw [hb] at h
    simp only [Bool.true_and] at h
    exact ⟨hj, by rw [e2]; exact h⟩

/-- A scan from bit 1 that passes every bit below `p` serves bit `p`. -/
theorem scan_ready (E : Env) (self : Nat) (c1 : HubCtx) (p fuel : Nat)
    (hp : 1 ≤ p) (hpc : p ≤ c1.hub.portCount) (hp8 : p < 256) (hfuel : p ≤ fuel)
    (hbit : bitmapBit c1.hub p = true) (hallow : portBitAllowed self c1 p = true)
    (hskip : ∀ j, 1 ≤ j → j < p → bitSkipped self c1 j) :
    scanBits E self fuel 1 c1 =
      if c1.hub.controlTransfer = false then
        USB_HostHubProcessPort E self
          { c1 with hubProcess := some self, hub := { c1.hub with portProcess := p } }
      else some (USB_HostHubGetInterruptStatus E self c1) := by
  rw [scanBits_skip E self c1 p hpc hp8 (p - 1) fuel 1 (by omega) (by omega) hskip]
  obtain ⟨k, hk⟩ : ∃ k, fuel - (p - 1) = k + 1 := ⟨fuel - (p - 1) - 1, by omega⟩
  rw [hk]
  have hp0 : p ≠ 0 := by omega
  simp [scanBits, hpc, hbit, hp0, hallow]

theorem portBitAllowed_iff (self : Nat) (c : HubCtx) (p : Nat) :
    portBitAllowed self c p = true ↔
      (c.hubProcess = none ∨ (c.hubProcess = some self ∧ c.hub.portProcess = 0) ∨
        (c.hubProcess = some self ∧ c.hub.portProcess = p)) := by
  simp [portBitAllowed, or_assoc]

theorem hubBitAllowed_iff (self : Nat) (c : HubCtx) :
    hubBitAllowed self c = true ↔
      (c.hubProcess = none ∨ (c.hubProcess = some self ∧ c.hub.portProcess = 0)) := by
  simp [hubBitAllowed]

/-- C27 (amended): on an arrival in which bit 0 has not started an accepted
hub-level GET_STATUS (`afterHubBit` is the state `c1` in which the scan goes
on), the dispatcher selects the lowest port index `p` from 1 to `portCount`
whose bit is set and for which the token is free, or held by this hub with
`portProcess = 0`, or held by this hub with `portProcess = p`. If the hub has
no control transfer outstanding it sets `hubProcess` to this hub and
`portProcess = p` and runs the port sub-machine of `p`, and nothing else;
otherwise it only primes the interrupt-IN pipe. When no port bit qualifies
(and `portCount < 255`) it only primes the interrupt-IN pipe. -/
theorem C27_lowest_port_bit (E : Env) (self : Nat) (c c1 : HubCtx)
    (hfuel : c.hub.portCount + 1 < E.fuel)
    (hhub : afterHubBit E self c = some c1) :
    (∀ p, lowestReady self c = some p ↔
      (1 ≤ p ∧ p ≤ c.hub.portCount ∧ bitmapBit c.hub p = true ∧
       (c.hubProcess = none ∨ (c.hubProcess = some self ∧ c.hub.portProcess = 0) ∨
        (c.hubProcess = some self ∧ c.hub.portProcess = p)) ∧
       ∀ j, 1 ≤ j → j < p → bitmapBit c.hub j = true →
         ¬ (c.hubProcess = none ∨ (c.hubProcess = some self ∧ c.hub.portProcess = 0) ∨
            (c.hubProcess = some self ∧ c.hub.portProcess = j)))) ∧
    (∀ p, lowestReady self c = some p → p < 256 →
      USB_HostHubProcessData E self c =
        if c.hub.controlTransfer = false then
          USB_HostHubProcessPort E self
            { c1 with hubProcess := some self, hub := { c1.hub with portProcess := p } }
        else some (USB_HostHubGetInterruptStatus E self c1)) ∧
    (lowestReady self c = none → c.hub.portCount < 255 →
      USB_HostHubProcessData E self c = some (USB_HostHubGetInterruptStatus E self c1)) := by
  obtain ⟨f1, f2, f3, f4, f5, _, _⟩ := afterHubBit_frame E self c c1 hhub
  obtain ⟨k, hk⟩ : ∃ k, E.fuel = k + 1 := ⟨E.fuel - 1, by omega⟩
  have hstart : USB_HostHubProcessData E self c = scanBits E self k 1 c1 := by
    unfold USB_HostHubProcessData
    rw [hk]
    exact scan_hubBit E self c c1 k hhub
  refine ⟨?_, ?_, ?_⟩
  · intro p
    unfold lowestReady
    rw [find_range_some]
    constructor
    · intro ⟨h1, h2, h3, h4⟩
      simp only [Bool.and_eq_true] at h3
      refine ⟨h1, by omega, h3.1, (portBitAllowed_iff self c p).1 h3.2, ?_⟩
      intro j hj1 hj2 hjb hcond
      have := h4 j hj1 hj2
      rw [hjb, (portBitAllowed_iff self c j).2 hcond] at this
      cases this
    · intro ⟨h1, h2, h3, h4, h5⟩
      refine ⟨h1, by omega, by rw [h3, (portBitAllowed_iff self c p).2 h4]; rfl, ?_⟩
      intro j hj1 hj2
      cases hb : bitmapBit c.hub j with
      | false => rfl
      | true =>
        cases ha : portBitAllowed self c j with
        | false => rfl
        | true => exact absurd ((portBitAllowed_iff self c j).1 ha) (h5 j hj1 hj2 hb)
  · intro p hp hp8
    unfold lowestReady at hp
    rw [find_range_some] at hp
    obtain ⟨h1, h2, h3, h4⟩ := hp
    simp only [Bool.and_eq_true] at h3
    rw [hstart, ← f5]
    have e1 : bitmapBit c1.hub p = true := by
      rw [← h3.1]; simp [bitmapBit, f3]
    have e2 : portBitAllowed self c1 p = true := by
      rw [← h3.2]; simp [portBitAllowed, f1, f2]
    exact scan_ready E self c1 p k h1 (by omega) hp8 (by omega) e1 e2
      (fun j hj1 hj2 => ready_skipped self c c1 j (by omega) f1 f2 f3 (h4 j hj1 hj2))
  · intro hnone h255
    unfold lowestReady at hnone
    rw [find_range_none] at hnone
    rw [hstart]
    exact scan_end E self c1 (by omega) c1.hub.portCount k 1 (by omega) (by omega)
      (fun j hj1 hj2 => ready_skipped self c c1 j (by omega) f1 f2 f3
        (hnone j hj1 (by omega)))

theorem avoids_refl (bad : Action → Bool) (c : HubCtx) : LogAvoids bad c c :=
  ⟨[], by simp, rfl⟩

theorem avoids_trans {bad : Action → Bool} {c c1 c2 : HubCtx} (h1 : LogAvoids bad c c1)
    (h2 : LogAvoids bad c1 c2) : LogAvoids bad c c2 := by
  obtain ⟨L1, e1, p1⟩ := h1
  obtain ⟨L2, e2, p2⟩ := h2
  exact ⟨L1 ++ L2, by rw [e2, e1, List.append_assoc], any_append_false _ _ _ p1 p2⟩

theorem avoids_of_log {bad : Action → Bool} {c c1 c2 : HubCtx} (h : c2.log = c1.log)
    (h1 : LogAvoids bad c c1) : LogAvoids bad c c2 := by
  obtain ⟨L1, e1, p1⟩ := h1
  exact ⟨L1, h.trans e1, p1⟩

theorem quiet_avoids (bad : Action → Bool) (self : Nat)
    (hq : ∀ a, isQuietPortAction self a = true → bad a = false) (L : List Action)
    (h : L.all (isQuietPortAction self) = true) : L.any bad = false := by
  induction L with
  | nil => rfl
  | cons a rest ih =>
    simp only [List.all_cons, Bool.and_eq_true] at h
    simp only [List.any_cons, ih h.2, Bool.or_false]
    exact hq a h.1

theorem getInterruptStatus_avoids (bad : Action → Bool) (E : Env) (self : Nat) (c : HubCtx)
    (hq : ∀ a, isQuietPortAction self a = true → bad a = false) :
    LogAvoids bad c (USB_HostHubGetInterruptStatus E self c) := by
  obtain ⟨_, L, h2, h3⟩ := getInterruptStatus_quiet E self c
  exact ⟨L, h2, quiet_avoids bad self hq L h3⟩

theorem portStep_avoids (bad : Action → Bool) (E : Env) (self : Nat) (c cx : HubCtx)
    (r : PortStep) (idx : Nat) (q1 q2 : PortInstance)
    (hq : ∀ a, isQuietPortAction self a = true → bad a = false)
    (hc : ∀ q ok, isPortControl q = true → bad (Action.submit self q ok) = false)
    (hlog : PortStepLog E self c r) (hcx1 : cx.log = r.ctx.log) :
    LogAvoids bad c (if r.processSuccess = true then storePort idx q1 r.ctx
      else storePort idx q2 (USB_HostHubGetInterruptStatus E self cx)) := by
  obtain ⟨_, hcases⟩ := hlog
  have hr : LogAvoids bad c r.ctx := by
    rcases hcases with ⟨L, hL, hql⟩ | ⟨_, q, hqc, _, hctx⟩
    · exact ⟨L, hL, quiet_avoids bad self hq L hql⟩
    · refine ⟨[Action.submit self q (accepted E self q c)], by rw [hctx]; rfl, ?_⟩
      simp [hc q _ hqc]
  have g2 := getInterruptStatus_avoids bad E self cx hq
  split
  · exact avoids_of_log rfl hr
  · have : LogAvoids bad c cx := avoids_of_log hcx1 hr
    exact avoids_of_log rfl (avoids_trans this g2)

/-- A port sub-machine logs only quiet actions or one rejected port control
request, so it logs no action of a kind that excludes both. -/
theorem processPort_avoids (bad : Action → Bool) (E : Env) (self : Nat) (c c1 : HubCtx)
    (hq : ∀ a, isQuietPortAction self a = true → bad a = false)
    (hc : ∀ q ok, isPortControl q = true → bad (Action.submit self q ok) = false)
    (h : USB_HostHubProcessPort E self c = some c1) : LogAvoids bad c c1 := by
  unfold USB_HostHubProcessPort at h
  cases hport : currentPort c.hub with
  | none => simp [hport] at h
  | some port =>
    simp only [hport, Option.some_bind] at h
    split at h
    · unfold USB_HostHubProcessPortAttach at h
      simp only [hport, Option.map_some', Option.some.injEq] at h
      subst h
      exact portStep_avoids bad E self c _ _ _ _ _ hq hc (attachSwitch_log E self c port) rfl
    · unfold USB_HostHubProcessPortDetach at h
      simp only [hport, Option.some_bind] at h
      cases hr : detachSwitch E self port c with
      | none => simp [hr] at h
      | some r =>
        simp only [hr, Option.map_some', Option.some.injEq] at h
        subst h
        exact portStep_avoids bad E self c _ _ _ _ _ hq hc
          (detachSwitch_log E self c port r hr) rfl

theorem quiet_noGetStatus (self : Nat) (a : Action) (h : isQuietPortAction self a = true) :
    isHubGetStatus a = false := by
  cases a with
  | submit hh r ok =>
    cases r with
    | getStatus =>
      cases ok with
      | true => simp [isQuietPortAction, isPortControl] at h
      | false => simp [isQuietPortAction] at h
    | _ => rfl
  | _ => rfl

theorem portControl_noGetStatus (self : Nat) (q : Request) (ok : Bool)
    (h : isPortControl q = true) : isHubGetStatus (Action.submit self q ok) = false := by
  cases q with
  | getStatus => simp [isPortControl] at h
  | _ => rfl

/-- While the hub-status bit may not be served the dispatcher logs no hub-level
GET_STATUS. -/
theorem scanBits_noGetStatus (E : Env) (self : Nat) :
    ∀ (fuel idx : Nat) (c c1 : HubCtx), hubBitAllowed self c = false →
      scanBits E self fuel idx c = some c1 → LogAvoids isHubGetStatus c c1 := by
  intro fuel
  induction fuel with
  | zero => intro idx c c1 _ h; simp [scanBits] at h
  | succ n ih =>
    intro idx c c1 hno h
    unfold scanBits at h
    split at h
    · split at h
      · split at h
        · rw [hno] at h
          simp only [Bool.false_eq_true, if_false] at h
          exact ih _ c c1 hno h
        · split at h
          · split at h
            · have g := processPort_avoids isHubGetStatus E self _ c1
                (quiet_noGetStatus self) (portControl_noGetStatus self) h
              exact avoids_of_log rfl g
            · cases h
              exact getInterruptStatus_avoids isHubGetStatus E self c (quiet_noGetStatus self)
          · exact ih _ c c1 hno h
      · exact ih _ c c1 hno h
    · cases h
      exact getInterruptStatus_avoids isHubGetStatus E self c (quiet_noGetStatus self)

/-- C28: on an arrival with bit 0 set, the hub-status bit may be served exactly
when the token is free or held by this hub with `portProcess = 0`. Then the
hub-level GET_STATUS is submitted in hub state `kHubRunGetStatusDone`; when it
is accepted the arrival ends there with `primeStatus = kPrimeHubControl`, the
token, `portProcess` and the port list untouched and nothing else logged; when
it is rejected the scan goes on from bit 1 in hub state `kHubRunIdle`. When
the bit may not be served, no hub-level GET_STATUS is logged in the whole
arrival. -/
theorem C28_hub_status_bit (E : Env) (self : Nat) (c : HubCtx)
    (hbit : bitmapBit c.hub 0 = true) (hfuel : 0 < E.fuel) :
    (hubBitAllowed self c = true ↔
      (c.hubProcess = none ∨ (c.hubProcess = some self ∧ c.hub.portProcess = 0))) ∧
    (hubBitAllowed self c = true →
      (submitted E self Request.getStatus (setHubStatus c kHubRunGetStatusDone)).hub.hubStatus
        = kHubRunGetStatusDone ∧
      (submitted E self Request.getStatus (setHubStatus c kHubRunGetStatusDone)).log
        = c.log ++ [Action.submit self Request.getStatus
            (E.accept c.log.length self Request.getStatus)] ∧
      (E.accept c.log.length self Request.getStatus = true →
        ∃ c1, USB_HostHubProcessData E self c = some c1 ∧
          c1.hub.hubStatus = kHubRunGetStatusDone ∧ c1.hub.primeStatus = kPrimeHubControl ∧
          c1.log = c.log ++ [Action.submit self Request.getStatus true] ∧
          c1.hubProcess = c.hubProcess ∧ c1.hub.portProcess = c.hub.portProcess ∧
          c1.hub.portList = c.hub.portList) ∧
      (E.accept c.log.length self Request.getStatus = false →
        USB_HostHubProcessData E self c =
          scanBits E self (E.fuel - 1) 1
            (setHubStatus
              (submitted E self Request.getStatus (setHubStatus c kHubRunGetStatusDone))
              kHubRunIdle))) ∧
    (hubBitAllowed self c = false →
      ∀ c1, USB_HostHubProcessData E self c = some c1 →
        ∃ L, c1.log = c.log ++ L ∧ L.any isHubGetStatus = false) := by
  obtain ⟨k, hk⟩ : ∃ k, E.fuel = k + 1 := ⟨E.fuel - 1, by omega⟩
  refine ⟨hubBitAllowed_iff self c, ?_, ?_⟩
  · intro hal
    refine ⟨rfl, rfl, ?_, ?_⟩
    · intro hacc
      have ha : accepted E self Request.getStatus (setHubStatus c kHubRunGetStatusDone)
          = true := hacc
      have hres : USB_HostHubProcessData E self c =
          some (setPrime (submitted E self Request.getStatus
            (setHubStatus c kHubRunGetStatusDone)) kPrimeHubControl) := by
        unfold USB_HostHubProcessData
        rw [hk]
        simp [scanBits, hbit, hal, ha]
      rw [hres]
      refine ⟨_, rfl, rfl, rfl, ?_, rfl, rfl, rfl⟩
      show c.log ++ [Action.submit self Request.getStatus
        (accepted E self Request.getStatus (setHubStatus c kHubRunGetStatusDone))] = _
      rw [ha]
    · intro hacc
      have ha : accepted E self Request.getStatus (setHubStatus c kHubRunGetStatusDone)
          = false := hacc
      unfold USB_HostHubProcessData
      rw [hk]
      simp [scanBits, hbit, hal, ha]
  · intro hno c1 h
    exact scanBits_noGetStatus E self E.fuel 0 c c1 hno h

/-- On a list whose entries are bound to devices the look-up loop returns the
first instance with the address. -/
theorem findHub_spec (E : Env) (hubs : Nat → Option HubInstance) (address : Nat) :
    ∀ (l : List Nat) (old : Nat), devicesBound hubs l →
      findHubByAddress E hubs address l old = some (firstByAddress E hubs address l) := by
  intro l
  induction l with
  | nil => intro old _; rfl
  | cons h rest ih =>
    intro old hb
    obtain ⟨hub, d, hh, hd⟩ := hb h (List.mem_cons_self _ _)
    have hrest : devicesBound hubs rest := fun x hx => hb x (List.mem_cons_of_mem _ hx)
    have haddr : hubAddress E hubs h = some (E.info d kUSB_HostGetDeviceAddress) := by
      simp [hubAddress, hh, hd]
    unfold findHubByAddress firstByAddress
    simp only [hh, hd, getInfo, List.find?_cons, haddr, Option.some.injEq]
    by_cases heq : E.info d kUSB_HostGetDeviceAddress = address
    · simp [heq]
    · simp only [heq, if_false, decide_False]
      exact ih _ hrest

theorem firstByAddress_none (E : Env) (hubs : Nat → Option HubInstance) (address : Nat)
    (l : List Nat) :
    firstByAddress E hubs address l = none ↔ ∀ h ∈ l, hubAddress E hubs h ≠ some address := by
  unfold firstByAddress
  rw [List.find?_eq_none]
  simp

theorem firstByAddress_some (E : Env) (hubs : Nat → Option HubInstance) (address : Nat)
    (l : List Nat) (h : Nat) (hf : firstByAddress E hubs address l = some h) :
    hubAddress E hubs h = some address ∧
    ∃ l1 l2, l = l1 ++ h :: l2 ∧ ∀ x ∈ l1, hubAddress E hubs x ≠ some address := by
  unfold firstByAddress at hf
  rw [List.find?_eq_some] at hf
  obtain ⟨h1, l1, l2, h2, h3⟩ := hf
  refine ⟨by simpa using h1, l1, l2, h2, ?_⟩
  intro x hx
  simpa using h3 x hx

theorem hsHubNumber_found (E : Env) (w : World) (hostHandle : Option Nat) (address : Nat)
    (i : Nat) (gs : List HubGlobal) (g : HubGlobal) (h : Nat) (hub : HubInstance) (d : Nat)
    (hl : USB_HostHubGetHubList w.s_HubGlobalArray hostHandle = (some i, gs))
    (hg : gs[i]? = some g) (hb : devicesBound w.hubs g.hubList)
    (hf : firstByAddress E w.hubs address g.hubList = some h)
    (hh : w.hubs h = some hub) (hd : hub.deviceHandle = some d) :
    USB_HostHubGetHsHubNumber E w hostHandle address =
      some (if E.info d kUSB_HostGetDeviceSpeed = USB_SPEED_HIGH then address
            else E.info d kUSB_HostGetDeviceHSHubNumber,
        { w with s_HubGlobalArray := gs }) := by
  unfold USB_HostHubGetHsHubNumber
  rw [hl]
  simp only [hg]
  rw [findHub_spec E w.hubs address g.hubList 0 hb, hf]
  simp only [hh, hd, getInfo]
  split <;> rfl

theorem hsHubNumber_absent (E : Env) (w : World) (hostHandle : Option Nat) (address : Nat)
    (i : Nat) (gs : List HubGlobal) (g : HubGlobal)
    (hl : USB_HostHubGetHubList w.s_HubGlobalArray hostHandle = (some i, gs))
    (hg : gs[i]? = some g) (hb : devicesBound w.hubs g.hubList)
    (hf : firstByAddress E w.hubs address g.hubList = none) :
    USB_HostHubGetHsHubNumber E w hostHandle address =
      some (0, { w with s_HubGlobalArray := gs }) := by
  unfold USB_HostHubGetHsHubNumber
  rw [hl]
  simp only [hg]
  rw [findHub_spec E w.hubs address g.hubList 0 hb, hf]

theorem hsHubNumber_noRegistry (E : Env) (w : World) (hostHandle : Option Nat) (address : Nat)
    (gs : List HubGlobal)
    (hl : USB_HostHubGetHubList w.s_HubGlobalArray hostHandle = (none, gs)) :
    USB_HostHubGetHsHubNumber E w hostHandle address =
      some (0, { w with s_HubGlobalArray := gs }) := by
  unfold USB_HostHubGetHsHubNumber
  rw [hl]

theorem hsHubPort_found (E : Env) (w : World) (hostHandle : Option Nat) (address port : Nat)
    (i : Nat) (gs : List HubGlobal) (g : HubGlobal) (h : Nat) (hub : HubInstance) (d : Nat)
    (hl : USB_HostHubGetHubList w.s_HubGlobalArray hostHandle = (some i, gs))
    (hg : gs[i]? = some g) (hb : devicesBound w.hubs g.hubList)
    (hf : firstByAddress E w.hubs address g.hubList = some h)
    (hh : w.hubs h = some hub) (hd : hub.deviceHandle = some d) :
    USB_HostHubGetHsHubPort E w hostHandle address port =
      some (if E.info d kUSB_HostGetDeviceSpeed = USB_SPEED_HIGH then port
            else E.info d kUSB_HostGetDeviceHSHubNumber,
        { w with s_HubGlobalArray := gs }) := by
  unfold USB_HostHubGetHsHubPort
  rw [hl]
  simp only [hg]
  rw [findHub_spec E w.hubs address g.hubList 0 hb, hf]
  simp only [hh, hd, getInfo]
  split <;> rfl

theorem hsHubPort_absent (E : Env) (w : World) (hostHandle : Option Nat) (address port : Nat)
    (i : Nat) (gs : List HubGlobal) (g : HubGlobal)
    (hl : USB_HostHubGetHubList w.s_HubGlobalArray hostHandle = (some i, gs))
    (hg : gs[i]? = some g) (hb : devicesBound w.hubs g.hubList)
    (hf : firstByAddress E w.hubs address g.hubList = none) :
    USB_HostHubGetHsHubPort E w hostHandle address port =
      some (0, { w with s_HubGlobalArray := gs }) := by
  unfold USB_HostHubGetHsHubPort
  rw [hl]
  simp only [hg]
  rw [findHub_spec E w.hubs address g.hubList 0 hb, hf]

/-- C22: `USB_HostHubGetHsHubNumber` returns 0 when there is no registry. With a
registry whose list entries are bound to devices it looks at the first
instance in list order whose device address is `address`: it returns `address`
when that device runs at high speed, the high-speed hub number of that device
otherwise, and 0 when no instance of the list has that address. -/
theorem C22_hs_hub_number (E : Env) (w : World) (hostHandle : Option Nat) (address : Nat) :
    (∀ gs, USB_HostHubGetHubList w.s_HubGlobalArray hostHandle = (none, gs) →
      USB_HostHubGetHsHubNumber E w hostHandle address =
        some (0, { w with s_HubGlobalArray := gs })) ∧
    (∀ i gs g, USB_HostHubGetHubList w.s_HubGlobalArray hostHandle = (some i, gs) →
      gs[i]? = some g → devicesBound w.hubs g.hubList →
      (∀ h hub d, firstByAddress E w.hubs address g.hubList = some h →
        w.hubs h = some hub → hub.deviceHandle = some d →
        (E.info d kUSB_HostGetDeviceSpeed = USB_SPEED_HIGH →
          USB_HostHubGetHsHubNumber E w hostHandle address =
            some (address, { w with s_HubGlobalArray := gs })) ∧
        (E.info d kUSB_HostGetDeviceSpeed ≠ USB_SPEED_HIGH →
          USB_HostHubGetHsHubNumber E w hostHandle address =
            some (E.info d kUSB_HostGetDeviceHSHubNumber,
              { w with s_HubGlobalArray := gs }))) ∧
      ((∀ h ∈ g.hubList, hubAddress E w.hubs h ≠ some address) →
        USB_HostHubGetHsHubNumber E w hostHandle address =
          some (0, { w with s_HubGlobalArray := gs }))) := by
  refine ⟨fun gs hl => hsHubNumber_noRegistry E w hostHandle address gs hl, ?_⟩
  intro i gs g hl hg hb
  refine ⟨?_, ?_⟩
  · intro h hub d hf hh hd
    have key := hsHubNumber_found E w hostHandle address i gs g h hub d hl hg hb hf hh hd
    refine ⟨fun hs => ?_, fun hs => ?_⟩
    · rw [key, if_pos hs]
    · rw [key, if_neg hs]
  · intro hno
    exact hsHubNumber_absent E w hostHandle address i gs g hl hg hb
      ((firstByAddress_none E w.hubs address g.hubList).2 hno)

/-- C23: with a registry whose list entries are bound to devices,
`USB_HostHubGetHsHubPort` looks at the first instance whose device address is
`address`. When its device does not run at high speed the result is the
high-speed hub number of that device, the same value that
`USB_HostHubGetHsHubNumber` returns, whatever the port argument; when it runs
at high speed the result is the port argument; when no instance has that
address the result is 0. -/
theorem C23_hs_hub_port (E : Env) (w : World) (hostHandle : Option Nat)
    (address port : Nat) (i : Nat) (gs : List HubGlobal) (g : HubGlobal)
    (hl : USB_HostHubGetHubList w.s_HubGlobalArray hostHandle = (some i, gs))
    (hg : gs[i]? = some g) (hb : devicesBound w.hubs g.hubList) :
    (∀ h hub d, firstByAddress E w.hubs address g.hubList = some h →
      w.hubs h = some hub → hub.deviceHandle = some d →
      (E.info d kUSB_HostGetDeviceSpeed ≠ USB_SPEED_HIGH →
        USB_HostHubGetHsHubPort E w hostHandle address port =
          some (E.info d kUSB_HostGetDeviceHSHubNumber, { w with s_HubGlobalArray := gs }) ∧
        USB_HostHubGetHsHubPort E w hostHandle address port =
          USB_HostHubGetHsHubNumber E w hostHandle address ∧
        ∀ port2, USB_HostHubGetHsHubPort E w hostHandle address port2 =
          USB_HostHubGetHsHubPort E w hostHandle address port) ∧
      (E.info d kUSB_HostGetDeviceSpeed = USB_SPEED_HIGH →
        USB_HostHubGetHsHubPort E w hostHandle address port =
          some (port, { w with s_HubGlobalArray := gs }))) ∧
    ((∀ h ∈ g.hubList, hubAddress E w.hubs h ≠ some address) →
      USB_HostHubGetHsHubPort E w hostHandle address port =
        some (0, { w with s_HubGlobalArray := gs })) := by
  refine ⟨?_, ?_⟩
  · intro h hub d hf hh hd
    have key := fun p => hsHubPort_found E w hostHandle address p i gs g h hub d hl hg hb hf hh hd
    have keyN := hsHubNumber_found E w hostHandle address i gs g h hub d hl hg hb hf hh hd
    refine ⟨fun hs => ⟨?_, ?_, fun port2 => ?_⟩, fun hs => ?_⟩
    · rw [key, if_neg hs]
    · rw [key, keyN, if_neg hs, if_neg hs]
    · rw [key, key, if_neg hs, if_neg hs]
    · rw [key, if_pos hs]
  · intro hno
    exact hsHubPort_absent E w hostHandle address port i gs g hl hg hb
      ((firstByAddress_none E w.hubs address g.hubList).2 hno)

/-- The result of `USB_HostHubRemovePort` when the instance is found and the port
index is valid. -/
theorem removePort_found (E : Env) (w : World) (hostHandle : Option Nat)
    (hubNumber portNumber : Nat) (i : Nat) (gs : List HubGlobal) (g : HubGlobal)
    (self : Nat) (hub : HubInstance) (l : List PortInstance) (port : PortInstance)
    (hl : USB_HostHubGetHubList w.s_HubGlobalArray hostHandle = (some i, gs))
    (hg : gs[i]? = some g)
    (hf : findHubByAddress E w.hubs hubNumber g.hubList 0 = some (some self))
    (hh : w.hubs self = some hub) (hp : hub.portList = some l) (hn : portNumber ≠ 0)
    (hport : l[portNumber - 1]? = some port) :
    USB_HostHubRemovePort E w hostHandle hubNumber portNumber =
      some (kStatus_USB_Error,
        { w with
          s_HubGlobalArray := gs,
          hubs := Function.update w.hubs self (some { hub with
            portList := some (l.set (portNumber - 1)
              { port with deviceHandle := none, portStatus := kPortRunInvalid }),
            portProcess := if hub.portProcess = portNumber then 0 else hub.portProcess }),
          log := w.log ++ [Action.sendPortReset self portNumber] }) := by
  unfold USB_HostHubRemovePort
  rw [hl]
  simp only [hg, hf, hh, hp, hn, if_false, hport]

/-- Every status `USB_HostHubRemovePort` returns is `kStatus_USB_Error`. -/
theorem removePort_status (E : Env) (w : World) (hostHandle : Option Nat)
    (hubNumber portNumber : Nat) (r : UsbStatus × World)
    (h : USB_HostHubRemovePort E w hostHandle hubNumber portNumber = some r) :
    r.1 = kStatus_USB_Error := by
  unfold USB_HostHubRemovePort at h
  split at h
  · cases h; rfl
  · split at h
    · cases h
    · split at h
      · cases h
      · cases h; rfl
      · split at h
        · cases h
        · split at h
          · cases h
          · split at h
            · cases h
            · split at h
              · cases h
              · cases h; rfl

/-- C21: whenever `USB_HostHubRemovePort` returns, it returns
`kStatus_USB_Error`: without a registry, when no instance has the address
`hubNumber`, and also when the instance is found, the port `portNumber` is
cleared to `kPortRunInvalid` without a device, `portProcess` is reset if it
was that port, and `USB_HostHubSendPortReset` has been called. -/
theorem C21_remove_port_error (E : Env) (w : World) (hostHandle : Option Nat)
    (hubNumber portNumber : Nat) :
    (∀ r, USB_HostHubRemovePort E w hostHandle hubNumber portNumber = some r →
      r.1 = kStatus_USB_Error) ∧
    (∀ gs, USB_HostHubGetHubList w.s_HubGlobalArray hostHandle = (none, gs) →
      USB_HostHubRemovePort E w hostHandle hubNumber portNumber =
        some (kStatus_USB_Error, { w with s_HubGlobalArray := gs })) ∧
    (∀ i gs g, USB_HostHubGetHubList w.s_HubGlobalArray hostHandle = (some i, gs) →
      gs[i]? = some g →
      (findHubByAddress E w.hubs hubNumber g.hubList 0 = some none →
        USB_HostHubRemovePort E w hostHandle hubNumber portNumber =
          some (kStatus_USB_Error, { w with s_HubGlobalArray := gs })) ∧
      (∀ self hub l port,
        findHubByAddress E w.hubs hubNumber g.hubList 0 = some (some self) →
        w.hubs self = some hub → hub.portList = some l → portNumber ≠ 0 →
        l[portNumber - 1]? = some port →
        USB_HostHubRemovePort E w hostHandle hubNumber portNumber =
          some (kStatus_USB_Error,
            { w with
              s_HubGlobalArray := gs,
              hubs := Function.update w.hubs self (some { hub with
                portList := some (l.set (portNumber - 1)
                  { port with deviceHandle := none, portStatus := kPortRunInvalid }),
                portProcess := if hub.portProcess = portNumber then 0 else hub.portProcess }),
              log := w.log ++ [Action.sendPortReset self portNumber] }))) := by
  refine ⟨fun r h => removePort_status E w hostHandle hubNumber portNumber r h, ?_, ?_⟩
  · intro gs hl
    unfold USB_HostHubRemovePort
    rw [hl]
  · intro i gs g hl hg
    refine ⟨?_, ?_⟩
    · intro hf
      unfold USB_HostHubRemovePort
      rw [hl]
      simp only [hg, hf]
    · intro self hub l port hf hh hp hn hport
      exact removePort_found E w hostHandle hubNumber portNumber i gs g self hub l port
        hl hg hf hh hp hn hport

theorem reloaded_refl (t : Nat) (hubs : Nat → Option HubInstance) : Reloaded t hubs hubs :=
  fun _ => Or.inl rfl

theorem reloaded_trans {t : Nat} {a b c : Nat → Option HubInstance}
    (h1 : Reloaded t a b) (h2 : Reloaded t b c) : Reloaded t a c := by
  intro n
  rcases h2 n with e2 | ⟨hub2, e2, e3⟩
  · rcases h1 n with e1 | ⟨hub1, e1, e1b⟩
    · left; rw [e2, e1]
    · right; exact ⟨hub1, e1, by rw [e2, e1b]⟩
  · rcases h1 n with e1 | ⟨hub1, e1, e1b⟩
    · right; exact ⟨hub2, by rw [← e1, e2], e3⟩
    · right
      refine ⟨hub1, e1, ?_⟩
      rw [e3]
      rw [e1b] at e2
      cases e2
      rfl

theorem reloaded_update (t : Nat) (hubs : Nat → Option HubInstance) (h : Nat)
    (hub : HubInstance) (hh : hubs h = some hub) :
    Reloaded t hubs (Function.update hubs h (some { hub with controlRetry := t })) := by
  intro n
  by_cases hn : n = h
  · subst hn
    right
    exact ⟨hub, hh, by simp⟩
  · left
    simp [Function.update, hn]

theorem reloaded_capable {t : Nat} {a b : Nat → Option HubInstance} (h : Reloaded t a b) :
    capable b = capable a := by
  funext n
  unfold capable
  rcases h n with e | ⟨hub, e1, e2⟩
  · rw [e]
  · rw [e1, e2]

theorem reloaded_deviceOf {t : Nat} {a b : Nat → Option HubInstance} (h : Reloaded t a b) :
    deviceOf b = deviceOf a := by
  funext n
  unfold deviceOf
  rcases h n with e | ⟨hub, e1, e2⟩
  · rw [e]
  · rw [e1, e2]; rfl

theorem reloaded_hubAddress (E : Env) {t : Nat} {a b : Nat → Option HubInstance}
    (h : Reloaded t a b) : hubAddress E b = hubAddress E a := by
  funext n
  unfold hubAddress
  rcases h n with e | ⟨hub, e1, e2⟩
  · rw [e]
  · rw [e1, e2]; rfl

theorem reloaded_firstByAddress (E : Env) {t : Nat} {a b : Nat → Option HubInstance}
    (h : Reloaded t a b) (address : Nat) (l : List Nat) :
    firstByAddress E b address l = firstByAddress E a address l := by
  unfold firstByAddress
  rw [reloaded_hubAddress E h]

theorem reloaded_bound {t : Nat} {a b : Nat → Option HubInstance} (h : Reloaded t a b)
    (host : Nat) (l : List Nat)
    (hb : ∀ x ∈ l, ∃ hub d, a x = some hub ∧ hub.deviceHandle = some d ∧
      hub.hostHandle = some host) :
    ∀ x ∈ l, ∃ hub d, b x = some hub ∧ hub.deviceHandle = some d ∧
      hub.hostHandle = some host := by
  intro x hx
  obtain ⟨hub, d, h1, h2, h3⟩ := hb x hx
  rcases h x with e | ⟨hub1, e1, e2⟩
  · exact ⟨hub, d, by rw [e, h1], h2, h3⟩
  · rw [h1] at e1
    cases e1
    exact ⟨_, d, e2, h2, h3⟩

theorem bound_devices {hubs : Nat → Option HubInstance} {host : Nat} {l : List Nat}
    (hb : ∀ x ∈ l, ∃ hub d, hubs x = some hub ∧ hub.deviceHandle = some d ∧
      hub.hostHandle = some host) : devicesBound hubs l := by
  intro x hx
  obtain ⟨hub, d, h1, h2, _⟩ := hb x hx
  exact ⟨hub, d, h1, h2⟩

/-- What the loop over the chain does: the first instance that advertises remote
wakeup gets the request; the instances may have `controlRetry` reloaded. -/
theorem wakeupScan_spec (E : Env) (H : HostEnv) (log : List Action) :
    ∀ (l : List Nat) (hubs : Nat → Option HubInstance), devicesBound hubs l →
      ∃ hubs1, Reloaded (E.remoteWakeupTimes % 256) hubs hubs1 ∧
        ((∀ h, l.find? (capable hubs) = some h → ∃ d, deviceOf hubs h = some d ∧
            wakeupScan E H l hubs log =
              some (some (h, sendStatus (H.sendOk log.length)), hubs1,
                log ++ [Action.hubRequest d (HostRequest.setRemoteWakeup h)
                  (H.sendOk log.length)])) ∧
         (l.find? (capable hubs) = none → wakeupScan E H l hubs log = some (none, hubs1, log))) := by
  intro l
  induction l with
  | nil =>
    intro hubs _
    exact ⟨hubs, reloaded_refl _ _, fun h hf => by simp at hf, fun _ => rfl⟩
  | cons x rest ih =>
    intro hubs hb
    obtain ⟨hub, d, hh, hd⟩ := hb x (List.mem_cons_self _ _)
    have hup := reloaded_update (E.remoteWakeupTimes % 256) hubs x hub hh
    by_cases hcap : hub.supportRemoteWakeup = 0
    · have hc : capable hubs x = false := by simp [capable, hh, hcap]
      have hrest : devicesBound (Function.update hubs x
          (some { hub with controlRetry := E.remoteWakeupTimes % 256 })) rest := by
        intro y hy
        obtain ⟨hub2, d2, e1, e2⟩ := hb y (List.mem_cons_of_mem _ hy)
        rcases hup y with e | ⟨hub3, e3, e4⟩
        · exact ⟨hub2, d2, by rw [e, e1], e2⟩
        · rw [e1] at e3
          cases e3
          exact ⟨_, d2, e4, e2⟩
      obtain ⟨hubs1, r1, s1, s2⟩ := ih _ hrest
      have hstep : wakeupScan E H (x :: rest) hubs log =
          wakeupScan E H rest (Function.update hubs x
            (some { hub with controlRetry := E.remoteWakeupTimes % 256 })) log := by
        simp [wakeupScan, hh, hcap]
      refine ⟨hubs1, reloaded_trans hup r1, ?_, ?_⟩
      · intro h hf
        simp only [List.find?_cons, hc] at hf
        rw [← reloaded_capable hup] at hf
        obtain ⟨d1, e1, e2⟩ := s1 h hf
        rw [reloaded_deviceOf hup] at e1
        exact ⟨d1, e1, by rw [hstep]; exact e2⟩
      · intro hf
        simp only [List.find?_cons, hc] at hf
        rw [← reloaded_capable hup] at hf
        rw [hstep]
        exact s2 hf
    · have hc : capable hubs x = true := by simp [capable, hh, hcap]
      refine ⟨_, hup, ?_, ?_⟩
      · intro h hf
        simp only [List.find?_cons, hc, Option.some.injEq] at hf
        subst hf
        refine ⟨d, by simp [deviceOf, hh, hd], ?_⟩
        simp [wakeupScan, hh, hcap, hd, USB_HostSendHubRequest, sendStatus]
      · intro hf
        simp [List.find?_cons, hc] at hf

theorem world_eta (w : World) : { w with s_HubGlobalArray := w.s_HubGlobalArray } = w := rfl

theorem find_mem {p : Nat → Bool} {l : List Nat} {h : Nat} (hf : l.find? p = some h) : h ∈ l :=
  List.mem_of_find?_eq_some hf

/-- The last stage of suspending makes the calls of `targetOutcome`. -/
theorem suspendTarget_spec (E : Env) (H : HostEnv) (w : World) (host i : Nat) (g : HubGlobal)
    (hl : USB_HostHubGetHubList w.s_HubGlobalArray (some host) = (some i, w.s_HubGlobalArray))
    (hg : w.s_HubGlobalArray[i]? = some g) (hb : devicesBound w.hubs g.hubList) :
    suspendTarget E H w host =
      some ((targetOutcome E H w.hubs g.hubList (w.suspendedDevice host) host w.log.length).1,
        { w with log := w.log ++
            (targetOutcome E H w.hubs g.hubList (w.suspendedDevice host) host
              w.log.length).2 }) := by
  unfold suspendTarget targetOutcome
  cases hs : w.suspendedDevice host with
  | none => rfl
  | some dev =>
    simp only []
    unfold USB_HostHubGetHubDeviceHandle
    rw [hl]
    simp only [hg]
    rw [findHub_spec E w.hubs (H.hubNumber dev % 256) g.hubList 0 hb]
    cases hf : firstByAddress E w.hubs (H.hubNumber dev % 256) g.hubList with
    | none =>
      simp only [Option.map_some', Option.some_bind, Option.none_bind, List.append_nil]
    | some h4 =>
      obtain ⟨hub4, d4, e1, e2⟩ := hb h4 (find_mem hf)
      have hd : deviceOf w.hubs h4 = some d4 := by simp [deviceOf, e1, e2]
      simp only [Option.map_some', Option.some_bind, hd, e1, e2, USB_HostSendHubRequest,
        sendStatus]

theorem chainAfter_split (self : Nat) :
    ∀ (l1 l2 : List Nat), self ∉ l1 → chainAfter self (l1 ++ self :: l2) = some l2 := by
  intro l1
  induction l1 with
  | nil => intro l2 _; simp [chainAfter]
  | cons x rest ih =>
    intro l2 hn
    have hx : x ≠ self := fun h => hn (by rw [h]; exact List.mem_cons_self _ _)
    have hr : self ∉ rest := fun h => hn (List.mem_cons_of_mem _ h)
    simp only [List.cons_append, chainAfter, hx, if_false]
    exact ih l2 hr

theorem chainAfter_none (self : Nat) :
    ∀ (l : List Nat), self ∉ l → chainAfter self l = none := by
  intro l
  induction l with
  | nil => intro _; rfl
  | cons x rest ih =>
    intro hn
    have hx : x ≠ self := fun h => hn (by rw [h]; exact List.mem_cons_self _ _)
    have hr : self ∉ rest := fun h => hn (List.mem_cons_of_mem _ h)
    simp only [chainAfter, hx, if_false]
    exact ih hr

theorem nextChain_eq (self : Nat) (l1 l2 : List Nat) (hn : self ∉ l1) :
    ∀ (gs : List HubGlobal),
      (∀ g1 ∈ gs, self ∈ g1.hubList → g1.hubList = l1 ++ self :: l2) →
      (∃ g ∈ gs, g.hubList = l1 ++ self :: l2) →
      nextChain gs self = l2 := by
  intro gs
  induction gs with
  | nil => intro _ ⟨g, hg, _⟩; cases hg
  | cons g1 rest ih =>
    intro hlink hex
    unfold nextChain
    rw [List.findSome?_cons]
    by_cases hmem : self ∈ g1.hubList
    · rw [hlink g1 (List.mem_cons_self _ _) hmem, chainAfter_split self l1 l2 hn]
      rfl
    · rw [chainAfter_none self g1.hubList hmem]
      simp only []
      have hex2 : ∃ g ∈ rest, g.hubList = l1 ++ self :: l2 := by
        obtain ⟨g, hg, he⟩ := hex
        rcases List.mem_cons.1 hg with h1 | h1
        · exfalso
          apply hmem
          rw [← h1, he]
          simp
        · exact ⟨g, h1, he⟩
      exact ih (fun g2 h2 => hlink g2 (List.mem_cons_of_mem _ h2)) hex2

/-- In a ready chain the successors of an instance are the rest of the list. -/
theorem ready_nextChain {w : World} {host i : Nat} {g : HubGlobal} (hr : ChainReady w host i g)
    (l1 l2 : List Nat) (self : Nat) (hsplit : g.hubList = l1 ++ self :: l2) :
    nextChain w.s_HubGlobalArray self = l2 := by
  have hnd := hr.nodup
  rw [hsplit] at hnd
  have hn : self ∉ l1 := by
    intro h
    have := (List.nodup_append.1 hnd).2.2
    exact this h (List.mem_cons_self _ _)
  refine nextChain_eq self l1 l2 hn w.s_HubGlobalArray ?_ ?_
  · intro g1 hg1 hmem
    rw [← hsplit]
    exact hr.linked g1 hg1 self (by rw [hsplit]; simp) hmem
  · exact ⟨g, (List.getElem?_eq_some_iff.1 hr.registry).2 ▸ List.getElem_mem _, hsplit⟩

theorem reloaded_targetOutcome (E : Env) (H : HostEnv) {t : Nat}
    {a b : Nat → Option HubInstance} (h : Reloaded t a b) (l : List Nat) (susp : Option Nat)
    (host n : Nat) :
    targetOutcome E H b l susp host n = targetOutcome E H a l susp host n := by
  unfold targetOutcome
  cases susp with
  | none => rfl
  | some dev =>
    simp only []
    rw [reloaded_firstByAddress E h, reloaded_deviceOf h]

theorem reloaded_devices {t : Nat} {a b : Nat → Option HubInstance} (h : Reloaded t a b)
    (l : List Nat) (hb : devicesBound a l) : devicesBound b l := by
  intro x hx
  obtain ⟨hub, d, h1, h2⟩ := hb x hx
  rcases h x with e | ⟨hub1, e1, e2⟩
  · exact ⟨hub, d, by rw [e, h1], h2⟩
  · rw [h1] at e1
    cases e1
    exact ⟨_, d, e2, h2⟩

theorem ready_devices {w : World} {host i : Nat} {g : HubGlobal} (hr : ChainReady w host i g) :
    devicesBound w.hubs g.hubList := bound_devices hr.bound

theorem suspend_empty (E : Env) (H : HostEnv) (w : World) (host i : Nat)
    (gs : List HubGlobal) (g : HubGlobal)
    (hl : USB_HostHubGetHubList w.s_HubGlobalArray (some host) = (some i, gs))
    (hg : gs[i]? = some g) (he : g.hubList = []) :
    USB_HostHubSuspendDevice E H w (some host) =
      some (H.busControl w.log.length,
        { w with s_HubGlobalArray := gs, log := w.log ++ [Action.busSuspend host] }) := by
  unfold USB_HostHubSuspendDevice
  rw [hl]
  simp only [hg, he]

/-- The result of `USB_HostHubSuspendDevice` on a ready, non-empty chain. -/
theorem suspend_spec (E : Env) (H : HostEnv) (w : World) (host i : Nat) (g : HubGlobal)
    (hr : ChainReady w host i g) (hne : g.hubList ≠ []) :
    ∃ hubs1, Reloaded (E.remoteWakeupTimes % 256) w.hubs hubs1 ∧
      (∀ h, g.hubList.find? (capable w.hubs) = some h → ∃ d, deviceOf w.hubs h = some d ∧
        USB_HostHubSuspendDevice E H w (some host) =
          some (sendStatus (H.sendOk w.log.length),
            { w with hubs := hubs1,
                     log := w.log ++ [Action.hubRequest d (HostRequest.setRemoteWakeup h)
                       (H.sendOk w.log.length)] })) ∧
      (g.hubList.find? (capable w.hubs) = none →
        USB_HostHubSuspendDevice E H w (some host) =
          some ((targetOutcome E H w.hubs g.hubList (w.suspendedDevice host) host
              w.log.length).1,
            { w with hubs := hubs1,
                     log := w.log ++ (targetOutcome E H w.hubs g.hubList
                       (w.suspendedDevice host) host w.log.length).2 })) := by
  obtain ⟨hubs1, hrel, s1, s2⟩ := wakeupScan_spec E H w.log g.hubList w.hubs (ready_devices hr)
  refine ⟨hubs1, hrel, ?_, ?_⟩
  · intro h hf
    obtain ⟨d, hd, hscan⟩ := s1 h hf
    refine ⟨d, hd, ?_⟩
    unfold USB_HostHubSuspendDevice
    rw [hr.lookup]
    simp only [hr.registry]
    cases hlist : g.hubList with
    | nil => exact absurd hlist hne
    | cons x rest =>
      rw [hlist] at hscan
      simp only [hscan, Option.some_bind]
  · intro hf
    have hscan := s2 hf
    have htar := suspendTarget_spec E H { w with hubs := hubs1 } host i g hr.lookup hr.registry
      (reloaded_devices hrel g.hubList (ready_devices hr))
    rw [reloaded_targetOutcome E H hrel] at htar
    unfold USB_HostHubSuspendDevice
    rw [hr.lookup]
    simp only [hr.registry]
    cases hlist : g.hubList with
    | nil => exact absurd hlist hne
    | cons x rest =>
      rw [hlist] at hscan
      simp only [hscan, Option.some_bind]
      rw [hlist] at htar
      exact htar

/-- The result of a successful completion at an instance of a ready chain. -/
theorem callback_success_spec (E : Env) (H : HostEnv) (w : World) (host i : Nat)
    (g : HubGlobal) (hr : ChainReady w host i g) (l1 l2 : List Nat) (self : Nat)
    (hsplit : g.hubList = l1 ++ self :: l2) :
    ∃ hubs1, Reloaded (E.remoteWakeupTimes % 256) w.hubs hubs1 ∧
      (∀ hub, w.hubs self = some hub →
        hubs1 self = some { hub with controlRetry := E.remoteWakeupTimes % 256 }) ∧
      (∀ h, l2.find? (capable w.hubs) = some h → ∃ d, deviceOf w.hubs h = some d ∧
        USB_HostHubRemoteWakeupCallback E H w (some self) true =
          some (if sendStatus (H.sendOk w.log.length) ≠ kStatus_USB_Success then
              deviceCallback
                { w with hubs := hubs1,
                         log := w.log ++ [Action.hubRequest d (HostRequest.setRemoteWakeup h)
                           (H.sendOk w.log.length)] } host
                HostEvent.kUSB_HostEventNotSuspended
            else
              { w with hubs := hubs1,
                       log := w.log ++ [Action.hubRequest d (HostRequest.setRemoteWakeup h)
                         (H.sendOk w.log.length)] })) ∧
      (l2.find? (capable w.hubs) = none →
        USB_HostHubRemoteWakeupCallback E H w (some self) true =
          some (if (targetOutcome E H w.hubs g.hubList (w.suspendedDevice host) host
                w.log.length).1 ≠ kStatus_USB_Success then
              deviceCallback
                { w with hubs := hubs1,
                         log := w.log ++ (targetOutcome E H w.hubs g.hubList
                           (w.suspendedDevice host) host w.log.length).2 } host
                HostEvent.kUSB_HostEventNotSuspended
            else
              { w with hubs := hubs1,
                       log := w.log ++ (targetOutcome E H w.hubs g.hubList
                         (w.suspendedDevice host) host w.log.length).2 })) := by
  have hself : self ∈ g.hubList := by rw [hsplit]; simp
  obtain ⟨hub, d0, hh, hd0, hhost⟩ := hr.bound self hself
  have hup := reloaded_update (E.remoteWakeupTimes % 256) w.hubs self hub hh
  have hb2 : devicesBound (Function.update w.hubs self
      (some { hub with controlRetry := E.remoteWakeupTimes % 256 })) l2 := by
    refine reloaded_devices hup l2 ?_
    intro x hx
    exact ready_devices hr x (by rw [hsplit]; simp [hx])
  obtain ⟨hubs1, hrel1, s1, s2⟩ := wakeupScan_spec E H w.log l2 _ hb2
  have hrel := reloaded_trans hup hrel1
  have hchain := ready_nextChain hr l1 l2 self hsplit
  rw [reloaded_capable hup] at s1 s2
  refine ⟨hubs1, hrel, ?_, ?_, ?_⟩
  · intro hub2 hh2
    rw [hh] at hh2
    cases hh2
    rcases hrel1 self with e | ⟨hub3, e1, e2⟩
    · rw [e]; simp
    · simp only [Function.update_same, Option.some.injEq] at e1
      rw [e2, ← e1]
  · intro h hf
    obtain ⟨d, hd, hscan⟩ := s1 h hf
    rw [reloaded_deviceOf hup] at hd
    refine ⟨d, hd, ?_⟩
    unfold USB_HostHubRemoteWakeupCallback
    simp only [hh]
    split
    · rename_i hnone
      rw [hhost] at hnone
      cases hnone
    · rename_i host1 hsome
      rw [hhost] at hsome
      cases hsome
      simp only [if_true, hchain, hscan, Option.some_bind]
      split <;> rfl
  · intro hf
    have hscan := s2 hf
    have htar := suspendTarget_spec E H { w with hubs := hubs1 } host i g hr.lookup hr.registry
      (reloaded_devices hrel g.hubList (ready_devices hr))
    rw [reloaded_targetOutcome E H hrel] at htar
    unfold USB_HostHubRemoteWakeupCallback
    simp only [hh]
    split
    · rename_i hnone
      rw [hhost] at hnone
      cases hnone
    · rename_i host1 hsome
      rw [hhost] at hsome
      cases hsome
      simp only [if_true, hchain, hscan, Option.some_bind]
      rw [htar]
      simp only [Option.map_some']

theorem find_split {p : Nat → Bool} {l : List Nat} {h : Nat} (hf : l.find? p = some h) :
    p h = true ∧ ∃ m1 m2, l = m1 ++ h :: m2 ∧ ∀ x ∈ m1, p x = false := by
  rw [List.find?_eq_some] at hf
  obtain ⟨h1, m1, m2, h2, h3⟩ := hf
  refine ⟨h1, m1, m2, h2, ?_⟩
  intro x hx
  simpa using h3 x hx

theorem filter_none {p : Nat → Bool} {l : List Nat} (h : ∀ x ∈ l, p x = false) :
    l.filter p = [] := by
  rw [List.filter_eq_nil_iff]
  intro x hx
  simp [h x hx]

theorem find_none_all {p : Nat → Bool} {l : List Nat} (h : l.find? p = none) :
    ∀ x ∈ l, p x = false := by
  rw [List.find?_eq_none] at h
  intro x hx
  simpa using h x hx

theorem all_find_none {p : Nat → Bool} {l : List Nat} (h : ∀ x ∈ l, p x = false) :
    l.find? p = none := by
  rw [List.find?_eq_none]
  intro x hx
  simp [h x hx]

theorem ready_of_reloaded {w w1 : World} {host i : Nat} {g : HubGlobal} {t : Nat}
    (hr : ChainReady w host i g) (h1 : w1.s_HubGlobalArray = w.s_HubGlobalArray)
    (h2 : Reloaded t w.hubs w1.hubs) : ChainReady w1 host i g where
  lookup := by rw [h1]; exact hr.lookup
  registry := by rw [h1]; exact hr.registry
  nodup := hr.nodup
  bound := reloaded_bound h2 host g.hubList hr.bound
  linked := by rw [h1]; exact hr.linked

/-- The calls of the last stage are no remote-wakeup requests, and a successful
last stage makes at least one call. -/
theorem target_tail (E : Env) (H : HostEnv) (hubs : Nat → Option HubInstance) (l : List Nat)
    (susp : Option Nat) (host n : Nat) :
    (∀ a ∈ (targetOutcome E H hubs l susp host n).2, wakeupTarget a = none) ∧
    ((targetOutcome E H hubs l susp host n).1 = kStatus_USB_Success →
      (targetOutcome E H hubs l susp host n).2 ≠ []) := by
  unfold targetOutcome
  cases susp with
  | none => simp [wakeupTarget]
  | some dev =>
    simp only []
    cases (firstByAddress E hubs (H.hubNumber dev % 256) l).bind (deviceOf hubs) with
    | none => simp
    | some d => simp [wakeupTarget]

theorem pending_append_none (base : Nat) (pre L : List Action) (hb : base ≤ pre.length)
    (hne : L ≠ []) (hL : ∀ a ∈ L, wakeupTarget a = none) :
    pendingWakeup ((pre ++ L).drop base) = none := by
  have hdrop : (pre ++ L).drop base = pre.drop base ++ L := by
    rw [List.drop_append_of_le_length hb]
  rw [hdrop]
  unfold pendingWakeup
  rw [List.getLast?_append_of_ne_nil _ hne]
  cases hlast : L.getLast? with
  | none => rfl
  | some a =>
    have hmem : a ∈ L := List.mem_of_getLast?_eq_some hlast
    have := hL a hmem
    cases a with
    | hubRequest d r ok =>
      cases r with
      | setRemoteWakeup h => simp [wakeupTarget] at this
      | _ => rfl
    | _ => rfl

theorem pending_append_request (base : Nat) (pre : List Action) (d self : Nat)
    (hb : base ≤ pre.length) :
    pendingWakeup ((pre ++ [Action.hubRequest d (HostRequest.setRemoteWakeup self) true]).drop
      base) = some self := by
  rw [List.drop_append_of_le_length hb]
  unfold pendingWakeup
  rw [List.getLast?_append_of_ne_nil _ (by simp)]
  rfl

theorem sendStatus_true : sendStatus true = kStatus_USB_Success := rfl

/-- The completions that follow an accepted remote-wakeup request to `self`,
when every request is accepted: the instances behind `self` that advertise
remote wakeup get their request in list order. -/
theorem drive (E : Env) (H : HostEnv) (host i : Nat) (g : HubGlobal) (base : Nat)
    (hok : ∀ n, H.sendOk n = true) :
    ∀ (n : Nat) (l1 : List Nat) (self : Nat) (l2 : List Nat) (wk : World) (pre : List Action)
      (d fuel : Nat), l2.length = n → g.hubList = l1 ++ self :: l2 →
      ChainReady wk host i g →
      wk.log = pre ++ [Action.hubRequest d (HostRequest.setRemoteWakeup self) true] →
      base ≤ pre.length → (l2.filter (capable wk.hubs)).length < fuel →
      ∃ w2 L, completeAll E H base fuel wk = some w2 ∧ w2.log = wk.log ++ L ∧
        L.filterMap wakeupTarget = l2.filter (capable wk.hubs) ∧
        pendingWakeup (w2.log.drop base) = none := by
  intro n
  induction n using Nat.strong_induction_on with
  | _ n ih =>
    intro l1 self l2 wk pre d fuel hlen hsplit hr hlog hbase hfuel
    obtain ⟨f, hf⟩ : ∃ f, fuel = f + 1 := ⟨fuel - 1, by omega⟩
    subst hf
    have hpend : pendingWakeup (wk.log.drop base) = some self := by
      rw [hlog]; exact pending_append_request base pre d self hbase
    obtain ⟨hubs1, hrel, _, s1, s2⟩ := callback_success_spec E H wk host i g hr l1 l2 self hsplit
    have hbase2 : base ≤ wk.log.length := by rw [hlog]; simp; omega
    cases hfind : l2.find? (capable wk.hubs) with
    | some h =>
      obtain ⟨d1, _, hcb⟩ := s1 h hfind
      rw [hok, sendStatus_true] at hcb
      simp only [ne_eq, not_true_eq_false, if_false] at hcb
      obtain ⟨hcap, m1, m2, hl2, hm1⟩ := find_split hfind
      have hfilter : l2.filter (capable wk.hubs) = h :: m2.filter (capable wk.hubs) := by
        rw [hl2, List.filter_append, filter_none hm1, List.filter_cons, hcap]
        rfl
      have hr1 : ChainReady
          { wk with hubs := hubs1,
                    log := wk.log ++ [Action.hubRequest d1 (HostRequest.setRemoteWakeup h) true] }
          host i g := ready_of_reloaded hr rfl hrel
      have hcapeq : capable hubs1 = capable wk.hubs := reloaded_capable hrel
      obtain ⟨w2, L, e1, e2, e3, e4⟩ := ih m2.length (by rw [← hlen, hl2]; simp; omega)
        (l1 ++ self :: m1) h m2
        { wk with hubs := hubs1,
                  log := wk.log ++ [Action.hubRequest d1 (HostRequest.setRemoteWakeup h) true] }
        wk.log d1 f rfl (by rw [hsplit, hl2]; simp) hr1 rfl hbase2
        (by
          show (m2.filter (capable hubs1)).length < f
          rw [hcapeq]
          rw [hfilter] at hfuel
          simp at hfuel
          omega)
      refine ⟨w2, Action.hubRequest d1 (HostRequest.setRemoteWakeup h) true :: L, ?_, ?_, ?_, e4⟩
      · simp only [completeAll, hpend, hcb, Option.some_bind]
        exact e1
      · rw [e2]
        simp
      · rw [hfilter]
        simp only [List.filterMap_cons, wakeupTarget]
        rw [e3]
        show h :: m2.filter (capable hubs1) = _
        rw [hcapeq]
    | none =>
      have hcb := s2 hfind
      have hfilter : l2.filter (capable wk.hubs) = [] := filter_none (find_none_all hfind)
      obtain ⟨t1, t2⟩ := target_tail E H wk.hubs g.hubList (wk.suspendedDevice host) host
        wk.log.length
      -- the calls of the last stage
      have key : ∃ w2 L, USB_HostHubRemoteWakeupCallback E H wk (some self) true = some w2 ∧
          w2.log = wk.log ++ L ∧ L ≠ [] ∧ ∀ a ∈ L, wakeupTarget a = none := by
        rw [hcb]
        by_cases hst : (targetOutcome E H wk.hubs g.hubList (wk.suspendedDevice host) host
            wk.log.length).1 = kStatus_USB_Success
        · rw [if_neg (by simpa using hst)]
          exact ⟨_, _, rfl, rfl, t2 hst, t1⟩
        · rw [if_pos hst]
          refine ⟨_, (targetOutcome E H wk.hubs g.hubList (wk.suspendedDevice host) host
            wk.log.length).2 ++ [Action.hostEvent (wk.suspendedDevice host)
              HostEvent.kUSB_HostEventNotSuspended], rfl, ?_, by simp, ?_⟩
          · simp [deviceCallback]
          · intro a ha
            rcases List.mem_append.1 ha with h1 | h1
            · exact t1 a h1
            · simp only [List.mem_singleton] at h1
              rw [h1]; rfl
      obtain ⟨w2, L, c1, c2, c3, c4⟩ := key
      have hp2 : pendingWakeup (w2.log.drop base) = none := by
        rw [c2]
        exact pending_append_none base wk.log L hbase2 c3 c4
      refine ⟨w2, L, ?_, c2, ?_, hp2⟩
      · simp only [completeAll, hpend, c1, Option.some_bind]
        cases f with
        | zero => rfl
        | succ f1 => simp only [completeAll, hp2]
      · rw [hfilter]
        rw [List.filterMap_eq_nil_iff]
        exact c4

theorem target_filter (E : Env) (H : HostEnv) (hubs : Nat → Option HubInstance) (l : List Nat)
    (susp : Option Nat) (host n : Nat) :
    (targetOutcome E H hubs l susp host n).2.filterMap wakeupTarget = [] := by
  rw [List.filterMap_eq_nil_iff]
  exact (target_tail E H hubs l susp host n).1

/-- What a successful completion at instance `self` adds to the log. -/
theorem callback_success_log (E : Env) (H : HostEnv) (w : World) (host i : Nat)
    (g : HubGlobal) (hr : ChainReady w host i g) (l1 l2 : List Nat) (self : Nat)
    (hsplit : g.hubList = l1 ++ self :: l2) :
    ∃ w1 L, USB_HostHubRemoteWakeupCallback E H w (some self) true = some w1 ∧
      w1.log = w.log ++ L ∧
      L.filterMap wakeupTarget = (l2.find? (capable w.hubs)).toList ∧
      (∀ hub, w.hubs self = some hub → ∃ hub1, w1.hubs self = some hub1 ∧
        hub1.controlRetry = E.remoteWakeupTimes % 256) ∧
      (l2.find? (capable w.hubs) = none →
        L = (targetOutcome E H w.hubs g.hubList (w.suspendedDevice host) host w.log.length).2 ++
          (if (targetOutcome E H w.hubs g.hubList (w.suspendedDevice host) host
                w.log.length).1 ≠ kStatus_USB_Success
           then [Action.hostEvent (w.suspendedDevice host) HostEvent.kUSB_HostEventNotSuspended]
           else [])) := by
  obtain ⟨hubs1, _, hself, s1, s2⟩ := callback_success_spec E H w host i g hr l1 l2 self hsplit
  cases hfind : l2.find? (capable w.hubs) with
  | some h =>
    obtain ⟨d, _, hcb⟩ := s1 h hfind
    rw [hcb]
    split
    · refine ⟨_, [Action.hubRequest d (HostRequest.setRemoteWakeup h) (H.sendOk w.log.length),
        Action.hostEvent (w.suspendedDevice host) HostEvent.kUSB_HostEventNotSuspended],
        rfl, by simp [deviceCallback], rfl, ?_, fun hx => by cases hx⟩
      intro hub hh
      exact ⟨_, hself hub hh, rfl⟩
    · refine ⟨_, [Action.hubRequest d (HostRequest.setRemoteWakeup h) (H.sendOk w.log.length)],
        rfl, rfl, rfl, ?_, fun hx => by cases hx⟩
      intro hub hh
      exact ⟨_, hself hub hh, rfl⟩
  | none =>
    rw [s2 hfind]
    have tf := target_filter E H w.hubs g.hubList (w.suspendedDevice host) host w.log.length
    split
    · refine ⟨_, _, rfl, ?_, ?_, ?_, fun _ => rfl⟩
      · simp [deviceCallback]
      · rw [List.filterMap_append, tf]
        rfl
      · intro hub hh
        exact ⟨_, hself hub hh, rfl⟩
    · refine ⟨_, _, rfl, ?_, ?_, ?_, fun _ => rfl⟩
      · simp
      · rw [List.filterMap_append, tf]
        rfl
      · intro hub hh
        exact ⟨_, hself hub hh, rfl⟩

/-- C25: with an empty hub list `USB_HostHubSuspendDevice` suspends the bus and
returns the status of the controller. When no instance of a non-empty list
advertises remote wakeup, and when a successful completion arrives at an
instance with no such instance behind it, the calls made are those of
`targetOutcome`: without a suspended device the bus is suspended; otherwise
SET_FEATURE(PORT_SUSPEND) with the port number of the suspended device goes to
the device of the first instance whose address is the device's hub number;
and when no instance has that address nothing is sent and the status is
`kStatus_USB_Error`, which the call returns and the callback turns into a
`kUSB_HostEventNotSuspended` event. -/
theorem C25_suspend_target (E : Env) (H : HostEnv) (w : World) (host i : Nat)
    (g : HubGlobal) (hr : ChainReady w host i g) :
    (∀ gs i0 g0, USB_HostHubGetHubList w.s_HubGlobalArray (some host) = (some i0, gs) →
      gs[i0]? = some g0 → g0.hubList = [] →
      USB_HostHubSuspendDevice E H w (some host) =
        some (H.busControl w.log.length,
          { w with s_HubGlobalArray := gs, log := w.log ++ [Action.busSuspend host] })) ∧
    (g.hubList ≠ [] → (∀ h ∈ g.hubList, capable w.hubs h = false) →
      ∃ w1, USB_HostHubSuspendDevice E H w (some host) =
          some ((targetOutcome E H w.hubs g.hubList (w.suspendedDevice host) host
            w.log.length).1, w1) ∧
        w1.log = w.log ++
          (targetOutcome E H w.hubs g.hubList (w.suspendedDevice host) host w.log.length).2) ∧
    (∀ l1 self l2, g.hubList = l1 ++ self :: l2 → (∀ h ∈ l2, capable w.hubs h = false) →
      ∃ w1, USB_HostHubRemoteWakeupCallback E H w (some self) true = some w1 ∧
        w1.log = w.log ++
          (targetOutcome E H w.hubs g.hubList (w.suspendedDevice host) host w.log.length).2 ++
          (if (targetOutcome E H w.hubs g.hubList (w.suspendedDevice host) host
                w.log.length).1 ≠ kStatus_USB_Success
           then [Action.hostEvent (w.suspendedDevice host) HostEvent.kUSB_HostEventNotSuspended]
           else [])) ∧
    (w.suspendedDevice host = none →
      targetOutcome E H w.hubs g.hubList (w.suspendedDevice host) host w.log.length =
        (H.busControl w.log.length, [Action.busSuspend host])) ∧
    (∀ dev, w.suspendedDevice host = some dev →
      (∀ h4 hub4 d4,
        firstByAddress E w.hubs (H.hubNumber dev % 256) g.hubList = some h4 →
        w.hubs h4 = some hub4 → hub4.deviceHandle = some d4 →
        targetOutcome E H w.hubs g.hubList (w.suspendedDevice host) host w.log.length =
          (sendStatus (H.sendOk w.log.length),
           [Action.hubRequest d4 (HostRequest.setPortSuspend (H.portNumber dev % 256))
             (H.sendOk w.log.length)])) ∧
      ((∀ h ∈ g.hubList, hubAddress E w.hubs h ≠ some (H.hubNumber dev % 256)) →
        targetOutcome E H w.hubs g.hubList (w.suspendedDevice host) host w.log.length =
          (kStatus_USB_Error, []))) := by
  refine ⟨?_, ?_, ?_, ?_, ?_⟩
  · intro gs i0 g0 hl hg he
    exact suspend_empty E H w host i0 gs g0 hl hg he
  · intro hne hnone
    obtain ⟨hubs1, _, _, s2⟩ := suspend_spec E H w host i g hr hne
    exact ⟨_, s2 (all_find_none hnone), rfl⟩
  · intro l1 self l2 hsplit hnone
    obtain ⟨w1, L, h1, h2, _, _, h5⟩ := callback_success_log E H w host i g hr l1 l2 self hsplit
    refine ⟨w1, h1, ?_⟩
    rw [h2, h5 (all_find_none hnone), List.append_assoc]
  · intro hs
    rw [hs]
    rfl
  · intro dev hs
    refine ⟨?_, ?_⟩
    · intro h4 hub4 d4 hf hh hd
      have hdev : deviceOf w.hubs h4 = some d4 := by simp [deviceOf, hh, hd]
      rw [hs]
      simp only [targetOutcome, hf, Option.some_bind, hdev]
    · intro hno
      have hf := (firstByAddress_none E w.hubs (H.hubNumber dev % 256) g.hubList).2 hno
      rw [hs]
      simp only [targetOutcome, hf, Option.none_bind]

/-- A failed completion with retries left sends the request again. -/
theorem callback_failure_retry (E : Env) (H : HostEnv) (w : World) (self host d : Nat)
    (hub : HubInstance) (hh : w.hubs self = some hub) (hhost : hub.hostHandle = some host)
    (hd : hub.deviceHandle = some d) (hretry : hub.controlRetry ≠ 0)
    (hok : H.sendOk w.log.length = true) :
    USB_HostHubRemoteWakeupCallback E H w (some self) false =
      some { w with
        hubs := Function.update w.hubs self
          (some { hub with controlRetry := hub.controlRetry - 1 }),
        log := w.log ++ [Action.hubRequest d (HostRequest.setRemoteWakeup self) true] } := by
  unfold USB_HostHubRemoteWakeupCallback
  simp only [hh]
  split
  · rename_i hnone
    rw [hhost] at hnone
    cases hnone
  · rename_i host1 hsome
    rw [hhost] at hsome
    cases hsome
    simp only [Bool.false_eq_true, if_false, hretry, ne_eq, not_false_eq_true, if_true, hd,
      USB_HostSendHubRequest, hok, Option.map_some', not_true_eq_false]

/-- A failed completion without retries left raises the event. -/
theorem callback_failure_exhausted (E : Env) (H : HostEnv) (w : World) (self host : Nat)
    (hub : HubInstance) (hh : w.hubs self = some hub) (hhost : hub.hostHandle = some host)
    (hretry : hub.controlRetry = 0) :
    USB_HostHubRemoteWakeupCallback E H w (some self) false =
      some (deviceCallback w host HostEvent.kUSB_HostEventNotSuspended) := by
  unfold USB_HostHubRemoteWakeupCallback
  simp only [hh]
  split
  · rename_i hnone
    rw [hhost] at hnone
    cases hnone
  · rename_i host1 hsome
    rw [hhost] at hsome
    cases hsome
    simp only [Bool.false_eq_true, if_false, hretry, ne_eq, not_true_eq_false]

/-- The first `n` failed completions while `n` retries are left. -/
theorem failed_run (E : Env) (H : HostEnv) (self host d : Nat) (hok : ∀ n, H.sendOk n = true) :
    ∀ (n : Nat) (w : World) (hub : HubInstance), w.hubs self = some hub →
      hub.hostHandle = some host → hub.deviceHandle = some d → n ≤ hub.controlRetry →
      ∃ wn hubn, failedCompletions E H self n w = some wn ∧
        wn.log = w.log ++
          List.replicate n (Action.hubRequest d (HostRequest.setRemoteWakeup self) true) ∧
        wn.hubs self = some hubn ∧ hubn.controlRetry = hub.controlRetry - n ∧
        hubn.hostHandle = some host ∧ hubn.deviceHandle = some d ∧
        wn.suspendedDevice = w.suspendedDevice := by
  intro n
  induction n with
  | zero =>
    intro w hub hh hhost hd _
    exact ⟨w, hub, rfl, by simp, hh, rfl, hhost, hd, rfl⟩
  | succ n ih =>
    intro w hub hh hhost hd hle
    have hne : hub.controlRetry ≠ 0 := by omega
    have hcb := callback_failure_retry E H w self host d hub hh hhost hd hne (hok _)
    obtain ⟨wn, hubn, e1, e2, e3, e4, e5, e6, e7⟩ := ih
      { w with
        hubs := Function.update w.hubs self
          (some { hub with controlRetry := hub.controlRetry - 1 }),
        log := w.log ++ [Action.hubRequest d (HostRequest.setRemoteWakeup self) true] }
      { hub with controlRetry := hub.controlRetry - 1 }
      (by simp) hhost hd (by show n ≤ hub.controlRetry - 1; omega)
    refine ⟨wn, hubn, ?_, ?_, e3, ?_, e5, e6, e7⟩
    · simp only [failedCompletions, hcb, Option.some_bind]
      exact e1
    · rw [e2, List.replicate_succ]
      simp
    · rw [e4]
      show hub.controlRetry - 1 - n = hub.controlRetry - (n + 1)
      omega

theorem failed_add (E : Env) (H : HostEnv) (self : Nat) :
    ∀ (n m : Nat) (w : World), failedCompletions E H self (n + m) w =
      (failedCompletions E H self n w).bind (failedCompletions E H self m) := by
  intro n
  induction n with
  | zero => intro m w; simp [failedCompletions]
  | succ n ih =>
    intro m w
    have : n + 1 + m = (n + m) + 1 := by omega
    rw [this]
    simp only [failedCompletions]
    cases USB_HostHubRemoteWakeupCallback E H w (some self) false with
    | none => rfl
    | some w1 => simp only [Option.some_bind]; exact ih m w1

/-- C26: let the remote-wakeup request of instance `self` be accepted every time
and `controlRetry` hold `USB_HOST_HUB_REMOTE_WAKEUP_TIMES`. Each of the first
`USB_HOST_HUB_REMOTE_WAKEUP_TIMES` failed completions sends the request again
and lowers `controlRetry` by one; the next failed completion sends nothing and
raises `kUSB_HostEventNotSuspended` once, with `controlRetry = 0`. A
successful completion at `self` leaves `controlRetry` at
`USB_HOST_HUB_REMOTE_WAKEUP_TIMES`. -/
theorem C26_remote_wakeup_retry (E : Env) (H : HostEnv) (w : World) (self host d : Nat)
    (hub : HubInstance) (hh : w.hubs self = some hub) (hhost : hub.hostHandle = some host)
    (hd : hub.deviceHandle = some d) (hT : E.remoteWakeupTimes < 256)
    (hretry : hub.controlRetry = E.remoteWakeupTimes) (hok : ∀ n, H.sendOk n = true) :
    (∀ n, n ≤ E.remoteWakeupTimes →
      ∃ wn hubn, failedCompletions E H self n w = some wn ∧
        wn.log = w.log ++
          List.replicate n (Action.hubRequest d (HostRequest.setRemoteWakeup self) true) ∧
        wn.hubs self = some hubn ∧ hubn.controlRetry = E.remoteWakeupTimes - n) ∧
    (∃ wl hubl, failedCompletions E H self (E.remoteWakeupTimes + 1) w = some wl ∧
      wl.log = w.log ++
        List.replicate E.remoteWakeupTimes
          (Action.hubRequest d (HostRequest.setRemoteWakeup self) true) ++
        [Action.hostEvent (w.suspendedDevice host) HostEvent.kUSB_HostEventNotSuspended] ∧
      wl.hubs self = some hubl ∧ hubl.controlRetry = 0) ∧
    (∀ (w2 : World) (i : Nat) (g : HubGlobal) (l1 l2 : List Nat) (hub2 : HubInstance),
      ChainReady w2 host i g → g.hubList = l1 ++ self :: l2 → w2.hubs self = some hub2 →
      ∃ w3 hub3, USB_HostHubRemoteWakeupCallback E H w2 (some self) true = some w3 ∧
        w3.hubs self = some hub3 ∧ hub3.controlRetry = E.remoteWakeupTimes) := by
  refine ⟨?_, ?_, ?_⟩
  · intro n hn
    obtain ⟨wn, hubn, e1, e2, e3, e4, _⟩ := failed_run E H self host d hok n w hub hh hhost hd
      (by omega)
    exact ⟨wn, hubn, e1, e2, e3, by rw [e4, hretry]⟩
  · obtain ⟨wn, hubn, e1, e2, e3, e4, e5, _, e7⟩ := failed_run E H self host d hok
      E.remoteWakeupTimes w hub hh hhost hd (by omega)
    have h0 : hubn.controlRetry = 0 := by rw [e4, hretry]; omega
    have hcb := callback_failure_exhausted E H wn self host hubn e3 e5 h0
    refine ⟨deviceCallback wn host HostEvent.kUSB_HostEventNotSuspended, hubn, ?_, ?_, e3, h0⟩
    · rw [failed_add, e1]
      simp only [Option.some_bind, failedCompletions, hcb]
    · simp only [deviceCallback, e2, e7]
  · intro w2 i g l1 l2 hub2 hr hsplit hh2
    obtain ⟨w3, L, h1, _, _, h4, _⟩ := callback_success_log E H w2 host i g hr l1 l2 self hsplit
    obtain ⟨hub3, a1, a2⟩ := h4 hub2 hh2
    exact ⟨w3, hub3, h1, a1, a2.trans (Nat.mod_eq_of_lt hT)⟩

/-- The instances of `detachWorld` are bound to devices. -/
theorem detachWorld_bound : devicesBound detachWorld.hubs [3, 2, 1] := by
  intro h hh
  simp only [List.mem_cons, List.mem_singleton, List.not_mem_nil, or_false] at hh
  rcases hh with rfl | rfl | rfl
  · exact ⟨_, _, rfl, rfl⟩
  · exact ⟨_, _, rfl, rfl⟩
  · exact ⟨_, _, rfl, rfl⟩

/-- The chain of `wakeWorld` is ready. -/
theorem wakeWorld_ready : ChainReady wakeWorld 1 0 wakeRegistry where
  lookup := rfl
  registry := rfl
  nodup := by decide
  bound := by
    intro h hh
    simp only [wakeRegistry, List.mem_cons, List.mem_singleton, List.not_mem_nil,
      or_false] at hh
    rcases hh with rfl | rfl | rfl
    · exact ⟨_, _, rfl, rfl, rfl⟩
    · exact ⟨_, _, rfl, rfl, rfl⟩
    · exact ⟨_, _, rfl, rfl, rfl⟩
  linked := by
    intro g1 hg1 h _ _
    simp only [wakeWorld, detachWorld, List.mem_singleton] at hg1
    rw [hg1]
    rfl

/-- Counterexample to C27 as stated: with the bits 0 and 1 set and the token free,
bit 1 satisfies the stated condition, yet the arrival ends with the accepted
hub-level GET_STATUS: port 1 is not started, the token stays free and
`portProcess` stays 0. -/
theorem C27_port_bit_counterexample :
    bitmapBit (ctxBitmap [3]).hub 1 = true ∧ (ctxBitmap [3]).hubProcess = none ∧
    1 ≤ (ctxBitmap [3]).hub.portCount ∧
    (USB_HostHubProcessData envAccept 0 (ctxBitmap [3])).map
        (fun c => (c.hubProcess, c.hub.portProcess, c.hub.portList, c.log)) =
      some (none, 0, some (List.replicate 4 (portVacant 4)),
        [Action.submit 0 Request.getStatus true]) := by
  decide

/-- Instance of C27 (amended): with the bits 1 and 2 set and the token free the
dispatcher enters the port sub-machine of port 1. -/
theorem C27_lowest_port_bit_witness :
    lowestReady 0 (ctxBitmap [6]) = some 1 ∧
    USB_HostHubProcessData envAccept 0 (ctxBitmap [6]) =
      (if (ctxBitmap [6]).hub.controlTransfer = false then
        USB_HostHubProcessPort envAccept 0
          { ctxBitmap [6] with
            hubProcess := some 0, hub := { (ctxBitmap [6]).hub with portProcess := 1 } }
      else some (USB_HostHubGetInterruptStatus envAccept 0 (ctxBitmap [6]))) :=
  ⟨by decide,
   (C27_lowest_port_bit envAccept 0 (ctxBitmap [6]) (ctxBitmap [6]) (by decide)
      (by decide)).2.1 1 (by decide) (by decide)⟩

/-- Instance of C28: with the bits 0 and 1 set and the token free, the GET_STATUS
is submitted and accepted and no port is served. -/
theorem C28_hub_status_bit_witness :
    ∃ c1, USB_HostHubProcessData envAccept 0 (ctxBitmap [3]) = some c1 ∧
      c1.hub.hubStatus = kHubRunGetStatusDone ∧ c1.hub.primeStatus = kPrimeHubControl ∧
      c1.log = [Action.submit 0 Request.getStatus true] ∧ c1.hubProcess = none ∧
      c1.hub.portProcess = 0 := by
  obtain ⟨c1, h1, h2, h3, h4, h5, h6, _⟩ :=
    ((C28_hub_status_bit envAccept 0 (ctxBitmap [3]) (by decide) (by decide)).2.1
      (by decide)).2.2.1 (by decide)
  exact ⟨c1, h1, h2, h3, h4, h5, h6⟩

/-- Instance of C30: the change word 2 selects `C_HUB_OVER_CURRENT`; the
CLEAR_FEATURE is accepted, and its completion brings the hub to `kHubRunIdle`
with one receive on the interrupt-IN pipe. -/
theorem C30_get_status_done_witness :
    hubChangeFeature (ctxStatusDone [0, 0, 2, 0]).hub = some C_HUB_OVER_CURRENT ∧
    ∃ c1 c2, USB_HostHubProcess envAccept 0 (ctxStatusDone [0, 0, 2, 0]) = some c1 ∧
      c1.log = [Action.submit 0 (Request.clearFeature C_HUB_OVER_CURRENT) true] ∧
      c1.hub.hubStatus = kHubRunClearDone ∧
      hubStep envAccept 0 c1 (HubEvent.controlDone Reply.noData true) = some c2 ∧
      c2.hub.hubStatus = kHubRunIdle ∧
      c2.log = [Action.submit 0 (Request.clearFeature C_HUB_OVER_CURRENT) true,
        rearm 0 4 true] := by
  obtain ⟨_, c1, h1, h2, _, _⟩ :=
    C30_get_status_done envAccept 0 (ctxStatusDone [0, 0, 2, 0]) rfl rfl (by decide)
  obtain ⟨a1, a2, _, a4⟩ := h2 C_HUB_OVER_CURRENT (by decide) rfl
  obtain ⟨c2, b1, b2, b3⟩ := a4 envAccept Reply.noData
  refine ⟨by decide, c1, c2, h1, a1, a2, b1, b2, ?_⟩
  rw [b3, a1]
  rfl

/-- Instance of C21: removing port 1 of the hub with address 6 in `detachWorld`
clears the port, calls the port reset and returns `kStatus_USB_Error`. -/
theorem C21_remove_port_error_witness :
    (USB_HostHubRemovePort envAccept detachWorld (some 1) 6 1).map
        (fun r => (r.1, r.2.log, (r.2.hubs 2).map (fun hub => hub.portList))) =
      some (kStatus_USB_Error, [Action.sendPortReset 2 1],
        some (some [{ portOccupied 9 with deviceHandle := none, portStatus := kPortRunInvalid },
          portVacant 4, portOccupied 8, portVacant 4])) := by
  have h := ((C21_remove_port_error envAccept detachWorld (some 1) 6 1).2.2 0
    detachWorld.s_HubGlobalArray wakeRegistry rfl rfl).2 2
    (hubOn 6 [portOccupied 9, portVacant 4, portOccupied 8, portVacant 4])
    [portOccupied 9, portVacant 4, portOccupied 8, portVacant 4] (portOccupied 9)
    (by decide) rfl rfl (by decide) rfl
  rw [h]
  rfl

/-- Instance of C22: in `detachWorld` address 7 belongs to a high-speed hub and
is returned, address 6 belongs to a full-speed hub whose high-speed hub number
7 is returned, and address 4 belongs to no hub. -/
theorem C22_hs_hub_number_witness :
    (USB_HostHubGetHsHubNumber envSpeed detachWorld (some 1) 7).map Prod.fst = some 7 ∧
    (USB_HostHubGetHsHubNumber envSpeed detachWorld (some 1) 6).map Prod.fst = some 7 ∧
    (USB_HostHubGetHsHubNumber envSpeed detachWorld (some 1) 4).map Prod.fst = some 0 := by
  have k7 := ((C22_hs_hub_number envSpeed detachWorld (some 1) 7).2 0
    detachWorld.s_HubGlobalArray wakeRegistry rfl rfl detachWorld_bound).1 3
    (hubOn 7 (List.replicate 4 (portVacant 4))) 7 (by decide) rfl rfl
  have k6 := ((C22_hs_hub_number envSpeed detachWorld (some 1) 6).2 0
    detachWorld.s_HubGlobalArray wakeRegistry rfl rfl detachWorld_bound).1 2
    (hubOn 6 [portOccupied 9, portVacant 4, portOccupied 8, portVacant 4]) 6 (by decide) rfl rfl
  have k4 := ((C22_hs_hub_number envSpeed detachWorld (some 1) 4).2 0
    detachWorld.s_HubGlobalArray wakeRegistry rfl rfl detachWorld_bound).2 (by decide)
  rw [k7.1 (by decide), k6.2 (by decide), k4]
  exact ⟨rfl, rfl, rfl⟩

/-- Instance of C23: for the full-speed hub with address 6 the port query returns
the hub number 7 and agrees with the hub-number query; for the high-speed hub
with address 7 it returns the port 3. -/
theorem C23_hs_hub_port_witness :
    (USB_HostHubGetHsHubPort envSpeed detachWorld (some 1) 6 3).map Prod.fst = some 7 ∧
    USB_HostHubGetHsHubPort envSpeed detachWorld (some 1) 6 3 =
      USB_HostHubGetHsHubNumber envSpeed detachWorld (some 1) 6 ∧
    (USB_HostHubGetHsHubPort envSpeed detachWorld (some 1) 7 3).map Prod.fst = some 3 := by
  have k6 := (C23_hs_hub_port envSpeed detachWorld (some 1) 6 3 0
    detachWorld.s_HubGlobalArray wakeRegistry rfl rfl detachWorld_bound).1 2
    (hubOn 6 [portOccupied 9, portVacant 4, portOccupied 8, portVacant 4]) 6 (by decide) rfl rfl
  have k7 := (C23_hs_hub_port envSpeed detachWorld (some 1) 7 3 0
    detachWorld.s_HubGlobalArray wakeRegistry rfl rfl detachWorld_bound).1 3
    (hubOn 7 (List.replicate 4 (portVacant 4))) 7 (by decide) rfl rfl
  obtain ⟨a1, a2, _⟩ := k6.1 (by decide)
  refine ⟨by rw [a1]; rfl, a2, ?_⟩
  rw [k7.2 (by decide)]
  rfl

/-- Instance of C25: in `wakeWorld` the successful completion at the last
instance sends SET_FEATURE(PORT_SUSPEND) for port 1 to the device 6, the
parent hub of the suspended device 9. -/
theorem C25_suspend_target_witness :
    ∃ w1, USB_HostHubRemoteWakeupCallback envLowPower hostEnvOk wakeWorld (some 1) true =
        some w1 ∧
      w1.log = [Action.hubRequest 6 (HostRequest.setPortSuspend 1) true] := by
  obtain ⟨w1, h1, h2⟩ :=
    (C25_suspend_target envLowPower hostEnvOk wakeWorld 1 0 wakeRegistry wakeWorld_ready).2.2.1
      [3, 2] 1 [] rfl (by decide)
  exact ⟨w1, h1, h2.trans (by decide)⟩

/-- Instance of C26: with three retries, four failed completions at instance 3
send the request three more times and then raise `kUSB_HostEventNotSuspended`. -/
theorem C26_remote_wakeup_retry_witness :
    ∃ wl hubl, failedCompletions envLowPower hostEnvOk 3 4 wakeWorld = some wl ∧
      wl.log = [Action.hubRequest 7 (HostRequest.setRemoteWakeup 3) true,
        Action.hubRequest 7 (HostRequest.setRemoteWakeup 3) true,
        Action.hubRequest 7 (HostRequest.setRemoteWakeup 3) true,
        Action.hostEvent (some 9) HostEvent.kUSB_HostEventNotSuspended] ∧
      wl.hubs 3 = some hubl ∧ hubl.controlRetry = 0 := by
  obtain ⟨wl, hubl, h1, h2, h3, h4⟩ :=
    (C26_remote_wakeup_retry envLowPower hostEnvOk wakeWorld 3 1 7
      { hubOn 7 (List.replicate 4 (portVacant 4)) with supportRemoteWakeup := 1,
                                                        controlRetry := 3 }
      rfl rfl rfl (by decide) rfl (fun _ => rfl)).2.1
  exact ⟨wl, hubl, h1, h2.trans (by decide), h3, h4⟩

/-! ## Bring-up details, stale change bits, retries and termination -/

/-- Masking with 0x60 and shifting right by 5 extracts the bits 5 and 6. -/
theorem thinkField_bits (x : Nat) : (x &&& 0x60) >>> 5 = x / 32 % 4 := by
  apply Nat.eq_of_testBit_eq
  intro i
  have h96 : Nat.testBit 96 (5 + i) = decide (i < 2) := by
    match i with
    | 0 => rfl
    | 1 => rfl
    | k + 2 =>
      rw [Nat.testBit_lt_two_pow]
      · simp
      · calc 96 < 2 ^ 7 := by decide
          _ ≤ 2 ^ (5 + (k + 2)) := Nat.pow_le_pow_right (by decide) (by omega)
  have hdiv : x / 32 % 4 = (x >>> 5) % 2 ^ 2 := by rw [Nat.shiftRight_eq_div_pow]; rfl
  rw [hdiv, Nat.testBit_shiftRight, Nat.testBit_and, h96, Nat.testBit_mod_two_pow,
    Nat.testBit_shiftRight, Bool.and_comm]

/-- The think-time field is the two-bit number made of the bits 5 and 6 of the
first byte of `wHubCharacteristics`. -/
theorem thinkField_eq (hub : HubInstance) :
    thinkField hub = (hub.hubDescriptor.getD 3 0 % 256) / 32 % 4 := by
  unfold thinkField USB_HOST_HUB_DESCRIPTOR_CHARACTERISTICS_THINK_TIME_MASK
    USB_HOST_HUB_DESCRIPTOR_CHARACTERISTICS_THINK_TIME_SHIFT
  exact thinkField_bits _

/-- The stored think time is that of the parent plus `8 * (f + 1)`, modulo 2^16. -/
theorem thinkTimeOf_eq (E : Env) (hub : HubInstance) :
    thinkTimeOf E hub =
      (getInfo E hub.deviceHandle kUSB_HostGetHubThinkTime 0 + 8 * (thinkField hub + 1))
        % 2 ^ 16 := by
  have hf := thinkField_eq hub
  have hlt : thinkField hub < 4 := by rw [hf]; exact Nat.mod_lt _ (by decide)
  unfold thinkTimeOf
  show (_ % 2 ^ 16 + ((thinkField hub + 1) <<< 3) % 2 ^ 32 % 2 ^ 16) % 2 ^ 16 = _
  rw [Nat.shiftLeft_eq]
  omega

/-- The step from `kHubRunGetDescriptor7` always ends, with the think time and the port count
written, and logs at most the second descriptor read. -/
theorem descriptor7_step (E : Env) (self : Nat) (c : HubCtx)
    (hst : c.hub.hubStatus = kHubRunGetDescriptor7) :
    ∃ c1, USB_HostHubProcess E self c = some c1 ∧
      c1.hub.totalThinktime = thinkTimeOf E c.hub ∧ c1.hub.portCount = bNbrPorts c.hub ∧
      (bNbrPorts c.hub ≤ E.maxPort →
        c1.log = c.log ++ [Action.submit self
          (Request.getDescriptor ((7 + (bNbrPorts c.hub >>> 3) + 1) % 2 ^ 16))
          (E.accept c.log.length self
            (Request.getDescriptor ((7 + (bNbrPorts c.hub >>> 3) + 1) % 2 ^ 16)))]) ∧
      (E.maxPort < bNbrPorts c.hub → c1.log = c.log) := by
  by_cases hcap : bNbrPorts c.hub > E.maxPort
  · have hres : USB_HostHubProcess E self c = some { c with hub := { c.hub with
        totalThinktime := thinkTimeOf E c.hub, portCount := bNbrPorts c.hub } } := by
      unfold bNbrPorts at hcap
      unfold USB_HostHubProcess hubSwitch
      simp only [hst]
      rw [if_pos hcap]
      rfl
    rw [hres]
    exact ⟨_, rfl, rfl, rfl, fun h => by omega, fun _ => rfl⟩
  · have hle : bNbrPorts c.hub ≤ E.maxPort := by omega
    cases hacc : E.accept c.log.length self
        (Request.getDescriptor ((7 + (bNbrPorts c.hub >>> 3) + 1) % 2 ^ 16)) with
    | true =>
      rw [process_descriptor7 E self c hst hle hacc]
      refine ⟨_, rfl, rfl, rfl, fun _ => ?_, fun h => by omega⟩
      show c.log ++ [Action.submit self _ (accepted E self _ _)] = _
      rw [show accepted E self
        (Request.getDescriptor ((7 + (bNbrPorts c.hub >>> 3) + 1) % 2 ^ 16))
        (setHubStatus { c with hub := { c.hub with
            totalThinktime := thinkTimeOf E c.hub, portCount := bNbrPorts c.hub } }
          kHubRunSetPortPower) = true from hacc]
    | false =>
      have hres : USB_HostHubProcess E self c = some (setHubStatus (submitted E self
          (Request.getDescriptor ((7 + (bNbrPorts c.hub >>> 3) + 1) % 2 ^ 16))
          (setHubStatus { c with hub := { c.hub with
              totalThinktime := thinkTimeOf E c.hub, portCount := bNbrPorts c.hub } }
            kHubRunSetPortPower)) kHubRunInvalid) := by
        unfold bNbrPorts at hle hacc
        unfold USB_HostHubProcess hubSwitch
        simp only [hst]
        rw [if_neg (by omega)]
        unfold hubRequest
        simp only [accepted, setHubStatus, hacc, Option.map_some', Bool.false_eq_true,
          if_false]
        rfl
      rw [hres]
      refine ⟨_, rfl, rfl, rfl, fun _ => ?_, fun h => by omega⟩
      show c.log ++ [Action.submit self _ (accepted E self _ _)] = _
      rw [show accepted E self
        (Request.getDescriptor ((7 + (bNbrPorts c.hub >>> 3) + 1) % 2 ^ 16))
        (setHubStatus { c with hub := { c.hub with
            totalThinktime := thinkTimeOf E c.hub, portCount := bNbrPorts c.hub } }
          kHubRunSetPortPower) = false from hacc]

/-- C31: the step from `kHubRunGetDescriptor7` always returns and stores in
`totalThinktime` the think time of the parent plus `8 * (f + 1)`, reduced modulo
2^16, where `f` is the two-bit think-time field of the first byte of
`wHubCharacteristics` (bits 5 and 6); the amount added is 8, 16, 24 or 32. -/
theorem C31_think_time (E : Env) (self : Nat) (c : HubCtx)
    (hst : c.hub.hubStatus = kHubRunGetDescriptor7) :
    ∃ c1, USB_HostHubProcess E self c = some c1 ∧
      c1.hub.totalThinktime =
        (getInfo E c.hub.deviceHandle kUSB_HostGetHubThinkTime 0 + 8 * (thinkField c.hub + 1))
          % 2 ^ 16 ∧
      thinkField c.hub = (c.hub.hubDescriptor.getD 3 0 % 256) / 32 % 4 ∧
      (8 * (thinkField c.hub + 1) = 8 ∨ 8 * (thinkField c.hub + 1) = 16 ∨
        8 * (thinkField c.hub + 1) = 24 ∨ 8 * (thinkField c.hub + 1) = 32) := by
  obtain ⟨c1, h1, h2, _⟩ := descriptor7_step E self c hst
  have hf := thinkField_eq c.hub
  have hlt : thinkField c.hub < 4 := by rw [hf]; exact Nat.mod_lt _ (by decide)
  refine ⟨c1, h1, by rw [h2, thinkTimeOf_eq], hf, ?_⟩
  omega

/-- C32 (evaluation at a counterexample): for a 7-byte descriptor that reports 4
ports, within the cap of 7, the second GET_DESCRIPTOR asks for 8 bytes, while
7 plus the ceiling of 4/8 plus 1 is 9. -/
theorem C32_length_counterexample :
    bNbrPorts (ctxDescriptor7 4 kPrimeNone).hub = 4 ∧ 4 ≤ envAccept.maxPort ∧
    (USB_HostHubProcess envAccept 7 (ctxDescriptor7 4 kPrimeNone)).map (fun c1 => c1.log) =
      some [Action.submit 7 (Request.getDescriptor 8) true] ∧
    7 + (4 + 7) / 8 + 1 = 9 := by
  decide

/-- C32 (as the code has it): when the 7-byte descriptor reports `N` ports within
the cap, the step returns and the request it logs is a GET_DESCRIPTOR of
`7 + N / 8 + 1` bytes with the quotient rounded down, which is 7 plus the
ceiling of `(N + 1) / 8`; it equals 7 plus the ceiling of `N / 8` plus 1
exactly when `N` is a multiple of 8. -/
theorem C32_second_descriptor_length (E : Env) (self : Nat) (c : HubCtx)
    (hst : c.hub.hubStatus = kHubRunGetDescriptor7) (hcap : bNbrPorts c.hub ≤ E.maxPort) :
    ∃ c1, USB_HostHubProcess E self c = some c1 ∧
      c1.log = c.log ++ [Action.submit self
        (Request.getDescriptor (7 + bNbrPorts c.hub / 8 + 1))
        (E.accept c.log.length self (Request.getDescriptor (7 + bNbrPorts c.hub / 8 + 1)))] ∧
      7 + bNbrPorts c.hub / 8 + 1 = 7 + (bNbrPorts c.hub + 1 + 7) / 8 ∧
      (7 + bNbrPorts c.hub / 8 + 1 = 7 + (bNbrPorts c.hub + 7) / 8 + 1 ↔
        bNbrPorts c.hub % 8 = 0) := by
  obtain ⟨c1, h1, _, _, h4, _⟩ := descriptor7_step E self c hst
  have hlt : bNbrPorts c.hub < 256 := Nat.mod_lt _ (by decide)
  have hlen : (7 + (bNbrPorts c.hub >>> 3) + 1) % 2 ^ 16 = 7 + bNbrPorts c.hub / 8 + 1 := by
    rw [Nat.shiftRight_eq_div_pow]
    omega
  refine ⟨c1, h1, ?_, by omega, by omega⟩
  rw [h4 hcap, hlen]

/-- A port below `n` of the list whose first `n` ports have been reset. -/
theorem resetPort_take (l : List PortInstance) (n i : Nat) (hi : i < n) (hn : n ≤ l.length) :
    ((l.take n).map resetPort ++ l.drop n)[i]? = (l[i]?).map resetPort := by
  have h1 : i < ((l.take n).map resetPort).length := by simp; omega
  rw [List.getElem?_append_left h1]
  simp [List.getElem?_take, hi]

/-- The function `USB_HostHubGetInterruptStatus` changes neither the port list,
`portProcess`, the token nor the suspended device. -/
theorem gis_ports (E : Env) (self : Nat) (c : HubCtx) :
    (USB_HostHubGetInterruptStatus E self c).hub.portList = c.hub.portList ∧
    (USB_HostHubGetInterruptStatus E self c).hub.portProcess = c.hub.portProcess ∧
    (USB_HostHubGetInterruptStatus E self c).hubProcess = c.hubProcess ∧
    (USB_HostHubGetInterruptStatus E self c).suspendedDevice = c.suspendedDevice := by
  unfold USB_HostHubGetInterruptStatus
  split
  · exact ⟨rfl, rfl, rfl, rfl⟩
  · simp only []
    split
    · exact ⟨rfl, rfl, rfl, rfl⟩
    · exact ⟨rfl, rfl, rfl, rfl⟩

/-- The `primeStatus` after `USB_HostHubGetInterruptStatus` on an unprimed hub. -/
theorem gis_prime (E : Env) (self : Nat) (c : HubCtx) (hprime : c.hub.primeStatus = kPrimeNone) :
    (USB_HostHubGetInterruptStatus E self c).hub.primeStatus =
      (if E.accept c.log.length self (Request.interruptRecv ((c.hub.portCount >>> 3) + 1))
       then kPrimeInterrupt else kPrimeNone) := by
  unfold USB_HostHubGetInterruptStatus
  simp only [hprime, ne_eq, not_true_eq_false, if_false, accepted]
  split
  · rfl
  · exact hprime

/-- C33: when the last SET_FEATURE(PORT_POWER) has completed with success (state
`kHubRunSetPortPower`, `portIndex` has reached `portCount`), the step returns;
afterwards every port below `portCount` has no device, has
`USB_HOST_HUB_PORT_RESET_TIMES` resets left and is in `kPortRunWaitPortChange`,
`portProcess` is 0, the hub is in `kHubRunIdle`, the interrupt-IN receive has
been submitted, and `primeStatus` is `kPrimeInterrupt` when it was accepted and
`kPrimeNone` otherwise. -/
theorem C33_port_power_finish (E : Env) (self : Nat) (c : HubCtx) (l : List PortInstance)
    (reply : Reply)
    (hinv : c.hub.invalid ≠ 1) (hprime : c.hub.primeStatus = kPrimeHubControl)
    (hst : c.hub.hubStatus = kHubRunSetPortPower) (hl : c.hub.portList = some l)
    (hidx : c.hub.portCount ≤ c.hub.portIndex) (hlen : c.hub.portCount ≤ l.length) :
    ∃ c1, hubStep E self c (HubEvent.controlDone reply true) = some c1 ∧
      (∀ i, i < c.hub.portCount → ∃ p, portAt c1.hub i = some p ∧ p.deviceHandle = none ∧
        p.resetCount = USB_HOST_HUB_PORT_RESET_TIMES ∧ p.portStatus = kPortRunWaitPortChange) ∧
      c1.hub.portProcess = 0 ∧ c1.hub.hubStatus = kHubRunIdle ∧
      c1.log = c.log ++ [rearm self c.hub.portCount
        (E.accept c.log.length self (Request.interruptRecv ((c.hub.portCount >>> 3) + 1)))] ∧
      c1.hub.primeStatus =
        (if E.accept c.log.length self (Request.interruptRecv ((c.hub.portCount >>> 3) + 1))
         then kPrimeInterrupt else kPrimeNone) := by
  obtain ⟨a1, a2, a3, a4, a5, a6, _⟩ := arrive_control reply c.hub
  rw [hubStep_hubControl E self c reply hinv hprime]
  rw [process_power_done E self _ l (by simpa [setPrime] using a1.trans hst)
    (by simpa [setPrime] using a5.trans hl)
    (by simp only [setPrime, a6, a4]; omega) (by simpa [setPrime, a4] using hlen)]
  obtain ⟨g1, g2⟩ := gis_idle E self (setHubStatus
    { setPrime { c with hub := (HubEvent.controlDone reply true).arrive c.hub } kPrimeNone with
      hub := { (setPrime { c with hub := (HubEvent.controlDone reply true).arrive c.hub }
          kPrimeNone).hub with
        portProcess := 0,
        portList := some ((l.take (setPrime { c with
            hub := (HubEvent.controlDone reply true).arrive c.hub } kPrimeNone).hub.portCount).map
            resetPort ++ l.drop (setPrime { c with
            hub := (HubEvent.controlDone reply true).arrive c.hub } kPrimeNone).hub.portCount),
        hubStatus := kHubRunIdle } } kHubRunIdle) rfl
  obtain ⟨p1, p2, _, _⟩ := gis_ports E self (setHubStatus
    { setPrime { c with hub := (HubEvent.controlDone reply true).arrive c.hub } kPrimeNone with
      hub := { (setPrime { c with hub := (HubEvent.controlDone reply true).arrive c.hub }
          kPrimeNone).hub with
        portProcess := 0,
        portList := some ((l.take (setPrime { c with
            hub := (HubEvent.controlDone reply true).arrive c.hub } kPrimeNone).hub.portCount).map
            resetPort ++ l.drop (setPrime { c with
            hub := (HubEvent.controlDone reply true).arrive c.hub } kPrimeNone).hub.portCount),
        hubStatus := kHubRunIdle } } kHubRunIdle)
  have q := gis_prime E self (setHubStatus
    { setPrime { c with hub := (HubEvent.controlDone reply true).arrive c.hub } kPrimeNone with
      hub := { (setPrime { c with hub := (HubEvent.controlDone reply true).arrive c.hub }
          kPrimeNone).hub with
        portProcess := 0,
        portList := some ((l.take (setPrime { c with
            hub := (HubEvent.controlDone reply true).arrive c.hub } kPrimeNone).hub.portCount).map
            resetPort ++ l.drop (setPrime { c with
            hub := (HubEvent.controlDone reply true).arrive c.hub } kPrimeNone).hub.portCount),
        hubStatus := kHubRunIdle } } kHubRunIdle) rfl
  refine ⟨_, rfl, ?_, ?_, ?_, ?_, ?_⟩
  · intro i hi
    have hil : i < l.length := by omega
    refine ⟨resetPort l[i], ?_, rfl, rfl, rfl⟩
    unfold portAt
    rw [p1]
    show ((l.take ((HubEvent.controlDone reply true).arrive c.hub).portCount).map resetPort ++
      l.drop ((HubEvent.controlDone reply true).arrive c.hub).portCount)[i]? = _
    rw [a4, resetPort_take l c.hub.portCount i hi hlen]
    simp [hil]
  · rw [p2]; rfl
  · rw [g1]; rfl
  · rw [g2]
    show c.log ++ [rearm self ((HubEvent.controlDone reply true).arrive c.hub).portCount
      (E.accept c.log.length self (Request.interruptRecv
        ((((HubEvent.controlDone reply true).arrive c.hub).portCount >>> 3) + 1)))] = _
    rw [a4]
  · rw [q]
    show (if E.accept c.log.length self (Request.interruptRecv
        ((((HubEvent.controlDone reply true).arrive c.hub).portCount >>> 3) + 1)) = true
      then kPrimeInterrupt else kPrimeNone) = _
    rw [a4]

/-- The attach sub-machine on a vacant port: the `switch`, then the recover path. -/
theorem processPort_attach (E : Env) (self : Nat) (c : HubCtx) (port : PortInstance)
    (hcur : currentPort c.hub = some port) (hvac : port.deviceHandle = none) :
    USB_HostHubProcessPort E self c =
      some (if (attachSwitch E self port c).processSuccess = true then
          storePort (c.hub.portProcess - 1) (attachSwitch E self port c).port
            (attachSwitch E self port c).ctx
        else
          storePort (c.hub.portProcess - 1)
            { (attachSwitch E self port c).port with
              portStatus := kPortRunWaitPortChange,
              resetCount := USB_HOST_HUB_PORT_RESET_TIMES }
            (USB_HostHubGetInterruptStatus E self
              { (attachSwitch E self port c).ctx with
                hub := { (attachSwitch E self port c).ctx.hub with portProcess := 0 },
                hubProcess := none })) := by
  unfold USB_HostHubProcessPort USB_HostHubProcessPortAttach
  simp only [hcur, Option.some_bind, hvac, if_true, Option.map_some']

/-- Storing into the slot of the current port of `c` in a state with the same port list. -/
theorem stored_port (c cx : HubCtx) (port q : PortInstance)
    (hcur : currentPort c.hub = some port) (hl : cx.hub.portList = c.hub.portList) :
    portAt (storePort (c.hub.portProcess - 1) q cx).hub (c.hub.portProcess - 1) = some q := by
  obtain ⟨l, h1, h2⟩ := portAt_lt (currentPort_some hcur).2
  exact portAt_storePort ⟨l, hl.trans h1, h2⟩

/-- No stale feature is selected exactly when none of the three bits is set. -/
theorem staleFeature_zero (s : Nat) :
    staleFeature s = 0 ↔ (bitSet C_PORT_RESET s = false ∧ bitSet C_PORT_ENABLE s = false ∧
      bitSet C_PORT_OVER_CURRENT s = false) := by
  unfold staleFeature
  cases bitSet C_PORT_RESET s <;> cases bitSet C_PORT_ENABLE s <;>
    cases bitSet C_PORT_OVER_CURRENT s <;>
    simp [C_PORT_RESET, C_PORT_ENABLE, C_PORT_OVER_CURRENT]

/-- The `switch` of the attach sub-machine in `kPortRunCheckCPortConnection` when
neither `C_PORT_CONNECTION` nor `PORT_CONNECTION` is set. -/
theorem attachSwitch_stale (E : Env) (self : Nat) (c : HubCtx) (port : PortInstance)
    (hst : port.portStatus = kPortRunCheckCPortConnection)
    (hcc : bitSet C_PORT_CONNECTION
      (USB_LONG_FROM_LITTLE_ENDIAN_ADDRESS c.hub.portStatusBuffer) = false)
    (hpc : bitSet PORT_CONNECTION
      (USB_LONG_FROM_LITTLE_ENDIAN_ADDRESS c.hub.portStatusBuffer) = false) :
    attachSwitch E self port c =
      (if staleFeature (USB_LONG_FROM_LITTLE_ENDIAN_ADDRESS c.hub.portStatusBuffer) ≠ 0 then
        portRequest E self
          (Request.clearPortFeature c.hub.portProcess
            (staleFeature (USB_LONG_FROM_LITTLE_ENDIAN_ADDRESS c.hub.portStatusBuffer)))
          { port with portStatus := kPortRunWaitPortChange } c
      else { port := port, ctx := c, processSuccess := false }) := by
  unfold attachSwitch staleFeature
  simp only [hst, hcc, hpc, Bool.false_eq_true, if_false]

/-- C34 (evaluation at a counterexample): port 2 is vacant in
`kPortRunCheckCPortConnection` and the status word has only `C_PORT_SUSPEND`
set; the step issues no CLEAR_FEATURE: its only logged call is the re-arming
of the interrupt pipe, the port is back in `kPortRunWaitPortChange` and the
token is released. -/
theorem C34_suspend_bit_counterexample :
    bitSet C_PORT_SUSPEND (USB_LONG_FROM_LITTLE_ENDIAN_ADDRESS [0, 0, 4, 0]) = true ∧
    (USB_HostHubProcessPort envAccept 7
        (ctxAtPort [portVacant 4, portIn kPortRunCheckCPortConnection 4 0] [0, 0, 4, 0])).map
        (fun c1 => (c1.log, portAt c1.hub 1, c1.hubProcess, c1.hub.portProcess)) =
      some ([Action.submit 7 (Request.interruptRecv 1) true], some (portVacant 4), none, 0) := by
  decide

/-- C34 (as the code has it): for a vacant port in `kPortRunCheckCPortConnection`
and a status word with neither `C_PORT_CONNECTION` nor `PORT_CONNECTION` set, the
step returns with the port in `kPortRunWaitPortChange`. When one of
`C_PORT_RESET`, `C_PORT_ENABLE`, `C_PORT_OVER_CURRENT` is set, a CLEAR_FEATURE of
the first of them in that order is submitted (followed by the re-arming only
when it is rejected); when none of the three is set, whatever other bits the
word has, no CLEAR_FEATURE is issued: the recover path releases the token,
restores the reset counter and re-arms the interrupt pipe. -/
theorem C34_stale_change_bits (E : Env) (self : Nat) (c : HubCtx) (port : PortInstance)
    (hcur : currentPort c.hub = some port) (hvac : port.deviceHandle = none)
    (hst : port.portStatus = kPortRunCheckCPortConnection)
    (hprime : c.hub.primeStatus = kPrimeNone)
    (hcc : bitSet C_PORT_CONNECTION
      (USB_LONG_FROM_LITTLE_ENDIAN_ADDRESS c.hub.portStatusBuffer) = false)
    (hpc : bitSet PORT_CONNECTION
      (USB_LONG_FROM_LITTLE_ENDIAN_ADDRESS c.hub.portStatusBuffer) = false) :
    ∃ c1 port1, USB_HostHubProcessPort E self c = some c1 ∧
      portAt c1.hub (c.hub.portProcess - 1) = some port1 ∧
      port1.portStatus = kPortRunWaitPortChange ∧
      (staleFeature (USB_LONG_FROM_LITTLE_ENDIAN_ADDRESS c.hub.portStatusBuffer) ≠ 0 →
        c1.log = c.log ++
          Action.submit self (Request.clearPortFeature c.hub.portProcess
              (staleFeature (USB_LONG_FROM_LITTLE_ENDIAN_ADDRESS c.hub.portStatusBuffer)))
            (E.accept c.log.length self (Request.clearPortFeature c.hub.portProcess
              (staleFeature (USB_LONG_FROM_LITTLE_ENDIAN_ADDRESS c.hub.portStatusBuffer)))) ::
          (if E.accept c.log.length self (Request.clearPortFeature c.hub.portProcess
              (staleFeature (USB_LONG_FROM_LITTLE_ENDIAN_ADDRESS c.hub.portStatusBuffer)))
           then []
           else [rearm self c.hub.portCount (E.accept (c.log.length + 1) self
             (Request.interruptRecv ((c.hub.portCount >>> 3) + 1)))])) ∧
      (staleFeature (USB_LONG_FROM_LITTLE_ENDIAN_ADDRESS c.hub.portStatusBuffer) = 0 →
        c1.log = c.log ++ [rearm self c.hub.portCount (E.accept c.log.length self
          (Request.interruptRecv ((c.hub.portCount >>> 3) + 1)))] ∧
        c1.hubProcess = none ∧ c1.hub.portProcess = 0 ∧
        port1.resetCount = USB_HOST_HUB_PORT_RESET_TIMES) ∧
      (staleFeature (USB_LONG_FROM_LITTLE_ENDIAN_ADDRESS c.hub.portStatusBuffer) = 0 ↔
        (bitSet C_PORT_RESET (USB_LONG_FROM_LITTLE_ENDIAN_ADDRESS c.hub.portStatusBuffer)
            = false ∧
         bitSet C_PORT_ENABLE (USB_LONG_FROM_LITTLE_ENDIAN_ADDRESS c.hub.portStatusBuffer)
            = false ∧
         bitSet C_PORT_OVER_CURRENT (USB_LONG_FROM_LITTLE_ENDIAN_ADDRESS c.hub.portStatusBuffer)
            = false)) := by
  by_cases hf : staleFeature (USB_LONG_FROM_LITTLE_ENDIAN_ADDRESS c.hub.portStatusBuffer) = 0
  · have hsw : attachSwitch E self port c = { port := port, ctx := c, processSuccess := false } := by
      rw [attachSwitch_stale E self c port hst hcc hpc, if_neg (fun h => h hf)]
    rw [processPort_attach E self c port hcur hvac, hsw]
    simp only [Bool.false_eq_true, if_false]
    obtain ⟨g1, g2⟩ := gis_idle E self
      { c with hub := { c.hub with portProcess := 0 }, hubProcess := none } hprime
    obtain ⟨p1, p2, p3, _⟩ := gis_ports E self
      { c with hub := { c.hub with portProcess := 0 }, hubProcess := none }
    refine ⟨_, _, rfl, stored_port c _ port _ hcur p1, rfl, fun h => absurd hf h, fun _ => ?_,
      staleFeature_zero _⟩
    exact ⟨g2, p3, p2, rfl⟩
  · cases hacc : E.accept c.log.length self (Request.clearPortFeature c.hub.portProcess
        (staleFeature (USB_LONG_FROM_LITTLE_ENDIAN_ADDRESS c.hub.portStatusBuffer))) with
    | true =>
      have ha : accepted E self (Request.clearPortFeature c.hub.portProcess
        (staleFeature (USB_LONG_FROM_LITTLE_ENDIAN_ADDRESS c.hub.portStatusBuffer))) c = true :=
        hacc
      have hsw : attachSwitch E self port c =
          { port := { port with portStatus := kPortRunWaitPortChange },
            ctx := setPrime (submitted E self (Request.clearPortFeature c.hub.portProcess
              (staleFeature (USB_LONG_FROM_LITTLE_ENDIAN_ADDRESS c.hub.portStatusBuffer))) c)
              kPrimePortControl,
            processSuccess := true } := by
        rw [attachSwitch_stale E self c port hst hcc hpc, if_pos hf]
        unfold portRequest
        rw [if_pos ha]
      rw [processPort_attach E self c port hcur hvac, hsw]
      simp only [if_true]
      refine ⟨_, _, rfl, stored_port c _ port _ hcur rfl, rfl, fun _ => ?_,
        fun h => absurd h hf, staleFeature_zero _⟩
      show c.log ++ [Action.submit self _ (accepted E self _ c)] = _
      rw [ha]
    | false =>
      have ha : accepted E self (Request.clearPortFeature c.hub.portProcess
        (staleFeature (USB_LONG_FROM_LITTLE_ENDIAN_ADDRESS c.hub.portStatusBuffer))) c = false :=
        hacc
      have hsw : attachSwitch E self port c =
          { port := { port with portStatus := kPortRunWaitPortChange },
            ctx := submitted E self (Request.clearPortFeature c.hub.portProcess
              (staleFeature (USB_LONG_FROM_LITTLE_ENDIAN_ADDRESS c.hub.portStatusBuffer))) c,
            processSuccess := false } := by
        rw [attachSwitch_stale E self c port hst hcc hpc, if_pos hf]
        unfold portRequest
        rw [if_neg (by rw [ha]; exact Bool.false_ne_true)]
      rw [processPort_attach E self c port hcur hvac, hsw]
      simp only [Bool.false_eq_true, if_false]
      obtain ⟨g1, g2⟩ := gis_idle E self
        { submitted E self (Request.clearPortFeature c.hub.portProcess
            (staleFeature (USB_LONG_FROM_LITTLE_ENDIAN_ADDRESS c.hub.portStatusBuffer))) c with
          hub := { (submitted E self (Request.clearPortFeature c.hub.portProcess
            (staleFeature (USB_LONG_FROM_LITTLE_ENDIAN_ADDRESS c.hub.portStatusBuffer))) c).hub
              with portProcess := 0 },
          hubProcess := none } hprime
      obtain ⟨p1, _, _, _⟩ := gis_ports E self
        { submitted E self (Request.clearPortFeature c.hub.portProcess
            (staleFeature (USB_LONG_FROM_LITTLE_ENDIAN_ADDRESS c.hub.portStatusBuffer))) c with
          hub := { (submitted E self (Request.clearPortFeature c.hub.portProcess
            (staleFeature (USB_LONG_FROM_LITTLE_ENDIAN_ADDRESS c.hub.portStatusBuffer))) c).hub
              with portProcess := 0 },
          hubProcess := none }
      refine ⟨_, _, rfl, stored_port c _ port _ hcur p1, rfl, fun _ => ?_,
        fun h => absurd h hf, staleFeature_zero _⟩
      show (USB_HostHubGetInterruptStatus E self _).log = _
      rw [g2]
      show (c.log ++ [Action.submit self _ (accepted E self _ c)]) ++ [rearm self c.hub.portCount
        (E.accept (c.log ++ [Action.submit self _ (accepted E self _ c)]).length self _)] = _
      rw [ha]
      simp only [List.append_assoc, List.singleton_append, List.length_append,
        List.length_singleton]
      rfl

/-- What `USB_HostHubGetInterruptStatus` can change in the instance is `primeStatus`. -/
theorem gis_hub (E : Env) (self : Nat) (c : HubCtx) :
    (USB_HostHubGetInterruptStatus E self c).hub =
      { c.hub with primeStatus := (USB_HostHubGetInterruptStatus E self c).hub.primeStatus } := by
  unfold USB_HostHubGetInterruptStatus
  split
  · rfl
  · simp only []
    split
    · simp [setPrime, submitted, Request.isControl]
    · simp [submitted, Request.isControl]

/-- A port request keeps the port list and stores the given status. -/
theorem keeps_portRequest (E : Env) (self : Nat) (q : Request) (port1 : PortInstance)
    (c : HubCtx) (h : port1.portStatus ≠ kPortRunPortSuspended) :
    DetachKeeps c (portRequest E self q port1 c) := by
  unfold portRequest
  split
  · exact ⟨rfl, fun _ => h⟩
  · exact ⟨rfl, fun hs => by cases hs⟩

/-- A failed step satisfies `DetachKeeps`. -/
theorem keeps_fail (c cx : HubCtx) (port1 : PortInstance) (h : cx.hub.portList = c.hub.portList) :
    DetachKeeps c { port := port1, ctx := cx, processSuccess := false } :=
  ⟨h, fun hs => by cases hs⟩

/-- Every step of the detach `switch` keeps the port list and, when it succeeds,
leaves the port in a status other than `kPortRunPortSuspended`. -/
theorem detachSwitch_keeps (E : Env) (self : Nat) (c : HubCtx) (port : PortInstance)
    (r : PortStep) (hr : detachSwitch E self port c = some r) : DetachKeeps c r := by
  have wrap : ∀ {r0 : PortStep}, some r0 = some r → DetachKeeps c r0 → DetachKeeps c r := by
    intro r0 h h0; cases h; exact h0
  unfold detachSwitch at hr
  simp only [] at hr
  split at hr
  · split at hr
    · exact wrap hr (keeps_portRequest E self _ _ c (by simp))
    · exact wrap hr (keeps_fail c c _ rfl)
  · exact wrap hr (keeps_portRequest E self _ _ c (by simp))
  · split at hr
    · exact wrap hr (keeps_portRequest E self _ _ c (by simp))
    · split at hr
      · exact wrap hr (keeps_portRequest E self _ _ c (by simp))
      · split at hr
        · split at hr
          · exact wrap hr ⟨rfl, fun _ => by simp⟩
          · exact wrap hr (keeps_fail c _ _ rfl)
        · exact wrap hr (keeps_portRequest E self _ _ c (by simp))
  · exact wrap hr (keeps_portRequest E self _ _ c (by simp))
  · split at hr
    · exact wrap hr (keeps_fail c c _ rfl)
    · exact wrap hr ⟨(gis_ports E self _).1, fun _ => by simp⟩
  · split at hr
    · exact wrap hr (keeps_portRequest E self _ _ c (by simp))
    · exact wrap hr (keeps_fail c c _ rfl)
  · split at hr
    · split at hr
      · cases hr
      · split at hr
        · exact wrap hr (keeps_fail c _ _ rfl)
        · exact wrap hr (keeps_fail c _ _ rfl)
    · exact wrap hr (keeps_fail c c _ rfl)
  · exact wrap hr (keeps_fail c c _ rfl)

/-- The detach `switch` in `kPortRunCheckPortSuspend`, low-power configuration. -/
theorem detach_checkSuspend (E : Env) (self : Nat) (c : HubCtx) (port : PortInstance)
    (hlow : E.lowPower = true) (hcur : currentPort c.hub = some port)
    (hst : port.portStatus = kPortRunCheckPortSuspend) (hhost : c.hub.hostHandle ≠ none) :
    USB_HostHubProcessPortDetach E self c =
      some (storePort (c.hub.portProcess - 1) { port with portStatus := kPortRunPortAttached }
        (USB_HostHubGetInterruptStatus E self
          { c with
            hubProcess := none,
            hub := { c.hub with portProcess := 0 },
            suspendedDevice :=
              if bitSet PORT_SUSPEND (USB_LONG_FROM_LITTLE_ENDIAN_ADDRESS c.hub.portStatusBuffer)
              then c.suspendedDevice else none,
            log := c.log ++ [Action.hostEvent c.suspendedDevice
              (if bitSet PORT_SUSPEND (USB_LONG_FROM_LITTLE_ENDIAN_ADDRESS c.hub.portStatusBuffer)
               then HostEvent.kUSB_HostEventSuspended
               else HostEvent.kUSB_HostEventResumed)] })) := by
  have hh : c.hub.hostHandle.isNone = false := by
    cases h : c.hub.hostHandle with
    | none => exact absurd h hhost
    | some x => rfl
  unfold USB_HostHubProcessPortDetach detachSwitch
  simp only [hcur, Option.some_bind, hst, hlow, if_true, hh, Bool.false_eq_true, if_false]
  cases hb : bitSet PORT_SUSPEND (USB_LONG_FROM_LITTLE_ENDIAN_ADDRESS c.hub.portStatusBuffer) with
  | true => simp only [if_true, Option.map_some', Bool.false_eq_true, if_false]
  | false => simp only [Bool.false_eq_true, if_false, Option.map_some']

/-- C36: for the port in process, `USB_HostHubProcessPortDetach` never returns
with the port in `kPortRunPortSuspended`; in the low-power configuration, from
`kPortRunCheckPortSuspend` it returns, having delivered the suspended or the
resumed event according to `PORT_SUSPEND`, with the port in
`kPortRunPortAttached`, the token released, `portProcess` 0 and the interrupt
pipe re-armed. -/
theorem C36_never_suspended (E : Env) (self : Nat) (c : HubCtx) (port : PortInstance)
    (hcur : currentPort c.hub = some port) :
    (∀ c1, USB_HostHubProcessPortDetach E self c = some c1 →
      ∃ port1, portAt c1.hub (c.hub.portProcess - 1) = some port1 ∧
        port1.portStatus ≠ kPortRunPortSuspended) ∧
    (E.lowPower = true → port.portStatus = kPortRunCheckPortSuspend →
      c.hub.hostHandle ≠ none → c.hub.primeStatus = kPrimeNone →
      ∃ c1 port1, USB_HostHubProcessPortDetach E self c = some c1 ∧
        portAt c1.hub (c.hub.portProcess - 1) = some port1 ∧
        port1.portStatus = kPortRunPortAttached ∧
        c1.hubProcess = none ∧ c1.hub.portProcess = 0 ∧
        c1.log = c.log ++ [Action.hostEvent c.suspendedDevice
            (if bitSet PORT_SUSPEND (USB_LONG_FROM_LITTLE_ENDIAN_ADDRESS c.hub.portStatusBuffer)
             then HostEvent.kUSB_HostEventSuspended else HostEvent.kUSB_HostEventResumed),
          rearm self c.hub.portCount (E.accept (c.log.length + 1) self
            (Request.interruptRecv ((c.hub.portCount >>> 3) + 1)))]) := by
  refine ⟨?_, ?_⟩
  · intro c1 h
    unfold USB_HostHubProcessPortDetach at h
    simp only [hcur, Option.some_bind] at h
    cases hr : detachSwitch E self port c with
    | none => simp [hr] at h
    | some r =>
      simp only [hr, Option.map_some', Option.some.injEq] at h
      obtain ⟨k1, k2⟩ := detachSwitch_keeps E self c port r hr
      subst h
      cases hs : r.processSuccess with
      | true =>
        simp only [if_true]
        exact ⟨r.port, stored_port c _ port _ hcur k1, k2 hs⟩
      | false =>
        simp only [Bool.false_eq_true, if_false]
        refine ⟨_, stored_port c _ port _ hcur ((gis_ports E self _).1.trans k1), by simp⟩
  · intro hlow hst hhost hprime
    rw [detach_checkSuspend E self c port hlow hcur hst hhost]
    obtain ⟨g1, g2⟩ := gis_idle E self
      { c with
        hubProcess := none,
        hub := { c.hub with portProcess := 0 },
        suspendedDevice :=
          if bitSet PORT_SUSPEND (USB_LONG_FROM_LITTLE_ENDIAN_ADDRESS c.hub.portStatusBuffer)
          then c.suspendedDevice else none,
        log := c.log ++ [Action.hostEvent c.suspendedDevice
          (if bitSet PORT_SUSPEND (USB_LONG_FROM_LITTLE_ENDIAN_ADDRESS c.hub.portStatusBuffer)
           then HostEvent.kUSB_HostEventSuspended
           else HostEvent.kUSB_HostEventResumed)] } hprime
    obtain ⟨p1, p2, p3, _⟩ := gis_ports E self
      { c with
        hubProcess := none,
        hub := { c.hub with portProcess := 0 },
        suspendedDevice :=
          if bitSet PORT_SUSPEND (USB_LONG_FROM_LITTLE_ENDIAN_ADDRESS c.hub.portStatusBuffer)
          then c.suspendedDevice else none,
        log := c.log ++ [Action.hostEvent c.suspendedDevice
          (if bitSet PORT_SUSPEND (USB_LONG_FROM_LITTLE_ENDIAN_ADDRESS c.hub.portStatusBuffer)
           then HostEvent.kUSB_HostEventSuspended
           else HostEvent.kUSB_HostEventResumed)] }
    refine ⟨_, _, rfl, stored_port c _ port _ hcur p1, rfl, p3, p2, ?_⟩
    show (USB_HostHubGetInterruptStatus E self _).log = _
    rw [g2]
    simp only [List.append_assoc, List.singleton_append, List.length_append,
      List.length_singleton]

/-- An interrupt-IN arrival whose lowest set bit is that of port `p`, with the token
free and no control transfer outstanding, enters the port sub-machine of `p`. -/
theorem interrupt_enters (E : Env) (self : Nat) (c : HubCtx) (p : Nat) (bitmap : List Nat)
    (hinv : c.hub.invalid ≠ 1) (hown : c.hubProcess = none)
    (hct : c.hub.controlTransfer = false)
    (hp : p ≠ 0) (hpc : p ≤ c.hub.portCount) (hp8 : p < 256) (hfuel : p < E.fuel)
    (hbit : bitmapHas bitmap p = true) (hlow : ∀ j, j < p → bitmapHas bitmap j = false) :
    hubStep E self c (HubEvent.interruptIn bitmap true) =
      USB_HostHubProcessPort E self
        { c with hubProcess := some self,
                 hub := { c.hub with hubBitmapBuffer := bitmap, primeStatus := kPrimeNone,
                                     portProcess := p } } := by
  simp only [hubStep, HubEvent.arrive, USB_HostHubInterruptInCallback, hinv, if_false]
  rw [processData_port E self _ p hp (by simpa [setPrime] using hpc) hp8 hfuel
    (by simpa [setPrime, bitmapBit] using hbit)
    (fun j hj => Or.inl (by simpa [setPrime, bitmapBit] using hlow j hj))
    (by simp [portBitAllowed, setPrime, hown])
    (by simpa [setPrime] using hct)]
  rfl

/-- The attach `switch` in `kPortRunPortAttached` on a vacant port. -/
theorem attachSwitch_attached (E : Env) (self : Nat) (c : HubCtx) (port : PortInstance)
    (hst : port.portStatus = kPortRunPortAttached) :
    attachSwitch E self port c =
      { port := { port with
          deviceHandle := (E.attachDevice c.log.length).orElse (fun _ => port.deviceHandle),
          resetCount := USB_HOST_HUB_PORT_RESET_TIMES },
        ctx := USB_HostHubGetInterruptStatus E self
          { c with
            log := c.log ++ [Action.attachDevice c.hub.hostHandle port.speed
              (getInfo E c.hub.deviceHandle kUSB_HostGetDeviceAddress 0 % 256)
              c.hub.portProcess ((c.hub.hubLevel + 1) % 256)],
            hub := { c.hub with portProcess := 0 },
            hubProcess := none },
        processSuccess := true } := by
  unfold attachSwitch
  simp only [hst]

/-- The attach sub-machine on a vacant port in `kPortRunPortAttached`: the enumeration
engine is called at once, whatever it answers. -/
theorem processPort_attached (E : Env) (self : Nat) (c : HubCtx) (port : PortInstance)
    (hcur : currentPort c.hub = some port) (hvac : port.deviceHandle = none)
    (hst : port.portStatus = kPortRunPortAttached) (hprime : c.hub.primeStatus = kPrimeNone) :
    ∃ c1, USB_HostHubProcessPort E self c = some c1 ∧
      portAt c1.hub (c.hub.portProcess - 1) =
        some { port with
          deviceHandle := (E.attachDevice c.log.length).orElse (fun _ => port.deviceHandle),
          resetCount := USB_HOST_HUB_PORT_RESET_TIMES } ∧
      c1.hubProcess = none ∧ c1.hub.portProcess = 0 ∧
      c1.log = c.log ++ [Action.attachDevice c.hub.hostHandle port.speed
          (getInfo E c.hub.deviceHandle kUSB_HostGetDeviceAddress 0 % 256)
          c.hub.portProcess ((c.hub.hubLevel + 1) % 256),
        rearm self c.hub.portCount (E.accept (c.log.length + 1) self
          (Request.interruptRecv ((c.hub.portCount >>> 3) + 1)))] ∧
      c1.hub = { c.hub with
        portList := c1.hub.portList, portProcess := 0, primeStatus := c1.hub.primeStatus } := by
  rw [processPort_attach E self c port hcur hvac, attachSwitch_attached E self c port hst]
  simp only [if_true]
  obtain ⟨g1, g2⟩ := gis_idle E self
    { c with
      log := c.log ++ [Action.attachDevice c.hub.hostHandle port.speed
        (getInfo E c.hub.deviceHandle kUSB_HostGetDeviceAddress 0 % 256)
        c.hub.portProcess ((c.hub.hubLevel + 1) % 256)],
      hub := { c.hub with portProcess := 0 },
      hubProcess := none } hprime
  obtain ⟨p1, p2, p3, _⟩ := gis_ports E self
    { c with
      log := c.log ++ [Action.attachDevice c.hub.hostHandle port.speed
        (getInfo E c.hub.deviceHandle kUSB_HostGetDeviceAddress 0 % 256)
        c.hub.portProcess ((c.hub.hubLevel + 1) % 256)],
      hub := { c.hub with portProcess := 0 },
      hubProcess := none }
  have gh := gis_hub E self
    { c with
      log := c.log ++ [Action.attachDevice c.hub.hostHandle port.speed
        (getInfo E c.hub.deviceHandle kUSB_HostGetDeviceAddress 0 % 256)
        c.hub.portProcess ((c.hub.hubLevel + 1) % 256)],
      hub := { c.hub with portProcess := 0 },
      hubProcess := none }
  refine ⟨_, rfl, stored_port c _ port _ hcur p1, p3, p2, ?_, ?_⟩
  · show (USB_HostHubGetInterruptStatus E self _).log = _
    rw [g2]
    simp only [List.append_assoc, List.singleton_append, List.length_append,
      List.length_singleton]
  · simp only [storePort]
    rw [gh]

/-- C37: when `USB_HostAttachDevice` fails for the vacant port in
`kPortRunPortAttached`, the step returns with the port still in
`kPortRunPortAttached` without a device and the token released, having logged
the attach call and the re-arming; the next accepted notification for that
port calls `USB_HostAttachDevice` again at once: its log gains exactly the
attach call and the re-arming, no GET_STATUS and no PORT_RESET. -/
theorem C37_attach_failure_retry (E : Env) (self : Nat) (c : HubCtx) (port : PortInstance)
    (hcur : currentPort c.hub = some port) (hvac : port.deviceHandle = none)
    (hst : port.portStatus = kPortRunPortAttached) (hprime : c.hub.primeStatus = kPrimeNone)
    (hfail : E.attachDevice c.log.length = none) :
    ∃ c1 port1, USB_HostHubProcessPort E self c = some c1 ∧
      portAt c1.hub (c.hub.portProcess - 1) = some port1 ∧
      port1.portStatus = kPortRunPortAttached ∧ port1.deviceHandle = none ∧
      c1.hubProcess = none ∧ c1.hub.portProcess = 0 ∧
      c1.log = c.log ++ [Action.attachDevice c.hub.hostHandle port.speed
          (getInfo E c.hub.deviceHandle kUSB_HostGetDeviceAddress 0 % 256)
          c.hub.portProcess ((c.hub.hubLevel + 1) % 256),
        rearm self c.hub.portCount (E.accept (c.log.length + 1) self
          (Request.interruptRecv ((c.hub.portCount >>> 3) + 1)))] ∧
      ∀ (E2 : Env) (bitmap : List Nat), c.hub.invalid ≠ 1 → c.hub.controlTransfer = false →
        c.hub.portProcess ≤ c.hub.portCount → c.hub.portProcess < 256 →
        c.hub.portProcess < E2.fuel → bitmapHas bitmap c.hub.portProcess = true →
        (∀ j, j < c.hub.portProcess → bitmapHas bitmap j = false) →
        ∃ c2, hubStep E2 self c1 (HubEvent.interruptIn bitmap true) = some c2 ∧
          c2.log = c1.log ++ [Action.attachDevice c.hub.hostHandle port.speed
              (getInfo E2 c.hub.deviceHandle kUSB_HostGetDeviceAddress 0 % 256)
              c.hub.portProcess ((c.hub.hubLevel + 1) % 256),
            rearm self c.hub.portCount (E2.accept (c1.log.length + 1) self
              (Request.interruptRecv ((c.hub.portCount >>> 3) + 1)))] := by
  obtain ⟨c1, h1, h2, h3, h4, h5, h6⟩ :=
    processPort_attached E self c port hcur hvac hst hprime
  rw [hfail] at h2
  refine ⟨c1, _, h1, h2, hst, hvac, h3, h4, h5, ?_⟩
  intro E2 bitmap hinv hct hpc hp8 hfuel hbit hlow
  have hp0 : c.hub.portProcess ≠ 0 := (currentPort_some hcur).1
  have e1 : c1.hub.invalid = c.hub.invalid := by rw [h6]
  have e2 : c1.hub.controlTransfer = c.hub.controlTransfer := by rw [h6]
  have e3 : c1.hub.portCount = c.hub.portCount := by rw [h6]
  have e4 : c1.hub.hostHandle = c.hub.hostHandle := by rw [h6]
  have e5 : c1.hub.deviceHandle = c.hub.deviceHandle := by rw [h6]
  have e6 : c1.hub.hubLevel = c.hub.hubLevel := by rw [h6]
  rw [interrupt_enters E2 self c1 c.hub.portProcess bitmap (by rw [e1]; exact hinv) h3
    (by rw [e2]; exact hct) hp0 (by rw [e3]; exact hpc) hp8 hfuel hbit hlow]
  have hcur2 : currentPort ({ c1 with
      hubProcess := some self,
      hub := { c1.hub with hubBitmapBuffer := bitmap, primeStatus := kPrimeNone,
                           portProcess := c.hub.portProcess } } : HubCtx).hub =
      some { port with
        deviceHandle := (none : Option Nat).orElse (fun _ => port.deviceHandle),
        resetCount := USB_HOST_HUB_PORT_RESET_TIMES } := by
    unfold currentPort
    simp only [hp0, if_false]
    exact h2
  obtain ⟨c2, k1, _, _, _, k5, _⟩ := processPort_attached E2 self
    { c1 with
      hubProcess := some self,
      hub := { c1.hub with hubBitmapBuffer := bitmap, primeStatus := kPrimeNone,
                           portProcess := c.hub.portProcess } }
    { port with
      deviceHandle := (none : Option Nat).orElse (fun _ => port.deviceHandle),
      resetCount := USB_HOST_HUB_PORT_RESET_TIMES } hcur2 hvac hst rfl
  refine ⟨c2, k1, ?_⟩
  rw [k5]
  show c1.log ++ [Action.attachDevice c1.hub.hostHandle port.speed
      (getInfo E2 c1.hub.deviceHandle kUSB_HostGetDeviceAddress 0 % 256) c.hub.portProcess
      ((c1.hub.hubLevel + 1) % 256),
    rearm self c1.hub.portCount (E2.accept (c1.log.length + 1) self
      (Request.interruptRecv ((c1.hub.portCount >>> 3) + 1)))] = _
  rw [e3, e4, e5, e6]

/-- C35: a control completion with a non-success status on a valid instance
returns and leaves the port list, hence `portStatus` and `resetCount` of every
port, unchanged, with the token released; the next accepted notification whose
lowest set bit is that of port `p` runs the port sub-machine on port `p` as the
failed completion found it, that is from the interrupted phase. -/
theorem C35_failed_completion_keeps_phase (E : Env) (self : Nat) (c : HubCtx) (reply : Reply)
    (hinv : c.hub.invalid ≠ 1) :
    ∃ c1, hubStep E self c (HubEvent.controlDone reply false) = some c1 ∧
      c1.hub.portList = c.hub.portList ∧ c1.hubProcess = none ∧ c1.hub.portProcess = 0 ∧
      ∀ (E2 : Env) (bitmap : List Nat) (p : Nat), p ≠ 0 → p ≤ c.hub.portCount → p < 256 →
        p < E2.fuel → bitmapHas bitmap p = true → (∀ j, j < p → bitmapHas bitmap j = false) →
        hubStep E2 self c1 (HubEvent.interruptIn bitmap true) =
          USB_HostHubProcessPort E2 self
            { c1 with hubProcess := some self,
                      hub := { c1.hub with hubBitmapBuffer := bitmap,
                                           primeStatus := kPrimeNone, portProcess := p } } ∧
        currentPort ({ c1 with
            hubProcess := some self,
            hub := { c1.hub with hubBitmapBuffer := bitmap, primeStatus := kPrimeNone,
                                 portProcess := p } } : HubCtx).hub = portAt c.hub (p - 1) := by
  have a1 : ((HubEvent.controlDone reply false).arrive c.hub).invalid = c.hub.invalid := by
    cases reply <;> rfl
  have a2 : ((HubEvent.controlDone reply false).arrive c.hub).portList = c.hub.portList := by
    cases reply <;> rfl
  have a3 : ((HubEvent.controlDone reply false).arrive c.hub).portCount = c.hub.portCount := by
    cases reply <;> rfl
  have a4 : ((HubEvent.controlDone reply false).arrive c.hub).controlTransfer = false := by
    cases reply <;> rfl
  have hres : hubStep E self c (HubEvent.controlDone reply false) =
      some (USB_HostHubGetInterruptStatus E self
        { c with
          hub := { (HubEvent.controlDone reply false).arrive c.hub with
            primeStatus := kPrimeNone, portProcess := 0 },
          hubProcess := none }) := by
    simp only [hubStep, USB_HostHubControlCallback, a1, hinv, if_false, if_true]
  obtain ⟨p1, p2, p3, _⟩ := gis_ports E self
    { c with
      hub := { (HubEvent.controlDone reply false).arrive c.hub with
        primeStatus := kPrimeNone, portProcess := 0 },
      hubProcess := none }
  have gh := gis_hub E self
    { c with
      hub := { (HubEvent.controlDone reply false).arrive c.hub with
        primeStatus := kPrimeNone, portProcess := 0 },
      hubProcess := none }
  rw [hres]
  refine ⟨_, rfl, p1.trans a2, p3, p2, ?_⟩
  intro E2 bitmap p hp hpc hp8 hfuel hbit hlow
  refine ⟨interrupt_enters E2 self _ p bitmap ?_ p3 ?_ hp ?_ hp8 hfuel hbit hlow, ?_⟩
  · rw [gh]; exact a1 ▸ hinv
  · rw [gh]; exact a4
  · rw [gh]; exact a3 ▸ hpc
  · unfold currentPort portAt
    simp only [hp, if_false]
    rw [p1]
    show ((HubEvent.controlDone reply false).arrive c.hub).portList.bind _ = _
    rw [a2]

/-- C38: when `USB_HostHubRemovePort` finds the hub, the instance afterwards
differs from before only in the port list and in `portProcess`: the named port
has lost its device and is in `kPortRunInvalid` with `resetCount` and `speed`
as before, every other port is unchanged, and `portProcess` is 0 if it was
`portNumber` and unchanged otherwise; the other instances and the `hubProcess`
of every registry are unchanged, so that removing the port in process leaves
the hub holding the token with `portProcess = 0`. -/
theorem C38_remove_port_frame (E : Env) (w : World) (hostHandle : Option Nat)
    (hubNumber portNumber : Nat) (i : Nat) (gs : List HubGlobal) (g : HubGlobal)
    (self : Nat) (hub : HubInstance) (l : List PortInstance) (port : PortInstance)
    (hl : USB_HostHubGetHubList w.s_HubGlobalArray hostHandle = (some i, gs))
    (hg : gs[i]? = some g)
    (hf : findHubByAddress E w.hubs hubNumber g.hubList 0 = some (some self))
    (hh : w.hubs self = some hub) (hp : hub.portList = some l) (hn : portNumber ≠ 0)
    (hport : l[portNumber - 1]? = some port) :
    ∃ w1 l1,
      USB_HostHubRemovePort E w hostHandle hubNumber portNumber
        = some (kStatus_USB_Error, w1) ∧
      w1.hubs self = some { hub with
        portList := some l1,
        portProcess := if hub.portProcess = portNumber then 0 else hub.portProcess } ∧
      l1.length = l.length ∧
      l1[portNumber - 1]?
        = some { port with deviceHandle := none, portStatus := kPortRunInvalid } ∧
      (∀ j, j ≠ portNumber - 1 → l1[j]? = l[j]?) ∧
      (∀ h, h ≠ self → w1.hubs h = w.hubs h) ∧
      w1.s_HubGlobalArray.map (fun r => r.hubProcess)
        = w.s_HubGlobalArray.map (fun r => r.hubProcess) ∧
      w1.s_HubGlobalArray[i]? = some g ∧
      (g.hubProcess = some self → hub.portProcess = portNumber →
        ∃ hub1, w1.hubs self = some hub1 ∧ hub1.portProcess = 0 ∧
          (w1.s_HubGlobalArray[i]?).map (fun r => r.hubProcess) = some (some self)) := by
  have hlt : portNumber - 1 < l.length := (List.getElem?_eq_some_iff.1 hport).1
  have hgs : gs.map (fun r => r.hubProcess) = w.s_HubGlobalArray.map (fun r => r.hubProcess) := by
    have := getHubList_hubProcess w.s_HubGlobalArray hostHandle
    rw [hl] at this
    exact this
  refine ⟨_, l.set (portNumber - 1)
    { port with deviceHandle := none, portStatus := kPortRunInvalid },
    removePort_found E w hostHandle hubNumber portNumber i gs g self hub l port
    hl hg hf hh hp hn hport, ?_, ?_, ?_, ?_, ?_, hgs, hg, ?_⟩
  · simp
  · simp
  · simp [hlt]
  · intro j hj
    simp [List.getElem?_set, Ne.symm hj]
  · intro h hne
    simp [Function.update, hne]
  · intro hown hpp
    refine ⟨{ hub with
      portList := some (l.set (portNumber - 1)
        { port with deviceHandle := none, portStatus := kPortRunInvalid }),
      portProcess := if hub.portProcess = portNumber then 0 else hub.portProcess },
      by simp, ?_, ?_⟩
    · simp [hpp]
    · simp [hg, hown]

/-- Case `kUSB_HostEventEnumerationDone` does not write the stash. -/
theorem enumerationDone_stash (E : Env) (w w2 : World) (i : Nat) (g : HubGlobal)
    (h : enumerationDone E w i g = some w2) :
    w2.s_HubDeviceHandle = w.s_HubDeviceHandle ∧
    w2.s_HubInterfaceHandle = w.s_HubInterfaceHandle ∧
    w2.s_HubConfiguration = w.s_HubConfiguration := by
  unfold enumerationDone at h
  split at h
  · split at h
    · cases h
    · split at h
      · cases h
      · cases h; exact ⟨rfl, rfl, rfl⟩
  · cases h; exact ⟨rfl, rfl, rfl⟩

/-- C39: with a non-empty stash, every `kUSB_HostEventEnumerationDone` event that
returns leaves the stash as it was; when the registry is found and the class
driver returns an instance (and, in the low-power configuration, the stashed
configuration is present), the event returns success, exactly one new
instance is linked at the head of the list of that registry, the instance is
that of the stashed device, and the result does not depend on the device
argument of the event. -/
theorem C39_commit_keeps_stash (E : Env) (w : World) (hostHandle deviceHandle : Option Nat)
    (configuration : Configuration) (d : Nat) (itf : Interface)
    (hd : w.s_HubDeviceHandle = some d) (hi : w.s_HubInterfaceHandle = some itf) :
    (∀ st w1, USB_HostHubDeviceEvent E w hostHandle deviceHandle configuration
        kUSB_HostEventEnumerationDone = some (st, w1) →
      w1.s_HubDeviceHandle = some d ∧ w1.s_HubInterfaceHandle = some itf ∧
      w1.s_HubConfiguration = w.s_HubConfiguration) ∧
    (∀ i gs g, USB_HostHubGetHubList w.s_HubGlobalArray hostHandle = (some i, gs) →
      gs[i]? = some g →
      E.hubInitOk (enumMutexLog E w g).length = true →
      (E.lowPower = true → w.s_HubConfiguration ≠ none) →
      ∃ w1 g1 hub1,
        USB_HostHubDeviceEvent E w hostHandle deviceHandle configuration
          kUSB_HostEventEnumerationDone = some (kStatus_USB_Success, w1) ∧
        w1.s_HubDeviceHandle = some d ∧ w1.s_HubInterfaceHandle = some itf ∧
        w1.s_HubGlobalArray[i]? = some g1 ∧ g1.hubList = w.nextHub :: g.hubList ∧
        (∀ j, j ≠ i → w1.s_HubGlobalArray[j]? = gs[j]?) ∧
        w1.hubs w.nextHub = some hub1 ∧ hub1.deviceHandle = some d ∧
        (∀ h, h ≠ w.nextHub → w1.hubs h = w.hubs h) ∧
        Action.hubInit (some d) true ∈ w1.log) ∧
    (∀ other, USB_HostHubDeviceEvent E w hostHandle other configuration
        kUSB_HostEventEnumerationDone
      = USB_HostHubDeviceEvent E w hostHandle deviceHandle configuration
        kUSB_HostEventEnumerationDone) := by
  refine ⟨?_, ?_, ?_⟩
  · intro st w1 h
    unfold USB_HostHubDeviceEvent at h
    split at h
    · cases h; exact ⟨hd, hi, rfl⟩
    · split at h
      · cases h
      · simp only [Option.map_eq_some'] at h
        obtain ⟨w2, h2, h3⟩ := h
        cases h3
        obtain ⟨a, b, c⟩ := enumerationDone_stash E _ _ _ _ h2
        exact ⟨a.trans hd, b.trans hi, c⟩
  · intro i gs g hl hg hok hcfg
    have hlow : (E.lowPower && w.s_HubConfiguration.isNone) = false := by
      cases hlp : E.lowPower with
      | false => rfl
      | true =>
        have := hcfg hlp
        cases hc : w.s_HubConfiguration with
        | none => exact absurd hc this
        | some _ => rfl
    have hok1 : E.hubInitOk
        (enumMutexLog E { w with s_HubGlobalArray := gs } g).length = true := hok
    have hlt : i < gs.length := (List.getElem?_eq_some_iff.1 hg).1
    have hst : w.s_HubDeviceHandle ≠ none ∧ w.s_HubInterfaceHandle ≠ none :=
      ⟨by rw [hd]; simp, by rw [hi]; simp⟩
    have hdev := (enumCtx_hub E { w with s_HubGlobalArray := gs } g).1
    have hres : USB_HostHubDeviceEvent E w hostHandle deviceHandle configuration
        kUSB_HostEventEnumerationDone = some (kStatus_USB_Success,
          { w with
            s_HubGlobalArray :=
              gs.set i { enumRegistry E { w with s_HubGlobalArray := gs } g with
                hubList := w.nextHub :: g.hubList },
            hubs := Function.update w.hubs w.nextHub
              (some (enumCtx E { w with s_HubGlobalArray := gs } g).hub),
            nextHub := w.nextHub + 1,
            log := (enumCtx E { w with s_HubGlobalArray := gs } g).log }) := by
      unfold USB_HostHubDeviceEvent
      rw [hl]
      simp only [hg]
      unfold enumerationDone
      simp only [hst.1, hst.2, ne_eq, not_false_eq_true, and_self, if_true, hok1, hlow,
        Bool.true_eq_false, Bool.false_eq_true, if_false, Option.map_some']
    refine ⟨_, { enumRegistry E { w with s_HubGlobalArray := gs } g with
      hubList := w.nextHub :: g.hubList },
      (enumCtx E { w with s_HubGlobalArray := gs } g).hub,
      hres, hd, hi, ?_, rfl, ?_, ?_, ?_, ?_, ?_⟩
    · simp [hlt]
    · intro j hj
      simp [List.getElem?_set, Ne.symm hj]
    · simp
    · exact hdev.trans hd
    · intro h hne
      simp [Function.update, hne]
    · show Action.hubInit (some d) true ∈ (enumCtx E { w with s_HubGlobalArray := gs } g).log
      unfold enumCtx
      simp only []
      split <;> simp [submitted, setHubStatus, hd]
  · intro other
    rfl

/-- Instance of C31: a descriptor whose think-time field is 2, on a parent with
think time 0, gives `totalThinktime = 24`. -/
theorem C31_think_time_witness :
    ∃ c1, USB_HostHubProcess envAccept 7 ctxThinkTime = some c1 ∧
      c1.hub.totalThinktime = 24 ∧ thinkField ctxThinkTime.hub = 2 := by
  obtain ⟨c1, h1, h2, _, _⟩ := C31_think_time envAccept 7 ctxThinkTime rfl
  exact ⟨c1, h1, h2.trans (by decide), by decide⟩

/-- Instance of C32 (as the code has it): for 7 ports the second GET_DESCRIPTOR
asks for 8 bytes. -/
theorem C32_second_descriptor_length_witness :
    ∃ c1, USB_HostHubProcess envAccept 7 (ctxDescriptor7 7 kPrimeNone) = some c1 ∧
      c1.log = [Action.submit 7 (Request.getDescriptor 8) true] := by
  obtain ⟨c1, h1, h2, _⟩ :=
    C32_second_descriptor_length envAccept 7 (ctxDescriptor7 7 kPrimeNone) rfl (by decide)
  exact ⟨c1, h1, h2.trans (by decide)⟩

/-- Instance of C33: the completion of the last SET_FEATURE(PORT_POWER) of a
four-port hub with a zeroed port list. -/
theorem C33_port_power_finish_witness :
    ∃ c1, hubStep envAccept 7 ctxPowerLast (HubEvent.controlDone Reply.noData true) = some c1 ∧
      (∀ i, i < 4 → ∃ p, portAt c1.hub i = some p ∧ p.deviceHandle = none ∧
        p.resetCount = USB_HOST_HUB_PORT_RESET_TIMES ∧ p.portStatus = kPortRunWaitPortChange) ∧
      c1.hub.portProcess = 0 ∧ c1.hub.hubStatus = kHubRunIdle ∧
      c1.log = [Action.submit 7 (Request.interruptRecv 1) true] ∧
      c1.hub.primeStatus = kPrimeInterrupt :=
  C33_port_power_finish envAccept 7 ctxPowerLast (List.replicate 4 zeroPort)
    Reply.noData (by decide) rfl rfl rfl (by decide) (by decide)

/-- Instance of C34 (as the code has it): with only `C_PORT_RESET` set in the
status word of the vacant port 2, the CLEAR_FEATURE of `C_PORT_RESET` is
submitted and the port is in `kPortRunWaitPortChange`. -/
theorem C34_stale_change_bits_witness :
    ∃ c1 port1, USB_HostHubProcessPort envAccept 7
        (ctxAtPort [portVacant 4, portIn kPortRunCheckCPortConnection 4 0] [0, 0, 0x10, 0])
        = some c1 ∧
      portAt c1.hub 1 = some port1 ∧ port1.portStatus = kPortRunWaitPortChange ∧
      c1.log = [Action.submit 7 (Request.clearPortFeature 2 C_PORT_RESET) true] := by
  obtain ⟨c1, port1, h1, h2, h3, h4, _⟩ := C34_stale_change_bits envAccept 7
    (ctxAtPort [portVacant 4, portIn kPortRunCheckCPortConnection 4 0] [0, 0, 0x10, 0])
    (portIn kPortRunCheckCPortConnection 4 0) (by decide) rfl rfl rfl (by decide) (by decide)
  exact ⟨c1, port1, h1, h2, h3, (h4 (by decide)).trans (by decide)⟩

/-- Instance of C35: a failed control completion while port 2 is in
`kPortRunGetPortConnection` with 2 resets left leaves the port list as it
was. -/
theorem C35_failed_completion_keeps_phase_witness :
    ∃ c1, hubStep envAccept 7 (ctxAtPort [portVacant 4, portIn kPortRunGetPortConnection 2 0] [])
        (HubEvent.controlDone Reply.noData false) = some c1 ∧
      c1.hub.portList = some [portVacant 4, portIn kPortRunGetPortConnection 2 0] ∧
      c1.hubProcess = none ∧ c1.hub.portProcess = 0 := by
  obtain ⟨c1, h1, h2, h3, h4, _⟩ := C35_failed_completion_keeps_phase envAccept 7
    (ctxAtPort [portVacant 4, portIn kPortRunGetPortConnection 2 0] []) Reply.noData (by decide)
  exact ⟨c1, h1, h2, h3, h4⟩

/-- Instance of C36: in the low-power configuration, with `PORT_SUSPEND` set, the
step from `kPortRunCheckPortSuspend` delivers the suspended event and leaves
the port in `kPortRunPortAttached` with the token released. -/
theorem C36_never_suspended_witness :
    ∃ c1 port1, USB_HostHubProcessPortDetach envLowPower 7 ctxSuspendCheck = some c1 ∧
      portAt c1.hub 1 = some port1 ∧ port1.portStatus = kPortRunPortAttached ∧
      c1.hubProcess = none ∧ c1.hub.portProcess = 0 ∧
      c1.log = [Action.hostEvent none HostEvent.kUSB_HostEventSuspended,
        Action.submit 7 (Request.interruptRecv 1) true] := by
  obtain ⟨c1, port1, h1, h2, h3, h4, h5, h6⟩ :=
    (C36_never_suspended envLowPower 7 ctxSuspendCheck
      { portOccupied 9 with portStatus := kPortRunCheckPortSuspend } (by decide)).2
      rfl rfl (by decide) rfl
  exact ⟨c1, port1, h1, h2, h3, h4, h5, h6.trans (by decide)⟩

/-- Instance of C37: with an enumeration engine that creates no device, the step
from `kPortRunPortAttached` logs the attach call and the re-arming, and the
next notification for port 2 logs the same two calls again. -/
theorem C37_attach_failure_retry_witness :
    ∃ c1 c2, USB_HostHubProcessPort envNoAttach 7
        (ctxAtPort [portVacant 4, portIn kPortRunPortAttached 4 1] []) = some c1 ∧
      c1.log = [Action.attachDevice (some 1) 1 5 2 2,
        Action.submit 7 (Request.interruptRecv 1) true] ∧
      hubStep envNoAttach 7 c1 (HubEvent.interruptIn [4] true) = some c2 ∧
      c2.log = c1.log ++ [Action.attachDevice (some 1) 1 5 2 2,
        Action.submit 7 (Request.interruptRecv 1) true] := by
  obtain ⟨c1, port1, h1, _, _, _, _, _, h7, h8⟩ := C37_attach_failure_retry envNoAttach 7
    (ctxAtPort [portVacant 4, portIn kPortRunPortAttached 4 1] [])
    (portIn kPortRunPortAttached 4 1) (by decide) rfl rfl rfl rfl
  obtain ⟨c2, k1, k2⟩ := h8 envNoAttach [4] (by decide) rfl (by decide) (by decide) (by decide)
    (by decide) (by decide)
  exact ⟨c1, c2, h1, h7.trans (by decide), k1, k2.trans rfl⟩

/-- Instance of C38: removing port 1 of the hub with address 6 while that hub
holds the token and works on port 1 leaves it holding the token with
`portProcess = 0`, and leaves instance 1 as it was. -/
theorem C38_remove_port_frame_witness :
    ∃ w1 hub1, USB_HostHubRemovePort envAccept removeWorld (some 1) 6 1
        = some (kStatus_USB_Error, w1) ∧
      w1.hubs 2 = some hub1 ∧ hub1.portProcess = 0 ∧
      (w1.s_HubGlobalArray[0]?).map (fun r => r.hubProcess) = some (some 2) ∧
      w1.hubs 1 = removeWorld.hubs 1 := by
  obtain ⟨w1, l1, h1, _, _, _, _, h6, _, _, h9⟩ := C38_remove_port_frame envAccept removeWorld
    (some 1) 6 1 0 removeWorld.s_HubGlobalArray wakeRegistry 2
    { hubOn 6 [portOccupied 9, portVacant 4, portOccupied 8, portVacant 4] with portProcess := 1 }
    [portOccupied 9, portVacant 4, portOccupied 8, portVacant 4] (portOccupied 9)
    rfl rfl (by decide) rfl rfl (by decide) rfl
  obtain ⟨hub1, k1, k2, k3⟩ := h9 rfl rfl
  exact ⟨w1, hub1, h1, k1, k2, k3, h6 1 (by decide)⟩

/-- Instance of C39: with device 8 in the stash, the event for device 99 links
instance 4 of device 8 at the head of the list and leaves the stash as it
was. -/
theorem C39_commit_keeps_stash_witness :
    ∃ w1 g1 hub1, USB_HostHubDeviceEvent envAccept stashWorld (some 1) (some 99)
        hubConfiguration kUSB_HostEventEnumerationDone = some (kStatus_USB_Success, w1) ∧
      w1.s_HubDeviceHandle = some 8 ∧
      w1.s_HubGlobalArray[0]? = some g1 ∧ g1.hubList = [4, 3, 2, 1] ∧
      w1.hubs 4 = some hub1 ∧ hub1.deviceHandle = some 8 := by
  obtain ⟨w1, g1, hub1, h1, h2, _, h4, h5, _, h7, h8, _⟩ :=
    (C39_commit_keeps_stash envAccept stashWorld (some 1) (some 99) hubConfiguration 8
      { handle := 40, bInterfaceClass := 9, bInterfaceSubClass := 0 } rfl rfl).2.1 0
      stashWorld.s_HubGlobalArray wakeRegistry rfl rfl rfl (by decide)
  exact ⟨w1, g1, hub1, h1, h2, h4, h5, h7, h8⟩

/-! ## Tier changes, the devices of the suspend chain and the end of the scan -/

/-- The invariant `TierInv` read with the tier assignment of the collaborators. -/
theorem tierInv_cap (E : Env) (tier : Nat → Nat) (w : World)
    (ht : ∀ d, E.info d kUSB_HostGetDeviceLevel = tier d) : TierInv E w ↔ TierCap tier w := by
  have key : ∀ o : Option Nat,
      getInfo E o kUSB_HostGetDeviceLevel 0 ≤ 5 ↔ ∀ d, o = some d → tier d ≤ 5 := by
    intro o
    cases o with
    | none => simp [getInfo]
    | some d => simp [getInfo, ht]
  unfold TierInv TierCap
  rw [key]
  constructor
  · rintro ⟨h1, h2⟩
    refine ⟨h1, ?_⟩
    intro g hg h hh
    obtain ⟨hub, a, b, c⟩ := h2 g hg h hh
    exact ⟨hub, a, (key _).1 b, c⟩
  · rintro ⟨h1, h2⟩
    refine ⟨h1, ?_⟩
    intro g hg h hh
    obtain ⟨hub, a, b, c⟩ := h2 g hg h hh
    exact ⟨hub, a, (key _).2 b, c⟩

/-- The tier bound is kept by every run whose calls report the same tiers. -/
theorem tierCap_run (tier : Nat → Nat) :
    ∀ (events : List (Env × DeviceEventArgs)) (w w2 : World),
      (∀ e ∈ events, ∀ d, e.1.info d kUSB_HostGetDeviceLevel = tier d) →
      TierCap tier w → deviceRunIn w events = some w2 → TierCap tier w2 := by
  intro events
  induction events with
  | nil =>
    intro w w2 _ hinv h
    simp [deviceRunIn] at h
    rw [← h]; exact hinv
  | cons e rest ih =>
    intro w w2 hconst hinv h
    unfold deviceRunIn at h
    have he1 := hconst e (List.mem_cons_self _ _)
    cases he : USB_HostHubDeviceEvent e.1 w e.2.hostHandle e.2.deviceHandle e.2.configuration
        e.2.eventCode with
    | none => simp [he] at h
    | some r =>
      simp only [he, Option.some_bind] at h
      have h1 : TierInv e.1 w := (tierInv_cap e.1 tier w he1).2 hinv
      have h2 : TierInv e.1 r.2 := tierInv_event e.1 w r.2 _ _ _ _ r.1 h1 he
      exact ih r.2 w2 (fun x hx => hconst x (List.mem_cons_of_mem _ hx))
        ((tierInv_cap e.1 tier r.2 he1).1 h2) h

/-- The tier bound holds at start-up. -/
theorem tierCap_init (tier : Nat → Nat) (n : Nat) : TierCap tier (initWorld n) := by
  refine ⟨by intro d hd; simp [initWorld] at hd, ?_⟩
  intro g hg x hx
  simp only [initWorld, List.mem_replicate] at hg
  rw [hg.2] at hx
  simp [emptyGlobal] at hx

/-- C9 (evaluation at a counterexample): a hub of tier 3 with handle 3 is
attached, enumerated and detached; handle 3 then names a device of tier 6, and
the next enumeration-done event links instance 2 for the stashed handle 3 with
`hubLevel = 6`. -/
theorem C9_tier_change_counterexample :
    (deviceRunIn (initWorld 1) reuseEvents).map
        (fun w => (w.s_HubGlobalArray.map (fun g => g.hubList),
          (w.hubs 2).map (fun hub => (hub.deviceHandle, hub.hubLevel)))) =
      some ([[2]], some (some 3, 6)) ∧
    envTierShift.info 3 kUSB_HostGetDeviceLevel = 6 := by
  decide

/-- C9 (as the code has it): in every module state reached from start-up by calls
of `USB_HostHubDeviceEvent` (attach, enumeration-done, detach or any other
code, for any devices and configurations, each call with its own
collaborators), provided the level reported for a device handle is the same in
every call, every instance linked in a hub list of a registry belongs to a
device whose level is at most 5, and its `hubLevel` is at most 5. -/
theorem C9_tier_cap (tier : Nat → Nat) (n : Nat) (events : List (Env × DeviceEventArgs))
    (w : World)
    (hconst : ∀ e ∈ events, ∀ d, e.1.info d kUSB_HostGetDeviceLevel = tier d)
    (hrun : deviceRunIn (initWorld n) events = some w) :
    ∀ g ∈ w.s_HubGlobalArray, ∀ h ∈ g.hubList, ∃ hub, w.hubs h = some hub ∧
      (∀ d, hub.deviceHandle = some d → tier d ≤ 5) ∧ hub.hubLevel ≤ 5 :=
  (tierCap_run tier events (initWorld n) w hconst (tierCap_init tier n) hrun).2

/-- Instance of C9 (as the code has it): after a hub of tier 3 and a hub of tier 6
have been attached and enumerated, the two linked instances both belong to the
device of tier 3. -/
theorem C9_tier_cap_witness :
    ∃ w, deviceRunIn (initWorld 1) (tierEvents.map (fun e => (envTier, e))) = some w ∧
      w.s_HubGlobalArray.map (fun g => g.hubList) = [[2, 1]] ∧
      ∀ g ∈ w.s_HubGlobalArray, ∀ h ∈ g.hubList, ∃ hub, w.hubs h = some hub ∧
        (∀ d, hub.deviceHandle = some d → d ≤ 5) ∧ hub.hubLevel ≤ 5 := by
  have hm : (deviceRunIn (initWorld 1) (tierEvents.map (fun e => (envTier, e)))).map
      (fun w => w.s_HubGlobalArray.map (fun g => g.hubList)) = some [[2, 1]] := by decide
  cases hrun : deviceRunIn (initWorld 1) (tierEvents.map (fun e => (envTier, e))) with
  | none => rw [hrun] at hm; cases hm
  | some w =>
    rw [hrun] at hm
    refine ⟨w, rfl, by simpa using hm, C9_tier_cap (fun d => d) 1 _ w ?_ hrun⟩
    intro e he d
    simp only [List.mem_map] at he
    obtain ⟨_, _, rfl⟩ := he
    rfl

/-- A call that is no remote-wakeup request. -/
theorem sent_none {a : Action} (h : wakeupTarget a = none) : wakeupSent a = none := by
  cases a with
  | hubRequest d r ok =>
    cases r with
    | setRemoteWakeup x => simp [wakeupTarget] at h
    | _ => rfl
  | _ => rfl

/-- The last stage of suspending hands over no remote-wakeup request. -/
theorem target_sent (E : Env) (H : HostEnv) (hubs : Nat → Option HubInstance) (l : List Nat)
    (susp : Option Nat) (host n : Nat) :
    (targetOutcome E H hubs l susp host n).2.filterMap wakeupSent = [] := by
  rw [List.filterMap_eq_nil_iff]
  intro a ha
  exact sent_none ((target_tail E H hubs l susp host n).1 a ha)

/-- A successful completion at `self`: the remote-wakeup requests it hands
over, with their devices. -/
theorem callback_success_sent (E : Env) (H : HostEnv) (w : World) (host i : Nat)
    (g : HubGlobal) (hr : ChainReady w host i g) (l1 l2 : List Nat) (self : Nat)
    (hsplit : g.hubList = l1 ++ self :: l2) :
    ∃ w1 L, USB_HostHubRemoteWakeupCallback E H w (some self) true = some w1 ∧
      w1.log = w.log ++ L ∧
      L.filterMap wakeupSent =
        (l2.find? (capable w.hubs)).toList.map (wakeupOf w.hubs (H.sendOk w.log.length)) := by
  obtain ⟨hubs1, _, _, s1, s2⟩ := callback_success_spec E H w host i g hr l1 l2 self hsplit
  cases hfind : l2.find? (capable w.hubs) with
  | some h =>
    obtain ⟨d, hd, hcb⟩ := s1 h hfind
    rw [hcb]
    split
    · refine ⟨_, [Action.hubRequest d (HostRequest.setRemoteWakeup h) (H.sendOk w.log.length),
        Action.hostEvent (w.suspendedDevice host) HostEvent.kUSB_HostEventNotSuspended],
        rfl, by simp [deviceCallback], ?_⟩
      simp [wakeupSent, wakeupOf, hd]
    · refine ⟨_, [Action.hubRequest d (HostRequest.setRemoteWakeup h) (H.sendOk w.log.length)],
        rfl, rfl, ?_⟩
      simp [wakeupSent, wakeupOf, hd]
  | none =>
    rw [s2 hfind]
    have tf := target_sent E H w.hubs g.hubList (w.suspendedDevice host) host w.log.length
    split
    · refine ⟨_, (targetOutcome E H w.hubs g.hubList (w.suspendedDevice host) host
        w.log.length).2 ++ [Action.hostEvent (w.suspendedDevice host)
          HostEvent.kUSB_HostEventNotSuspended], rfl, ?_, ?_⟩
      · simp [deviceCallback]
      · rw [List.filterMap_append, tf]
        rfl
    · exact ⟨_, (targetOutcome E H w.hubs g.hubList (w.suspendedDevice host) host
        w.log.length).2, rfl, rfl, tf⟩

/-- The run of successful completions from a pending request on, when every
request is accepted: the remote-wakeup requests handed over are those of the
capable instances behind `self`, each addressed to the device of its
instance. -/
theorem drive_sent (E : Env) (H : HostEnv) (host i : Nat) (g : HubGlobal) (base : Nat)
    (hok : ∀ n, H.sendOk n = true) :
    ∀ (n : Nat) (l1 : List Nat) (self : Nat) (l2 : List Nat) (wk : World) (pre : List Action)
      (d fuel : Nat), l2.length = n → g.hubList = l1 ++ self :: l2 →
      ChainReady wk host i g →
      wk.log = pre ++ [Action.hubRequest d (HostRequest.setRemoteWakeup self) true] →
      base ≤ pre.length → (l2.filter (capable wk.hubs)).length < fuel →
      ∃ w2 L, completeAll E H base fuel wk = some w2 ∧ w2.log = wk.log ++ L ∧
        L.filterMap wakeupSent = (l2.filter (capable wk.hubs)).map (wakeupOf wk.hubs true) ∧
        pendingWakeup (w2.log.drop base) = none := by
  intro n
  induction n using Nat.strong_induction_on with
  | _ n ih =>
    intro l1 self l2 wk pre d fuel hlen hsplit hr hlog hbase hfuel
    obtain ⟨f, hf⟩ : ∃ f, fuel = f + 1 := ⟨fuel - 1, by omega⟩
    subst hf
    have hpend : pendingWakeup (wk.log.drop base) = some self := by
      rw [hlog]; exact pending_append_request base pre d self hbase
    obtain ⟨hubs1, hrel, _, s1, s2⟩ := callback_success_spec E H wk host i g hr l1 l2 self hsplit
    have hbase2 : base ≤ wk.log.length := by rw [hlog]; simp; omega
    cases hfind : l2.find? (capable wk.hubs) with
    | some h =>
      obtain ⟨d1, hd1, hcb⟩ := s1 h hfind
      rw [hok, sendStatus_true] at hcb
      simp only [ne_eq, not_true_eq_false, if_false] at hcb
      obtain ⟨hcap, m1, m2, hl2, hm1⟩ := find_split hfind
      have hfilter : l2.filter (capable wk.hubs) = h :: m2.filter (capable wk.hubs) := by
        rw [hl2, List.filter_append, filter_none hm1, List.filter_cons, hcap]
        rfl
      have hr1 : ChainReady
          { wk with hubs := hubs1,
                    log := wk.log ++ [Action.hubRequest d1 (HostRequest.setRemoteWakeup h) true] }
          host i g := ready_of_reloaded hr rfl hrel
      have hcapeq : capable hubs1 = capable wk.hubs := reloaded_capable hrel
      have hdeveq : deviceOf hubs1 = deviceOf wk.hubs := reloaded_deviceOf hrel
      have hofeq : wakeupOf hubs1 true = wakeupOf wk.hubs true := by
        funext x
        unfold wakeupOf
        rw [hdeveq]
      obtain ⟨w2, L, e1, e2, e3, e4⟩ := ih m2.length (by rw [← hlen, hl2]; simp; omega)
        (l1 ++ self :: m1) h m2
        { wk with hubs := hubs1,
                  log := wk.log ++ [Action.hubRequest d1 (HostRequest.setRemoteWakeup h) true] }
        wk.log d1 f rfl (by rw [hsplit, hl2]; simp) hr1 rfl hbase2
        (by
          show (m2.filter (capable hubs1)).length < f
          rw [hcapeq]
          rw [hfilter] at hfuel
          simp at hfuel
          omega)
      refine ⟨w2, Action.hubRequest d1 (HostRequest.setRemoteWakeup h) true :: L, ?_, ?_, ?_, e4⟩
      · simp only [completeAll, hpend, hcb, Option.some_bind]
        exact e1
      · rw [e2]
        simp
      · rw [hfilter]
        simp only [List.filterMap_cons, wakeupSent, List.map_cons]
        rw [e3]
        show (some d1, h, true) :: (m2.filter (capable hubs1)).map (wakeupOf hubs1 true) = _
        rw [hcapeq, hofeq]
        show _ = (deviceOf wk.hubs h, h, true) :: _
        rw [hd1]
    | none =>
      have hcb := s2 hfind
      have hfilter : l2.filter (capable wk.hubs) = [] := filter_none (find_none_all hfind)
      obtain ⟨t1, t2⟩ := target_tail E H wk.hubs g.hubList (wk.suspendedDevice host) host
        wk.log.length
      have key : ∃ w2 L, USB_HostHubRemoteWakeupCallback E H wk (some self) true = some w2 ∧
          w2.log = wk.log ++ L ∧ L ≠ [] ∧ ∀ a ∈ L, wakeupTarget a = none := by
        rw [hcb]
        by_cases hst : (targetOutcome E H wk.hubs g.hubList (wk.suspendedDevice host) host
            wk.log.length).1 = kStatus_USB_Success
        · rw [if_neg (by simpa using hst)]
          exact ⟨_, _, rfl, rfl, t2 hst, t1⟩
        · rw [if_pos hst]
          refine ⟨_, (targetOutcome E H wk.hubs g.hubList (wk.suspendedDevice host) host
            wk.log.length).2 ++ [Action.hostEvent (wk.suspendedDevice host)
              HostEvent.kUSB_HostEventNotSuspended], rfl, ?_, by simp, ?_⟩
          · simp [deviceCallback]
          · intro a ha
            rcases List.mem_append.1 ha with h1 | h1
            · exact t1 a h1
            · simp only [List.mem_singleton] at h1
              rw [h1]; rfl
      obtain ⟨w2, L, c1, c2, c3, c4⟩ := key
      have hp2 : pendingWakeup (w2.log.drop base) = none := by
        rw [c2]
        exact pending_append_none base wk.log L hbase2 c3 c4
      refine ⟨w2, L, ?_, c2, ?_, hp2⟩
      · simp only [completeAll, hpend, c1, Option.some_bind]
        cases f with
        | zero => rfl
        | succ f1 => simp only [completeAll, hp2]
      · rw [hfilter]
        show L.filterMap wakeupSent = []
        rw [List.filterMap_eq_nil_iff]
        exact fun a ha => sent_none (c4 a ha)

/-- C24: for a host whose hub list is not empty, `USB_HostHubSuspendDevice`
hands over a SET_FEATURE(DEVICE_REMOTE_WAKEUP) request for the first instance
in list order that advertises remote wakeup, addressed to the device of that
instance, and for no other; a successful completion at an instance hands one
over for the first such instance behind it, addressed to its device, and for
no other. When every request is accepted and every completion is successful,
the requests handed over from the call to the end of the chain are those of
the instances that advertise remote wakeup, once each, in list order, each
addressed to the device of its instance and accepted. Every instance of the
list has a device. -/
theorem C24_remote_wakeup_chain (E : Env) (H : HostEnv) (w : World) (host i : Nat)
    (g : HubGlobal) (hr : ChainReady w host i g) (hne : g.hubList ≠ []) :
    (∃ st w1 L, USB_HostHubSuspendDevice E H w (some host) = some (st, w1) ∧
      w1.log = w.log ++ L ∧
      L.filterMap wakeupSent =
        (g.hubList.find? (capable w.hubs)).toList.map
          (wakeupOf w.hubs (H.sendOk w.log.length))) ∧
    (∀ l1 self l2, g.hubList = l1 ++ self :: l2 →
      ∃ w1 L, USB_HostHubRemoteWakeupCallback E H w (some self) true = some w1 ∧
        w1.log = w.log ++ L ∧
        L.filterMap wakeupSent =
          (l2.find? (capable w.hubs)).toList.map (wakeupOf w.hubs (H.sendOk w.log.length))) ∧
    ((∀ n, H.sendOk n = true) →
      ∃ st w1 w2 L, USB_HostHubSuspendDevice E H w (some host) = some (st, w1) ∧
        completeAll E H w.log.length g.hubList.length w1 = some w2 ∧
        w2.log = w.log ++ L ∧
        L.filterMap wakeupSent = (g.hubList.filter (capable w.hubs)).map (wakeupOf w.hubs true) ∧
        pendingWakeup (w2.log.drop w.log.length) = none) ∧
    (∀ h ∈ g.hubList, ∃ d, deviceOf w.hubs h = some d) := by
  obtain ⟨hubs1, hrel, s1, s2⟩ := suspend_spec E H w host i g hr hne
  have hpos : 0 < g.hubList.length := List.length_pos.2 hne
  refine ⟨?_, ?_, ?_, ?_⟩
  · cases hfind : g.hubList.find? (capable w.hubs) with
    | some h =>
      obtain ⟨d, hd, hs⟩ := s1 h hfind
      refine ⟨_, _, _, hs, rfl, ?_⟩
      simp [wakeupSent, wakeupOf, hd]
    | none =>
      exact ⟨_, _, _, s2 hfind, rfl,
        target_sent E H w.hubs g.hubList (w.suspendedDevice host) host w.log.length⟩
  · intro l1 self l2 hsplit
    exact callback_success_sent E H w host i g hr l1 l2 self hsplit
  · intro hok
    cases hfind : g.hubList.find? (capable w.hubs) with
    | some h =>
      obtain ⟨d, hd, hs⟩ := s1 h hfind
      rw [hok] at hs
      obtain ⟨hcap, m1, m2, hl, hm1⟩ := find_split hfind
      have hfilter : g.hubList.filter (capable w.hubs) = h :: m2.filter (capable w.hubs) := by
        rw [hl, List.filter_append, filter_none hm1, List.filter_cons, hcap]
        rfl
      have hcapeq : capable hubs1 = capable w.hubs := reloaded_capable hrel
      have hdeveq : deviceOf hubs1 = deviceOf w.hubs := reloaded_deviceOf hrel
      have hofeq : wakeupOf hubs1 true = wakeupOf w.hubs true := by
        funext x
        unfold wakeupOf
        rw [hdeveq]
      have hr1 : ChainReady
          { w with hubs := hubs1,
                   log := w.log ++ [Action.hubRequest d (HostRequest.setRemoteWakeup h) true] }
          host i g := ready_of_reloaded hr rfl hrel
      obtain ⟨w2, L, e1, e2, e3, e4⟩ := drive_sent E H host i g w.log.length hok m2.length m1 h
        m2
        { w with hubs := hubs1,
                 log := w.log ++ [Action.hubRequest d (HostRequest.setRemoteWakeup h) true] }
        w.log d g.hubList.length rfl hl hr1 rfl (le_refl _)
        (by
          show (m2.filter (capable hubs1)).length < g.hubList.length
          have h1 : (m2.filter (capable hubs1)).length ≤ m2.length := List.length_filter_le _ _
          have h2 : g.hubList.length = m1.length + (m2.length + 1) := by rw [hl]; simp
          omega)
      refine ⟨_, _, w2, Action.hubRequest d (HostRequest.setRemoteWakeup h) true :: L,
        hs, e1, ?_, ?_, e4⟩
      · rw [e2]; simp
      · rw [hfilter]
        simp only [List.filterMap_cons, wakeupSent, List.map_cons]
        rw [e3]
        show (some d, h, true) :: (m2.filter (capable hubs1)).map (wakeupOf hubs1 true) = _
        rw [hcapeq, hofeq]
        show _ = (deviceOf w.hubs h, h, true) :: _
        rw [hd]
    | none =>
      have hs := s2 hfind
      obtain ⟨t1, _⟩ := target_tail E H w.hubs g.hubList (w.suspendedDevice host) host
        w.log.length
      have hp : pendingWakeup
          (({ w with hubs := hubs1,
                     log := w.log ++ (targetOutcome E H w.hubs g.hubList
                       (w.suspendedDevice host) host w.log.length).2 } : World).log.drop
            w.log.length) = none := by
        show pendingWakeup ((w.log ++ _).drop w.log.length) = none
        rw [List.drop_left]
        unfold pendingWakeup
        cases hlast : (targetOutcome E H w.hubs g.hubList (w.suspendedDevice host) host
            w.log.length).2.getLast? with
        | none => rfl
        | some a =>
          have := t1 a (List.mem_of_getLast?_eq_some hlast)
          cases a with
          | hubRequest d r ok =>
            cases r with
            | setRemoteWakeup h => simp [wakeupTarget] at this
            | _ => rfl
          | _ => rfl
      obtain ⟨k, hk⟩ : ∃ k, g.hubList.length = k + 1 := ⟨g.hubList.length - 1, by omega⟩
      refine ⟨_, _, _, _, hs, ?_, rfl, ?_, hp⟩
      · rw [hk]
        simp only [completeAll, hp]
      · rw [target_sent, filter_none (find_none_all hfind)]
        rfl
  · intro h hh
    obtain ⟨hub, d, h1, h2, _⟩ := hr.bound h hh
    exact ⟨d, by unfold deviceOf; rw [h1]; exact h2⟩

/-- Instance of C24: in `wakeWorld` the instances 3 and 1 advertise remote wakeup
and instance 2 does not; the chain hands over the request for instance 3 to
device 7 and then the request for instance 1 to device 5. -/
theorem C24_remote_wakeup_chain_witness :
    ∃ st w1 w2 L, USB_HostHubSuspendDevice envLowPower hostEnvOk wakeWorld (some 1) =
        some (st, w1) ∧
      completeAll envLowPower hostEnvOk 0 3 w1 = some w2 ∧ w2.log = L ∧
      L.filterMap wakeupSent = [(some 7, 3, true), (some 5, 1, true)] := by
  obtain ⟨st, w1, w2, L, h1, h2, h3, h4, _⟩ :=
    (C24_remote_wakeup_chain envLowPower hostEnvOk wakeWorld 1 0 wakeRegistry wakeWorld_ready
      (by decide)).2.2.1 (fun _ => rfl)
  exact ⟨st, w1, w2, L, h1, h2, h3, h4.trans (by decide)⟩

/-- The function `scanBits` returns what the function returns after the exit
that `scanExit` computes. -/
theorem scanBits_exit (E : Env) (self : Nat) :
    ∀ (fuel idx : Nat) (c : HubCtx),
      scanBits E self fuel idx c =
        (scanExit E self fuel idx c).bind (fun r => exitResult E self r.1) := by
  intro fuel
  induction fuel with
  | zero => intro idx c; rfl
  | succ fuel ih =>
    intro idx c
    have hmap : ∀ (j : Nat) (c1 : HubCtx),
        ((scanExit E self fuel j c1).map oneMore).bind (fun r => exitResult E self r.1)
          = scanBits E self fuel j c1 := by
      intro j c1
      rw [ih j c1]
      cases scanExit E self fuel j c1 <;> rfl
    unfold scanBits scanExit
    split
    · split
      · split
        · split
          · simp only []
            split
            · rfl
            · exact (hmap _ _).symm
          · exact (hmap _ _).symm
        · split
          · split
            · rfl
            · rfl
          · exact (hmap _ _).symm
      · exact (hmap _ _).symm
    · rfl

/-- From index `idx` on, with `n` indices left up to `portCount + 1`, the loop
is left after at most `n` iterations, whatever the fuel above `n`. -/
theorem scanExit_bound (E : Env) (self : Nat) (pc : Nat) (h254 : pc ≤ 254) :
    ∀ (n fuel idx : Nat) (c : HubCtx), c.hub.portCount = pc → idx + n = pc + 1 → n < fuel →
      ∃ x k, k ≤ n ∧ scanExit E self fuel idx c = some (x, k) ∧
        scanExit E self (n + 1) idx c = some (x, k) := by
  intro n
  induction n with
  | zero =>
    intro fuel idx c hpc h hf
    obtain ⟨f, rfl⟩ : ∃ f, fuel = f + 1 := ⟨fuel - 1, by omega⟩
    have : ¬ idx ≤ c.hub.portCount := by omega
    exact ⟨ScanExit.returned (USB_HostHubGetInterruptStatus E self c), 0, le_refl _,
      by simp [scanExit, this], by simp [scanExit, this]⟩
  | succ n ih =>
    intro fuel idx c hpc h hf
    obtain ⟨f, rfl⟩ : ∃ f, fuel = f + 1 := ⟨fuel - 1, by omega⟩
    have hle : idx ≤ c.hub.portCount := by omega
    have hmod : (idx + 1) % 256 = idx + 1 := Nat.mod_eq_of_lt (by omega)
    have hrec : ∀ c1 : HubCtx, c1.hub.portCount = pc →
        ∃ x k, k ≤ n + 1 ∧ (scanExit E self f (idx + 1) c1).map oneMore = some (x, k) ∧
          (scanExit E self (n + 1) (idx + 1) c1).map oneMore = some (x, k) := by
      intro c1 h1
      obtain ⟨x, k, hk, e1, e2⟩ := ih f (idx + 1) c1 h1 (by omega) (by omega)
      exact ⟨x, k + 1, by omega, by rw [e1]; rfl, by rw [e2]; rfl⟩
    unfold scanExit
    simp only [hle, if_true, hmod]
    by_cases hb : bitmapBit c.hub idx = true
    · simp only [hb, if_true]
      by_cases h0 : idx = 0
      · simp only [h0, if_true]
        by_cases ha : hubBitAllowed self c = true
        · simp only [ha, if_true]
          by_cases hacc : accepted E self Request.getStatus
              (setHubStatus c kHubRunGetStatusDone) = true
          · simp only [hacc, if_true]
            exact ⟨_, 1, by omega, rfl, rfl⟩
          · simp only [hacc]
            rw [h0] at hrec
            exact hrec _ hpc
        · simp only [ha]
          rw [h0] at hrec
          exact hrec _ hpc
      · simp only [h0, if_false]
        by_cases ha : portBitAllowed self c idx = true
        · simp only [ha, if_true]
          by_cases hct : c.hub.controlTransfer = false
          · simp only [hct, if_true]
            exact ⟨_, 1, by omega, rfl, rfl⟩
          · simp only [hct]
            exact ⟨_, 1, by omega, rfl, rfl⟩
        · simp only [ha]
          exact hrec _ hpc
    · simp only [hb]
      exact hrec _ hpc

/-- With `portCount = 255` and no bit set, the loop is never left: the index
wraps from 255 to 0. -/
theorem scanExit_wraps (E : Env) (self : Nat) (c : HubCtx) (h255 : c.hub.portCount = 255)
    (hz : ∀ j, j < 256 → bitmapBit c.hub j = false) :
    ∀ (fuel idx : Nat), idx < 256 → scanExit E self fuel idx c = none := by
  intro fuel
  induction fuel with
  | zero => intro idx _; rfl
  | succ fuel ih =>
    intro idx hidx
    have hle : idx ≤ c.hub.portCount := by omega
    unfold scanExit
    simp only [hle, if_true, hz idx hidx]
    rw [ih _ (Nat.mod_lt _ (by decide))]
    rfl

/-- C40: for `portCount ≤ 254`, and so for every `portCount` within a cap
`USB_HOST_HUB_MAX_PORT` of at most 254, the scan of the dispatcher leaves its
loop after at most `portCount + 1` iterations for every bitmap: with any fuel
of at least `portCount + 2` the exit and the number of iterations are the
same, and `USB_HostHubProcessData` returns what follows that exit. For
`portCount = 255` and a bitmap without a set bit the 8-bit index wraps and the
loop is never left. -/
theorem C40_scan_terminates (E : Env) (self : Nat) (c : HubCtx) :
    (c.hub.portCount ≤ 254 → ScanTerminates E self c) ∧
    (E.maxPort ≤ 254 → c.hub.portCount ≤ E.maxPort → ScanTerminates E self c) ∧
    (c.hub.portCount ≤ 254 → c.hub.portCount + 2 ≤ E.fuel →
      ∃ x k, k ≤ c.hub.portCount + 1 ∧ scanExit E self E.fuel 0 c = some (x, k) ∧
        USB_HostHubProcessData E self c = exitResult E self x) ∧
    (c.hub.portCount = 255 → (∀ j, j < 256 → bitmapBit c.hub j = false) →
      ∀ fuel, scanExit E self fuel 0 c = none ∧ scanBits E self fuel 0 c = none) := by
  have key : c.hub.portCount ≤ 254 → ScanTerminates E self c := by
    intro h
    obtain ⟨x, k, hk, _, e0⟩ := scanExit_bound E self c.hub.portCount h (c.hub.portCount + 1)
      (c.hub.portCount + 2) 0 c rfl (by omega) (by omega)
    refine ⟨x, k, hk, ?_⟩
    intro fuel hf
    obtain ⟨x1, k1, _, e1, e2⟩ := scanExit_bound E self c.hub.portCount h (c.hub.portCount + 1)
      fuel 0 c rfl (by omega) (by omega)
    have hx : (x1, k1) = (x, k) := Option.some.inj (e2.symm.trans e0)
    rw [hx] at e1
    exact ⟨e1, by rw [scanBits_exit, e1]; rfl⟩
  refine ⟨key, fun h1 h2 => key (by omega), ?_, ?_⟩
  · intro h hf
    obtain ⟨x, k, hk, hall⟩ := key h
    obtain ⟨e1, e2⟩ := hall E.fuel hf
    exact ⟨x, k, hk, e1, e2⟩
  · intro h hz fuel
    have e := scanExit_wraps E self c h hz fuel 0 (by decide)
    exact ⟨e, by rw [scanBits_exit, e]; rfl⟩

/-- Instance of C40: the scan of a four-port hub with the bits 2 and 4 set
leaves its loop within 5 iterations. -/
theorem C40_scan_terminates_witness :
    ∃ x k, k ≤ 5 ∧ scanExit envAccept 7 256 0 (ctxBitmap [0x14]) = some (x, k) ∧
      USB_HostHubProcessData envAccept 7 (ctxBitmap [0x14]) = exitResult envAccept 7 x :=
  (C40_scan_terminates envAccept 7 (ctxBitmap [0x14])).2.2.1 (by decide) (by decide)

end UsbHostHub
